import Mathlib

/-!
# BLE radio energy model

A shallow embedding of `BleRadioEnergyModel` and `BleRadioEnergyModelPhyListener`
(src/ble-radio-energy-model.cc, src/model/ble-radio-energy-model.h).

Conventions of the embedding:

* C++ `double` values and ns-3 `Time` values are exact rationals (`ℚ`, seconds, amperes,
  volts, joules).  Rounding of floating point and the tick resolution of `Time` are not
  modelled.  A quotient whose divisor is zero is not a finite number and has no `Time`
  value: the embedding reports it as `Failure.notFinite` and gives no result.
* Where a property turns on the rounding of `double`, the statements concerned are embedded
  a second time, with every operation rounded to IEEE 754 binary64 (section "Arithmetic of
  `double`", definitions named `Double.…`).
* `NS_FATAL_ERROR` and `NS_ASSERT` abort the run: they are `Except.error` values.
* The discrete-event scheduler is the pair of the current time and the list of pending
  events; `EventId::Cancel` removes the event with that uid, if it is still pending.
* `m_nPendingChangeState` is a `uint8_t`: increments and decrements are taken modulo 256.
* The energy source is an external collaborator.  Its readings are the three numbers of
  `EnergySource`; what its `UpdateEnergySource` does during one refresh (new readings,
  callbacks into the model, each with the refreshes nested in it) is described by a
  finite `Script`.
-/

namespace BleEnergy

/-- Modelled from the spec: the enumeration `BlePhy::State` is declared in ble-phy.h, which
is not among the sources.  The spec gives it as the closed enumeration
`IDLE, RX, RX_BUSY, TX, TX_BUSY, OFF`.  The source passes states as `int`, so there is one
more constructor, for an integer that is the value of none of the six enumerators. -/
inductive State where
  | IDLE
  | RX
  | RX_BUSY
  | TX
  | TX_BUSY
  | OFF
  | undefined (raw : Nat)
  deriving DecidableEq, Repr

/-- The ways in which a call gives no result. -/
inductive Failure where
  /-- `NS_FATAL_ERROR ("Requested maximum remaining time for OFF state")`. -/
  | fatalMaximumTimeOff
  /-- `NS_FATAL_ERROR ("BleRadioEnergyModel: undefined radio state " << state)`. -/
  | fatalUndefinedState
  /-- `NS_FATAL_ERROR ("...Change state callback not set!")`. -/
  | fatalChangeStateCallbackNotSet
  /-- `NS_FATAL_ERROR ("...Update tx current callback not set!")`. -/
  | fatalUpdateTxCurrentCallbackNotSet
  /-- `NS_ASSERT (duration.IsPositive ())`. -/
  | assertDuration
  /-- `NS_ASSERT (m_totalEnergyConsumption <= m_source->GetInitialEnergy ())`. -/
  | assertTotalEnergy
  /-- Dereference of `m_source` while it is null. -/
  | nullSource
  /-- A quotient with divisor zero: not a finite number, no `Time` value. -/
  | notFinite
  deriving DecidableEq, Repr

/-- The readings the model takes from the energy source: `GetRemainingEnergy`,
`GetSupplyVoltage`, `GetInitialEnergy`. -/
structure EnergySource where
  remainingEnergy : ℚ
  supplyVoltage : ℚ
  initialEnergy : ℚ
  deriving DecidableEq, Repr

/-- The two member functions this file hands to `Simulator::Schedule`:
`&BleRadioEnergyModel::ChangeState` with argument `OFF` and
`&BleRadioEnergyModelPhyListener::SwitchToIdle`. -/
inductive EventKind where
  | SwitchToOff
  | SwitchToIdle
  deriving DecidableEq, Repr

/-- A pending event of the scheduler. -/
structure Event where
  uid : Nat
  ts : ℚ
  kind : EventKind
  deriving DecidableEq, Repr

/-- An `EventId`: `none` is the default-constructed id, `some u` names the event `u`. -/
abbrev EventId := Option Nat

/-- The scheduler: `Simulator::Now ()`, the next free uid and the pending events. -/
structure Simulator where
  now : ℚ
  m_uid : Nat
  m_events : List Event
  deriving DecidableEq, Repr

/-- State of `BleRadioEnergyModelPhyListener`.  The two callbacks are only ever bound to
the owning model (its constructor does it), so each is its `IsNull ()` flag, negated. -/
structure BleRadioEnergyModelPhyListener where
  m_changeStateCallback : Bool
  m_updateTxCurrentCallback : Bool
  m_switchToIdleEvent : EventId

/-- State of `BleRadioEnergyModel`.  `m_txCurrentModel` is the attached model's
`CalcTxCurrent`, `none` when no model is attached.  The depletion and recharge callbacks
are their `IsNull ()` flags, negated; what a set callback does is part of the `Script`.
`m_nPendingChangeState` is a `uint8_t`: a natural number below 256. -/
structure BleRadioEnergyModel where
  m_source : Option EnergySource
  m_txCurrentA : ℚ
  m_rxCurrentA : ℚ
  m_idleCurrentA : ℚ
  m_ccaBusyCurrentA : ℚ
  m_switchingCurrentA : ℚ
  m_sleepCurrentA : ℚ
  m_txCurrentModel : Option (ℚ → ℚ)
  m_totalEnergyConsumption : ℚ
  m_currentState : State
  m_lastUpdateTime : ℚ
  m_nPendingChangeState : Nat
  m_energyDepletionCallback : Bool
  m_energyRechargedCallback : Bool
  m_listener : BleRadioEnergyModelPhyListener
  m_switchToOffEvent : EventId

/-- The scheduler together with the one model (and the listener it owns). -/
structure World where
  sim : Simulator
  model : BleRadioEnergyModel

/-- `Simulator::Schedule (delay, ...)`: a new event at `now + delay`; returns its id.  The
scheduler is an external collaborator: checks it may make on the delay are not modelled. -/
def Simulator.Schedule (delay : ℚ) (kind : EventKind) (sim : Simulator) : EventId × Simulator :=
  (some sim.m_uid,
    { sim with m_uid := sim.m_uid + 1,
               m_events := sim.m_events ++ [{ uid := sim.m_uid, ts := sim.now + delay, kind := kind }] })

/-- `EventId::Cancel`: the event named by the id is no longer pending; nothing happens
for a default id or an event that has run or was cancelled already. -/
def Simulator.Cancel (id : EventId) (sim : Simulator) : Simulator :=
  match id with
  | none => sim
  | some u => { sim with m_events := sim.m_events.filter (fun e => e.uid != u) }

/-- `BleRadioEnergyModel::GetStateA`. -/
def GetStateA (state : State) (m : BleRadioEnergyModel) : Except Failure ℚ :=
  match state with
  | State.IDLE => Except.ok m.m_idleCurrentA
  | State.TX => Except.ok m.m_txCurrentA
  | State.RX => Except.ok m.m_rxCurrentA
  | State.TX_BUSY => Except.ok m.m_txCurrentA
  | State.RX_BUSY => Except.ok m.m_rxCurrentA
  | State.OFF => Except.ok 0
  | State.undefined _ => Except.error Failure.fatalUndefinedState

/-- `BleRadioEnergyModel::DoGetCurrentA`. -/
def DoGetCurrentA (m : BleRadioEnergyModel) : Except Failure ℚ :=
  GetStateA m.m_currentState m

/-- `BleRadioEnergyModel::GetMaximumTimeInState`. -/
def GetMaximumTimeInState (state : State) (m : BleRadioEnergyModel) : Except Failure ℚ :=
  if state = State.OFF then Except.error Failure.fatalMaximumTimeOff
  else
    match m.m_source with
    | none => Except.error Failure.nullSource
    | some source =>
      match GetStateA state m with
      | Except.error e => Except.error e
      | Except.ok current =>
        if current * source.supplyVoltage = 0 then Except.error Failure.notFinite
        else Except.ok (source.remainingEnergy / (current * source.supplyVoltage))

/-- `BleRadioEnergyModel::SetBleRadioState` (the log message apart). -/
def SetBleRadioState (state : State) (w : World) : World :=
  { w with model := { w.model with m_currentState := state } }

/-- The statement `m_nPendingChangeState++` on a `uint8_t`. -/
def incPending (w : World) : World :=
  { w with model := { w.model with
      m_nPendingChangeState := (w.model.m_nPendingChangeState + 1) % 256 } }

/-- The statement `m_nPendingChangeState--` on a `uint8_t`. -/
def decPending (w : World) : World :=
  { w with model := { w.model with
      m_nPendingChangeState := (w.model.m_nPendingChangeState + 255) % 256 } }

/-- The two statements `m_switchToOffEvent.Cancel ()` and
`m_switchToOffEvent = Simulator::Schedule (durationToOff, &ChangeState, this, OFF)`. -/
def rescheduleSwitchToOff (durationToOff : ℚ) (w : World) : World :=
  let scheduled := (w.sim.Cancel w.model.m_switchToOffEvent).Schedule durationToOff EventKind.SwitchToOff
  { sim := scheduled.2, model := { w.model with m_switchToOffEvent := scheduled.1 } }

/-- Lines 297-302 of `ChangeState`: for a new state other than `OFF`, cancel the forced-off
event, compute `GetMaximumTimeInState (newState)` and schedule `ChangeState (OFF)`. -/
def ChangeState_timer (newState : State) (w : World) : Except Failure World :=
  if newState ≠ State.OFF then
    match GetMaximumTimeInState newState w.model with
    | Except.error e => Except.error e
    | Except.ok durationToOff => Except.ok (rescheduleSwitchToOff durationToOff w)
  else Except.ok w

/-- The two assignments `m_totalEnergyConsumption += energyToDecrease` and
`m_lastUpdateTime = Simulator::Now ()`. -/
def ChangeState_accounted (energyToDecrease : ℚ) (w : World) : World :=
  { w with model := { w.model with
      m_totalEnergyConsumption := w.model.m_totalEnergyConsumption + energyToDecrease,
      m_lastUpdateTime := w.sim.now } }

/-- Lines 304-315 of `ChangeState`: the elapsed interval is charged at the current of
`m_currentState`, the total is checked against the initial energy and the time stamp is
set to now. -/
def ChangeState_account (w : World) : Except Failure World :=
  let duration := w.sim.now - w.model.m_lastUpdateTime
  if ¬ (0 ≤ duration) then Except.error Failure.assertDuration
  else
    match w.model.m_source with
    | none => Except.error Failure.nullSource
    | some source =>
      match GetStateA w.model.m_currentState w.model with
      | Except.error e => Except.error e
      | Except.ok current =>
        let energyToDecrease := duration * current * source.supplyVoltage
        if ¬ (w.model.m_totalEnergyConsumption + energyToDecrease ≤ source.initialEnergy) then
          Except.error Failure.assertTotalEnergy
        else Except.ok (ChangeState_accounted energyToDecrease w)

/-- Lines 327-335 of `ChangeState`: the new state is stored only by the outermost call
and only when the state is not `OFF`. -/
def ChangeState_commit (newState : State) (w : World) : World :=
  if w.model.m_nPendingChangeState ≤ 1 ∧ w.model.m_currentState ≠ State.OFF then
    SetBleRadioState newState w
  else w

/-- `BleRadioEnergyModel::ChangeState`.  The argument `UpdateEnergySource` is what the call
`m_source->UpdateEnergySource ()` does to the world, callbacks included. -/
def ChangeState (UpdateEnergySource : World → Except Failure World) (newState : State)
    (w : World) : Except Failure World :=
  let w1 := incPending w
  if w1.model.m_nPendingChangeState > 1 ∧ newState = State.OFF then
    Except.ok (decPending (SetBleRadioState newState w1))
  else
    match ChangeState_timer newState w1 with
    | Except.error e => Except.error e
    | Except.ok w2 =>
      match ChangeState_account w2 with
      | Except.error e => Except.error e
      | Except.ok w3 =>
        match UpdateEnergySource w3 with
        | Except.error e => Except.error e
        | Except.ok w4 => Except.ok (decPending (ChangeState_commit newState w4))

/-- `BleRadioEnergyModel::HandleEnergyChanged`. -/
def HandleEnergyChanged (w : World) : Except Failure World :=
  if w.model.m_currentState ≠ State.OFF then
    match GetMaximumTimeInState w.model.m_currentState w.model with
    | Except.error e => Except.error e
    | Except.ok durationToOff => Except.ok (rescheduleSwitchToOff durationToOff w)
  else Except.ok w

/-- `BleRadioEnergyModel::HandleEnergyDepletion`; `callback` is what the registered
callback does when it is invoked. -/
def HandleEnergyDepletion (callback : World → Except Failure World) (w : World) :
    Except Failure World :=
  if w.model.m_energyDepletionCallback then callback w else Except.ok w

/-- `BleRadioEnergyModel::HandleEnergyRecharged`; `callback` is what the registered
callback does when it is invoked. -/
def HandleEnergyRecharged (callback : World → Except Failure World) (w : World) :
    Except Failure World :=
  if w.model.m_energyRechargedCallback then callback w else Except.ok w

/-- `BleRadioEnergyModel::SetTxCurrentFromModel`. -/
def SetTxCurrentFromModel (txPowerDbm : ℚ) (w : World) : World :=
  match w.model.m_txCurrentModel with
  | some CalcTxCurrent => { w with model := { w.model with m_txCurrentA := CalcTxCurrent txPowerDbm } }
  | none => w

/-- `BleRadioEnergyModel::SetEnergySource`. -/
def SetEnergySource (source : EnergySource) (w : World) : Except Failure World :=
  let w1 : World := { w with model := { w.model with m_source := some source } }
  match GetMaximumTimeInState w1.model.m_currentState w1.model with
  | Except.error e => Except.error e
  | Except.ok durationToOff => Except.ok (rescheduleSwitchToOff durationToOff w1)

/-- `BleRadioEnergyModel::GetTotalEnergyConsumption`: the returned value and the world
left by the call to `m_source->UpdateEnergySource ()`. -/
def GetTotalEnergyConsumption (UpdateEnergySource : World → Except Failure World) (w : World) :
    Except Failure (ℚ × World) :=
  let duration := w.sim.now - w.model.m_lastUpdateTime
  if ¬ (0 ≤ duration) then Except.error Failure.assertDuration
  else
    match w.model.m_source with
    | none => Except.error Failure.nullSource
    | some source =>
      match GetStateA w.model.m_currentState w.model with
      | Except.error e => Except.error e
      | Except.ok current =>
        let energyToDecrease := duration * current * source.supplyVoltage
        match UpdateEnergySource w with
        | Except.error e => Except.error e
        | Except.ok w1 => Except.ok (w1.model.m_totalEnergyConsumption + energyToDecrease, w1)

/-- The statement `m_switchToIdleEvent.Cancel ()` of the listener. -/
def cancelSwitchToIdle (w : World) : World :=
  { w with sim := w.sim.Cancel w.model.m_listener.m_switchToIdleEvent }

/-- The two statements `m_switchToIdleEvent.Cancel ()` and
`m_switchToIdleEvent = Simulator::Schedule (duration, &SwitchToIdle, this)`. -/
def rescheduleSwitchToIdle (duration : ℚ) (w : World) : World :=
  let scheduled := (w.sim.Cancel w.model.m_listener.m_switchToIdleEvent).Schedule duration EventKind.SwitchToIdle
  { sim := scheduled.2,
    model := { w.model with m_listener := { w.model.m_listener with m_switchToIdleEvent := scheduled.1 } } }

/-- `BleRadioEnergyModelPhyListener::NotifyRxStart`. -/
def NotifyRxStart (UpdateEnergySource : World → Except Failure World) (_duration : ℚ) (w : World) :
    Except Failure World :=
  if ¬ w.model.m_listener.m_changeStateCallback then Except.error Failure.fatalChangeStateCallbackNotSet
  else
    match ChangeState UpdateEnergySource State.RX w with
    | Except.error e => Except.error e
    | Except.ok w1 => Except.ok (cancelSwitchToIdle w1)

/-- `BleRadioEnergyModelPhyListener::NotifyRxEndOk`. -/
def NotifyRxEndOk (UpdateEnergySource : World → Except Failure World) (w : World) :
    Except Failure World :=
  if ¬ w.model.m_listener.m_changeStateCallback then Except.error Failure.fatalChangeStateCallbackNotSet
  else ChangeState UpdateEnergySource State.IDLE w

/-- `BleRadioEnergyModelPhyListener::NotifyRxEndError`. -/
def NotifyRxEndError (UpdateEnergySource : World → Except Failure World) (w : World) :
    Except Failure World :=
  if ¬ w.model.m_listener.m_changeStateCallback then Except.error Failure.fatalChangeStateCallbackNotSet
  else ChangeState UpdateEnergySource State.IDLE w

/-- `BleRadioEnergyModelPhyListener::NotifyTxStart`. -/
def NotifyTxStart (UpdateEnergySource : World → Except Failure World) (duration txPowerDbm : ℚ)
    (w : World) : Except Failure World :=
  if ¬ w.model.m_listener.m_updateTxCurrentCallback then
    Except.error Failure.fatalUpdateTxCurrentCallbackNotSet
  else
    let w1 := SetTxCurrentFromModel txPowerDbm w
    if ¬ w1.model.m_listener.m_changeStateCallback then
      Except.error Failure.fatalChangeStateCallbackNotSet
    else
      match ChangeState UpdateEnergySource State.TX w1 with
      | Except.error e => Except.error e
      | Except.ok w2 => Except.ok (rescheduleSwitchToIdle duration w2)

/-- `BleRadioEnergyModelPhyListener::NotifyMaybeCcaBusyStart`. -/
def NotifyMaybeCcaBusyStart (duration : ℚ) (w : World) : Except Failure World :=
  if ¬ w.model.m_listener.m_changeStateCallback then Except.error Failure.fatalChangeStateCallbackNotSet
  else Except.ok (rescheduleSwitchToIdle duration w)

/-- `BleRadioEnergyModelPhyListener::NotifySwitchingStart`. -/
def NotifySwitchingStart (duration : ℚ) (w : World) : Except Failure World :=
  if ¬ w.model.m_listener.m_changeStateCallback then Except.error Failure.fatalChangeStateCallbackNotSet
  else Except.ok (rescheduleSwitchToIdle duration w)

/-- `BleRadioEnergyModelPhyListener::NotifySleep`. -/
def NotifySleep (w : World) : Except Failure World :=
  if ¬ w.model.m_listener.m_changeStateCallback then Except.error Failure.fatalChangeStateCallbackNotSet
  else Except.ok (cancelSwitchToIdle w)

/-- `BleRadioEnergyModelPhyListener::NotifyWakeup`. -/
def NotifyWakeup (UpdateEnergySource : World → Except Failure World) (w : World) :
    Except Failure World :=
  if ¬ w.model.m_listener.m_changeStateCallback then Except.error Failure.fatalChangeStateCallbackNotSet
  else ChangeState UpdateEnergySource State.IDLE w

/-- `BleRadioEnergyModelPhyListener::NotifyOff`. -/
def NotifyOff (UpdateEnergySource : World → Except Failure World) (w : World) :
    Except Failure World :=
  if ¬ w.model.m_listener.m_changeStateCallback then Except.error Failure.fatalChangeStateCallbackNotSet
  else
    match ChangeState UpdateEnergySource State.OFF w with
    | Except.error e => Except.error e
    | Except.ok w1 => Except.ok (cancelSwitchToIdle w1)

/-- `BleRadioEnergyModelPhyListener::NotifyOn`. -/
def NotifyOn (UpdateEnergySource : World → Except Failure World) (w : World) :
    Except Failure World :=
  if ¬ w.model.m_listener.m_changeStateCallback then Except.error Failure.fatalChangeStateCallbackNotSet
  else ChangeState UpdateEnergySource State.IDLE w

/-- `BleRadioEnergyModelPhyListener::SwitchToIdle`, the handler of the revert-to-idle
event. -/
def SwitchToIdle (UpdateEnergySource : World → Except Failure World) (w : World) :
    Except Failure World :=
  if ¬ w.model.m_listener.m_changeStateCallback then Except.error Failure.fatalChangeStateCallbackNotSet
  else ChangeState UpdateEnergySource State.IDLE w

/-- The notifications of the `BlePhyListener` interface, with their arguments. -/
inductive Notification where
  | RxStart (duration : ℚ)
  | RxEndOk
  | RxEndError
  | TxStart (duration txPowerDbm : ℚ)
  | MaybeCcaBusyStart (duration : ℚ)
  | SwitchingStart (duration : ℚ)
  | Sleep
  | Wakeup
  | Off
  | On
  deriving DecidableEq, Repr

/-- Delivery of one notification to the listener. -/
def Notify (UpdateEnergySource : World → Except Failure World) (n : Notification) (w : World) :
    Except Failure World :=
  match n with
  | Notification.RxStart duration => NotifyRxStart UpdateEnergySource duration w
  | Notification.RxEndOk => NotifyRxEndOk UpdateEnergySource w
  | Notification.RxEndError => NotifyRxEndError UpdateEnergySource w
  | Notification.TxStart duration txPowerDbm => NotifyTxStart UpdateEnergySource duration txPowerDbm w
  | Notification.MaybeCcaBusyStart duration => NotifyMaybeCcaBusyStart duration w
  | Notification.SwitchingStart duration => NotifySwitchingStart duration w
  | Notification.Sleep => NotifySleep w
  | Notification.Wakeup => NotifyWakeup UpdateEnergySource w
  | Notification.Off => NotifyOff UpdateEnergySource w
  | Notification.On => NotifyOn UpdateEnergySource w

/-- What happens at one instant, as a finite tree of calls made on the model and its
listener, in order.  It describes a run of `EnergySource::UpdateEnergySource` (the readings
the source moves to and the callbacks it makes), the body of a depletion or recharge
callback, and a series of calls made from outside at the same simulated time.  A call that
refreshes the source carries, as `inner`, the script of that nested refresh. -/
inductive Script where
  /-- Nothing more happens. -/
  | done
  /-- The source now reports these readings. -/
  | readings (source : EnergySource) (rest : Script)
  | ChangeState (newState : State) (inner rest : Script)
  | HandleEnergyChanged (rest : Script)
  | HandleEnergyDepletion (callback rest : Script)
  | HandleEnergyRecharged (callback rest : Script)
  | SetTxCurrentFromModel (txPowerDbm : ℚ) (rest : Script)
  | GetTotalEnergyConsumption (inner rest : Script)
  | Notify (n : Notification) (inner rest : Script)

/-- The source reports new readings (seen by the model through `m_source`, when set). -/
def setReadings (source : EnergySource) (w : World) : World :=
  match w.model.m_source with
  | none => w
  | some _ => { w with model := { w.model with m_source := some source } }

/-- Execution of a script. -/
def Script.run : Script → World → Except Failure World
  | Script.done, w => Except.ok w
  | Script.readings source rest, w => rest.run (setReadings source w)
  | Script.ChangeState newState inner rest, w =>
    match BleEnergy.ChangeState inner.run newState w with
    | Except.error e => Except.error e
    | Except.ok w1 => rest.run w1
  | Script.HandleEnergyChanged rest, w =>
    match BleEnergy.HandleEnergyChanged w with
    | Except.error e => Except.error e
    | Except.ok w1 => rest.run w1
  | Script.HandleEnergyDepletion callback rest, w =>
    match BleEnergy.HandleEnergyDepletion callback.run w with
    | Except.error e => Except.error e
    | Except.ok w1 => rest.run w1
  | Script.HandleEnergyRecharged callback rest, w =>
    match BleEnergy.HandleEnergyRecharged callback.run w with
    | Except.error e => Except.error e
    | Except.ok w1 => rest.run w1
  | Script.SetTxCurrentFromModel txPowerDbm rest, w =>
    rest.run (BleEnergy.SetTxCurrentFromModel txPowerDbm w)
  | Script.GetTotalEnergyConsumption inner rest, w =>
    match BleEnergy.GetTotalEnergyConsumption inner.run w with
    | Except.error e => Except.error e
    | Except.ok r => rest.run r.2
  | Script.Notify n inner rest, w =>
    match BleEnergy.Notify inner.run n w with
    | Except.error e => Except.error e
    | Except.ok w1 => rest.run w1

/-- The attributes registered by `BleRadioEnergyModel::GetTypeId`. -/
structure Attributes where
  IdleCurrentA : ℚ
  CcaBusyCurrentA : ℚ
  TxCurrentA : ℚ
  RxCurrentA : ℚ
  SwitchingCurrentA : ℚ
  SleepCurrentA : ℚ
  TxCurrentModel : Option (ℚ → ℚ)

/-- The default values given in `BleRadioEnergyModel::GetTypeId`. -/
def Attributes.default : Attributes :=
  { IdleCurrentA := 1 / 1000000,
    CcaBusyCurrentA := 1 / 1000000,
    TxCurrentA := 15 / 1000,
    RxCurrentA := 15 / 1000,
    SwitchingCurrentA := 1 / 1000000,
    SleepCurrentA := 1 / 1000000,
    TxCurrentModel := none }

set_option linter.dupNamespace false in
/-- The constructor `BleRadioEnergyModel::BleRadioEnergyModel`, followed by the assignment
of the attributes that the object factory makes. -/
def BleRadioEnergyModel.BleRadioEnergyModel (a : Attributes) : BleRadioEnergyModel :=
  { m_source := none,
    m_txCurrentA := a.TxCurrentA,
    m_rxCurrentA := a.RxCurrentA,
    m_idleCurrentA := a.IdleCurrentA,
    m_ccaBusyCurrentA := a.CcaBusyCurrentA,
    m_switchingCurrentA := a.SwitchingCurrentA,
    m_sleepCurrentA := a.SleepCurrentA,
    m_txCurrentModel := a.TxCurrentModel,
    m_totalEnergyConsumption := 0,
    m_currentState := State.IDLE,
    m_lastUpdateTime := 0,
    m_nPendingChangeState := 0,
    m_energyDepletionCallback := false,
    m_energyRechargedCallback := false,
    m_listener :=
      { m_changeStateCallback := true,
        m_updateTxCurrentCallback := true,
        m_switchToIdleEvent := none },
    m_switchToOffEvent := none }

/-- The world at the start of a simulation: time 0, no pending event, a new model. -/
def World.initial (a : Attributes) : World :=
  { sim := { now := 0, m_uid := 0, m_events := [] },
    model := BleRadioEnergyModel.BleRadioEnergyModel a }

/-- The scheduler moves its clock to `t`. -/
def atTime (t : ℚ) (w : World) : World :=
  { w with sim := { w.sim with now := t } }

/-- The scheduler runs the pending event `uid`: the clock moves to its time stamp, the
event leaves the pending list and its handler runs; `inner` is the refresh of the source
made by the handler.  Nothing happens when no such event is pending. -/
def fire (inner : Script) (uid : Nat) (w : World) : Except Failure World :=
  match w.sim.m_events.find? (fun e => e.uid == uid) with
  | none => Except.ok w
  | some e =>
    let w1 : World := { w with sim := { w.sim with now := e.ts, m_events := w.sim.m_events.erase e } }
    match e.kind with
    | EventKind.SwitchToOff => ChangeState inner.run State.OFF w1
    | EventKind.SwitchToIdle => SwitchToIdle inner.run w1

/-- What the rest of the simulation does to the model, one step at a time.  The scheduler
is not held to run events in time order here, so the runs of a real scheduler are among
the runs of this model. -/
inductive Op where
  /-- `BleRadioEnergyModel::SetEnergySource`. -/
  | SetEnergySource (source : EnergySource)
  /-- Calls made on the model and its listener at the present time. -/
  | calls (s : Script)
  /-- The clock moves to `t`. -/
  | advance (t : ℚ)
  /-- The pending event `uid` runs. -/
  | fire (inner : Script) (uid : Nat)

/-- Execution of one step. -/
def Op.run : Op → World → Except Failure World
  | Op.SetEnergySource source, w => BleEnergy.SetEnergySource source w
  | Op.calls s, w => s.run w
  | Op.advance t, w => Except.ok (atTime t w)
  | Op.fire inner uid, w => BleEnergy.fire inner uid w

/-- Execution of a series of steps. -/
def runOps : List Op → World → Except Failure World
  | [], w => Except.ok w
  | op :: ops, w =>
    match op.run w with
    | Except.error e => Except.error e
    | Except.ok w1 => runOps ops w1

/-- The script makes no call on the model: the source only moves to new readings. -/
def Script.noCallback : Script → Bool
  | Script.done => true
  | Script.readings _ rest => rest.noCallback
  | _ => false

/-- Every reading the script itself reports has supply voltage `V`. -/
def Script.keepsVoltage (V : ℚ) : Script → Bool
  | Script.done => true
  | Script.readings source rest => decide (source.supplyVoltage = V) && rest.keepsVoltage V
  | _ => true

/-- The script itself (not a refresh nested in it) makes a call `ChangeState (OFF)`,
directly or through the notification `Off` of the listener. -/
def Script.callsChangeStateOff : Script → Bool
  | Script.done => false
  | Script.readings _ rest => rest.callsChangeStateOff
  | Script.ChangeState newState _ rest => decide (newState = State.OFF) || rest.callsChangeStateOff
  | Script.HandleEnergyChanged rest => rest.callsChangeStateOff
  | Script.HandleEnergyDepletion _ rest => rest.callsChangeStateOff
  | Script.HandleEnergyRecharged _ rest => rest.callsChangeStateOff
  | Script.SetTxCurrentFromModel _ rest => rest.callsChangeStateOff
  | Script.GetTotalEnergyConsumption _ rest => rest.callsChangeStateOff
  | Script.Notify n _ rest => decide (n = Notification.Off) || rest.callsChangeStateOff

/-- The script (a refresh of the source) invokes `HandleEnergyDepletion`, and the body of
the depletion callback calls `ChangeState (OFF)`. -/
def Script.depletionCallsOff : Script → Bool
  | Script.done => false
  | Script.readings _ rest => rest.depletionCallsOff
  | Script.ChangeState _ _ rest => rest.depletionCallsOff
  | Script.HandleEnergyChanged rest => rest.depletionCallsOff
  | Script.HandleEnergyDepletion callback rest => callback.callsChangeStateOff || rest.depletionCallsOff
  | Script.HandleEnergyRecharged _ rest => rest.depletionCallsOff
  | Script.SetTxCurrentFromModel _ rest => rest.depletionCallsOff
  | Script.GetTotalEnergyConsumption _ rest => rest.depletionCallsOff
  | Script.Notify _ _ rest => rest.depletionCallsOff

/-- The model with another value of `m_source`. -/
def withSource (source : Option EnergySource) (w : World) : World :=
  { w with model := { w.model with m_source := source } }

/-- A top-level request: at time `t` something calls `ChangeState (newState)`, and the
source refresh made by that call behaves as `refresh`. -/
structure Request where
  t : ℚ
  newState : State
  refresh : Script

/-- Execution of one request. -/
def Request.run (r : Request) (w : World) : Except Failure World :=
  ChangeState r.refresh.run r.newState (atTime r.t w)

/-- Execution of a series of requests. -/
def runRequests : List Request → World → Except Failure World
  | [], w => Except.ok w
  | r :: rs, w =>
    match r.run w with
    | Except.error e => Except.error e
    | Except.ok w1 => runRequests rs w1

/-- The current of a state as a plain number (0 where `GetStateA` fails). -/
def stateCurrent (m : BleRadioEnergyModel) (state : State) : ℚ :=
  match GetStateA state m with
  | Except.ok current => current
  | Except.error _ => 0

/-- Specification side of the energy sum: the state held after a top-level request for
`requested` made while `held` was held (`OFF` is kept, any other state is replaced). -/
def committedState (held requested : State) : State :=
  if held = State.OFF then State.OFF else requested

/-- Specification side of the energy sum, written from the words of the specification and
not from the code: the sum, over the intervals between consecutive requests, of interval
length times the current of the state held during the interval times the voltage.
`tPrev` is the time of the previous request (or the start) and `held` the state held
since then. -/
def intervalEnergy (current : State → ℚ) (V : ℚ) : ℚ → State → List (ℚ × State) → ℚ
  | _, _, [] => 0
  | tPrev, held, (t, requested) :: rest =>
    (t - tPrev) * current held * V + intervalEnergy current V t (committedState held requested) rest

/-- The forced-off events among the pending events. -/
def pendingSwitchToOff (w : World) : List Event :=
  w.sim.m_events.filter (fun e => e.kind == EventKind.SwitchToOff)

/-- A source with 1 J left of 1 J, at 3 V. -/
def exampleSource : EnergySource :=
  { remainingEnergy := 1, supplyVoltage := 3, initialEnergy := 1 }

/-- A model with the default attributes, attached to `exampleSource`, in state `IDLE`
since time 0, at time 10 s, with both callbacks of the source set. -/
def exampleWorld : World :=
  { sim := { now := 10, m_uid := 0, m_events := [] },
    model := { BleRadioEnergyModel.BleRadioEnergyModel Attributes.default with
      m_source := some exampleSource,
      m_energyDepletionCallback := true,
      m_energyRechargedCallback := true } }

/-- The world `exampleWorld` with 255 calls of `ChangeState` pending. -/
def deepWorld : World :=
  { exampleWorld with model := { exampleWorld.model with m_nPendingChangeState := 255 } }

/-- The world `exampleWorld` with one call of `ChangeState` pending. -/
def nestedWorld : World :=
  { exampleWorld with model := { exampleWorld.model with m_nPendingChangeState := 1 } }

/-- Two requests without callbacks: `TX` at 10 s, then `IDLE` at 12 s. -/
def exampleRequests : List Request :=
  [{ t := 10, newState := State.TX, refresh := Script.done },
   { t := 12, newState := State.IDLE, refresh := Script.done }]

/-- The world `exampleWorld` with the model in state `OFF`. -/
def offWorld : World :=
  { exampleWorld with model := { exampleWorld.model with m_currentState := State.OFF } }

/-- Steps tried on a model that is `OFF`: the notifications `On` and `Wakeup`, a request
for `TX`, `HandleEnergyChanged`, an update of the tx current, and the firing of the
forced-off event scheduled by the first of them. -/
def offOps : List Op :=
  [Op.calls (Script.Notify Notification.On Script.done
     (Script.Notify Notification.Wakeup Script.done
       (Script.ChangeState State.TX Script.done
         (Script.HandleEnergyChanged (Script.SetTxCurrentFromModel 0 Script.done))))),
   Op.advance 20,
   Op.fire Script.done 2]

/-- Steps from construction: attach the source, wait, transmit, fire the forced-off event. -/
def lifeOps : List Op :=
  [Op.SetEnergySource exampleSource,
   Op.advance 10,
   Op.calls (Script.Notify (Notification.TxStart 2 0) Script.done Script.done),
   Op.advance 12,
   Op.fire Script.done 2]

/-- The five states other than `OFF` of the enumeration. -/
def State.isOn : State → Bool
  | State.IDLE => true
  | State.RX => true
  | State.RX_BUSY => true
  | State.TX => true
  | State.TX_BUSY => true
  | State.OFF => false
  | State.undefined _ => false

/-- The forced-off event that a call made in world `w` schedules for a state whose current
is `current`, with the readings `source`: uid the next free one, due at
`now + remainingEnergy / (current * supplyVoltage)`. -/
def forcedOffEvent (w : World) (source : EnergySource) (current : ℚ) : Event :=
  { uid := w.sim.m_uid,
    ts := w.sim.now + source.remainingEnergy / (current * source.supplyVoltage),
    kind := EventKind.SwitchToOff }

/-- A refresh of the source in which the depletion callback calls `ChangeState (OFF)`. -/
def depletionScript : Script :=
  Script.HandleEnergyDepletion (Script.ChangeState State.OFF Script.done Script.done) Script.done

/-- What no call on the model or its listener changes: the callback flags, the attached
tx-current model, the currents other than the tx current, and whether a source is
attached. -/
structure Frame0 (w w1 : World) : Prop where
  depletion : w1.model.m_energyDepletionCallback = w.model.m_energyDepletionCallback
  recharged : w1.model.m_energyRechargedCallback = w.model.m_energyRechargedCallback
  changeState : w1.model.m_listener.m_changeStateCallback = w.model.m_listener.m_changeStateCallback
  updateTx : w1.model.m_listener.m_updateTxCurrentCallback = w.model.m_listener.m_updateTxCurrentCallback
  txModel : w1.model.m_txCurrentModel = w.model.m_txCurrentModel
  rx : w1.model.m_rxCurrentA = w.model.m_rxCurrentA
  idle : w1.model.m_idleCurrentA = w.model.m_idleCurrentA
  attached : w1.model.m_source.isSome = w.model.m_source.isSome

/-- What no completed call changes: the fields of `Frame0` and, for a counter in the range
of `uint8_t`, the counter of pending calls. -/
structure Frame (w w1 : World) extends Frame0 w w1 : Prop where
  pending : w.model.m_nPendingChangeState < 256 →
    w1.model.m_nPendingChangeState = w.model.m_nPendingChangeState

/-- Well-formedness of the timers: pending events have distinct uids below the next free
uid, every pending forced-off event is the one named by `m_switchToOffEvent` and every
pending revert-to-idle event is the one named by `m_switchToIdleEvent`. -/
structure TimerInv (w : World) : Prop where
  nodup : (w.sim.m_events.map Event.uid).Nodup
  fresh : ∀ e ∈ w.sim.m_events, e.uid < w.sim.m_uid
  off : ∀ e ∈ w.sim.m_events, e.kind = EventKind.SwitchToOff → w.model.m_switchToOffEvent = some e.uid
  idle : ∀ e ∈ w.sim.m_events, e.kind = EventKind.SwitchToIdle →
    w.model.m_listener.m_switchToIdleEvent = some e.uid

/-- The facts about a relation `R` between the world before and the world after that make
it hold across every call: it is a preorder, each primitive step keeps it, and
`ChangeState` keeps it as soon as the refresh of the source does. -/
structure Kept (R : World → World → Prop) : Prop where
  refl : ∀ w, R w w
  trans : ∀ a b c, R a b → R b c → R a c
  readings : ∀ source w, R w (setReadings source w)
  changeState : ∀ (U : World → Except Failure World) s w w1,
    (∀ a b, U a = Except.ok b → R a b) → ChangeState U s w = Except.ok w1 → R w w1
  energyChanged : ∀ w w1, HandleEnergyChanged w = Except.ok w1 → R w w1
  setTx : ∀ p w, R w (SetTxCurrentFromModel p w)
  cancelIdle : ∀ w, R w (cancelSwitchToIdle w)
  rescheduleIdle : ∀ d w, R w (rescheduleSwitchToIdle d w)

/-- The revert-to-idle events among the pending events. -/
def pendingSwitchToIdle (w : World) : List Event :=
  w.sim.m_events.filter (fun e => e.kind == EventKind.SwitchToIdle)

/-- A source with no energy left, at 3 V. -/
def emptySource : EnergySource :=
  { remainingEnergy := 0, supplyVoltage := 3, initialEnergy := 1 }

/-- A model configured with idle current 0 A, attached to `emptySource`. -/
def zeroIdleModel : BleRadioEnergyModel :=
  { exampleWorld.model with m_idleCurrentA := 0, m_source := some emptySource }

/-- The model of `exampleWorld` attached to `emptySource`. -/
def emptyModel : BleRadioEnergyModel :=
  { exampleWorld.model with m_source := some emptySource }

/-- Some tx-current model: 1 mA per dBm above the idle current of 1 uA. -/
def exampleCalcTxCurrent (txPowerDbm : ℚ) : ℚ :=
  txPowerDbm / 1000 + 1 / 1000000

/-- The world `exampleWorld` with the tx-current model `exampleCalcTxCurrent` attached. -/
def txModelWorld : World :=
  { exampleWorld with model := { exampleWorld.model with
      m_txCurrentModel := some exampleCalcTxCurrent } }

/-- The script makes no state-change request, no call of `HandleEnergyChanged` and no
notification to the listener, neither itself nor in a callback or a nested refresh.  It may
report readings, invoke the depletion and recharge callbacks, update the tx current and
read the total energy. -/
def Script.passive : Script → Bool
  | Script.done => true
  | Script.readings _ rest => rest.passive
  | Script.ChangeState _ _ _ => false
  | Script.HandleEnergyChanged _ => false
  | Script.HandleEnergyDepletion callback rest => callback.passive && rest.passive
  | Script.HandleEnergyRecharged callback rest => callback.passive && rest.passive
  | Script.SetTxCurrentFromModel _ rest => rest.passive
  | Script.GetTotalEnergyConsumption inner rest => inner.passive && rest.passive
  | Script.Notify _ _ _ => false

/-- A refresh of the source that invokes both callbacks, whose bodies call nothing. -/
def passiveScript : Script :=
  Script.HandleEnergyDepletion Script.done (Script.HandleEnergyRecharged Script.done Script.done)

/-- The stored state named by the specification of `GetTotalEnergyConsumption`: the state,
the time stamp, the stored total and the forced-off timer (its id and the scheduler). -/
structure SameStored (w w1 : World) : Prop where
  state : w1.model.m_currentState = w.model.m_currentState
  last : w1.model.m_lastUpdateTime = w.model.m_lastUpdateTime
  total : w1.model.m_totalEnergyConsumption = w.model.m_totalEnergyConsumption
  offEvent : w1.model.m_switchToOffEvent = w.model.m_switchToOffEvent
  sim : w1.sim = w.sim

/-- The world `exampleWorld` with a revert-to-idle event armed for 12 s. -/
def armedWorld : World :=
  { sim := { now := 10, m_uid := 1,
             m_events := [{ uid := 0, ts := 12, kind := EventKind.SwitchToIdle }] },
    model := { exampleWorld.model with
      m_listener := { exampleWorld.model.m_listener with m_switchToIdleEvent := some 0 } } }

/-- The world `exampleWorld` with the clock (10 s) behind the time stamp (20 s). -/
def lateWorld : World :=
  { exampleWorld with model := { exampleWorld.model with m_lastUpdateTime := 20 } }

/-- The world `exampleWorld` with the clock at the time stamp (10 s). -/
def sameTimeWorld : World :=
  { exampleWorld with model := { exampleWorld.model with m_lastUpdateTime := 10 } }

/-- The world `exampleWorld` in state `TX` with a stored total of 1 J, the whole initial
energy of the source. -/
def spentWorld : World :=
  { exampleWorld with model := { exampleWorld.model with
      m_currentState := State.TX, m_totalEnergyConsumption := 1 } }

/-- The world `exampleWorld` with the change-state callback of the listener unset. -/
def unsetWorld : World :=
  { exampleWorld with model := { exampleWorld.model with
      m_listener := { exampleWorld.model.m_listener with m_changeStateCallback := false } } }

/-- The ids held by the model and by the listener name events already scheduled, and never
the same one: an id is below the next free uid, and `m_switchToOffEvent` and
`m_switchToIdleEvent` differ when set. -/
structure IdsApart (w : World) : Prop where
  offBound : ∀ u, w.model.m_switchToOffEvent = some u → u < w.sim.m_uid
  idleBound : ∀ u, w.model.m_listener.m_switchToIdleEvent = some u → u < w.sim.m_uid
  apart : ∀ u, w.model.m_switchToOffEvent = some u →
    w.model.m_listener.m_switchToIdleEvent ≠ some u

/-- The currents of the three states that draw current and the supply voltage of the
attached source are not negative. -/
structure NonNeg (m : BleRadioEnergyModel) : Prop where
  idle : 0 ≤ m.m_idleCurrentA
  rx : 0 ≤ m.m_rxCurrentA
  tx : 0 ≤ m.m_txCurrentA
  voltage : ∀ source, m.m_source = some source → 0 ≤ source.supplyVoltage

/-- The class `LinearBleTxCurrentModel`: efficiency of the power amplifier, supply voltage
and idle current.  The numbers are taken in a field `K`, so that the definitions can be
run on rationals and read on reals. -/
structure LinearBleTxCurrentModel (K : Type) where
  m_eta : K
  m_voltage : K
  m_idleCurrent : K

/-- The default values given in `LinearBleTxCurrentModel::GetTypeId`: `Eta` 0.10,
`Voltage` 3.0, `IdleCurrent` 1e-6. -/
def LinearBleTxCurrentModel.default (K : Type) [Field K] : LinearBleTxCurrentModel K :=
  { m_eta := 1 / 10, m_voltage := 3, m_idleCurrent := 1 / 1000000 }

/-- The function `DbmToW`: `std::pow (10.0, 0.1 * (dBm - 30.0))`.  The library function
`std::pow` is the argument `pow`. -/
def DbmToW {K : Type} [Field K] (pow : K → K → K) (dBm : K) : K :=
  pow 10 (1 / 10 * (dBm - 30))

/-- `LinearBleTxCurrentModel::CalcTxCurrent`.  A division by zero gives no number. -/
def LinearBleTxCurrentModel.CalcTxCurrent {K : Type} [Field K] [DecidableEq K]
    (pow : K → K → K) (m : LinearBleTxCurrentModel K) (txPowerDbm : K) : Except Failure K :=
  if m.m_voltage * m.m_eta = 0 then Except.error Failure.notFinite
  else Except.ok (DbmToW pow txPowerDbm / (m.m_voltage * m.m_eta) + m.m_idleCurrent)

/-- The world `txModelWorld` with the model in state `TX` (since time 0, tx current
0.015 A). -/
def txHeldWorld : World :=
  { txModelWorld with model := { txModelWorld.model with m_currentState := State.TX } }

/-- `BleRadioEnergyModel::GetPhyListener`. -/
def GetPhyListener (m : BleRadioEnergyModel) : BleRadioEnergyModelPhyListener :=
  m.m_listener

/-- The two fatal errors of the listener for a callback that is not set. -/
def Failure.missingCallback : Failure → Bool
  | Failure.fatalChangeStateCallbackNotSet => true
  | Failure.fatalUpdateTxCurrentCallbackNotSet => true
  | _ => false

/-- Both callbacks of the listener are set. -/
def CallbacksSet (w : World) : Prop :=
  w.model.m_listener.m_changeStateCallback = true ∧
    w.model.m_listener.m_updateTxCurrentCallback = true

/-- `BleRadioEnergyModel::DoDispose`: `m_source = NULL` and
`m_energyDepletionCallback.Nullify ()`. -/
def DoDispose (w : World) : World :=
  { w with model := { w.model with m_source := none, m_energyDepletionCallback := false } }

/-- What is left once the destructor `BleRadioEnergyModel::~BleRadioEnergyModel` has run:
the scheduler.  The destructor assigns `m_txCurrentModel = 0` and deletes the listener,
whose destructor has an empty body; `m_switchToOffEvent` and `m_switchToIdleEvent` go away
as ids, and no statement calls `Cancel` on them or touches the scheduler. -/
def BleRadioEnergyModel.destructor (w : World) : Simulator :=
  w.sim

/-- A refresh of the source in which the depletion callback calls `ChangeState (Y)`. -/
def reentrantScript (Y : State) : Script :=
  Script.HandleEnergyDepletion (Script.ChangeState Y Script.done Script.done) Script.done

/-- A source of 1 J initial energy at 3 V that has 0.99997 J left: what is left after 10 s
at 1 uA. -/
def exactSource : EnergySource :=
  { remainingEnergy := 99997 / 100000, supplyVoltage := 3, initialEnergy := 1 }

/-- The world `exampleWorld` attached to `exactSource`. -/
def exactWorld : World :=
  { exampleWorld with model := { exampleWorld.model with m_source := some exactSource } }

/-- The same world with other values of the three currents `m_ccaBusyCurrentA`,
`m_switchingCurrentA` and `m_sleepCurrentA`.  Two worlds differ only in these three values
exactly when one is `setUnused` of the other. -/
def setUnused (cca switching sleep : ℚ) (w : World) : World :=
  { w with model := { w.model with
      m_ccaBusyCurrentA := cca, m_switchingCurrentA := switching, m_sleepCurrentA := sleep } }

/-- Nowhere in the script, neither in a callback nor in a nested refresh, is there a call
`ChangeState (OFF)` or a notification `Off` to the listener. -/
def Script.neverOff : Script → Bool
  | Script.done => true
  | Script.readings _ rest => rest.neverOff
  | Script.ChangeState newState inner rest =>
    decide (newState ≠ State.OFF) && inner.neverOff && rest.neverOff
  | Script.HandleEnergyChanged rest => rest.neverOff
  | Script.HandleEnergyDepletion callback rest => callback.neverOff && rest.neverOff
  | Script.HandleEnergyRecharged callback rest => callback.neverOff && rest.neverOff
  | Script.SetTxCurrentFromModel _ rest => rest.neverOff
  | Script.GetTotalEnergyConsumption inner rest => inner.neverOff && rest.neverOff
  | Script.Notify n inner rest =>
    decide (n ≠ Notification.Off) && inner.neverOff && rest.neverOff

/-- A refresh of the source that calls `HandleEnergyChanged`, reads the total and, in its
depletion callback, asks for `RX`. -/
def busyScript : Script :=
  Script.HandleEnergyChanged
    (Script.GetTotalEnergyConsumption Script.done
      (Script.HandleEnergyDepletion (Script.ChangeState State.RX Script.done Script.done)
        Script.done))

/-! ## Arithmetic of `double`

The C++ type `double` is IEEE 754 binary64 with rounding to nearest, ties to even.  A finite
`double` is the rational number it stands for; an operation computes the exact result and
rounds it.  A result that is no finite number (overflow, division by zero) is `none`.
The definitions named `Double.…` below are the statements of the source evaluated with
this arithmetic; the tick resolution of `Time` stays unmodelled. -/

/-- The integer nearest to `x`, the even one of the two when `x` is half-way. -/
def roundTiesEven (x : ℚ) : ℤ :=
  if x - ⌊x⌋ < 1 / 2 then ⌊x⌋
  else if 1 / 2 < x - ⌊x⌋ then ⌊x⌋ + 1
  else if ⌊x⌋ % 2 = 0 then ⌊x⌋ else ⌊x⌋ + 1

/-- The binary exponent of the unit in the last place of the doubles around `q`: 52 below
the binary exponent of `q`, and `-1074` for the subnormal numbers. -/
def Double.ulpExponent (q : ℚ) : ℤ := max (Int.log 2 |q|) (-1022) - 52

/-- The multiple of the unit in the last place nearest to `q`, ties to even: the `double`
nearest to `q`, when it is in range. -/
def Double.nearest (q : ℚ) : ℚ :=
  roundTiesEven (q / 2 ^ Double.ulpExponent q) * 2 ^ Double.ulpExponent q

/-- Rounding of an exact result to `double`: the nearest `double`, or no finite number when
that is `2 ^ 1024` or more in size. -/
def Double.round (q : ℚ) : Option ℚ :=
  if |Double.nearest q| < 2 ^ 1024 then some (Double.nearest q) else none

/-- The sum of two doubles. -/
def Double.add (a b : ℚ) : Option ℚ := Double.round (a + b)

/-- The difference of two doubles. -/
def Double.sub (a b : ℚ) : Option ℚ := Double.round (a - b)

/-- The product of two doubles. -/
def Double.mul (a b : ℚ) : Option ℚ := Double.round (a * b)

/-- The quotient of two doubles; a division by zero gives no finite number. -/
def Double.div (a b : ℚ) : Option ℚ := if b = 0 then none else Double.round (a / b)

/-- The conversion `Time::GetSeconds`: the `double` nearest to the time in seconds (exact
for the whole numbers of seconds met below). -/
def Double.GetSeconds (t : ℚ) : Option ℚ := Double.round t

/-- The function `BleRadioEnergyModel::GetMaximumTimeInState` in double arithmetic:
`Seconds (remainingEnergy / (current * supplyVoltage))`. -/
def Double.GetMaximumTimeInState (state : State) (m : BleRadioEnergyModel) : Except Failure ℚ :=
  if state = State.OFF then Except.error Failure.fatalMaximumTimeOff
  else
    match m.m_source with
    | none => Except.error Failure.nullSource
    | some source =>
      match GetStateA state m with
      | Except.error e => Except.error e
      | Except.ok current =>
        match (Double.mul current source.supplyVoltage).bind
            (Double.div source.remainingEnergy) with
        | none => Except.error Failure.notFinite
        | some seconds => Except.ok seconds

/-- Lines 297-302 of `ChangeState` in double arithmetic. -/
def Double.ChangeState_timer (newState : State) (w : World) : Except Failure World :=
  if newState ≠ State.OFF then
    match Double.GetMaximumTimeInState newState w.model with
    | Except.error e => Except.error e
    | Except.ok durationToOff => Except.ok (rescheduleSwitchToOff durationToOff w)
  else Except.ok w

/-- The expression `duration.GetSeconds () * GetStateA (m_currentState) * supplyVoltage`
of `ChangeState`, evaluated from left to right in double arithmetic. -/
def Double.energyToDecrease (duration current supplyVoltage : ℚ) : Option ℚ :=
  ((Double.GetSeconds duration).bind (fun seconds => Double.mul seconds current)).bind
    (fun x => Double.mul x supplyVoltage)

/-- Lines 304-315 of `ChangeState` in double arithmetic: `m_totalEnergyConsumption +=
energyToDecrease`, the assertion on the total and the new time stamp. -/
def Double.ChangeState_account (w : World) : Except Failure World :=
  let duration := w.sim.now - w.model.m_lastUpdateTime
  if ¬ (0 ≤ duration) then Except.error Failure.assertDuration
  else
    match w.model.m_source with
    | none => Except.error Failure.nullSource
    | some source =>
      match GetStateA w.model.m_currentState w.model with
      | Except.error e => Except.error e
      | Except.ok current =>
        match (Double.energyToDecrease duration current source.supplyVoltage).bind
            (Double.add w.model.m_totalEnergyConsumption) with
        | none => Except.error Failure.notFinite
        | some total =>
          if ¬ (total ≤ source.initialEnergy) then Except.error Failure.assertTotalEnergy
          else Except.ok { w with model := { w.model with
                 m_totalEnergyConsumption := total, m_lastUpdateTime := w.sim.now } }

/-- The function `BleRadioEnergyModel::ChangeState` in double arithmetic. -/
def Double.ChangeState (UpdateEnergySource : World → Except Failure World) (newState : State)
    (w : World) : Except Failure World :=
  let w1 := incPending w
  if w1.model.m_nPendingChangeState > 1 ∧ newState = State.OFF then
    Except.ok (decPending (SetBleRadioState newState w1))
  else
    match Double.ChangeState_timer newState w1 with
    | Except.error e => Except.error e
    | Except.ok w2 =>
      match Double.ChangeState_account w2 with
      | Except.error e => Except.error e
      | Except.ok w3 =>
        match UpdateEnergySource w3 with
        | Except.error e => Except.error e
        | Except.ok w4 => Except.ok (decPending (ChangeState_commit newState w4))

/-- The function `BleRadioEnergyModel::SetEnergySource` in double arithmetic. -/
def Double.SetEnergySource (source : EnergySource) (w : World) : Except Failure World :=
  let w1 : World := { w with model := { w.model with m_source := some source } }
  match Double.GetMaximumTimeInState w1.model.m_currentState w1.model with
  | Except.error e => Except.error e
  | Except.ok durationToOff => Except.ok (rescheduleSwitchToOff durationToOff w1)

/-- The scheduler runs the pending event `uid`, its handler in double arithmetic. -/
def Double.fire (inner : Script) (uid : Nat) (w : World) : Except Failure World :=
  match w.sim.m_events.find? (fun e => e.uid == uid) with
  | none => Except.ok w
  | some e =>
    let w1 : World := { w with sim := { w.sim with now := e.ts, m_events := w.sim.m_events.erase e } }
    match e.kind with
    | EventKind.SwitchToOff => Double.ChangeState inner.run State.OFF w1
    | EventKind.SwitchToIdle =>
      if ¬ w1.model.m_listener.m_changeStateCallback then
        Except.error Failure.fatalChangeStateCallbackNotSet
      else Double.ChangeState inner.run State.IDLE w1

/-- The default values given in `BleRadioEnergyModel::GetTypeId`, as the doubles the
literals `0.000001` and `0.015` stand for. -/
def Double.defaultAttributes : Attributes :=
  { IdleCurrentA := Double.nearest (1 / 1000000),
    CcaBusyCurrentA := Double.nearest (1 / 1000000),
    TxCurrentA := Double.nearest (15 / 1000),
    RxCurrentA := Double.nearest (15 / 1000),
    SwitchingCurrentA := Double.nearest (1 / 1000000),
    SleepCurrentA := Double.nearest (1 / 1000000),
    TxCurrentModel := none }

/-- A full source of 6.3 J (the `double` nearest to 6.3) at 3.0 V. -/
def roundingSource : EnergySource :=
  { remainingEnergy := Double.nearest (63 / 10), supplyVoltage := 3,
    initialEnergy := Double.nearest (63 / 10) }

/-- A new model with the default attributes, attached to `roundingSource` at time 0: in
`IDLE`, with the forced-off event for `IDLE` due at 2100000 s. -/
def roundingWorld : World :=
  { sim := { now := 0, m_uid := 1, m_events := [Event.mk 0 2100000 EventKind.SwitchToOff] },
    model := { BleRadioEnergyModel.BleRadioEnergyModel Double.defaultAttributes with
      m_source := some roundingSource, m_switchToOffEvent := some 0 } }

/-- The world `roundingWorld` after `ChangeState (RX)` at time 0: in `RX`, stored total 0,
with the forced-off event for `RX` due at 140 s. -/
def roundingWorldRx : World :=
  { sim := { now := 0, m_uid := 2, m_events := [Event.mk 1 140 EventKind.SwitchToOff] },
    model := { BleRadioEnergyModel.BleRadioEnergyModel Double.defaultAttributes with
      m_source := some roundingSource, m_switchToOffEvent := some 1,
      m_currentState := State.RX } }

/-- The function `DbmToW` in double arithmetic: `std::pow (10.0, 0.1 * (dBm - 30.0))`, with
`0.1` the `double` nearest to one tenth.  The library function `std::pow` is the argument
`pow`; it gives a finite `double` or none. -/
def Double.DbmToW (pow : ℚ → ℚ → Option ℚ) (dBm : ℚ) : Option ℚ :=
  (Double.sub dBm 30).bind fun a =>
    (Double.mul (Double.nearest (1 / 10)) a).bind fun b => pow 10 b

/-- The function `LinearBleTxCurrentModel::CalcTxCurrent` in double arithmetic:
`DbmToW (txPowerDbm) / (m_voltage * m_eta) + m_idleCurrent`. -/
def Double.CalcTxCurrent (pow : ℚ → ℚ → Option ℚ) (m : LinearBleTxCurrentModel ℚ)
    (txPowerDbm : ℚ) : Option ℚ :=
  (Double.DbmToW pow txPowerDbm).bind fun w =>
    (Double.mul m.m_voltage m.m_eta).bind fun ve =>
      (Double.div w ve).bind fun q => Double.add q m.m_idleCurrent

/-- A `std::pow` for whole exponents: the `double` nearest to the exact power.  It gives no
value for an exponent that is not a whole number. -/
def Double.powWhole (b x : ℚ) : Option ℚ :=
  if x.den = 1 then Double.round (b ^ x.num) else none

/-- The default values given in `LinearBleTxCurrentModel::GetTypeId`, as the doubles the
literals `0.10`, `3.0` and `1e-6` stand for. -/
def Double.defaultTxCurrentModel : LinearBleTxCurrentModel ℚ :=
  { m_eta := Double.nearest (1 / 10), m_voltage := 3,
    m_idleCurrent := Double.nearest (1 / 1000000) }

/-! ## Anatomy of `ChangeState` -/

theorem ChangeState_timer_elim {s : State} {w w2 : World}
    (h : ChangeState_timer s w = Except.ok w2) :
    (s = State.OFF ∧ w2 = w) ∨
    (s ≠ State.OFF ∧ ∃ d, GetMaximumTimeInState s w.model = Except.ok d ∧
      w2 = rescheduleSwitchToOff d w) := by
  unfold ChangeState_timer at h
  by_cases hs : s = State.OFF
  · left
    simp [hs] at h
    exact ⟨hs, h.symm⟩
  · right
    simp only [ne_eq, hs, not_false_eq_true, if_true] at h
    cases hd : GetMaximumTimeInState s w.model with
    | error e => simp [hd] at h
    | ok d =>
      simp only [hd, Except.ok.injEq] at h
      exact ⟨hs, d, rfl, h.symm⟩

theorem ChangeState_account_elim {w w3 : World} (h : ChangeState_account w = Except.ok w3) :
    ∃ source current, w.model.m_source = some source ∧
      GetStateA w.model.m_currentState w.model = Except.ok current ∧
      w.model.m_lastUpdateTime ≤ w.sim.now ∧
      w.model.m_totalEnergyConsumption +
        (w.sim.now - w.model.m_lastUpdateTime) * current * source.supplyVoltage ≤ source.initialEnergy ∧
      w3 = ChangeState_accounted
        ((w.sim.now - w.model.m_lastUpdateTime) * current * source.supplyVoltage) w := by
  unfold ChangeState_account at h
  by_cases hd : 0 ≤ w.sim.now - w.model.m_lastUpdateTime
  · simp only [hd, not_true_eq_false, if_false] at h
    cases hsrc : w.model.m_source with
    | none => simp [hsrc] at h
    | some source =>
      simp only [hsrc] at h
      cases hc : GetStateA w.model.m_currentState w.model with
      | error e => simp [hc] at h
      | ok current =>
        simp only [hc] at h
        by_cases hle : w.model.m_totalEnergyConsumption +
            (w.sim.now - w.model.m_lastUpdateTime) * current * source.supplyVoltage ≤ source.initialEnergy
        · simp only [hle, not_true_eq_false, if_false, Except.ok.injEq] at h
          exact ⟨source, current, rfl, rfl, by linarith, hle, h.symm⟩
        · simp [hle] at h
  · simp [hd] at h

theorem ChangeState_elim {U : World → Except Failure World} {s : State} {w w1 : World}
    (h : ChangeState U s w = Except.ok w1) :
    ((incPending w).model.m_nPendingChangeState > 1 ∧ s = State.OFF ∧
      w1 = decPending (SetBleRadioState s (incPending w))) ∨
    (¬ ((incPending w).model.m_nPendingChangeState > 1 ∧ s = State.OFF) ∧
      ∃ w2 w3 w4, ChangeState_timer s (incPending w) = Except.ok w2 ∧
        ChangeState_account w2 = Except.ok w3 ∧ U w3 = Except.ok w4 ∧
        w1 = decPending (ChangeState_commit s w4)) := by
  unfold ChangeState at h
  by_cases hf : (incPending w).model.m_nPendingChangeState > 1 ∧ s = State.OFF
  · left
    simp only [hf, and_self, if_true, Except.ok.injEq] at h
    exact ⟨hf.1, hf.2, by rw [← h, hf.2]⟩
  · right
    simp only [hf, if_false] at h
    refine ⟨hf, ?_⟩
    cases h2 : ChangeState_timer s (incPending w) with
    | error e => simp [h2] at h
    | ok w2 =>
      simp only [h2] at h
      cases h3 : ChangeState_account w2 with
      | error e => simp [h3] at h
      | ok w3 =>
        simp only [h3] at h
        cases h4 : U w3 with
        | error e => simp [h4] at h
        | ok w4 =>
          simp only [h4, Except.ok.injEq] at h
          exact ⟨w2, w3, w4, rfl, h3, h4, h.symm⟩

/-! ## A relation kept by every primitive is kept by every script -/

theorem kept_notify {R : World → World → Prop} (hR : Kept R)
    {U : World → Except Failure World} (hU : ∀ a b, U a = Except.ok b → R a b)
    {n : Notification} {w w1 : World} (h : Notify U n w = Except.ok w1) : R w w1 := by
  cases n with
  | RxStart duration =>
    simp only [Notify, NotifyRxStart] at h
    split at h
    · simp at h
    · cases hc : ChangeState U State.RX w with
      | error e => simp [hc] at h
      | ok w2 =>
        simp only [hc, Except.ok.injEq] at h
        rw [← h]
        exact hR.trans _ _ _ (hR.changeState U _ _ _ hU hc) (hR.cancelIdle w2)
  | RxEndOk =>
    simp only [Notify, NotifyRxEndOk] at h
    split at h
    · simp at h
    · exact hR.changeState U _ _ _ hU h
  | RxEndError =>
    simp only [Notify, NotifyRxEndError] at h
    split at h
    · simp at h
    · exact hR.changeState U _ _ _ hU h
  | TxStart duration txPowerDbm =>
    simp only [Notify, NotifyTxStart] at h
    split at h
    · simp at h
    · split at h
      · simp at h
      · cases hc : ChangeState U State.TX (SetTxCurrentFromModel txPowerDbm w) with
        | error e => simp [hc] at h
        | ok w2 =>
          simp only [hc, Except.ok.injEq] at h
          rw [← h]
          exact hR.trans _ _ _ (hR.setTx txPowerDbm w)
            (hR.trans _ _ _ (hR.changeState U _ _ _ hU hc) (hR.rescheduleIdle duration w2))
  | MaybeCcaBusyStart duration =>
    simp only [Notify, NotifyMaybeCcaBusyStart] at h
    split at h
    · simp at h
    · simp only [Except.ok.injEq] at h
      rw [← h]
      exact hR.rescheduleIdle duration w
  | SwitchingStart duration =>
    simp only [Notify, NotifySwitchingStart] at h
    split at h
    · simp at h
    · simp only [Except.ok.injEq] at h
      rw [← h]
      exact hR.rescheduleIdle duration w
  | Sleep =>
    simp only [Notify, NotifySleep] at h
    split at h
    · simp at h
    · simp only [Except.ok.injEq] at h
      rw [← h]
      exact hR.cancelIdle w
  | Wakeup =>
    simp only [Notify, NotifyWakeup] at h
    split at h
    · simp at h
    · exact hR.changeState U _ _ _ hU h
  | Off =>
    simp only [Notify, NotifyOff] at h
    split at h
    · simp at h
    · cases hc : ChangeState U State.OFF w with
      | error e => simp [hc] at h
      | ok w2 =>
        simp only [hc, Except.ok.injEq] at h
        rw [← h]
        exact hR.trans _ _ _ (hR.changeState U _ _ _ hU hc) (hR.cancelIdle w2)
  | On =>
    simp only [Notify, NotifyOn] at h
    split at h
    · simp at h
    · exact hR.changeState U _ _ _ hU h

theorem GetTotalEnergyConsumption_elim {U : World → Except Failure World} {w : World}
    {r : ℚ × World} (h : GetTotalEnergyConsumption U w = Except.ok r) :
    ∃ source current w1, w.model.m_source = some source ∧
      GetStateA w.model.m_currentState w.model = Except.ok current ∧
      w.model.m_lastUpdateTime ≤ w.sim.now ∧ U w = Except.ok w1 ∧
      r = (w1.model.m_totalEnergyConsumption +
        (w.sim.now - w.model.m_lastUpdateTime) * current * source.supplyVoltage, w1) := by
  unfold GetTotalEnergyConsumption at h
  by_cases hd : 0 ≤ w.sim.now - w.model.m_lastUpdateTime
  · simp only [hd, not_true_eq_false, if_false] at h
    cases hsrc : w.model.m_source with
    | none => simp [hsrc] at h
    | some source =>
      simp only [hsrc] at h
      cases hc : GetStateA w.model.m_currentState w.model with
      | error e => simp [hc] at h
      | ok current =>
        simp only [hc] at h
        cases hu : U w with
        | error e => simp [hu] at h
        | ok w1 =>
          simp only [hu, Except.ok.injEq] at h
          exact ⟨source, current, w1, rfl, rfl, by linarith, rfl, h.symm⟩
  · simp [hd] at h

theorem kept_getTotal {R : World → World → Prop} (_hR : Kept R)
    {U : World → Except Failure World} (hU : ∀ a b, U a = Except.ok b → R a b)
    {w : World} {r : ℚ × World} (h : GetTotalEnergyConsumption U w = Except.ok r) : R w r.2 := by
  obtain ⟨source, current, w1, -, -, -, hu, hr⟩ := GetTotalEnergyConsumption_elim h
  rw [hr]
  exact hU _ _ hu

theorem kept_script {R : World → World → Prop} (hR : Kept R) :
    ∀ (s : Script) (w w1 : World), s.run w = Except.ok w1 → R w w1 := by
  intro s
  induction s with
  | done =>
    intro w w1 h
    simp only [Script.run, Except.ok.injEq] at h
    rw [← h]
    exact hR.refl w
  | readings source rest ih =>
    intro w w1 h
    simp only [Script.run] at h
    exact hR.trans _ _ _ (hR.readings source w) (ih _ _ h)
  | ChangeState newState inner rest ihInner ihRest =>
    intro w w1 h
    simp only [Script.run] at h
    cases hc : ChangeState inner.run newState w with
    | error e => simp [hc] at h
    | ok w2 =>
      simp only [hc] at h
      exact hR.trans _ _ _ (hR.changeState _ _ _ _ ihInner hc) (ihRest _ _ h)
  | HandleEnergyChanged rest ih =>
    intro w w1 h
    simp only [Script.run] at h
    cases hc : HandleEnergyChanged w with
    | error e => simp [hc] at h
    | ok w2 =>
      simp only [hc] at h
      exact hR.trans _ _ _ (hR.energyChanged _ _ hc) (ih _ _ h)
  | HandleEnergyDepletion callback rest ihCallback ihRest =>
    intro w w1 h
    simp only [Script.run] at h
    cases hc : HandleEnergyDepletion callback.run w with
    | error e => simp [hc] at h
    | ok w2 =>
      simp only [hc] at h
      refine hR.trans _ _ _ ?_ (ihRest _ _ h)
      unfold HandleEnergyDepletion at hc
      split at hc
      · exact ihCallback _ _ hc
      · simp only [Except.ok.injEq] at hc
        rw [← hc]
        exact hR.refl w
  | HandleEnergyRecharged callback rest ihCallback ihRest =>
    intro w w1 h
    simp only [Script.run] at h
    cases hc : HandleEnergyRecharged callback.run w with
    | error e => simp [hc] at h
    | ok w2 =>
      simp only [hc] at h
      refine hR.trans _ _ _ ?_ (ihRest _ _ h)
      unfold HandleEnergyRecharged at hc
      split at hc
      · exact ihCallback _ _ hc
      · simp only [Except.ok.injEq] at hc
        rw [← hc]
        exact hR.refl w
  | SetTxCurrentFromModel txPowerDbm rest ih =>
    intro w w1 h
    simp only [Script.run] at h
    exact hR.trans _ _ _ (hR.setTx txPowerDbm w) (ih _ _ h)
  | GetTotalEnergyConsumption inner rest ihInner ihRest =>
    intro w w1 h
    simp only [Script.run] at h
    cases hc : GetTotalEnergyConsumption inner.run w with
    | error e => simp [hc] at h
    | ok r =>
      simp only [hc] at h
      exact hR.trans _ _ _ (kept_getTotal hR ihInner hc) (ihRest _ _ h)
  | Notify n inner rest ihInner ihRest =>
    intro w w1 h
    simp only [Script.run] at h
    cases hc : Notify inner.run n w with
    | error e => simp [hc] at h
    | ok w2 =>
      simp only [hc] at h
      exact hR.trans _ _ _ (kept_notify hR ihInner hc) (ihRest _ _ h)

/-! ## The frame of every call -/

theorem frame0_refl (w : World) : Frame0 w w :=
  ⟨rfl, rfl, rfl, rfl, rfl, rfl, rfl, rfl⟩

theorem frame0_trans {a b c : World} (h1 : Frame0 a b) (h2 : Frame0 b c) : Frame0 a c :=
  ⟨h2.depletion.trans h1.depletion, h2.recharged.trans h1.recharged,
    h2.changeState.trans h1.changeState, h2.updateTx.trans h1.updateTx,
    h2.txModel.trans h1.txModel, h2.rx.trans h1.rx, h2.idle.trans h1.idle,
    h2.attached.trans h1.attached⟩

theorem frame0_incPending (w : World) : Frame0 w (incPending w) :=
  ⟨rfl, rfl, rfl, rfl, rfl, rfl, rfl, rfl⟩

theorem frame0_decPending (w : World) : Frame0 w (decPending w) :=
  ⟨rfl, rfl, rfl, rfl, rfl, rfl, rfl, rfl⟩

theorem frame0_SetBleRadioState (s : State) (w : World) : Frame0 w (SetBleRadioState s w) :=
  ⟨rfl, rfl, rfl, rfl, rfl, rfl, rfl, rfl⟩

theorem frame0_accounted (e : ℚ) (w : World) : Frame0 w (ChangeState_accounted e w) :=
  ⟨rfl, rfl, rfl, rfl, rfl, rfl, rfl, rfl⟩

theorem frame0_rescheduleSwitchToOff (d : ℚ) (w : World) : Frame0 w (rescheduleSwitchToOff d w) :=
  ⟨rfl, rfl, rfl, rfl, rfl, rfl, rfl, rfl⟩

theorem frame0_rescheduleSwitchToIdle (d : ℚ) (w : World) : Frame0 w (rescheduleSwitchToIdle d w) :=
  ⟨rfl, rfl, rfl, rfl, rfl, rfl, rfl, rfl⟩

theorem frame0_cancelSwitchToIdle (w : World) : Frame0 w (cancelSwitchToIdle w) :=
  ⟨rfl, rfl, rfl, rfl, rfl, rfl, rfl, rfl⟩

theorem frame0_commit (s : State) (w : World) : Frame0 w (ChangeState_commit s w) := by
  unfold ChangeState_commit
  split
  · exact frame0_SetBleRadioState s w
  · exact frame0_refl w

theorem frame0_setReadings (source : EnergySource) (w : World) : Frame0 w (setReadings source w) := by
  unfold BleEnergy.setReadings
  cases h : w.model.m_source with
  | none => exact frame0_refl w
  | some old => exact ⟨rfl, rfl, rfl, rfl, rfl, rfl, rfl, by simp [h]⟩

theorem frame0_setTx (p : ℚ) (w : World) : Frame0 w (SetTxCurrentFromModel p w) := by
  unfold SetTxCurrentFromModel
  cases h : w.model.m_txCurrentModel with
  | none => exact frame0_refl w
  | some f => exact ⟨rfl, rfl, rfl, rfl, by simp [h], rfl, rfl, rfl⟩

theorem frame0_timer {s : State} {w w2 : World} (h : ChangeState_timer s w = Except.ok w2) :
    Frame0 w w2 := by
  rcases ChangeState_timer_elim h with ⟨-, rfl⟩ | ⟨-, d, -, rfl⟩
  · exact frame0_refl _
  · exact frame0_rescheduleSwitchToOff d w

theorem frame0_account {w w3 : World} (h : ChangeState_account w = Except.ok w3) :
    Frame0 w w3 := by
  obtain ⟨source, current, -, -, -, -, rfl⟩ := ChangeState_account_elim h
  exact frame0_accounted _ w

theorem pending_timer {s : State} {w w2 : World} (h : ChangeState_timer s w = Except.ok w2) :
    w2.model.m_nPendingChangeState = w.model.m_nPendingChangeState := by
  rcases ChangeState_timer_elim h with ⟨-, rfl⟩ | ⟨-, d, -, rfl⟩ <;> rfl

theorem pending_account {w w3 : World} (h : ChangeState_account w = Except.ok w3) :
    w3.model.m_nPendingChangeState = w.model.m_nPendingChangeState := by
  obtain ⟨source, current, -, -, -, -, rfl⟩ := ChangeState_account_elim h
  rfl

theorem pending_commit (s : State) (w : World) :
    (ChangeState_commit s w).model.m_nPendingChangeState = w.model.m_nPendingChangeState := by
  unfold ChangeState_commit
  split <;> rfl

theorem pending_incPending (w : World) :
    (incPending w).model.m_nPendingChangeState = (w.model.m_nPendingChangeState + 1) % 256 := rfl

theorem pending_decPending (w : World) :
    (decPending w).model.m_nPendingChangeState = (w.model.m_nPendingChangeState + 255) % 256 := rfl

theorem frame_refl (w : World) : Frame w w :=
  ⟨frame0_refl w, fun _ => rfl⟩

theorem frame_trans {a b c : World} (h1 : Frame a b) (h2 : Frame b c) : Frame a c :=
  ⟨frame0_trans h1.toFrame0 h2.toFrame0, fun h => by
    have hb := h1.pending h
    rw [h2.pending (by omega), hb]⟩

theorem frame_of_eq_pending {w w1 : World} (h0 : Frame0 w w1)
    (h : w1.model.m_nPendingChangeState = w.model.m_nPendingChangeState) : Frame w w1 :=
  ⟨h0, fun _ => h⟩

theorem frame_ChangeState {U : World → Except Failure World} {s : State} {w w1 : World}
    (hU : ∀ a b, U a = Except.ok b → Frame a b) (h : ChangeState U s w = Except.ok w1) :
    Frame w w1 := by
  rcases ChangeState_elim h with ⟨-, -, rfl⟩ | ⟨-, w2, w3, w4, h2, h3, h4, rfl⟩
  · refine ⟨frame0_trans (frame0_trans (frame0_incPending w) (frame0_SetBleRadioState s _))
      (frame0_decPending _), ?_⟩
    intro hlt
    show ((w.model.m_nPendingChangeState + 1) % 256 + 255) % 256 = w.model.m_nPendingChangeState
    omega
  · have hF := hU _ _ h4
    refine ⟨frame0_trans (frame0_trans (frame0_trans (frame0_trans (frame0_incPending w)
      (frame0_timer h2)) (frame0_account h3)) hF.toFrame0)
      (frame0_trans (frame0_commit s w4) (frame0_decPending _)), ?_⟩
    intro hlt
    have e3 : w3.model.m_nPendingChangeState = (w.model.m_nPendingChangeState + 1) % 256 := by
      rw [pending_account h3, pending_timer h2, pending_incPending]
    have e4 : w4.model.m_nPendingChangeState = (w.model.m_nPendingChangeState + 1) % 256 := by
      rw [hF.pending (by omega), e3]
    rw [pending_decPending, pending_commit, e4]
    omega

theorem frame_HandleEnergyChanged {w w1 : World} (h : HandleEnergyChanged w = Except.ok w1) :
    Frame w w1 := by
  unfold BleEnergy.HandleEnergyChanged at h
  split at h
  · cases hd : GetMaximumTimeInState w.model.m_currentState w.model with
    | error e => simp [hd] at h
    | ok d =>
      simp only [hd, Except.ok.injEq] at h
      rw [← h]
      exact frame_of_eq_pending (frame0_rescheduleSwitchToOff d w) rfl
  · simp only [Except.ok.injEq] at h
    rw [← h]
    exact frame_refl w

theorem frame_kept : Kept Frame where
  refl := frame_refl
  trans := fun _ _ _ h1 h2 => frame_trans h1 h2
  readings := fun source w => frame_of_eq_pending (frame0_setReadings source w) (by
    unfold setReadings
    cases h : w.model.m_source <;> rfl)
  changeState := fun _ _ _ _ hU h => frame_ChangeState hU h
  energyChanged := fun _ _ h => frame_HandleEnergyChanged h
  setTx := fun p w => frame_of_eq_pending (frame0_setTx p w) (by
    unfold SetTxCurrentFromModel
    cases h : w.model.m_txCurrentModel <;> rfl)
  cancelIdle := fun w => frame_of_eq_pending (frame0_cancelSwitchToIdle w) rfl
  rescheduleIdle := fun d w => frame_of_eq_pending (frame0_rescheduleSwitchToIdle d w) rfl

/-- Every script leaves the frame as it found it. -/
theorem Script.run_frame {s : Script} {w w1 : World} (h : s.run w = Except.ok w1) : Frame w w1 :=
  kept_script frame_kept s w w1 h

/-! ## The state `OFF` is never left -/

theorem state_timer {s : State} {w w2 : World} (h : ChangeState_timer s w = Except.ok w2) :
    w2.model.m_currentState = w.model.m_currentState := by
  rcases ChangeState_timer_elim h with ⟨-, rfl⟩ | ⟨-, d, -, rfl⟩ <;> rfl

theorem state_account {w w3 : World} (h : ChangeState_account w = Except.ok w3) :
    w3.model.m_currentState = w.model.m_currentState := by
  obtain ⟨source, current, -, -, -, -, rfl⟩ := ChangeState_account_elim h
  rfl

theorem state_commit_off {s : State} {w : World} (h : w.model.m_currentState = State.OFF) :
    ChangeState_commit s w = w := by
  unfold ChangeState_commit
  simp [h]

theorem state_setReadings (source : EnergySource) (w : World) :
    (setReadings source w).model.m_currentState = w.model.m_currentState := by
  unfold setReadings
  cases h : w.model.m_source <;> rfl

theorem state_setTx (p : ℚ) (w : World) :
    (SetTxCurrentFromModel p w).model.m_currentState = w.model.m_currentState := by
  unfold SetTxCurrentFromModel
  cases h : w.model.m_txCurrentModel <;> rfl

/-- The relation "if the state was `OFF` before, it is `OFF` after". -/
theorem staysOff_kept :
    Kept (fun w w1 => w.model.m_currentState = State.OFF → w1.model.m_currentState = State.OFF) where
  refl := fun _ h => h
  trans := fun _ _ _ h1 h2 h => h2 (h1 h)
  readings := fun source w h => by rw [state_setReadings, h]
  changeState := by
    intro U s w w1 hU h hoff
    rcases ChangeState_elim h with ⟨-, hs, rfl⟩ | ⟨-, w2, w3, w4, h2, h3, h4, rfl⟩
    · exact hs
    · have h3off : w3.model.m_currentState = State.OFF := by
        rw [state_account h3, state_timer h2]
        exact hoff
      have h4off := hU _ _ h4 h3off
      rw [state_commit_off h4off]
      exact h4off
  energyChanged := by
    intro w w1 h hoff
    unfold HandleEnergyChanged at h
    simp only [hoff, ne_eq, not_true_eq_false, if_false, Except.ok.injEq] at h
    rw [← h]
    exact hoff
  setTx := fun p w h => by rw [state_setTx, h]
  cancelIdle := fun _ h => h
  rescheduleIdle := fun _ _ h => h

theorem Script.run_staysOff {s : Script} {w w1 : World} (h : s.run w = Except.ok w1)
    (hoff : w.model.m_currentState = State.OFF) : w1.model.m_currentState = State.OFF :=
  kept_script staysOff_kept s w w1 h hoff

theorem ChangeState_staysOff {U : World → Except Failure World} {s : State} {w w1 : World}
    (hU : ∀ a b, U a = Except.ok b → a.model.m_currentState = State.OFF →
      b.model.m_currentState = State.OFF)
    (h : ChangeState U s w = Except.ok w1) (hoff : w.model.m_currentState = State.OFF) :
    w1.model.m_currentState = State.OFF :=
  staysOff_kept.changeState U s w w1 hU h hoff

/-- A nested `ChangeState (OFF)` (counter from 1 to 254 on entry) takes the fast exit. -/
theorem ChangeState_off_nested {U : World → Except Failure World} {w : World}
    (h1 : 1 ≤ w.model.m_nPendingChangeState) (h2 : w.model.m_nPendingChangeState ≤ 254) :
    ChangeState U State.OFF w = Except.ok (decPending (SetBleRadioState State.OFF (incPending w))) := by
  unfold ChangeState
  have : (incPending w).model.m_nPendingChangeState > 1 := by
    rw [pending_incPending]
    omega
  simp [this]

/-- A script that calls `ChangeState (OFF)` while a call is pending leaves the state `OFF`. -/
theorem Script.run_callsChangeStateOff :
    ∀ (s : Script) (w w1 : World), s.callsChangeStateOff = true →
      1 ≤ w.model.m_nPendingChangeState → w.model.m_nPendingChangeState ≤ 254 →
      s.run w = Except.ok w1 → w1.model.m_currentState = State.OFF := by
  intro s
  induction s with
  | done => intro w w1 hc; simp [Script.callsChangeStateOff] at hc
  | readings source rest ih =>
    intro w w1 hc h1 h2 h
    simp only [Script.callsChangeStateOff] at hc
    simp only [Script.run] at h
    have hp := (frame_kept.readings source w).pending (by omega)
    exact ih _ _ hc (by omega) (by omega) h
  | ChangeState newState inner rest _ ih =>
    intro w w1 hc h1 h2 h
    simp only [Script.callsChangeStateOff, Bool.or_eq_true, decide_eq_true_eq] at hc
    simp only [Script.run] at h
    cases hcs : BleEnergy.ChangeState inner.run newState w with
    | error e => simp [hcs] at h
    | ok w2 =>
      simp only [hcs] at h
      by_cases hs : newState = State.OFF
      · rw [hs, ChangeState_off_nested h1 h2, Except.ok.injEq] at hcs
        exact Script.run_staysOff h (by rw [← hcs]; rfl)
      · have hp := (frame_ChangeState (fun a b hab => Script.run_frame hab) hcs).pending (by omega)
        exact ih _ _ (hc.resolve_left hs) (by omega) (by omega) h
  | HandleEnergyChanged rest ih =>
    intro w w1 hc h1 h2 h
    simp only [Script.callsChangeStateOff] at hc
    simp only [Script.run] at h
    cases hcs : BleEnergy.HandleEnergyChanged w with
    | error e => simp [hcs] at h
    | ok w2 =>
      simp only [hcs] at h
      have hp := (frame_HandleEnergyChanged hcs).pending (by omega)
      exact ih _ _ hc (by omega) (by omega) h
  | HandleEnergyDepletion callback rest _ ih =>
    intro w w1 hc h1 h2 h
    simp only [Script.callsChangeStateOff] at hc
    have hsplit : ∃ w2, (Script.HandleEnergyDepletion callback Script.done).run w = Except.ok w2 ∧
        rest.run w2 = Except.ok w1 := by
      simp only [Script.run] at h ⊢
      cases hcs : BleEnergy.HandleEnergyDepletion callback.run w with
      | error e => simp [hcs] at h
      | ok w2 => exact ⟨w2, rfl, by simpa [hcs] using h⟩
    obtain ⟨w2, hw2, hrest⟩ := hsplit
    have hp := (Script.run_frame hw2).pending (by omega)
    exact ih _ _ hc (by omega) (by omega) hrest
  | HandleEnergyRecharged callback rest _ ih =>
    intro w w1 hc h1 h2 h
    simp only [Script.callsChangeStateOff] at hc
    have hsplit : ∃ w2, (Script.HandleEnergyRecharged callback Script.done).run w = Except.ok w2 ∧
        rest.run w2 = Except.ok w1 := by
      simp only [Script.run] at h ⊢
      cases hcs : BleEnergy.HandleEnergyRecharged callback.run w with
      | error e => simp [hcs] at h
      | ok w2 => exact ⟨w2, rfl, by simpa [hcs] using h⟩
    obtain ⟨w2, hw2, hrest⟩ := hsplit
    have hp := (Script.run_frame hw2).pending (by omega)
    exact ih _ _ hc (by omega) (by omega) hrest
  | SetTxCurrentFromModel txPowerDbm rest ih =>
    intro w w1 hc h1 h2 h
    simp only [Script.callsChangeStateOff] at hc
    simp only [Script.run] at h
    have hp := (frame_kept.setTx txPowerDbm w).pending (by omega)
    exact ih _ _ hc (by omega) (by omega) h
  | GetTotalEnergyConsumption inner rest _ ih =>
    intro w w1 hc h1 h2 h
    simp only [Script.callsChangeStateOff] at hc
    have hsplit : ∃ w2, (Script.GetTotalEnergyConsumption inner Script.done).run w = Except.ok w2 ∧
        rest.run w2 = Except.ok w1 := by
      simp only [Script.run] at h ⊢
      cases hcs : BleEnergy.GetTotalEnergyConsumption inner.run w with
      | error e => simp [hcs] at h
      | ok r => exact ⟨r.2, rfl, by simpa [hcs] using h⟩
    obtain ⟨w2, hw2, hrest⟩ := hsplit
    have hp := (Script.run_frame hw2).pending (by omega)
    exact ih _ _ hc (by omega) (by omega) hrest
  | Notify n inner rest _ ih =>
    intro w w1 hc h1 h2 h
    simp only [Script.callsChangeStateOff, Bool.or_eq_true, decide_eq_true_eq] at hc
    have hsplit : ∃ w2, (Script.Notify n inner Script.done).run w = Except.ok w2 ∧
        rest.run w2 = Except.ok w1 := by
      simp only [Script.run] at h ⊢
      cases hcs : BleEnergy.Notify inner.run n w with
      | error e => simp [hcs] at h
      | ok w2 => exact ⟨w2, rfl, by simpa [hcs] using h⟩
    obtain ⟨w2, hw2, hrest⟩ := hsplit
    by_cases hn : n = Notification.Off
    · refine Script.run_staysOff hrest ?_
      rw [hn] at hw2
      simp only [Script.run, BleEnergy.Notify, NotifyOff, ChangeState_off_nested h1 h2] at hw2
      by_cases hcb : w.model.m_listener.m_changeStateCallback = true
      · simp only [hcb, not_true_eq_false, if_false, Except.ok.injEq] at hw2
        rw [← hw2]
        rfl
      · simp [hcb] at hw2
    · have hp := (Script.run_frame hw2).pending (by omega)
      exact ih _ _ (hc.resolve_left hn) (by omega) (by omega) hrest

/-- A refresh in which the depletion callback (set) calls `ChangeState (OFF)` leaves the
state `OFF`, when one to 254 calls are pending. -/
theorem Script.run_depletionCallsOff :
    ∀ (s : Script) (w w1 : World), s.depletionCallsOff = true →
      w.model.m_energyDepletionCallback = true →
      1 ≤ w.model.m_nPendingChangeState → w.model.m_nPendingChangeState ≤ 254 →
      s.run w = Except.ok w1 → w1.model.m_currentState = State.OFF := by
  intro s
  induction s with
  | done => intro w w1 hc; simp [Script.depletionCallsOff] at hc
  | readings source rest ih =>
    intro w w1 hc hcb h1 h2 h
    simp only [Script.depletionCallsOff] at hc
    simp only [Script.run] at h
    have hF := frame_kept.readings source w
    have hp := hF.pending (by omega)
    exact ih _ _ hc (by rw [hF.depletion, hcb]) (by omega) (by omega) h
  | ChangeState newState inner rest _ ih =>
    intro w w1 hc hcb h1 h2 h
    simp only [Script.depletionCallsOff] at hc
    have hsplit : ∃ w2, (Script.ChangeState newState inner Script.done).run w = Except.ok w2 ∧
        rest.run w2 = Except.ok w1 := by
      simp only [Script.run] at h ⊢
      cases hcs : BleEnergy.ChangeState inner.run newState w with
      | error e => simp [hcs] at h
      | ok w2 => exact ⟨w2, rfl, by simpa [hcs] using h⟩
    obtain ⟨w2, hw2, hrest⟩ := hsplit
    have hF := Script.run_frame hw2
    have hp := hF.pending (by omega)
    exact ih _ _ hc (by rw [hF.depletion, hcb]) (by omega) (by omega) hrest
  | HandleEnergyChanged rest ih =>
    intro w w1 hc hcb h1 h2 h
    simp only [Script.depletionCallsOff] at hc
    have hsplit : ∃ w2, (Script.HandleEnergyChanged Script.done).run w = Except.ok w2 ∧
        rest.run w2 = Except.ok w1 := by
      simp only [Script.run] at h ⊢
      cases hcs : BleEnergy.HandleEnergyChanged w with
      | error e => simp [hcs] at h
      | ok w2 => exact ⟨w2, rfl, by simpa [hcs] using h⟩
    obtain ⟨w2, hw2, hrest⟩ := hsplit
    have hF := Script.run_frame hw2
    have hp := hF.pending (by omega)
    exact ih _ _ hc (by rw [hF.depletion, hcb]) (by omega) (by omega) hrest
  | HandleEnergyDepletion callback rest _ ih =>
    intro w w1 hc hcb h1 h2 h
    simp only [Script.depletionCallsOff, Bool.or_eq_true] at hc
    simp only [Script.run, BleEnergy.HandleEnergyDepletion, hcb, if_true] at h
    cases hcs : callback.run w with
    | error e => simp [hcs] at h
    | ok w2 =>
      simp only [hcs] at h
      rcases hc with hc | hc
      · exact Script.run_staysOff h (Script.run_callsChangeStateOff callback w w2 hc h1 h2 hcs)
      · have hF := Script.run_frame hcs
        have hp := hF.pending (by omega)
        exact ih _ _ hc (by rw [hF.depletion, hcb]) (by omega) (by omega) h
  | HandleEnergyRecharged callback rest _ ih =>
    intro w w1 hc hcb h1 h2 h
    simp only [Script.depletionCallsOff] at hc
    have hsplit : ∃ w2, (Script.HandleEnergyRecharged callback Script.done).run w = Except.ok w2 ∧
        rest.run w2 = Except.ok w1 := by
      simp only [Script.run] at h ⊢
      cases hcs : BleEnergy.HandleEnergyRecharged callback.run w with
      | error e => simp [hcs] at h
      | ok w2 => exact ⟨w2, rfl, by simpa [hcs] using h⟩
    obtain ⟨w2, hw2, hrest⟩ := hsplit
    have hF := Script.run_frame hw2
    have hp := hF.pending (by omega)
    exact ih _ _ hc (by rw [hF.depletion, hcb]) (by omega) (by omega) hrest
  | SetTxCurrentFromModel txPowerDbm rest ih =>
    intro w w1 hc hcb h1 h2 h
    simp only [Script.depletionCallsOff] at hc
    simp only [Script.run] at h
    have hF := frame_kept.setTx txPowerDbm w
    have hp := hF.pending (by omega)
    exact ih _ _ hc (by rw [hF.depletion, hcb]) (by omega) (by omega) h
  | GetTotalEnergyConsumption inner rest _ ih =>
    intro w w1 hc hcb h1 h2 h
    simp only [Script.depletionCallsOff] at hc
    have hsplit : ∃ w2, (Script.GetTotalEnergyConsumption inner Script.done).run w = Except.ok w2 ∧
        rest.run w2 = Except.ok w1 := by
      simp only [Script.run] at h ⊢
      cases hcs : BleEnergy.GetTotalEnergyConsumption inner.run w with
      | error e => simp [hcs] at h
      | ok r => exact ⟨r.2, rfl, by simpa [hcs] using h⟩
    obtain ⟨w2, hw2, hrest⟩ := hsplit
    have hF := Script.run_frame hw2
    have hp := hF.pending (by omega)
    exact ih _ _ hc (by rw [hF.depletion, hcb]) (by omega) (by omega) hrest
  | Notify n inner rest _ ih =>
    intro w w1 hc hcb h1 h2 h
    simp only [Script.depletionCallsOff] at hc
    have hsplit : ∃ w2, (Script.Notify n inner Script.done).run w = Except.ok w2 ∧
        rest.run w2 = Except.ok w1 := by
      simp only [Script.run] at h ⊢
      cases hcs : BleEnergy.Notify inner.run n w with
      | error e => simp [hcs] at h
      | ok w2 => exact ⟨w2, rfl, by simpa [hcs] using h⟩
    obtain ⟨w2, hw2, hrest⟩ := hsplit
    have hF := Script.run_frame hw2
    have hp := hF.pending (by omega)
    exact ih _ _ hc (by rw [hF.depletion, hcb]) (by omega) (by omega) hrest

/-! ## The timer step and scripts without callbacks -/

/-- The timer step changes the scheduler and `m_switchToOffEvent`, nothing else, and does
not move the clock. -/
theorem ChangeState_timer_shape {s : State} {w w2 : World}
    (h : ChangeState_timer s w = Except.ok w2) :
    w2.model = { w.model with m_switchToOffEvent := w2.model.m_switchToOffEvent } ∧
      w2.sim.now = w.sim.now := by
  rcases ChangeState_timer_elim h with ⟨-, rfl⟩ | ⟨-, d, -, rfl⟩
  · exact ⟨rfl, rfl⟩
  · refine ⟨rfl, ?_⟩
    simp only [rescheduleSwitchToOff, Simulator.Schedule, Simulator.Cancel]
    cases w.model.m_switchToOffEvent <;> rfl

theorem withSource_self (w : World) : withSource w.model.m_source w = w := rfl

/-- A script without callbacks returns, and changes at most the readings of the source. -/
theorem Script.run_noCallback :
    ∀ (s : Script) (w : World), s.noCallback = true →
      ∃ o, s.run w = Except.ok (withSource o w) ∧ o.isSome = w.model.m_source.isSome ∧
        ∀ V, s.keepsVoltage V = true →
          (∀ source, w.model.m_source = some source → source.supplyVoltage = V) →
          ∀ source, o = some source → source.supplyVoltage = V := by
  intro s
  induction s with
  | done =>
    intro w _
    exact ⟨w.model.m_source, rfl, rfl, fun V _ hw source ho => hw source ho⟩
  | readings source rest ih =>
    intro w hn
    simp only [Script.noCallback] at hn
    simp only [Script.run, setReadings]
    cases hsrc : w.model.m_source with
    | none =>
      obtain ⟨o, ho, hsome, hV⟩ := ih w hn
      refine ⟨o, ho, by rw [hsome, hsrc], ?_⟩
      intro V hk hw src hsrc2
      simp only [Script.keepsVoltage, Bool.and_eq_true, decide_eq_true_eq] at hk
      exact hV V hk.2 (fun x hx => by rw [hsrc] at hx; cases hx) src hsrc2
    | some old =>
      obtain ⟨o, ho, hsome, hV⟩ := ih (withSource (some source) w) hn
      refine ⟨o, ho, by rw [hsome]; rfl, ?_⟩
      intro V hk _ src hsrc2
      simp only [Script.keepsVoltage, Bool.and_eq_true, decide_eq_true_eq] at hk
      refine hV V hk.2 (fun x hx => ?_) src hsrc2
      have : x = source := by
        have hx2 : some source = some x := hx
        exact (Option.some.inj hx2).symm
      rw [this]
      exact hk.1
  | ChangeState newState inner rest _ _ => intro w hn; simp [Script.noCallback] at hn
  | HandleEnergyChanged rest _ => intro w hn; simp [Script.noCallback] at hn
  | HandleEnergyDepletion callback rest _ _ => intro w hn; simp [Script.noCallback] at hn
  | HandleEnergyRecharged callback rest _ _ => intro w hn; simp [Script.noCallback] at hn
  | SetTxCurrentFromModel txPowerDbm rest _ => intro w hn; simp [Script.noCallback] at hn
  | GetTotalEnergyConsumption inner rest _ _ => intro w hn; simp [Script.noCallback] at hn
  | Notify n inner rest _ _ => intro w hn; simp [Script.noCallback] at hn

/-- The full path of `ChangeState`, in terms of the world on entry. -/
theorem ChangeState_full_elim {U : World → Except Failure World} {s : State} {w w1 : World}
    (hfull : ¬ ((w.model.m_nPendingChangeState + 1) % 256 > 1 ∧ s = State.OFF))
    (h : ChangeState U s w = Except.ok w1) :
    ∃ source current w2 w4, ChangeState_timer s (incPending w) = Except.ok w2 ∧
      w.model.m_source = some source ∧
      GetStateA w.model.m_currentState w.model = Except.ok current ∧
      w.model.m_lastUpdateTime ≤ w.sim.now ∧
      w.model.m_totalEnergyConsumption +
        (w.sim.now - w.model.m_lastUpdateTime) * current * source.supplyVoltage ≤ source.initialEnergy ∧
      U (ChangeState_accounted
        ((w.sim.now - w.model.m_lastUpdateTime) * current * source.supplyVoltage) w2) = Except.ok w4 ∧
      w1 = decPending (ChangeState_commit s w4) := by
  rcases ChangeState_elim h with ⟨hgt, hs, -⟩ | ⟨-, w2, w3, w4, h2, h3, h4, rfl⟩
  · exact absurd ⟨hgt, hs⟩ hfull
  · obtain ⟨source, current, hsrc, hcur, hle, htot, rfl⟩ := ChangeState_account_elim h3
    obtain ⟨hm, hnow⟩ := ChangeState_timer_shape h2
    have hsrc2 : w.model.m_source = some source := by
      rw [hm] at hsrc
      exact hsrc
    have hcur2 : GetStateA w.model.m_currentState w.model = Except.ok current := by
      rw [hm] at hcur
      cases hst : w.model.m_currentState <;>
        simp only [GetStateA, incPending, hst] at hcur ⊢ <;> exact hcur
    have hlast : w2.model.m_lastUpdateTime = w.model.m_lastUpdateTime := by rw [hm]; rfl
    have htotal : w2.model.m_totalEnergyConsumption = w.model.m_totalEnergyConsumption := by
      rw [hm]; rfl
    have hnow2 : w2.sim.now = w.sim.now := hnow
    rw [hlast, hnow2] at hle
    rw [hlast, hnow2, htotal] at htot
    rw [hlast, hnow2] at h4
    exact ⟨source, current, w2, w4, h2, hsrc2, hcur2, hle, htot, h4, rfl⟩

theorem model_commit (s : State) (w : World) :
    (ChangeState_commit s w).model = w.model ∨
      (ChangeState_commit s w).model = { w.model with m_currentState := s } := by
  unfold ChangeState_commit
  split
  · right; rfl
  · left; rfl

theorem total_commit (s : State) (w : World) :
    (ChangeState_commit s w).model.m_totalEnergyConsumption = w.model.m_totalEnergyConsumption := by
  rcases model_commit s w with h | h <;> rw [h]

theorem last_commit (s : State) (w : World) :
    (ChangeState_commit s w).model.m_lastUpdateTime = w.model.m_lastUpdateTime := by
  rcases model_commit s w with h | h <;> rw [h]

theorem sim_commit (s : State) (w : World) : (ChangeState_commit s w).sim = w.sim := by
  unfold ChangeState_commit
  split <;> rfl

theorem stateCurrent_congr {m1 m2 : BleRadioEnergyModel}
    (htx : m1.m_txCurrentA = m2.m_txCurrentA) (hrx : m1.m_rxCurrentA = m2.m_rxCurrentA)
    (hidle : m1.m_idleCurrentA = m2.m_idleCurrentA) : stateCurrent m1 = stateCurrent m2 := by
  funext state
  cases state <;> simp [stateCurrent, GetStateA, htx, hrx, hidle]

/-- One top-level request whose refresh makes no callback and keeps the voltage `V`. -/
theorem Request.run_step (r : Request) (w w1 : World) (V : ℚ)
    (hdepth : w.model.m_nPendingChangeState = 0)
    (hV : ∀ source, w.model.m_source = some source → source.supplyVoltage = V)
    (hno : r.refresh.noCallback = true) (hk : r.refresh.keepsVoltage V = true)
    (h : r.run w = Except.ok w1) :
    w1.model.m_totalEnergyConsumption = w.model.m_totalEnergyConsumption +
        (r.t - w.model.m_lastUpdateTime) * stateCurrent w.model w.model.m_currentState * V ∧
      w1.model.m_lastUpdateTime = r.t ∧
      w1.model.m_currentState = committedState w.model.m_currentState r.newState ∧
      w1.model.m_nPendingChangeState = 0 ∧
      (∀ source, w1.model.m_source = some source → source.supplyVoltage = V) ∧
      stateCurrent w1.model = stateCurrent w.model := by
  unfold Request.run at h
  have hfull : ¬ (((atTime r.t w).model.m_nPendingChangeState + 1) % 256 > 1 ∧
      r.newState = State.OFF) := by
    rintro ⟨hgt, -⟩
    have : (atTime r.t w).model.m_nPendingChangeState = 0 := hdepth
    rw [this] at hgt
    omega
  obtain ⟨source, current, w2, w4, h2, hsrc, hcur, -, -, h4, rfl⟩ := ChangeState_full_elim hfull h
  obtain ⟨hm, hnow⟩ := ChangeState_timer_shape h2
  obtain ⟨o, ho, -, hoV⟩ := Script.run_noCallback r.refresh
    (ChangeState_accounted (((atTime r.t w).sim.now - (atTime r.t w).model.m_lastUpdateTime) *
      current * source.supplyVoltage) w2) hno
  rw [ho, Except.ok.injEq] at h4
  have hsV : source.supplyVoltage = V := hV source hsrc
  have hcur2 : stateCurrent w.model w.model.m_currentState = current := by
    have : GetStateA w.model.m_currentState w.model = Except.ok current := hcur
    simp [stateCurrent, this]
  have hst4 : w4.model.m_currentState = w.model.m_currentState := by
    rw [← h4]
    show w2.model.m_currentState = _
    rw [hm]
    rfl
  have hp4 : w4.model.m_nPendingChangeState = 1 := by
    rw [← h4]
    show w2.model.m_nPendingChangeState = _
    rw [hm]
    show (w.model.m_nPendingChangeState + 1) % 256 = 1
    rw [hdepth]
  have hsrc2 : w2.model.m_source = some source := by
    rw [hm]
    exact hsrc
  refine ⟨?_, ?_, ?_, ?_, ?_, ?_⟩
  · rw [show (decPending (ChangeState_commit r.newState w4)).model.m_totalEnergyConsumption =
      (ChangeState_commit r.newState w4).model.m_totalEnergyConsumption from rfl, total_commit,
      ← h4, hcur2, ← hsV]
    show w2.model.m_totalEnergyConsumption + _ = _
    rw [hm]
    rfl
  · rw [show (decPending (ChangeState_commit r.newState w4)).model.m_lastUpdateTime =
      (ChangeState_commit r.newState w4).model.m_lastUpdateTime from rfl, last_commit, ← h4]
    exact hnow
  · show (ChangeState_commit r.newState w4).model.m_currentState = _
    unfold ChangeState_commit committedState
    by_cases hoff : w.model.m_currentState = State.OFF
    · simp [hst4, hoff]
    · simp [hst4, hoff, hp4, SetBleRadioState]
  · rw [pending_decPending, pending_commit, hp4]
  · intro src hsrc1
    have hsrc4 : w4.model.m_source = some src := by
      rcases model_commit r.newState w4 with hc | hc
      · have := hsrc1
        rw [show (decPending (ChangeState_commit r.newState w4)).model.m_source =
          (ChangeState_commit r.newState w4).model.m_source from rfl, hc] at this
        exact this
      · have := hsrc1
        rw [show (decPending (ChangeState_commit r.newState w4)).model.m_source =
          (ChangeState_commit r.newState w4).model.m_source from rfl, hc] at this
        exact this
    rw [← h4] at hsrc4
    refine hoV V hk ?_ src hsrc4
    intro x hx
    have hx2 : w2.model.m_source = some x := hx
    rw [hsrc2] at hx2
    rw [← Option.some.inj hx2]
    exact hsV
  · apply stateCurrent_congr
    · rcases model_commit r.newState w4 with hc | hc <;>
        rw [show (decPending (ChangeState_commit r.newState w4)).model.m_txCurrentA =
          (ChangeState_commit r.newState w4).model.m_txCurrentA from rfl, hc, ← h4] <;>
        show w2.model.m_txCurrentA = _ <;> rw [hm] <;> rfl
    · rcases model_commit r.newState w4 with hc | hc <;>
        rw [show (decPending (ChangeState_commit r.newState w4)).model.m_rxCurrentA =
          (ChangeState_commit r.newState w4).model.m_rxCurrentA from rfl, hc, ← h4] <;>
        show w2.model.m_rxCurrentA = _ <;> rw [hm] <;> rfl
    · rcases model_commit r.newState w4 with hc | hc <;>
        rw [show (decPending (ChangeState_commit r.newState w4)).model.m_idleCurrentA =
          (ChangeState_commit r.newState w4).model.m_idleCurrentA from rfl, hc, ← h4] <;>
        show w2.model.m_idleCurrentA = _ <;> rw [hm] <;> rfl

/-- The stored total after a series of top-level requests without callbacks. -/
theorem runRequests_total (V : ℚ) :
    ∀ (rs : List Request) (w w1 : World), w.model.m_nPendingChangeState = 0 →
      (∀ source, w.model.m_source = some source → source.supplyVoltage = V) →
      (∀ r ∈ rs, r.refresh.noCallback = true ∧ r.refresh.keepsVoltage V = true) →
      runRequests rs w = Except.ok w1 →
      w1.model.m_totalEnergyConsumption = w.model.m_totalEnergyConsumption +
        intervalEnergy (stateCurrent w.model) V w.model.m_lastUpdateTime w.model.m_currentState
          (rs.map (fun r => (r.t, r.newState))) := by
  intro rs
  induction rs with
  | nil =>
    intro w w1 _ _ _ h
    simp only [runRequests, Except.ok.injEq] at h
    simp [intervalEnergy, h]
  | cons r rs ih =>
    intro w w1 hdepth hV hall h
    simp only [runRequests] at h
    cases hr : r.run w with
    | error e => simp [hr] at h
    | ok w2 =>
      simp only [hr] at h
      have hr0 := hall r (List.mem_cons_self r rs)
      obtain ⟨htot, hlast, hst, hd2, hV2, hcur⟩ := Request.run_step r w w2 V hdepth hV hr0.1 hr0.2 hr
      have := ih w2 w1 hd2 hV2 (fun x hx => hall x (List.mem_cons_of_mem r hx)) h
      rw [this, htot, hlast, hst, hcur]
      simp only [List.map_cons, intervalEnergy]
      ring

/-! ## Steps of the simulation -/

/-- A relation kept by every call, by `SetEnergySource`, by the moves of the clock and by
the removal of a pending event is kept by every series of steps. -/
theorem kept_ops {R : World → World → Prop} (hR : Kept R)
    (hSet : ∀ source w w1, SetEnergySource source w = Except.ok w1 → R w w1)
    (hAdv : ∀ t w, R w (atTime t w))
    (hPop : ∀ (w : World) (e : Event), e ∈ w.sim.m_events →
      R w { w with sim := { w.sim with now := e.ts, m_events := w.sim.m_events.erase e } }) :
    ∀ (ops : List Op) (w w1 : World), runOps ops w = Except.ok w1 → R w w1 := by
  intro ops
  induction ops with
  | nil =>
    intro w w1 h
    simp only [runOps, Except.ok.injEq] at h
    rw [← h]
    exact hR.refl w
  | cons op ops ih =>
    intro w w1 h
    simp only [runOps] at h
    cases hop : op.run w with
    | error e => simp [hop] at h
    | ok w2 =>
      simp only [hop] at h
      refine hR.trans _ _ _ ?_ (ih _ _ h)
      cases op with
      | SetEnergySource source => exact hSet source w w2 hop
      | calls s => exact kept_script hR s w w2 hop
      | advance t =>
        simp only [Op.run, Except.ok.injEq] at hop
        rw [← hop]
        exact hAdv t w
      | fire inner uid =>
        simp only [Op.run, fire] at hop
        cases hf : w.sim.m_events.find? (fun e => e.uid == uid) with
        | none =>
          simp only [hf, Except.ok.injEq] at hop
          rw [← hop]
          exact hR.refl w
        | some e =>
          simp only [hf] at hop
          have hmem : e ∈ w.sim.m_events := List.mem_of_find?_eq_some hf
          refine hR.trans _ _ _ (hPop w e hmem) ?_
          cases hk : e.kind with
          | SwitchToOff =>
            simp only [hk] at hop
            exact hR.changeState _ _ _ _ (kept_script hR inner) hop
          | SwitchToIdle =>
            simp only [hk, SwitchToIdle] at hop
            split at hop
            · simp at hop
            · exact hR.changeState _ _ _ _ (kept_script hR inner) hop

theorem SetEnergySource_elim {source : EnergySource} {w w1 : World}
    (h : SetEnergySource source w = Except.ok w1) :
    ∃ d, GetMaximumTimeInState w.model.m_currentState (withSource (some source) w).model = Except.ok d ∧
      w1 = rescheduleSwitchToOff d (withSource (some source) w) := by
  unfold SetEnergySource at h
  cases hd : GetMaximumTimeInState w.model.m_currentState (withSource (some source) w).model with
  | error e =>
    have : GetMaximumTimeInState w.model.m_currentState
        { w.model with m_source := some source } = Except.error e := hd
    simp [this] at h
  | ok d =>
    have hd2 : GetMaximumTimeInState w.model.m_currentState
        { w.model with m_source := some source } = Except.ok d := hd
    simp only [hd2, Except.ok.injEq] at h
    exact ⟨d, rfl, h.symm⟩

theorem GetMaximumTimeInState_off (m : BleRadioEnergyModel) :
    GetMaximumTimeInState State.OFF m = Except.error Failure.fatalMaximumTimeOff := by
  simp [GetMaximumTimeInState]

/-- Steps of the simulation never leave the state `OFF`. -/
theorem runOps_staysOff {ops : List Op} {w w1 : World} (h : runOps ops w = Except.ok w1)
    (hoff : w.model.m_currentState = State.OFF) : w1.model.m_currentState = State.OFF := by
  refine kept_ops staysOff_kept ?_ ?_ ?_ ops w w1 h hoff
  · intro source w w1 hs hoff
    obtain ⟨d, hd, -⟩ := SetEnergySource_elim hs
    rw [hoff, GetMaximumTimeInState_off] at hd
    cases hd
  · intro t w hoff
    exact hoff
  · intro w e _ hoff
    exact hoff

/-! ## The timers -/

theorem cancel_uid (id : EventId) (sim : Simulator) : (sim.Cancel id).m_uid = sim.m_uid := by
  cases id <;> rfl

theorem cancel_now (id : EventId) (sim : Simulator) : (sim.Cancel id).now = sim.now := by
  cases id <;> rfl

theorem cancel_sublist (id : EventId) (sim : Simulator) :
    (sim.Cancel id).m_events.Sublist sim.m_events := by
  cases id with
  | none => exact List.Sublist.refl _
  | some u => exact List.filter_sublist _

theorem cancel_not_mem (u : Nat) (sim : Simulator) (e : Event)
    (he : e ∈ (sim.Cancel (some u)).m_events) : e.uid ≠ u := by
  simp only [Simulator.Cancel, List.mem_filter, bne_iff_ne, ne_eq] at he
  exact he.2

/-- The pending events after `id.Cancel ()` followed by a `Schedule` of kind `k`, when the
pending events of kind `k` were all named by `id`. -/
theorem events_reschedule (sim : Simulator) (id : EventId) (k : EventKind) (ts : ℚ)
    (hnodup : (sim.m_events.map Event.uid).Nodup)
    (hfresh : ∀ e ∈ sim.m_events, e.uid < sim.m_uid)
    (hk : ∀ e ∈ sim.m_events, e.kind = k → id = some e.uid) :
    (((sim.Cancel id).m_events ++ [({ uid := sim.m_uid, ts := ts, kind := k } : Event)]).map Event.uid).Nodup ∧
      (∀ e ∈ (sim.Cancel id).m_events ++ [({ uid := sim.m_uid, ts := ts, kind := k } : Event)],
        e.uid < sim.m_uid + 1) ∧
      (∀ e ∈ (sim.Cancel id).m_events ++ [({ uid := sim.m_uid, ts := ts, kind := k } : Event)],
        e.kind = k → e = ({ uid := sim.m_uid, ts := ts, kind := k } : Event)) ∧
      (∀ e ∈ (sim.Cancel id).m_events ++ [({ uid := sim.m_uid, ts := ts, kind := k } : Event)],
        e.kind ≠ k → e ∈ sim.m_events) := by
  have hsub := cancel_sublist id sim
  refine ⟨?_, ?_, ?_, ?_⟩
  · rw [List.map_append, List.nodup_append]
    refine ⟨(hsub.map Event.uid).nodup hnodup, by simp, ?_⟩
    intro a ha hb
    simp only [List.map_cons, List.map_nil, List.mem_singleton] at hb
    obtain ⟨e, he, rfl⟩ := List.mem_map.mp ha
    have := hfresh e (hsub.subset he)
    omega
  · intro e he
    rcases List.mem_append.mp he with h | h
    · have := hfresh e (hsub.subset h)
      omega
    · simp only [List.mem_singleton] at h
      rw [h]
      exact Nat.lt_succ_self _
  · intro e he hkind
    rcases List.mem_append.mp he with h | h
    · exfalso
      have hid := hk e (hsub.subset h) hkind
      rw [hid] at h
      exact cancel_not_mem e.uid sim e h rfl
    · simpa using h
  · intro e he hkind
    rcases List.mem_append.mp he with h | h
    · exact hsub.subset h
    · simp only [List.mem_singleton] at h
      rw [h] at hkind
      exact absurd rfl hkind

/-- The invariant depends only on the pending events, the next uid and the two ids. -/
theorem timerInv_congr {w w1 : World} (hinv : TimerInv w)
    (he : w1.sim.m_events.Sublist w.sim.m_events) (hu : w1.sim.m_uid = w.sim.m_uid)
    (hoff : w1.model.m_switchToOffEvent = w.model.m_switchToOffEvent)
    (hidle : w1.model.m_listener.m_switchToIdleEvent = w.model.m_listener.m_switchToIdleEvent) :
    TimerInv w1 where
  nodup := (he.map Event.uid).nodup hinv.nodup
  fresh := fun e h => by rw [hu]; exact hinv.fresh e (he.subset h)
  off := fun e h hk => by rw [hoff]; exact hinv.off e (he.subset h) hk
  idle := fun e h hk => by rw [hidle]; exact hinv.idle e (he.subset h) hk

theorem timerInv_rescheduleSwitchToOff (d : ℚ) {w : World} (hinv : TimerInv w) :
    TimerInv (rescheduleSwitchToOff d w) := by
  obtain ⟨h1, h2, h3, h4⟩ := events_reschedule w.sim w.model.m_switchToOffEvent
    EventKind.SwitchToOff (w.sim.now + d) hinv.nodup hinv.fresh hinv.off
  have hev : (rescheduleSwitchToOff d w).sim.m_events =
      (w.sim.Cancel w.model.m_switchToOffEvent).m_events ++
        [({ uid := w.sim.m_uid, ts := w.sim.now + d, kind := EventKind.SwitchToOff } : Event)] := by
    simp only [rescheduleSwitchToOff, Simulator.Schedule, cancel_uid, cancel_now]
  have hu : (rescheduleSwitchToOff d w).sim.m_uid = w.sim.m_uid + 1 := by
    simp only [rescheduleSwitchToOff, Simulator.Schedule, cancel_uid]
  have hid : (rescheduleSwitchToOff d w).model.m_switchToOffEvent = some w.sim.m_uid := by
    simp only [rescheduleSwitchToOff, Simulator.Schedule, cancel_uid]
  refine ⟨by rw [hev]; exact h1, by rw [hev, hu]; exact h2, ?_, ?_⟩
  · intro e he hk
    rw [hev] at he
    rw [hid, h3 e he hk]
  · intro e he hk
    rw [hev] at he
    have hne : e.kind ≠ EventKind.SwitchToOff := by rw [hk]; decide
    exact hinv.idle e (h4 e he hne) hk

theorem timerInv_rescheduleSwitchToIdle (d : ℚ) {w : World} (hinv : TimerInv w) :
    TimerInv (rescheduleSwitchToIdle d w) := by
  obtain ⟨h1, h2, h3, h4⟩ := events_reschedule w.sim w.model.m_listener.m_switchToIdleEvent
    EventKind.SwitchToIdle (w.sim.now + d) hinv.nodup hinv.fresh hinv.idle
  have hev : (rescheduleSwitchToIdle d w).sim.m_events =
      (w.sim.Cancel w.model.m_listener.m_switchToIdleEvent).m_events ++
        [({ uid := w.sim.m_uid, ts := w.sim.now + d, kind := EventKind.SwitchToIdle } : Event)] := by
    simp only [rescheduleSwitchToIdle, Simulator.Schedule, cancel_uid, cancel_now]
  have hu : (rescheduleSwitchToIdle d w).sim.m_uid = w.sim.m_uid + 1 := by
    simp only [rescheduleSwitchToIdle, Simulator.Schedule, cancel_uid]
  have hid : (rescheduleSwitchToIdle d w).model.m_listener.m_switchToIdleEvent =
      some w.sim.m_uid := by
    simp only [rescheduleSwitchToIdle, Simulator.Schedule, cancel_uid]
  refine ⟨by rw [hev]; exact h1, by rw [hev, hu]; exact h2, ?_, ?_⟩
  · intro e he hk
    rw [hev] at he
    have hne : e.kind ≠ EventKind.SwitchToIdle := by rw [hk]; decide
    exact hinv.off e (h4 e he hne) hk
  · intro e he hk
    rw [hev] at he
    rw [hid, h3 e he hk]

theorem timerInv_timer {s : State} {w w2 : World} (h : ChangeState_timer s w = Except.ok w2)
    (hinv : TimerInv w) : TimerInv w2 := by
  rcases ChangeState_timer_elim h with ⟨-, rfl⟩ | ⟨-, d, -, rfl⟩
  · exact hinv
  · exact timerInv_rescheduleSwitchToOff d hinv

theorem timerInv_commit (s : State) {w : World} (hinv : TimerInv w) :
    TimerInv (ChangeState_commit s w) := by
  unfold ChangeState_commit
  split
  · exact timerInv_congr hinv (List.Sublist.refl _) rfl rfl rfl
  · exact hinv

/-- The relation "if the timers were well-formed before, they are after". -/
theorem timerInv_kept : Kept (fun w w1 => TimerInv w → TimerInv w1) where
  refl := fun _ h => h
  trans := fun _ _ _ h1 h2 h => h2 (h1 h)
  readings := fun source w hinv => by
    unfold setReadings
    cases hs : w.model.m_source with
    | none => exact hinv
    | some old => exact timerInv_congr hinv (List.Sublist.refl _) rfl rfl rfl
  changeState := by
    intro U s w w1 hU h hinv
    rcases ChangeState_elim h with ⟨-, -, rfl⟩ | ⟨-, w2, w3, w4, h2, h3, h4, rfl⟩
    · exact timerInv_congr hinv (List.Sublist.refl _) rfl rfl rfl
    · have i1 : TimerInv (incPending w) := timerInv_congr hinv (List.Sublist.refl _) rfl rfl rfl
      have i2 := timerInv_timer h2 i1
      obtain ⟨source, current, -, -, -, -, rfl⟩ := ChangeState_account_elim h3
      have i3 : TimerInv (ChangeState_accounted
          ((w2.sim.now - w2.model.m_lastUpdateTime) * current * source.supplyVoltage) w2) :=
        timerInv_congr i2 (List.Sublist.refl _) rfl rfl rfl
      have i4 := hU _ _ h4 i3
      exact timerInv_congr (timerInv_commit s i4) (List.Sublist.refl _) rfl rfl rfl
  energyChanged := by
    intro w w1 h hinv
    unfold HandleEnergyChanged at h
    split at h
    · cases hd : GetMaximumTimeInState w.model.m_currentState w.model with
      | error e => simp [hd] at h
      | ok d =>
        simp only [hd, Except.ok.injEq] at h
        rw [← h]
        exact timerInv_rescheduleSwitchToOff d hinv
    · simp only [Except.ok.injEq] at h
      rw [← h]
      exact hinv
  setTx := fun p w hinv => by
    unfold SetTxCurrentFromModel
    cases hs : w.model.m_txCurrentModel with
    | none => exact hinv
    | some f => exact timerInv_congr hinv (List.Sublist.refl _) rfl rfl rfl
  cancelIdle := fun w hinv =>
    timerInv_congr hinv (cancel_sublist _ _) (cancel_uid _ _) rfl rfl
  rescheduleIdle := fun d _ hinv => timerInv_rescheduleSwitchToIdle d hinv

/-- Steps of the simulation keep the timers well-formed. -/
theorem runOps_timerInv {ops : List Op} {w w1 : World} (h : runOps ops w = Except.ok w1)
    (hinv : TimerInv w) : TimerInv w1 := by
  refine kept_ops timerInv_kept ?_ ?_ ?_ ops w w1 h hinv
  · intro source w w1 hs hinv
    obtain ⟨d, -, rfl⟩ := SetEnergySource_elim hs
    exact timerInv_rescheduleSwitchToOff d
      (timerInv_congr hinv (List.Sublist.refl _) rfl rfl rfl)
  · intro t w hinv
    exact timerInv_congr hinv (List.Sublist.refl _) rfl rfl rfl
  · intro w e _ hinv
    exact timerInv_congr hinv (List.erase_sublist e _) rfl rfl rfl

theorem timerInv_initial (a : Attributes) : TimerInv (World.initial a) where
  nodup := List.nodup_nil
  fresh := fun e h => by cases h
  off := fun e h => by cases h
  idle := fun e h => by cases h

/-- Events with distinct uids that all carry the uid named by one id are at most one. -/
theorem length_le_one_of_same_uid (l : List Event) (id : EventId)
    (hnodup : (l.map Event.uid).Nodup) (hid : ∀ e ∈ l, id = some e.uid) : l.length ≤ 1 := by
  match l, hnodup, hid with
  | [], _, _ => simp
  | [_], _, _ => simp
  | a :: b :: t, hnodup, hid =>
    exfalso
    have ha := hid a (by simp)
    have hb := hid b (by simp)
    have hab : a.uid = b.uid := Option.some.inj (ha.symm.trans hb)
    simp only [List.map_cons, List.nodup_cons, List.mem_cons, List.mem_map] at hnodup
    exact hnodup.1 (Or.inl hab)

/-- With well-formed timers at most one forced-off event is pending. -/
theorem timerInv_pendingSwitchToOff {w : World} (hinv : TimerInv w) :
    (pendingSwitchToOff w).length ≤ 1 := by
  unfold pendingSwitchToOff
  refine length_le_one_of_same_uid _ w.model.m_switchToOffEvent
    (((List.filter_sublist _).map Event.uid).nodup hinv.nodup) ?_
  intro e he
  have hm := List.mem_filter.mp he
  exact hinv.off e hm.1 (by simpa using hm.2)

theorem GetMaximumTimeInState_elim {s : State} {m : BleRadioEnergyModel} {d : ℚ}
    (h : GetMaximumTimeInState s m = Except.ok d) :
    s ≠ State.OFF ∧ ∃ source current, m.m_source = some source ∧
      GetStateA s m = Except.ok current ∧ current * source.supplyVoltage ≠ 0 ∧
      d = source.remainingEnergy / (current * source.supplyVoltage) := by
  unfold GetMaximumTimeInState at h
  by_cases hs : s = State.OFF
  · simp [hs] at h
  · simp only [hs, if_false] at h
    refine ⟨hs, ?_⟩
    cases hsrc : m.m_source with
    | none => simp [hsrc] at h
    | some source =>
      simp only [hsrc] at h
      cases hc : GetStateA s m with
      | error e => simp [hc] at h
      | ok current =>
        simp only [hc] at h
        by_cases hz : current * source.supplyVoltage = 0
        · simp [hz] at h
        · simp only [hz, if_false, Except.ok.injEq] at h
          exact ⟨source, current, rfl, rfl, hz, h.symm⟩

theorem GetStateA_incPending (s : State) (w : World) :
    GetStateA s (incPending w).model = GetStateA s w.model := by
  cases s <;> rfl

theorem GetStateA_isOn {s : State} (m : BleRadioEnergyModel) (h : s.isOn = true) :
    GetStateA s m = Except.ok (stateCurrent m s) := by
  cases s <;> simp [State.isOn] at h <;> simp [stateCurrent, GetStateA]

/-! ## Claims -/

/-- C1 (re-entrancy guard).  For every requested state `X` and every world whose counter of
pending calls is 0: if, during the refresh of the source made by a top-level
`ChangeState (X)`, the depletion callback (set) calls `ChangeState (OFF)`, then, when the
outer call returns, `m_currentState` is `OFF` and the counter is 0 again. -/
theorem ChangeState_reentrant_off (X : State) (refresh : Script) (w w1 : World)
    (hdepth : w.model.m_nPendingChangeState = 0)
    (hset : w.model.m_energyDepletionCallback = true)
    (hcalls : refresh.depletionCallsOff = true)
    (h : ChangeState refresh.run X w = Except.ok w1) :
    w1.model.m_currentState = State.OFF ∧ w1.model.m_nPendingChangeState = 0 := by
  rcases ChangeState_elim h with ⟨hgt, -, -⟩ | ⟨-, w2, w3, w4, h2, h3, h4, rfl⟩
  · rw [pending_incPending, hdepth] at hgt
    omega
  · have e3 : w3.model.m_nPendingChangeState = 1 := by
      rw [pending_account h3, pending_timer h2, pending_incPending, hdepth]
    have hF := Script.run_frame h4
    have e4 : w4.model.m_nPendingChangeState = 1 := by rw [hF.pending (by omega), e3]
    have hcb3 : w3.model.m_energyDepletionCallback = true := by
      rw [(frame0_account h3).depletion, (frame0_timer h2).depletion]
      exact hset
    have hoff4 := Script.run_depletionCallsOff refresh w3 w4 hcalls hcb3 (by omega) (by omega) h4
    rw [state_commit_off hoff4]
    exact ⟨hoff4, by rw [pending_decPending, e4]⟩

/-- C1, witness: a top-level `ChangeState (TX)` on `exampleWorld` whose refresh runs
`depletionScript` returns, in state `OFF` with counter 0. -/
theorem ChangeState_reentrant_off_witness :
    ∃ w1, ChangeState depletionScript.run State.TX exampleWorld = Except.ok w1 ∧
      w1.model.m_currentState = State.OFF ∧ w1.model.m_nPendingChangeState = 0 := by
  have hex : ∃ w1, ChangeState depletionScript.run State.TX exampleWorld = Except.ok w1 := by
    simp [ChangeState, depletionScript, Script.run, HandleEnergyDepletion, exampleWorld,
      exampleSource, incPending, decPending, ChangeState_timer, ChangeState_account,
      ChangeState_accounted, ChangeState_commit, GetMaximumTimeInState, GetStateA,
      rescheduleSwitchToOff, SetBleRadioState, BleRadioEnergyModel.BleRadioEnergyModel,
      Attributes.default, Simulator.Cancel, Simulator.Schedule]
    norm_num
  obtain ⟨w1, h⟩ := hex
  exact ⟨w1, h, ChangeState_reentrant_off State.TX depletionScript exampleWorld w1 rfl rfl rfl h⟩

/-- C3 (accounting step).  Every `ChangeState (newState)` that takes the full path and does
not fail has `m_lastUpdateTime <= now`, and the world `w3` it hands to the refresh of the
source has stored total equal to the total on entry plus
`(now - m_lastUpdateTime) * current * supplyVoltage`, where `current` is the current of the
state held on entry (not of `newState`), and has `m_lastUpdateTime = now`; the call then
only commits the state and restores the counter. -/
theorem ChangeState_accounting (U : World → Except Failure World) (newState : State)
    (w w1 : World)
    (hfull : ¬ ((w.model.m_nPendingChangeState + 1) % 256 > 1 ∧ newState = State.OFF))
    (h : ChangeState U newState w = Except.ok w1) :
    ∃ source current w3 w4, w.model.m_source = some source ∧
      GetStateA w.model.m_currentState w.model = Except.ok current ∧
      w.model.m_lastUpdateTime ≤ w.sim.now ∧
      w3.model.m_totalEnergyConsumption = w.model.m_totalEnergyConsumption +
        (w.sim.now - w.model.m_lastUpdateTime) * current * source.supplyVoltage ∧
      w3.model.m_lastUpdateTime = w.sim.now ∧
      U w3 = Except.ok w4 ∧
      w1.model.m_totalEnergyConsumption = w4.model.m_totalEnergyConsumption ∧
      w1.model.m_lastUpdateTime = w4.model.m_lastUpdateTime := by
  obtain ⟨source, current, w2, w4, h2, hsrc, hcur, hle, -, h4, rfl⟩ := ChangeState_full_elim hfull h
  obtain ⟨hm, hnow⟩ := ChangeState_timer_shape h2
  refine ⟨source, current, _, w4, hsrc, hcur, hle, ?_, ?_, h4, ?_, ?_⟩
  · show w2.model.m_totalEnergyConsumption + _ = _
    rw [hm]
    rfl
  · exact hnow
  · exact total_commit newState w4
  · exact last_commit newState w4

/-- C3, witness: the model of `exampleWorld` (IDLE since t = 0, idle current 1e-6 A, 3 V),
asked for `TX` at t = 10 s, returns with exactly 3e-5 J accounted and time stamp 10. -/
theorem ChangeState_accounting_witness :
    ∃ w1, ChangeState Script.done.run State.TX exampleWorld = Except.ok w1 ∧
      w1.model.m_totalEnergyConsumption = 3 / 100000 ∧ w1.model.m_lastUpdateTime = 10 := by
  have hex : ∃ w1, ChangeState Script.done.run State.TX exampleWorld = Except.ok w1 := by
    simp [ChangeState, Script.run, exampleWorld,
      exampleSource, incPending, decPending, ChangeState_timer, ChangeState_account,
      ChangeState_accounted, ChangeState_commit, GetMaximumTimeInState, GetStateA,
      rescheduleSwitchToOff, SetBleRadioState, BleRadioEnergyModel.BleRadioEnergyModel,
      Attributes.default, Simulator.Cancel, Simulator.Schedule]
    norm_num
  obtain ⟨w1, h⟩ := hex
  obtain ⟨source, current, w3, w4, hsrc, hcur, -, htot, hlast, hU, h1, h2⟩ :=
    ChangeState_accounting Script.done.run State.TX exampleWorld w1 (by decide) h
  have hs : source = exampleSource := by
    have : some exampleSource = some source := hsrc
    exact (Option.some.inj this).symm
  have hc : current = 1 / 1000000 := by
    have : Except.ok (1 / 1000000 : ℚ) = Except.ok current := hcur
    exact (Except.ok.inj this).symm
  have h34 : w4 = w3 := by
    have : Except.ok w3 = Except.ok w4 := hU
    exact (Except.ok.inj this).symm
  refine ⟨w1, h, ?_, ?_⟩
  · rw [h1, h34, htot, hs, hc]
    show (0 : ℚ) + (10 - 0) * (1 / 1000000) * 3 = 3 / 100000
    norm_num
  · rw [h2, h34, hlast]
    rfl

/-- C4 (commit rule), as amended.  Let a call `ChangeState (newState)` that is not a nested
request for `OFF`, entered with counter at most 254, return.  The refresh of the source
starts from a world `w3` whose state is the one held on entry and leaves a world `w4`.
A top-level call (counter 0 on entry) ends in state `newState`, unless the refresh left
`OFF`, which is kept; when the refresh makes no callback that is: `newState` if the state
on entry was not `OFF`, and `OFF` otherwise.  A nested call (counter from 1 to 254 on
entry, `newState` other than `OFF`) does not write `m_currentState`: the state on return
is the one left by the refresh, which is the state on entry when the refresh makes no
callback. -/
theorem ChangeState_commit_rule (refresh : Script) (newState : State) (w w1 : World)
    (hcase : w.model.m_nPendingChangeState = 0 ∨ newState ≠ State.OFF)
    (hdepth : w.model.m_nPendingChangeState ≤ 254)
    (h : ChangeState refresh.run newState w = Except.ok w1) :
    ∃ w3 w4, w3.model.m_currentState = w.model.m_currentState ∧
      refresh.run w3 = Except.ok w4 ∧
      (w.model.m_nPendingChangeState = 0 →
        w1.model.m_currentState =
          (if w4.model.m_currentState = State.OFF then State.OFF else newState)) ∧
      (w.model.m_nPendingChangeState = 0 → refresh.noCallback = true →
        w1.model.m_currentState =
          (if w.model.m_currentState = State.OFF then State.OFF else newState)) ∧
      (1 ≤ w.model.m_nPendingChangeState →
        w1.model.m_currentState = w4.model.m_currentState) ∧
      (1 ≤ w.model.m_nPendingChangeState → refresh.noCallback = true →
        w1.model.m_currentState = w.model.m_currentState) := by
  have hfull : ¬ ((w.model.m_nPendingChangeState + 1) % 256 > 1 ∧ newState = State.OFF) := by
    rintro ⟨hgt, hs⟩
    rcases hcase with h0 | hne
    · rw [h0] at hgt
      omega
    · exact hne hs
  obtain ⟨source, current, w2, w4, h2, -, -, -, -, h4, rfl⟩ := ChangeState_full_elim hfull h
  have e3 : (ChangeState_accounted ((w.sim.now - w.model.m_lastUpdateTime) * current *
      source.supplyVoltage) w2).model.m_currentState = w.model.m_currentState := by
    show w2.model.m_currentState = _
    rw [state_timer h2]
    rfl
  have p3 : (ChangeState_accounted ((w.sim.now - w.model.m_lastUpdateTime) * current *
      source.supplyVoltage) w2).model.m_nPendingChangeState = w.model.m_nPendingChangeState + 1 := by
    show w2.model.m_nPendingChangeState = _
    rw [pending_timer h2, pending_incPending]
    omega
  have p4 : w4.model.m_nPendingChangeState = w.model.m_nPendingChangeState + 1 := by
    rw [(Script.run_frame h4).pending (by omega), p3]
  have hquiet : refresh.noCallback = true → w4.model.m_currentState = w.model.m_currentState := by
    intro hno
    obtain ⟨o, ho, -, -⟩ := Script.run_noCallback refresh _ hno
    have h4b := h4
    rw [ho, Except.ok.injEq] at h4b
    rw [← h4b]
    exact e3
  have htop : w.model.m_nPendingChangeState = 0 →
      (decPending (ChangeState_commit newState w4)).model.m_currentState =
        (if w4.model.m_currentState = State.OFF then State.OFF else newState) := by
    intro h0
    show (ChangeState_commit newState w4).model.m_currentState = _
    unfold ChangeState_commit
    have hle : w4.model.m_nPendingChangeState ≤ 1 := by omega
    by_cases hoff : w4.model.m_currentState = State.OFF
    · simp [hoff]
    · simp [hoff, hle, SetBleRadioState]
  have hnested : 1 ≤ w.model.m_nPendingChangeState →
      (decPending (ChangeState_commit newState w4)).model.m_currentState =
        w4.model.m_currentState := by
    intro h1
    show (ChangeState_commit newState w4).model.m_currentState = _
    unfold ChangeState_commit
    have hle : ¬ w4.model.m_nPendingChangeState ≤ 1 := by omega
    simp [hle]
  refine ⟨_, w4, e3, h4, htop, ?_, hnested, ?_⟩
  · intro h0 hno
    rw [htop h0, hquiet hno]
  · intro h1 hno
    rw [hnested h1, hquiet hno]

/-- C4, witness: a top-level `ChangeState (TX)` on `exampleWorld` (state `IDLE`) without
callbacks returns with state `TX`. -/
theorem ChangeState_commit_rule_witness :
    ∃ w1, ChangeState Script.done.run State.TX exampleWorld = Except.ok w1 ∧
      w1.model.m_currentState = State.TX := by
  have hex : ∃ w1, ChangeState Script.done.run State.TX exampleWorld = Except.ok w1 := by
    simp [ChangeState, Script.run, exampleWorld,
      exampleSource, incPending, decPending, ChangeState_timer, ChangeState_account,
      ChangeState_accounted, ChangeState_commit, GetMaximumTimeInState, GetStateA,
      rescheduleSwitchToOff, SetBleRadioState, BleRadioEnergyModel.BleRadioEnergyModel,
      Attributes.default, Simulator.Cancel, Simulator.Schedule]
    norm_num
  obtain ⟨w1, h⟩ := hex
  obtain ⟨w3, w4, -, -, -, hst, -, -⟩ :=
    ChangeState_commit_rule Script.done State.TX exampleWorld w1 (Or.inl rfl) (by decide) h
  refine ⟨w1, h, ?_⟩
  rw [hst rfl rfl]
  decide

/-- C4, counterexample to the claim as stated: a call entered with counter 255 (so nested)
for `TX`, on a model in state `IDLE`, writes `m_currentState`: the `uint8_t` counter wraps
to 0 and the call commits as if it were outermost. -/
theorem ChangeState_commit_rule_counterexample :
    1 ≤ deepWorld.model.m_nPendingChangeState ∧
      ∃ w1, ChangeState Script.done.run State.TX deepWorld = Except.ok w1 ∧
        deepWorld.model.m_currentState = State.IDLE ∧ w1.model.m_currentState = State.TX := by
  refine ⟨by decide, ?_⟩
  simp [ChangeState, Script.run, deepWorld, exampleWorld,
    exampleSource, incPending, decPending, ChangeState_timer, ChangeState_account,
    ChangeState_accounted, ChangeState_commit, GetMaximumTimeInState, GetStateA,
    rescheduleSwitchToOff, SetBleRadioState, BleRadioEnergyModel.BleRadioEnergyModel,
    Attributes.default, Simulator.Cancel, Simulator.Schedule]
  norm_num
  simp

/-- C5 (fast exit), as amended.  For every world with counter from 1 to 254 on entry,
`ChangeState (OFF)` returns the world on entry with `m_currentState` set to `OFF`: the
stored total, `m_lastUpdateTime`, the currents, the scheduler with its pending events,
`m_switchToOffEvent` and the counter are as on entry.  The result is the same for every
behaviour `U` of the source refresh, a failing one included: the source is not notified. -/
theorem ChangeState_fast_exit (U : World → Except Failure World) (w : World)
    (h1 : 1 ≤ w.model.m_nPendingChangeState) (h2 : w.model.m_nPendingChangeState ≤ 254) :
    ChangeState U State.OFF w = Except.ok (SetBleRadioState State.OFF w) := by
  rw [ChangeState_off_nested h1 h2]
  have e : ((w.model.m_nPendingChangeState + 1) % 256 + 255) % 256 =
      w.model.m_nPendingChangeState := by omega
  simp only [decPending, SetBleRadioState, incPending, e]

/-- C5, witness: with one call pending, `ChangeState (OFF)` on `nestedWorld` returns
`nestedWorld` with state `OFF`, even when a refresh of the source would fail. -/
theorem ChangeState_fast_exit_witness :
    ChangeState (fun _ => Except.error Failure.nullSource) State.OFF nestedWorld =
      Except.ok (SetBleRadioState State.OFF nestedWorld) :=
  ChangeState_fast_exit _ nestedWorld (by decide) (by decide)

/-- C5, counterexample to the claim as stated: entered with counter 255, `ChangeState (OFF)`
does not take the fast exit (the `uint8_t` counter wraps to 0).  It accounts the elapsed
interval, moving `m_lastUpdateTime` from 0 to 10 and the stored total from 0 to 3e-5 J,
and it refreshes the source: when the refresh fails, so does the call. -/
theorem ChangeState_fast_exit_counterexample :
    1 ≤ deepWorld.model.m_nPendingChangeState ∧ deepWorld.model.m_lastUpdateTime = 0 ∧
      deepWorld.model.m_totalEnergyConsumption = 0 ∧
      (∃ w1, ChangeState Script.done.run State.OFF deepWorld = Except.ok w1 ∧
        w1.model.m_lastUpdateTime = 10 ∧ w1.model.m_totalEnergyConsumption = 3 / 100000) ∧
      ChangeState (fun _ => Except.error Failure.nullSource) State.OFF deepWorld =
        Except.error Failure.nullSource := by
  refine ⟨by decide, rfl, rfl, ?_, ?_⟩
  · simp [ChangeState, Script.run, deepWorld, exampleWorld,
      exampleSource, incPending, decPending, ChangeState_timer, ChangeState_account,
      ChangeState_accounted, ChangeState_commit, GetStateA,
      SetBleRadioState, BleRadioEnergyModel.BleRadioEnergyModel,
      Attributes.default]
    norm_num
    simp
  · simp [ChangeState, deepWorld, exampleWorld,
      exampleSource, incPending, ChangeState_timer, ChangeState_account,
      ChangeState_accounted, GetStateA, BleRadioEnergyModel.BleRadioEnergyModel,
      Attributes.default]
    norm_num

/-- C2 (energy integration).  Take a model in state `IDLE` with time stamp 0, stored total 0
and no call pending, attached to a source of voltage `V`, and any series of top-level
requests `(t_1, s_1), ..., (t_n, s_n)` whose refreshes make no callback and keep the
voltage `V` (the currents are then constant too).  If no call fails (which forces
`0 <= t_1 <= ... <= t_n`), the stored total after the last request is the sum, over the
intervals between consecutive requests, of interval length times the current of the state
held during the interval times `V`.  The series is arbitrary, so the same holds after the
k-th request of a longer series. -/
theorem total_eq_intervalEnergy (V : ℚ) (rs : List Request) (w w1 : World)
    (hstate : w.model.m_currentState = State.IDLE)
    (hlast : w.model.m_lastUpdateTime = 0)
    (htotal : w.model.m_totalEnergyConsumption = 0)
    (hdepth : w.model.m_nPendingChangeState = 0)
    (hV : ∀ source, w.model.m_source = some source → source.supplyVoltage = V)
    (hquiet : ∀ r ∈ rs, r.refresh.noCallback = true ∧ r.refresh.keepsVoltage V = true)
    (h : runRequests rs w = Except.ok w1) :
    w1.model.m_totalEnergyConsumption =
      intervalEnergy (stateCurrent w.model) V 0 State.IDLE (rs.map (fun r => (r.t, r.newState))) := by
  rw [runRequests_total V rs w w1 hdepth hV hquiet h, htotal, hlast, hstate, zero_add]

/-- C2, witness: on `exampleWorld` (idle current 1e-6 A, tx current 0.015 A, 3 V) the
requests `TX` at 10 s and `IDLE` at 12 s return with stored total
`10 * 1e-6 * 3 + 2 * 0.015 * 3` J. -/
theorem total_eq_intervalEnergy_witness :
    ∃ w1, runRequests exampleRequests exampleWorld = Except.ok w1 ∧
      w1.model.m_totalEnergyConsumption = 10 * (1 / 1000000) * 3 + 2 * (15 / 1000) * 3 := by
  have hex : ∃ w1, runRequests exampleRequests exampleWorld = Except.ok w1 := by
    repeat (first
      | simp [runRequests, exampleRequests, Request.run, atTime, ChangeState,
          Script.run, exampleWorld, exampleSource, incPending, decPending, ChangeState_timer,
          ChangeState_account, ChangeState_accounted, ChangeState_commit, GetMaximumTimeInState,
          GetStateA, rescheduleSwitchToOff, SetBleRadioState,
          BleRadioEnergyModel.BleRadioEnergyModel, Attributes.default, Simulator.Cancel,
          Simulator.Schedule]
      | norm_num)
  obtain ⟨w1, h⟩ := hex
  have hV : ∀ source, exampleWorld.model.m_source = some source → source.supplyVoltage = 3 := by
    intro source hs
    have : some exampleSource = some source := hs
    rw [← Option.some.inj this]
    rfl
  have hq : ∀ r ∈ exampleRequests,
      r.refresh.noCallback = true ∧ r.refresh.keepsVoltage 3 = true := by
    intro r hr
    simp only [exampleRequests, List.mem_cons, List.mem_singleton, List.not_mem_nil, or_false] at hr
    rcases hr with rfl | rfl <;> exact ⟨rfl, rfl⟩
  refine ⟨w1, h, ?_⟩
  rw [total_eq_intervalEnergy 3 exampleRequests exampleWorld w1 rfl rfl rfl rfl hV hq h]
  simp [exampleRequests, intervalEnergy, committedState, stateCurrent, GetStateA, exampleWorld,
    BleRadioEnergyModel.BleRadioEnergyModel, Attributes.default]
  norm_num

/-- C6 (`OFF` is terminal).  From a world whose state is `OFF`, every series of steps that
returns (calls of `ChangeState` for any state at any nesting depth, `HandleEnergyChanged`,
`HandleEnergyDepletion`, `HandleEnergyRecharged`, `SetTxCurrentFromModel`,
`GetTotalEnergyConsumption`, every notification of the listener, `On` and `Wakeup`
included, moves of the clock and firings of pending events) ends in state `OFF`, and the
current reported to the source, `DoGetCurrentA`, is 0. -/
theorem off_is_terminal (ops : List Op) (w w1 : World)
    (hoff : w.model.m_currentState = State.OFF) (h : runOps ops w = Except.ok w1) :
    w1.model.m_currentState = State.OFF ∧ DoGetCurrentA w1.model = Except.ok 0 := by
  have h1 := runOps_staysOff h hoff
  exact ⟨h1, by simp [DoGetCurrentA, GetStateA, h1]⟩

/-- C6, witness: on `offWorld` the steps `offOps` (`On`, `Wakeup`, a request for `TX`,
`HandleEnergyChanged`, a tx-current update, then the firing of a forced-off event)
return, and the state is still `OFF` with current 0. -/
theorem off_is_terminal_witness :
    ∃ w1, runOps offOps offWorld = Except.ok w1 ∧
      w1.model.m_currentState = State.OFF ∧ DoGetCurrentA w1.model = Except.ok 0 := by
  have hex : ∃ w1, runOps offOps offWorld = Except.ok w1 := by
    repeat (first
      | simp [runOps, offOps, offWorld, Op.run, fire, Notify, NotifyOn, NotifyWakeup,
          HandleEnergyChanged, SetTxCurrentFromModel, atTime, ChangeState,
          Script.run, exampleWorld, exampleSource, incPending, decPending, ChangeState_timer,
          ChangeState_account, ChangeState_accounted, ChangeState_commit, GetMaximumTimeInState,
          GetStateA, rescheduleSwitchToOff, SetBleRadioState,
          BleRadioEnergyModel.BleRadioEnergyModel, Attributes.default, Simulator.Cancel,
          Simulator.Schedule]
      | norm_num)
  obtain ⟨w1, h⟩ := hex
  exact ⟨w1, h, off_is_terminal offOps offWorld w1 rfl h⟩

/-- C8 (single forced-off timer).  In every world reached from construction by steps that
return (`SetEnergySource`, calls on the model and its listener at any nesting depth,
`HandleEnergyChanged` among them, moves of the clock, firings of pending events) at most
one forced-off event is pending, and it is the one named by `m_switchToOffEvent`, which the
next operation that schedules one cancels first. -/
theorem at_most_one_forced_off (a : Attributes) (ops : List Op) (w : World)
    (h : runOps ops (World.initial a) = Except.ok w) :
    (pendingSwitchToOff w).length ≤ 1 ∧
      ∀ e ∈ pendingSwitchToOff w, w.model.m_switchToOffEvent = some e.uid := by
  have hinv := runOps_timerInv h (timerInv_initial a)
  refine ⟨timerInv_pendingSwitchToOff hinv, ?_⟩
  intro e he
  have hm := List.mem_filter.mp he
  exact hinv.off e hm.1 (by simpa using hm.2)

/-- C8, witness: from construction with the default attributes the steps `lifeOps` (attach
the source, transmit at 10 s, revert to idle at 12 s) return, with at most one forced-off
event pending. -/
theorem at_most_one_forced_off_witness :
    ∃ w, runOps lifeOps (World.initial Attributes.default) = Except.ok w ∧
      (pendingSwitchToOff w).length ≤ 1 := by
  have hex : ∃ w, runOps lifeOps (World.initial Attributes.default) = Except.ok w := by
    repeat (first
      | simp [runOps, lifeOps, World.initial, Op.run, fire, Notify, NotifyTxStart, SwitchToIdle,
          SetEnergySource, SetTxCurrentFromModel, atTime, ChangeState, rescheduleSwitchToIdle,
          Script.run, exampleSource, incPending, decPending, ChangeState_timer,
          ChangeState_account, ChangeState_accounted, ChangeState_commit, GetMaximumTimeInState,
          GetStateA, rescheduleSwitchToOff, SetBleRadioState,
          BleRadioEnergyModel.BleRadioEnergyModel, Attributes.default, Simulator.Cancel,
          Simulator.Schedule]
      | norm_num)
  obtain ⟨w, h⟩ := hex
  exact ⟨w, h, (at_most_one_forced_off Attributes.default lifeOps w h).1⟩

/-- C9 (maximum time in state).  For every state `s` among `IDLE`, `RX`, `RX_BUSY`, `TX`,
`TX_BUSY` and every model attached to a source, with `current` the current of `s`:
`GetMaximumTimeInState (s)` returns `remainingEnergy / (current * supplyVoltage)`, from the
present readings of the source, whenever that quotient is a number, and has no value when
`current * supplyVoltage` is 0.  The function is `const`: it yields a value and no new
state of the model. -/
theorem GetMaximumTimeInState_value (s : State) (m : BleRadioEnergyModel) (source : EnergySource)
    (hs : s.isOn = true) (hsrc : m.m_source = some source) :
    GetStateA s m = Except.ok (stateCurrent m s) ∧
      (stateCurrent m s * source.supplyVoltage ≠ 0 →
        GetMaximumTimeInState s m =
          Except.ok (source.remainingEnergy / (stateCurrent m s * source.supplyVoltage))) ∧
      (stateCurrent m s * source.supplyVoltage = 0 →
        GetMaximumTimeInState s m = Except.error Failure.notFinite) := by
  have hcur := GetStateA_isOn m hs
  have hoff : s ≠ State.OFF := by
    intro he
    rw [he] at hs
    simp [State.isOn] at hs
  refine ⟨hcur, ?_, ?_⟩
  · intro hnz
    simp [GetMaximumTimeInState, hoff, hsrc, hcur, hnz]
  · intro hz
    simp [GetMaximumTimeInState, hoff, hsrc, hcur, hz]

/-- C9, witness: with 1 J left at 3 V and tx current 0.015 A, `GetMaximumTimeInState (TX)`
is `1 / (0.015 * 3)` s. -/
theorem GetMaximumTimeInState_value_witness :
    GetMaximumTimeInState State.TX exampleWorld.model = Except.ok (1 / (15 / 1000 * 3)) := by
  have h := (GetMaximumTimeInState_value State.TX exampleWorld.model exampleSource rfl rfl).2.1
  have hc : stateCurrent exampleWorld.model State.TX = 15 / 1000 := rfl
  rw [hc] at h
  exact h (by norm_num [exampleSource])

/-- C10 (failures of `GetMaximumTimeInState`).  For every model: the call fails with the
fatal error of the `OFF` state when `s` is `OFF`; it fails when `s` is none of the six
enumerators, with the fatal error of the undefined state as soon as a source is attached;
and for `IDLE`, `RX`, `RX_BUSY`, `TX`, `TX_BUSY` it raises neither fatal error, and returns
a value when a source is attached and `current * supplyVoltage` is not 0. -/
theorem GetMaximumTimeInState_failure (s : State) (m : BleRadioEnergyModel) :
    (s = State.OFF → GetMaximumTimeInState s m = Except.error Failure.fatalMaximumTimeOff) ∧
      (∀ raw, s = State.undefined raw →
        (∃ e, GetMaximumTimeInState s m = Except.error e) ∧
        (m.m_source.isSome = true →
          GetMaximumTimeInState s m = Except.error Failure.fatalUndefinedState)) ∧
      (s.isOn = true →
        GetMaximumTimeInState s m ≠ Except.error Failure.fatalMaximumTimeOff ∧
        GetMaximumTimeInState s m ≠ Except.error Failure.fatalUndefinedState ∧
        ∀ source, m.m_source = some source → stateCurrent m s * source.supplyVoltage ≠ 0 →
          ∃ d, GetMaximumTimeInState s m = Except.ok d) := by
  refine ⟨?_, ?_, ?_⟩
  · intro hs
    rw [hs]
    exact GetMaximumTimeInState_off m
  · intro raw hs
    rw [hs]
    cases hsrc : m.m_source with
    | none => exact ⟨⟨Failure.nullSource, by simp [GetMaximumTimeInState, hsrc]⟩, by simp⟩
    | some source =>
      have : GetMaximumTimeInState (State.undefined raw) m =
          Except.error Failure.fatalUndefinedState := by
        simp [GetMaximumTimeInState, hsrc, GetStateA]
      exact ⟨⟨_, this⟩, fun _ => this⟩
  · intro hs
    have hoff : s ≠ State.OFF := by
      intro he
      rw [he] at hs
      simp [State.isOn] at hs
    have hcur := GetStateA_isOn m hs
    cases hsrc : m.m_source with
    | none =>
      have : GetMaximumTimeInState s m = Except.error Failure.nullSource := by
        simp [GetMaximumTimeInState, hoff, hsrc]
      rw [this]
      exact ⟨by simp, by simp, by intro source h; cases h⟩
    | some source =>
      by_cases hz : stateCurrent m s * source.supplyVoltage = 0
      · have hv : GetMaximumTimeInState s m = Except.error Failure.notFinite := by
          simp [GetMaximumTimeInState, hoff, hsrc, hcur, hz]
        rw [hv]
        refine ⟨by simp, by simp, ?_⟩
        intro source2 h2 hnz
        rw [← Option.some.inj h2] at hnz
        exact absurd hz hnz
      · have hv : GetMaximumTimeInState s m =
            Except.ok (source.remainingEnergy / (stateCurrent m s * source.supplyVoltage)) := by
          simp [GetMaximumTimeInState, hoff, hsrc, hcur, hz]
        rw [hv]
        exact ⟨by simp, by simp, fun _ _ _ => ⟨_, rfl⟩⟩

/-- C11 (zero remaining energy), as amended.  For every state `s` among `IDLE`, `RX`,
`RX_BUSY`, `TX`, `TX_BUSY` and every model attached to a source whose remaining energy is
0: when the current of `s` times the supply voltage is not 0, `GetMaximumTimeInState (s)`
returns a duration of 0. -/
theorem GetMaximumTimeInState_zero_energy (s : State) (m : BleRadioEnergyModel)
    (source : EnergySource) (hs : s.isOn = true) (hsrc : m.m_source = some source)
    (hzero : source.remainingEnergy = 0)
    (hnz : stateCurrent m s * source.supplyVoltage ≠ 0) :
    GetMaximumTimeInState s m = Except.ok 0 := by
  have hcur := GetStateA_isOn m hs
  have hoff : s ≠ State.OFF := by
    intro he
    rw [he] at hs
    simp [State.isOn] at hs
  simp [GetMaximumTimeInState, hoff, hsrc, hcur, hnz, hzero]

/-- C11, witness: with the default tx current 0.015 A, at 3 V and with no energy left,
`GetMaximumTimeInState (TX)` is 0. -/
theorem GetMaximumTimeInState_zero_energy_witness :
    GetMaximumTimeInState State.TX emptyModel = Except.ok 0 :=
  GetMaximumTimeInState_zero_energy State.TX emptyModel emptySource rfl rfl rfl (by
    have hc : stateCurrent emptyModel State.TX = 15 / 1000 := rfl
    rw [hc]
    norm_num [emptySource])

/-- C11, counterexample to the claim as stated: with idle current configured to 0 A and no
energy left, the quotient `0 / (0 * 3)` is not a number: `GetMaximumTimeInState (IDLE)`
does not return a duration of 0. -/
theorem GetMaximumTimeInState_zero_energy_counterexample :
    zeroIdleModel.m_source = some emptySource ∧ emptySource.remainingEnergy = 0 ∧
      zeroIdleModel.m_idleCurrentA = 0 ∧
      GetMaximumTimeInState State.IDLE zeroIdleModel = Except.error Failure.notFinite ∧
      GetMaximumTimeInState State.IDLE zeroIdleModel ≠ Except.ok 0 := by
  have h : GetMaximumTimeInState State.IDLE zeroIdleModel = Except.error Failure.notFinite := by
    simp [GetMaximumTimeInState, GetStateA, zeroIdleModel, emptySource]
  refine ⟨rfl, rfl, rfl, h, ?_⟩
  rw [h]
  simp

/-! ## `GetTotalEnergyConsumption` -/

theorem sameStored_refl (w : World) : SameStored w w :=
  ⟨rfl, rfl, rfl, rfl, rfl⟩

theorem sameStored_trans {a b c : World} (h1 : SameStored a b) (h2 : SameStored b c) :
    SameStored a c :=
  ⟨h2.state.trans h1.state, h2.last.trans h1.last, h2.total.trans h1.total,
    h2.offEvent.trans h1.offEvent, h2.sim.trans h1.sim⟩

theorem sameStored_setReadings (source : EnergySource) (w : World) :
    SameStored w (setReadings source w) := by
  unfold setReadings
  cases h : w.model.m_source with
  | none => exact sameStored_refl w
  | some old => exact ⟨rfl, rfl, rfl, rfl, rfl⟩

theorem sameStored_setTx (p : ℚ) (w : World) : SameStored w (SetTxCurrentFromModel p w) := by
  unfold SetTxCurrentFromModel
  cases h : w.model.m_txCurrentModel with
  | none => exact sameStored_refl w
  | some f => exact ⟨rfl, rfl, rfl, rfl, rfl⟩

/-- A passive script leaves the stored state as it found it. -/
theorem Script.run_passive :
    ∀ (s : Script) (w w1 : World), s.passive = true → s.run w = Except.ok w1 →
      SameStored w w1 := by
  intro s
  induction s with
  | done =>
    intro w w1 _ h
    simp only [Script.run, Except.ok.injEq] at h
    rw [← h]
    exact sameStored_refl w
  | readings source rest ih =>
    intro w w1 hp h
    simp only [Script.passive] at hp
    simp only [Script.run] at h
    exact sameStored_trans (sameStored_setReadings source w) (ih _ _ hp h)
  | ChangeState newState inner rest _ _ => intro w w1 hp; simp [Script.passive] at hp
  | HandleEnergyChanged rest _ => intro w w1 hp; simp [Script.passive] at hp
  | HandleEnergyDepletion callback rest ihCallback ihRest =>
    intro w w1 hp h
    simp only [Script.passive, Bool.and_eq_true] at hp
    simp only [Script.run] at h
    cases hc : BleEnergy.HandleEnergyDepletion callback.run w with
    | error e => simp [hc] at h
    | ok w2 =>
      simp only [hc] at h
      refine sameStored_trans ?_ (ihRest _ _ hp.2 h)
      unfold BleEnergy.HandleEnergyDepletion at hc
      split at hc
      · exact ihCallback _ _ hp.1 hc
      · simp only [Except.ok.injEq] at hc
        rw [← hc]
        exact sameStored_refl w
  | HandleEnergyRecharged callback rest ihCallback ihRest =>
    intro w w1 hp h
    simp only [Script.passive, Bool.and_eq_true] at hp
    simp only [Script.run] at h
    cases hc : BleEnergy.HandleEnergyRecharged callback.run w with
    | error e => simp [hc] at h
    | ok w2 =>
      simp only [hc] at h
      refine sameStored_trans ?_ (ihRest _ _ hp.2 h)
      unfold BleEnergy.HandleEnergyRecharged at hc
      split at hc
      · exact ihCallback _ _ hp.1 hc
      · simp only [Except.ok.injEq] at hc
        rw [← hc]
        exact sameStored_refl w
  | SetTxCurrentFromModel txPowerDbm rest ih =>
    intro w w1 hp h
    simp only [Script.passive] at hp
    simp only [Script.run] at h
    exact sameStored_trans (sameStored_setTx txPowerDbm w) (ih _ _ hp h)
  | GetTotalEnergyConsumption inner rest ihInner ihRest =>
    intro w w1 hp h
    simp only [Script.passive, Bool.and_eq_true] at hp
    simp only [Script.run] at h
    cases hc : BleEnergy.GetTotalEnergyConsumption inner.run w with
    | error e => simp [hc] at h
    | ok r =>
      simp only [hc] at h
      obtain ⟨source, current, w2, -, -, -, hu, hr⟩ := GetTotalEnergyConsumption_elim hc
      rw [hr] at h
      exact sameStored_trans (ihInner _ _ hp.1 hu) (ihRest _ _ hp.2 h)
  | Notify n inner rest _ _ => intro w w1 hp; simp [Script.passive] at hp

/-- C12 (lazy read).  For every model attached to a source, in a state with a current, with
`m_lastUpdateTime <= now`, and every refresh of the source that makes no callback:
`GetTotalEnergyConsumption` returns the stored total plus
`(now - m_lastUpdateTime) * current * supplyVoltage`, with `current` the current of the
present state and the voltage read on entry; in state `OFF` it returns exactly the stored
total.  The world it leaves differs from the one on entry at most in the readings of the
source. -/
theorem GetTotalEnergyConsumption_value (refresh : Script) (w : World) (source : EnergySource)
    (current : ℚ) (hno : refresh.noCallback = true)
    (hsrc : w.model.m_source = some source)
    (hcur : GetStateA w.model.m_currentState w.model = Except.ok current)
    (hle : w.model.m_lastUpdateTime ≤ w.sim.now) :
    ∃ o, GetTotalEnergyConsumption refresh.run w =
        Except.ok (w.model.m_totalEnergyConsumption +
          (w.sim.now - w.model.m_lastUpdateTime) * current * source.supplyVoltage,
          withSource o w) ∧
      (w.model.m_currentState = State.OFF →
        GetTotalEnergyConsumption refresh.run w =
          Except.ok (w.model.m_totalEnergyConsumption, withSource o w)) := by
  obtain ⟨o, ho, -, -⟩ := Script.run_noCallback refresh w hno
  have hd : 0 ≤ w.sim.now - w.model.m_lastUpdateTime := by linarith
  have hval : GetTotalEnergyConsumption refresh.run w =
      Except.ok (w.model.m_totalEnergyConsumption +
        (w.sim.now - w.model.m_lastUpdateTime) * current * source.supplyVoltage,
        withSource o w) := by
    unfold GetTotalEnergyConsumption
    simp only [hd, not_true_eq_false, if_false, hsrc, hcur, ho]
    rfl
  refine ⟨o, hval, ?_⟩
  intro hoff
  rw [hoff] at hcur
  have hc0 : current = 0 := by
    have : Except.ok (0 : ℚ) = Except.ok current := hcur
    exact (Except.ok.inj this).symm
  rw [hval, hc0]
  simp

/-- C12, witness: on `exampleWorld` (IDLE since 0, now 10 s, idle current 1e-6 A, 3 V,
stored total 0) `GetTotalEnergyConsumption` returns `0 + 10 * 1e-6 * 3` J. -/
theorem GetTotalEnergyConsumption_value_witness :
    ∃ o, GetTotalEnergyConsumption Script.done.run exampleWorld =
      Except.ok (0 + (10 - 0) * (1 / 1000000) * 3, withSource o exampleWorld) := by
  obtain ⟨o, h, -⟩ := GetTotalEnergyConsumption_value Script.done exampleWorld exampleSource
    (1 / 1000000) rfl rfl rfl (by norm_num [exampleWorld,
      BleRadioEnergyModel.BleRadioEnergyModel])
  exact ⟨o, h⟩

/-- C13 (no mutation), as amended.  `GetTotalEnergyConsumption` writes nothing itself: the
world it leaves is the one left by the refresh of the source.  So for every refresh that
makes no state-change request, no call of `HandleEnergyChanged` and no notification to the
listener (it may invoke the depletion and the recharge callback, set or not, whose bodies
make none either), the state, `m_lastUpdateTime`, the stored total and the forced-off
timer (`m_switchToOffEvent` and the scheduler) are the same after the call as before. -/
theorem GetTotalEnergyConsumption_frame (refresh : Script) (w : World) (r : ℚ × World)
    (h : GetTotalEnergyConsumption refresh.run w = Except.ok r) :
    refresh.run w = Except.ok r.2 ∧ (refresh.passive = true → SameStored w r.2) := by
  obtain ⟨source, current, w1, -, -, -, hu, hr⟩ := GetTotalEnergyConsumption_elim h
  rw [hr]
  exact ⟨hu, fun hp => Script.run_passive refresh w w1 hp hu⟩

/-- C13, witness: on `exampleWorld`, a refresh that invokes both callbacks (set), whose
bodies call nothing, leaves the state `IDLE`, the time stamp 0 and the stored total 0. -/
theorem GetTotalEnergyConsumption_frame_witness :
    ∃ r, GetTotalEnergyConsumption passiveScript.run exampleWorld = Except.ok r ∧
      r.2.model.m_currentState = State.IDLE ∧ r.2.model.m_lastUpdateTime = 0 ∧
      r.2.model.m_totalEnergyConsumption = 0 := by
  have hex : ∃ r, GetTotalEnergyConsumption passiveScript.run exampleWorld = Except.ok r := by
    repeat (first
      | simp [GetTotalEnergyConsumption, passiveScript, Script.run, HandleEnergyDepletion,
          HandleEnergyRecharged, GetStateA, exampleWorld, exampleSource,
          BleRadioEnergyModel.BleRadioEnergyModel, Attributes.default]
      | norm_num)
  obtain ⟨r, h⟩ := hex
  have hs := (GetTotalEnergyConsumption_frame passiveScript exampleWorld r h).2 rfl
  exact ⟨r, h, hs.state, hs.last, hs.total⟩

/-- C13, counterexample to the claim as stated: on `exampleWorld` (state `IDLE`, time stamp
0, stored total 0, now 10 s) a refresh in which the depletion callback calls
`ChangeState (OFF)` makes `GetTotalEnergyConsumption` leave the state `OFF`, the time
stamp 10 and the stored total 3e-5 J. -/
theorem GetTotalEnergyConsumption_frame_counterexample :
    exampleWorld.model.m_currentState = State.IDLE ∧
      exampleWorld.model.m_lastUpdateTime = 0 ∧
      exampleWorld.model.m_totalEnergyConsumption = 0 ∧
      ∃ r, GetTotalEnergyConsumption depletionScript.run exampleWorld = Except.ok r ∧
        r.2.model.m_currentState = State.OFF ∧ r.2.model.m_lastUpdateTime = 10 ∧
        r.2.model.m_totalEnergyConsumption = 3 / 100000 := by
  refine ⟨rfl, rfl, rfl, ?_⟩
  repeat (first
    | simp [GetTotalEnergyConsumption, depletionScript, Script.run, HandleEnergyDepletion,
        ChangeState, incPending, decPending, ChangeState_timer, ChangeState_account,
        ChangeState_accounted, ChangeState_commit, SetBleRadioState, GetStateA, exampleWorld,
        exampleSource, BleRadioEnergyModel.BleRadioEnergyModel, Attributes.default]
    | norm_num)
  exact ⟨_, _, ⟨rfl, rfl⟩, rfl, rfl, rfl⟩

/-! ## Further effects of single calls -/

/-- The pending forced-off events after a cancel-and-schedule, for well-formed timers. -/
theorem pendingSwitchToOff_reschedule (d : ℚ) {w : World} (hinv : TimerInv w) :
    pendingSwitchToOff (rescheduleSwitchToOff d w) =
      [({ uid := w.sim.m_uid, ts := w.sim.now + d, kind := EventKind.SwitchToOff } : Event)] := by
  obtain ⟨-, -, h3, -⟩ := events_reschedule w.sim w.model.m_switchToOffEvent
    EventKind.SwitchToOff (w.sim.now + d) hinv.nodup hinv.fresh hinv.off
  have hev : (rescheduleSwitchToOff d w).sim.m_events =
      (w.sim.Cancel w.model.m_switchToOffEvent).m_events ++
        [({ uid := w.sim.m_uid, ts := w.sim.now + d, kind := EventKind.SwitchToOff } : Event)] := by
    simp only [rescheduleSwitchToOff, Simulator.Schedule, cancel_uid, cancel_now]
  unfold pendingSwitchToOff
  rw [hev, List.filter_append]
  have hnil : List.filter (fun e => e.kind == EventKind.SwitchToOff)
      (w.sim.Cancel w.model.m_switchToOffEvent).m_events = [] := by
    rw [List.filter_eq_nil_iff]
    intro e he hk
    have hk2 : e.kind = EventKind.SwitchToOff := by simpa using hk
    have heq := h3 e (List.mem_append_left _ he) hk2
    have hlt := hinv.fresh e ((cancel_sublist _ _).subset he)
    rw [heq] at hlt
    exact Nat.lt_irrefl _ hlt
  rw [hnil]
  simp

/-- C14 (`OFF` requested while `OFF`).  Let a top-level `ChangeState (OFF)` on a model
whose state is `OFF` return.  The world `w3` it hands to the refresh of the source has the
scheduler and `m_switchToOffEvent` of the entry (no forced-off timer is cancelled or
scheduled), the stored total of the entry (zero energy is added, whatever the elapsed
time), state `OFF` and `m_lastUpdateTime = now`.  After the refresh the call only restores
the counter: the state on return is `OFF`, and when the refresh makes no callback the
scheduler, `m_switchToOffEvent` and the stored total are those of the entry and
`m_lastUpdateTime` is now. -/
theorem ChangeState_off_when_off (refresh : Script) (w w1 : World)
    (hdepth : w.model.m_nPendingChangeState = 0)
    (hoff : w.model.m_currentState = State.OFF)
    (h : ChangeState refresh.run State.OFF w = Except.ok w1) :
    ∃ w3 w4, w3.sim = w.sim ∧ w3.model.m_switchToOffEvent = w.model.m_switchToOffEvent ∧
      w3.model.m_totalEnergyConsumption = w.model.m_totalEnergyConsumption ∧
      w3.model.m_currentState = State.OFF ∧ w3.model.m_lastUpdateTime = w.sim.now ∧
      refresh.run w3 = Except.ok w4 ∧ w1 = decPending w4 ∧
      w1.model.m_currentState = State.OFF ∧
      (refresh.noCallback = true →
        w1.sim = w.sim ∧ w1.model.m_switchToOffEvent = w.model.m_switchToOffEvent ∧
        w1.model.m_totalEnergyConsumption = w.model.m_totalEnergyConsumption ∧
        w1.model.m_lastUpdateTime = w.sim.now) := by
  have hfull : ¬ ((w.model.m_nPendingChangeState + 1) % 256 > 1 ∧ State.OFF = State.OFF) := by
    rintro ⟨hgt, -⟩
    rw [hdepth] at hgt
    omega
  obtain ⟨source, current, w2, w4, h2, -, hcur, -, -, h4, rfl⟩ := ChangeState_full_elim hfull h
  have hw2 : w2 = incPending w := by
    rcases ChangeState_timer_elim h2 with ⟨-, h⟩ | ⟨hne, -⟩
    · exact h
    · exact absurd rfl hne
  have hc0 : current = 0 := by
    rw [hoff] at hcur
    have : Except.ok (0 : ℚ) = Except.ok current := hcur
    exact (Except.ok.inj this).symm
  rw [hw2, hc0] at h4
  have hoff3 : (ChangeState_accounted ((w.sim.now - w.model.m_lastUpdateTime) * 0 *
      source.supplyVoltage) (incPending w)).model.m_currentState = State.OFF := hoff
  have hoff4 := Script.run_staysOff h4 hoff3
  have hcommit := state_commit_off (s := State.OFF) hoff4
  have htot3 : (ChangeState_accounted ((w.sim.now - w.model.m_lastUpdateTime) * 0 *
      source.supplyVoltage) (incPending w)).model.m_totalEnergyConsumption =
      w.model.m_totalEnergyConsumption := by
    show w.model.m_totalEnergyConsumption + _ = _
    ring
  refine ⟨ChangeState_accounted ((w.sim.now - w.model.m_lastUpdateTime) * 0 *
    source.supplyVoltage) (incPending w), w4, rfl, rfl, htot3, hoff3, rfl, h4,
    by rw [hcommit], ?_, ?_⟩
  · rw [hcommit]
    exact hoff4
  · intro hno
    obtain ⟨o, ho, -, -⟩ := Script.run_noCallback refresh _ hno
    rw [ho, Except.ok.injEq] at h4
    rw [hcommit, ← h4]
    exact ⟨rfl, rfl, htot3, rfl⟩

/-- C14, witness: on `offWorld` (state `OFF`, time stamp 0, now 10 s, nothing pending) a
top-level `ChangeState (OFF)` returns with nothing pending, stored total 0, state `OFF`
and time stamp 10. -/
theorem ChangeState_off_when_off_witness :
    ∃ w1, ChangeState Script.done.run State.OFF offWorld = Except.ok w1 ∧
      w1.sim.m_events = [] ∧ w1.model.m_totalEnergyConsumption = 0 ∧
      w1.model.m_currentState = State.OFF ∧ w1.model.m_lastUpdateTime = 10 := by
  have hex : ∃ w1, ChangeState Script.done.run State.OFF offWorld = Except.ok w1 := by
    repeat (first
      | simp [ChangeState, Script.run, offWorld, exampleWorld, exampleSource, incPending,
          decPending, ChangeState_timer, ChangeState_account, ChangeState_accounted,
          ChangeState_commit, GetStateA, SetBleRadioState,
          BleRadioEnergyModel.BleRadioEnergyModel, Attributes.default]
      | norm_num)
  obtain ⟨w1, h⟩ := hex
  obtain ⟨w3, w4, -, -, -, -, -, -, -, hst, hq⟩ :=
    ChangeState_off_when_off Script.done offWorld w1 rfl rfl h
  obtain ⟨hsim, -, htot, hlast⟩ := hq rfl
  exact ⟨w1, h, by rw [hsim]; rfl, by rw [htot]; rfl, hst, by rw [hlast]; rfl⟩

/-- C15 (current table).  The current reported to the source, `DoGetCurrentA`, is the
entry of `m_currentState` in the table `GetStateA`; the table maps `IDLE` to the idle
current, `RX` and `RX_BUSY` to the rx current, `TX` and `TX_BUSY` to the tx current and
`OFF` to 0; for a value outside the six enumerators the lookup fails with the fatal error
of the undefined state, and so does `DoGetCurrentA` when the state is such a value. -/
theorem DoGetCurrentA_table (m : BleRadioEnergyModel) :
    DoGetCurrentA m = GetStateA m.m_currentState m ∧
      GetStateA State.IDLE m = Except.ok m.m_idleCurrentA ∧
      GetStateA State.RX m = Except.ok m.m_rxCurrentA ∧
      GetStateA State.RX_BUSY m = Except.ok m.m_rxCurrentA ∧
      GetStateA State.TX m = Except.ok m.m_txCurrentA ∧
      GetStateA State.TX_BUSY m = Except.ok m.m_txCurrentA ∧
      GetStateA State.OFF m = Except.ok 0 ∧
      (∀ raw, GetStateA (State.undefined raw) m = Except.error Failure.fatalUndefinedState) ∧
      (∀ raw, m.m_currentState = State.undefined raw →
        DoGetCurrentA m = Except.error Failure.fatalUndefinedState) := by
  refine ⟨rfl, rfl, rfl, rfl, rfl, rfl, rfl, fun _ => rfl, ?_⟩
  intro raw h
  unfold DoGetCurrentA
  rw [h]
  rfl

/-- C16 (tx current from the model).  For every `txPowerDbm`: when a tx-current model is
attached, after `SetTxCurrentFromModel (txPowerDbm)` the currents of `TX` and of `TX_BUSY`
are both `CalcTxCurrent (txPowerDbm)`, and the idle and rx currents, the state, the stored
total, `m_lastUpdateTime`, both timer ids and the scheduler are unchanged; when no model
is attached the call changes nothing. -/
theorem SetTxCurrentFromModel_effect (txPowerDbm : ℚ) (w : World) :
    (∀ CalcTxCurrent, w.model.m_txCurrentModel = some CalcTxCurrent →
      GetStateA State.TX (SetTxCurrentFromModel txPowerDbm w).model =
        Except.ok (CalcTxCurrent txPowerDbm) ∧
      GetStateA State.TX_BUSY (SetTxCurrentFromModel txPowerDbm w).model =
        Except.ok (CalcTxCurrent txPowerDbm) ∧
      (SetTxCurrentFromModel txPowerDbm w).model.m_idleCurrentA = w.model.m_idleCurrentA ∧
      (SetTxCurrentFromModel txPowerDbm w).model.m_rxCurrentA = w.model.m_rxCurrentA ∧
      (SetTxCurrentFromModel txPowerDbm w).model.m_currentState = w.model.m_currentState ∧
      (SetTxCurrentFromModel txPowerDbm w).model.m_totalEnergyConsumption =
        w.model.m_totalEnergyConsumption ∧
      (SetTxCurrentFromModel txPowerDbm w).model.m_lastUpdateTime = w.model.m_lastUpdateTime ∧
      (SetTxCurrentFromModel txPowerDbm w).model.m_switchToOffEvent =
        w.model.m_switchToOffEvent ∧
      (SetTxCurrentFromModel txPowerDbm w).model.m_listener = w.model.m_listener ∧
      (SetTxCurrentFromModel txPowerDbm w).sim = w.sim) ∧
    (w.model.m_txCurrentModel = none → SetTxCurrentFromModel txPowerDbm w = w) := by
  constructor
  · intro f hf
    simp [SetTxCurrentFromModel, hf, GetStateA]
  · intro hn
    simp only [SetTxCurrentFromModel, hn]

/-- C16, witness: with `exampleCalcTxCurrent` attached, after `SetTxCurrentFromModel (4)`
the current of `TX` is `4 / 1000 + 1e-6` A; without a model it stays 0.015 A. -/
theorem SetTxCurrentFromModel_effect_witness :
    GetStateA State.TX (SetTxCurrentFromModel 4 txModelWorld).model =
        Except.ok (4 / 1000 + 1 / 1000000) ∧
      GetStateA State.TX (SetTxCurrentFromModel 4 exampleWorld).model =
        Except.ok (15 / 1000) := by
  constructor
  · exact ((SetTxCurrentFromModel_effect 4 txModelWorld).1 exampleCalcTxCurrent rfl).1
  · rw [(SetTxCurrentFromModel_effect 4 exampleWorld).2 rfl]
    rfl

/-- C17 (`HandleEnergyChanged`).  When the state is `OFF` the call returns the world
unchanged.  When the state is not `OFF` and `GetMaximumTimeInState` of the state is `d`,
the call returns: the event named by `m_switchToOffEvent` is cancelled and one forced-off
event is scheduled at `now + d`, named by `m_switchToOffEvent` (the only pending
forced-off event when the timers were well-formed), while the state, the stored total,
`m_lastUpdateTime` and the counter of pending calls are unchanged.  When
`GetMaximumTimeInState` fails, so does the call. -/
theorem HandleEnergyChanged_effect (w : World) :
    (w.model.m_currentState = State.OFF → HandleEnergyChanged w = Except.ok w) ∧
    (w.model.m_currentState ≠ State.OFF → ∀ d,
      GetMaximumTimeInState w.model.m_currentState w.model = Except.ok d →
      ∃ w1, HandleEnergyChanged w = Except.ok w1 ∧
        w1.sim.m_events = (w.sim.Cancel w.model.m_switchToOffEvent).m_events ++
          [({ uid := w.sim.m_uid, ts := w.sim.now + d, kind := EventKind.SwitchToOff } : Event)] ∧
        w1.model.m_switchToOffEvent = some w.sim.m_uid ∧
        (TimerInv w → pendingSwitchToOff w1 =
          [({ uid := w.sim.m_uid, ts := w.sim.now + d, kind := EventKind.SwitchToOff } : Event)]) ∧
        w1.model.m_currentState = w.model.m_currentState ∧
        w1.model.m_totalEnergyConsumption = w.model.m_totalEnergyConsumption ∧
        w1.model.m_lastUpdateTime = w.model.m_lastUpdateTime ∧
        w1.model.m_nPendingChangeState = w.model.m_nPendingChangeState) ∧
    (w.model.m_currentState ≠ State.OFF → ∀ e,
      GetMaximumTimeInState w.model.m_currentState w.model = Except.error e →
      HandleEnergyChanged w = Except.error e) := by
  refine ⟨?_, ?_, ?_⟩
  · intro hoff
    simp [HandleEnergyChanged, hoff]
  · intro hne d hd
    refine ⟨rescheduleSwitchToOff d w, by simp [HandleEnergyChanged, hne, hd], ?_, ?_, ?_,
      rfl, rfl, rfl, rfl⟩
    · simp only [rescheduleSwitchToOff, Simulator.Schedule, cancel_uid, cancel_now]
    · simp only [rescheduleSwitchToOff, Simulator.Schedule, cancel_uid]
    · exact fun hinv => pendingSwitchToOff_reschedule d hinv
  · intro hne e he
    simp [HandleEnergyChanged, hne, he]

/-- C17, witness: on `exampleWorld` (state `IDLE`, 1 J left, idle current 1e-6 A, 3 V, now
10 s) `HandleEnergyChanged` leaves one pending event, the forced-off event due at
`10 + 1 / (1e-6 * 3)` s. -/
theorem HandleEnergyChanged_effect_witness :
    ∃ w1, HandleEnergyChanged exampleWorld = Except.ok w1 ∧
      w1.sim.m_events =
        [({ uid := 0, ts := 10 + 1 / (1 / 1000000 * 3), kind := EventKind.SwitchToOff } : Event)] := by
  have hd : GetMaximumTimeInState exampleWorld.model.m_currentState exampleWorld.model =
      Except.ok (1 / (1 / 1000000 * 3)) := by
    simp [GetMaximumTimeInState, GetStateA, exampleWorld, exampleSource,
      BleRadioEnergyModel.BleRadioEnergyModel, Attributes.default]
  obtain ⟨w1, h, hev, -⟩ := (HandleEnergyChanged_effect exampleWorld).2.1 (by decide) _ hd
  exact ⟨w1, h, by rw [hev]; rfl⟩

/-- C18 (depletion and recharge handlers).  `HandleEnergyDepletion` applies the registered
depletion callback once, to the world on entry, when the callback is set; when it is not
set the call returns the world on entry, unchanged, whatever the callback would do.  The
same holds for `HandleEnergyRecharged` and the recharge callback. -/
theorem HandleEnergy_callbacks (callback : World → Except Failure World) (w : World) :
    (w.model.m_energyDepletionCallback = true → HandleEnergyDepletion callback w = callback w) ∧
    (w.model.m_energyDepletionCallback = false → HandleEnergyDepletion callback w = Except.ok w) ∧
    (w.model.m_energyRechargedCallback = true → HandleEnergyRecharged callback w = callback w) ∧
    (w.model.m_energyRechargedCallback = false → HandleEnergyRecharged callback w = Except.ok w) := by
  refine ⟨?_, ?_, ?_, ?_⟩ <;> intro h <;> simp [HandleEnergyDepletion, HandleEnergyRecharged, h]

/-- C18, witness: a newly constructed model has no depletion callback, and
`HandleEnergyDepletion` returns its world unchanged even for a callback that would fail;
on `exampleWorld` the callback is set and is what runs. -/
theorem HandleEnergy_callbacks_witness :
    HandleEnergyDepletion (fun _ => Except.error Failure.nullSource)
        (World.initial Attributes.default) = Except.ok (World.initial Attributes.default) ∧
      HandleEnergyDepletion (fun w => Except.ok (SetBleRadioState State.OFF w)) exampleWorld =
        Except.ok (SetBleRadioState State.OFF exampleWorld) :=
  ⟨(HandleEnergy_callbacks _ (World.initial Attributes.default)).2.1 rfl,
    (HandleEnergy_callbacks _ exampleWorld).1 rfl⟩

/-! ## Notifications of the listener -/

/-- No call moves the clock. -/
theorem now_kept : Kept (fun w w1 => w1.sim.now = w.sim.now) where
  refl := fun _ => rfl
  trans := fun _ _ _ h1 h2 => h2.trans h1
  readings := fun source w => by
    unfold setReadings
    cases h : w.model.m_source <;> rfl
  changeState := by
    intro U s w w1 hU h
    rcases ChangeState_elim h with ⟨-, -, rfl⟩ | ⟨-, w2, w3, w4, h2, h3, h4, rfl⟩
    · rfl
    · obtain ⟨-, hnow⟩ := ChangeState_timer_shape h2
      obtain ⟨source, current, -, -, -, -, rfl⟩ := ChangeState_account_elim h3
      have e4 := hU _ _ h4
      show (ChangeState_commit s w4).sim.now = _
      rw [sim_commit, e4]
      exact hnow
  energyChanged := by
    intro w w1 h
    unfold HandleEnergyChanged at h
    split at h
    · cases hd : GetMaximumTimeInState w.model.m_currentState w.model with
      | error e => simp [hd] at h
      | ok d =>
        simp only [hd, Except.ok.injEq] at h
        rw [← h]
        simp only [rescheduleSwitchToOff, Simulator.Schedule, cancel_now]
    · simp only [Except.ok.injEq] at h
      rw [← h]
  setTx := fun p w => by
    unfold SetTxCurrentFromModel
    cases h : w.model.m_txCurrentModel <;> rfl
  cancelIdle := fun w => cancel_now _ _
  rescheduleIdle := fun d w => by
    simp only [rescheduleSwitchToIdle, Simulator.Schedule, cancel_now]

/-- After `m_switchToIdleEvent.Cancel ()` no revert-to-idle event is pending, for
well-formed timers. -/
theorem pendingSwitchToIdle_cancel {w : World} (hinv : TimerInv w) :
    pendingSwitchToIdle (cancelSwitchToIdle w) = [] := by
  unfold pendingSwitchToIdle
  rw [List.filter_eq_nil_iff]
  intro e he hk
  have hk2 : e.kind = EventKind.SwitchToIdle := by simpa using hk
  have he2 : e ∈ (w.sim.Cancel w.model.m_listener.m_switchToIdleEvent).m_events := he
  have hid := hinv.idle e ((cancel_sublist _ _).subset he2) hk2
  rw [hid] at he2
  exact cancel_not_mem e.uid w.sim e he2 rfl

/-- The pending revert-to-idle events after a cancel-and-schedule, for well-formed timers. -/
theorem pendingSwitchToIdle_reschedule (d : ℚ) {w : World} (hinv : TimerInv w) :
    pendingSwitchToIdle (rescheduleSwitchToIdle d w) =
      [({ uid := w.sim.m_uid, ts := w.sim.now + d, kind := EventKind.SwitchToIdle } : Event)] := by
  obtain ⟨-, -, h3, -⟩ := events_reschedule w.sim w.model.m_listener.m_switchToIdleEvent
    EventKind.SwitchToIdle (w.sim.now + d) hinv.nodup hinv.fresh hinv.idle
  have hev : (rescheduleSwitchToIdle d w).sim.m_events =
      (w.sim.Cancel w.model.m_listener.m_switchToIdleEvent).m_events ++
        [({ uid := w.sim.m_uid, ts := w.sim.now + d, kind := EventKind.SwitchToIdle } : Event)] := by
    simp only [rescheduleSwitchToIdle, Simulator.Schedule, cancel_uid, cancel_now]
  unfold pendingSwitchToIdle
  rw [hev, List.filter_append]
  have hnil : List.filter (fun e => e.kind == EventKind.SwitchToIdle)
      (w.sim.Cancel w.model.m_listener.m_switchToIdleEvent).m_events = [] := by
    rw [List.filter_eq_nil_iff]
    intro e he hk
    have hk2 : e.kind = EventKind.SwitchToIdle := by simpa using hk
    have heq := h3 e (List.mem_append_left _ he) hk2
    have hlt := hinv.fresh e ((cancel_sublist _ _).subset he)
    rw [heq] at hlt
    exact Nat.lt_irrefl _ hlt
  rw [hnil]
  simp

theorem timerInv_ChangeState {refresh : Script} {s : State} {w w1 : World}
    (h : ChangeState refresh.run s w = Except.ok w1) (hinv : TimerInv w) : TimerInv w1 :=
  timerInv_kept.changeState _ s w w1 (kept_script timerInv_kept refresh) h hinv

theorem now_ChangeState {refresh : Script} {s : State} {w w1 : World}
    (h : ChangeState refresh.run s w = Except.ok w1) : w1.sim.now = w.sim.now :=
  now_kept.changeState _ s w w1 (kept_script now_kept refresh) h

theorem timerInv_exampleWorld : TimerInv exampleWorld where
  nodup := List.nodup_nil
  fresh := fun e h => by simp [exampleWorld] at h
  off := fun e h => by simp [exampleWorld] at h
  idle := fun e h => by simp [exampleWorld] at h

theorem timerInv_armedWorld : TimerInv armedWorld where
  nodup := by simp [armedWorld]
  fresh := fun e h => by
    simp only [armedWorld, List.mem_singleton] at h
    rw [h]
    decide
  off := fun e h hk => by
    simp only [armedWorld, List.mem_singleton] at h
    rw [h] at hk
    cases hk
  idle := fun e h _ => by
    simp only [armedWorld, List.mem_singleton] at h
    rw [h]
    rfl

/-- C20 (`NotifyRxStart` and `NotifyOff`).  With the change-state callback set,
`NotifyRxStart (duration)` is one `ChangeState (RX)` followed by the cancellation of the
event named by `m_switchToIdleEvent`, and `NotifyOff` is one `ChangeState (OFF)` followed
by the same cancellation; neither schedules an event itself.  When the timers were
well-formed on entry, no revert-to-idle event is pending after either notification, for
every duration. -/
theorem NotifyRxStart_NotifyOff_effect (refresh : Script) (duration : ℚ) (w : World)
    (hc : w.model.m_listener.m_changeStateCallback = true) (hinv : TimerInv w) :
    NotifyRxStart refresh.run duration w =
        (ChangeState refresh.run State.RX w).map cancelSwitchToIdle ∧
      NotifyOff refresh.run w = (ChangeState refresh.run State.OFF w).map cancelSwitchToIdle ∧
      (∀ w1, NotifyRxStart refresh.run duration w = Except.ok w1 → pendingSwitchToIdle w1 = []) ∧
      (∀ w1, NotifyOff refresh.run w = Except.ok w1 → pendingSwitchToIdle w1 = []) := by
  have hrx : NotifyRxStart refresh.run duration w =
      (ChangeState refresh.run State.RX w).map cancelSwitchToIdle := by
    unfold NotifyRxStart
    simp only [hc, not_true_eq_false, if_false]
    cases ChangeState refresh.run State.RX w <;> rfl
  have hoff : NotifyOff refresh.run w =
      (ChangeState refresh.run State.OFF w).map cancelSwitchToIdle := by
    unfold NotifyOff
    simp only [hc, not_true_eq_false, if_false]
    cases ChangeState refresh.run State.OFF w <;> rfl
  refine ⟨hrx, hoff, ?_, ?_⟩
  · intro w1 h
    rw [hrx] at h
    cases hcs : ChangeState refresh.run State.RX w with
    | error e =>
      rw [hcs] at h
      cases h
    | ok w2 =>
      rw [hcs] at h
      have h1 : cancelSwitchToIdle w2 = w1 := Except.ok.inj h
      rw [← h1]
      exact pendingSwitchToIdle_cancel (timerInv_ChangeState hcs hinv)
  · intro w1 h
    rw [hoff] at h
    cases hcs : ChangeState refresh.run State.OFF w with
    | error e =>
      rw [hcs] at h
      cases h
    | ok w2 =>
      rw [hcs] at h
      have h1 : cancelSwitchToIdle w2 = w1 := Except.ok.inj h
      rw [← h1]
      exact pendingSwitchToIdle_cancel (timerInv_ChangeState hcs hinv)

/-- C20, witness: on `armedWorld`, where a revert-to-idle event is pending, both
`NotifyRxStart (5 s)` and `NotifyOff` return with no revert-to-idle event pending. -/
theorem NotifyRxStart_NotifyOff_effect_witness :
    pendingSwitchToIdle armedWorld ≠ [] ∧
      (∃ w1, NotifyRxStart Script.done.run 5 armedWorld = Except.ok w1 ∧
        pendingSwitchToIdle w1 = []) ∧
      (∃ w1, NotifyOff Script.done.run armedWorld = Except.ok w1 ∧
        pendingSwitchToIdle w1 = []) := by
  have hthm := NotifyRxStart_NotifyOff_effect Script.done 5 armedWorld rfl timerInv_armedWorld
  have hex1 : ∃ w1, NotifyRxStart Script.done.run 5 armedWorld = Except.ok w1 := by
    repeat (first
      | simp [NotifyRxStart, cancelSwitchToIdle, ChangeState, Script.run, armedWorld,
          exampleWorld, exampleSource, incPending, decPending, ChangeState_timer,
          ChangeState_account, ChangeState_accounted, ChangeState_commit,
          GetMaximumTimeInState, GetStateA, rescheduleSwitchToOff, SetBleRadioState,
          BleRadioEnergyModel.BleRadioEnergyModel, Attributes.default, Simulator.Cancel,
          Simulator.Schedule]
      | norm_num)
  have hex2 : ∃ w1, NotifyOff Script.done.run armedWorld = Except.ok w1 := by
    repeat (first
      | simp [NotifyOff, cancelSwitchToIdle, ChangeState, Script.run, armedWorld,
          exampleWorld, exampleSource, incPending, decPending, ChangeState_timer,
          ChangeState_account, ChangeState_accounted, ChangeState_commit,
          GetStateA, SetBleRadioState,
          BleRadioEnergyModel.BleRadioEnergyModel, Attributes.default, Simulator.Cancel]
      | norm_num)
  obtain ⟨w1, h1⟩ := hex1
  obtain ⟨w2, h2⟩ := hex2
  refine ⟨?_, ⟨w1, h1, hthm.2.2.1 w1 h1⟩, ⟨w2, h2, hthm.2.2.2 w2 h2⟩⟩
  simp [pendingSwitchToIdle, armedWorld]

/-! ## The counter of pending calls -/

/-- Every completed call leaves a counter in the range of `uint8_t` as it found it. -/
theorem pending_kept :
    Kept (fun w w1 => w.model.m_nPendingChangeState < 256 →
      w1.model.m_nPendingChangeState = w.model.m_nPendingChangeState) where
  refl := fun _ _ => rfl
  trans := fun a b c h1 h2 h => by
    have hb := h1 h
    rw [h2 (by omega), hb]
  readings := fun source w _ => by
    unfold setReadings
    cases h : w.model.m_source <;> rfl
  changeState := by
    intro U s w w1 hU h hlt
    rcases ChangeState_elim h with ⟨-, -, rfl⟩ | ⟨-, w2, w3, w4, h2, h3, h4, rfl⟩
    · show ((w.model.m_nPendingChangeState + 1) % 256 + 255) % 256 = w.model.m_nPendingChangeState
      omega
    · have e3 : w3.model.m_nPendingChangeState = (w.model.m_nPendingChangeState + 1) % 256 := by
        rw [pending_account h3, pending_timer h2, pending_incPending]
      have e4 : w4.model.m_nPendingChangeState = (w.model.m_nPendingChangeState + 1) % 256 := by
        rw [hU _ _ h4 (by omega), e3]
      rw [pending_decPending, pending_commit, e4]
      omega
  energyChanged := fun w w1 h _ => (frame_HandleEnergyChanged h).pending (by assumption)
  setTx := fun p w _ => by
    unfold SetTxCurrentFromModel
    cases h : w.model.m_txCurrentModel <;> rfl
  cancelIdle := fun _ _ => rfl
  rescheduleIdle := fun _ _ _ => rfl

/-- C30 (counter restored).  Every call of `ChangeState` that returns, by the fast exit or
by the full path, entered with any counter in the range of `uint8_t` and with any
re-entrant calls made during the refresh of the source, leaves `m_nPendingChangeState`
equal to its value on entry.  Hence the counter is 0 in every world reached from
construction by steps that return, that is whenever no call is on the stack. -/
theorem ChangeState_restores_counter (refresh : Script) (newState : State) (w w1 : World)
    (hrange : w.model.m_nPendingChangeState < 256)
    (h : ChangeState refresh.run newState w = Except.ok w1) :
    w1.model.m_nPendingChangeState = w.model.m_nPendingChangeState ∧
      ∀ (a : Attributes) (ops : List Op) (w2 : World),
        runOps ops (World.initial a) = Except.ok w2 → w2.model.m_nPendingChangeState = 0 := by
  constructor
  · exact pending_kept.changeState _ newState w w1 (kept_script pending_kept refresh) h hrange
  · intro a ops w2 h2
    have hk := kept_ops pending_kept
      (fun source w w1 hs _ => by
        obtain ⟨d, -, rfl⟩ := SetEnergySource_elim hs
        rfl)
      (fun _ _ _ => rfl) (fun _ _ _ _ => rfl) ops (World.initial a) w2 h2
    have h0 : (World.initial a).model.m_nPendingChangeState = 0 := rfl
    rw [hk (by rw [h0]; decide), h0]

/-- C30, witness: entered with counter 255 (the top of the range), `ChangeState (TX)` on
`deepWorld` returns with counter 255. -/
theorem ChangeState_restores_counter_witness :
    ∃ w1, ChangeState Script.done.run State.TX deepWorld = Except.ok w1 ∧
      w1.model.m_nPendingChangeState = 255 := by
  have hex : ∃ w1, ChangeState Script.done.run State.TX deepWorld = Except.ok w1 := by
    repeat (first
      | simp [ChangeState, Script.run, deepWorld, exampleWorld, exampleSource, incPending,
          decPending, ChangeState_timer, ChangeState_account, ChangeState_accounted,
          ChangeState_commit, GetMaximumTimeInState, GetStateA, rescheduleSwitchToOff,
          SetBleRadioState, BleRadioEnergyModel.BleRadioEnergyModel, Attributes.default,
          Simulator.Cancel, Simulator.Schedule]
      | norm_num)
  obtain ⟨w1, h⟩ := hex
  exact ⟨w1, h, (ChangeState_restores_counter Script.done State.TX deepWorld w1 (by decide) h).1⟩

/-! ## The two assertions of the accounting step -/

/-- The accounting step on a world whose clock is behind the time stamp. -/
theorem ChangeState_account_late {w : World} (h : w.sim.now < w.model.m_lastUpdateTime) :
    ChangeState_account w = Except.error Failure.assertDuration := by
  unfold ChangeState_account
  have hd : ¬ (0 ≤ w.sim.now - w.model.m_lastUpdateTime) := by
    intro hc
    linarith
  simp only [hd, not_false_eq_true, if_true]

/-- The accounting step when every check passes. -/
theorem ChangeState_account_ok {w : World} {source : EnergySource} {current : ℚ}
    (hle : w.model.m_lastUpdateTime ≤ w.sim.now) (hsrc : w.model.m_source = some source)
    (hcur : GetStateA w.model.m_currentState w.model = Except.ok current)
    (htot : w.model.m_totalEnergyConsumption +
      (w.sim.now - w.model.m_lastUpdateTime) * current * source.supplyVoltage ≤
        source.initialEnergy) :
    ChangeState_account w = Except.ok (ChangeState_accounted
      ((w.sim.now - w.model.m_lastUpdateTime) * current * source.supplyVoltage) w) := by
  unfold ChangeState_account
  have hd : 0 ≤ w.sim.now - w.model.m_lastUpdateTime := by linarith
  simp only [hd, not_true_eq_false, if_false, hsrc, hcur, htot]

/-- The accounting step when the total would pass the initial energy. -/
theorem ChangeState_account_over {w : World} {source : EnergySource} {current : ℚ}
    (hle : w.model.m_lastUpdateTime ≤ w.sim.now) (hsrc : w.model.m_source = some source)
    (hcur : GetStateA w.model.m_currentState w.model = Except.ok current)
    (htot : source.initialEnergy < w.model.m_totalEnergyConsumption +
      (w.sim.now - w.model.m_lastUpdateTime) * current * source.supplyVoltage) :
    ChangeState_account w = Except.error Failure.assertTotalEnergy := by
  unfold ChangeState_account
  have hd : 0 ≤ w.sim.now - w.model.m_lastUpdateTime := by linarith
  have hn : ¬ (w.model.m_totalEnergyConsumption +
      (w.sim.now - w.model.m_lastUpdateTime) * current * source.supplyVoltage ≤
        source.initialEnergy) := by
    intro hc
    linarith
  simp only [hd, not_true_eq_false, if_false, hsrc, hcur, hn, not_false_eq_true, if_true]

/-- The full path of `ChangeState` once the timer step has returned `w2`. -/
theorem ChangeState_after_timer {U : World → Except Failure World} {s : State} {w w2 : World}
    (hfull : ¬ ((w.model.m_nPendingChangeState + 1) % 256 > 1 ∧ s = State.OFF))
    (h2 : ChangeState_timer s (incPending w) = Except.ok w2) :
    ChangeState U s w =
      match ChangeState_account w2 with
      | Except.error e => Except.error e
      | Except.ok w3 =>
        match U w3 with
        | Except.error e => Except.error e
        | Except.ok w4 => Except.ok (decPending (ChangeState_commit s w4)) := by
  unfold ChangeState
  have hf : ¬ ((incPending w).model.m_nPendingChangeState > 1 ∧ s = State.OFF) := hfull
  simp only [hf, if_false, h2]

/-- The timer step leaves the model as it is, up to `m_switchToOffEvent` and the counter
raised before it. -/
theorem ChangeState_timer_fields {s : State} {w w2 : World}
    (h2 : ChangeState_timer s (incPending w) = Except.ok w2) :
    w2.sim.now = w.sim.now ∧ w2.model.m_lastUpdateTime = w.model.m_lastUpdateTime ∧
      w2.model.m_totalEnergyConsumption = w.model.m_totalEnergyConsumption ∧
      w2.model.m_source = w.model.m_source ∧
      w2.model.m_currentState = w.model.m_currentState ∧
      GetStateA w2.model.m_currentState w2.model = GetStateA w.model.m_currentState w.model := by
  obtain ⟨hm, hnow⟩ := ChangeState_timer_shape h2
  refine ⟨hnow, by rw [hm]; rfl, by rw [hm]; rfl, by rw [hm]; rfl, by rw [hm]; rfl, ?_⟩
  rw [hm]
  show GetStateA w.model.m_currentState _ = _
  cases w.model.m_currentState <;> rfl

/-- C27 (elapsed time check).  When `now < m_lastUpdateTime`: `GetTotalEnergyConsumption`
fails on the assertion on the duration, and `ChangeState` on its full path fails, on that
assertion as soon as its timer step has passed.  When `now = m_lastUpdateTime`, with a
source attached and a defined state, the check passes: `GetTotalEnergyConsumption` goes on
to the refresh of the source and returns the stored total it leaves, with nothing added,
and `ChangeState`, when the stored total is within the initial energy and its timer step
has passed, goes on to the refresh with the stored total as it was. -/
theorem duration_check (U : World → Except Failure World) (newState : State) (w : World)
    (hfull : ¬ ((w.model.m_nPendingChangeState + 1) % 256 > 1 ∧ newState = State.OFF)) :
    (w.sim.now < w.model.m_lastUpdateTime →
      GetTotalEnergyConsumption U w = Except.error Failure.assertDuration ∧
      (∃ e, ChangeState U newState w = Except.error e) ∧
      (∀ w2, ChangeState_timer newState (incPending w) = Except.ok w2 →
        ChangeState U newState w = Except.error Failure.assertDuration)) ∧
    (w.sim.now = w.model.m_lastUpdateTime →
      ∀ source current, w.model.m_source = some source →
        GetStateA w.model.m_currentState w.model = Except.ok current →
        GetTotalEnergyConsumption U w =
          (U w).map (fun w1 => (w1.model.m_totalEnergyConsumption, w1)) ∧
        (w.model.m_totalEnergyConsumption ≤ source.initialEnergy →
          ∀ w2, ChangeState_timer newState (incPending w) = Except.ok w2 →
            ChangeState U newState w =
              (U (ChangeState_accounted 0 w2)).map
                (fun w4 => decPending (ChangeState_commit newState w4)) ∧
            (ChangeState_accounted 0 w2).model.m_totalEnergyConsumption =
              w.model.m_totalEnergyConsumption)) := by
  constructor
  · intro hlt
    have hd : ¬ (0 ≤ w.sim.now - w.model.m_lastUpdateTime) := by
      intro hc
      linarith
    have hget : GetTotalEnergyConsumption U w = Except.error Failure.assertDuration := by
      unfold GetTotalEnergyConsumption
      simp only [hd, not_false_eq_true, if_true]
    have hafter : ∀ w2, ChangeState_timer newState (incPending w) = Except.ok w2 →
        ChangeState U newState w = Except.error Failure.assertDuration := by
      intro w2 h2
      obtain ⟨hnow, hlast, -, -, -, -⟩ := ChangeState_timer_fields h2
      rw [ChangeState_after_timer hfull h2,
        ChangeState_account_late (by rw [hnow, hlast]; exact hlt)]
    refine ⟨hget, ?_, hafter⟩
    cases h2 : ChangeState_timer newState (incPending w) with
    | ok w2 => exact ⟨_, hafter w2 h2⟩
    | error e =>
      refine ⟨e, ?_⟩
      unfold ChangeState
      have hf : ¬ ((incPending w).model.m_nPendingChangeState > 1 ∧ newState = State.OFF) :=
        hfull
      simp only [hf, if_false, h2]
  · intro heq source current hsrc hcur
    constructor
    · unfold GetTotalEnergyConsumption
      have hd : 0 ≤ w.sim.now - w.model.m_lastUpdateTime := by rw [heq]; simp
      simp only [hd, not_true_eq_false, if_false, hsrc, hcur, heq, sub_self, zero_mul, add_zero]
      cases U w <;> rfl
    · intro htot w2 h2
      obtain ⟨hnow, hlast, htotal, hsrc2, -, hcur2⟩ := ChangeState_timer_fields h2
      have hzero : (w2.sim.now - w2.model.m_lastUpdateTime) * current * source.supplyVoltage
          = 0 := by
        rw [hnow, hlast, heq]
        ring
      have hacc : ChangeState_account w2 = Except.ok (ChangeState_accounted 0 w2) := by
        rw [← hzero]
        refine ChangeState_account_ok (by rw [hnow, hlast, heq]) (hsrc2.trans hsrc)
          (hcur2.trans hcur) ?_
        rw [hzero, htotal, add_zero]
        exact htot
      refine ⟨?_, ?_⟩
      · rw [ChangeState_after_timer hfull h2, hacc]
        show (match U (ChangeState_accounted 0 w2) with
          | Except.error e => Except.error e
          | Except.ok w4 => Except.ok (decPending (ChangeState_commit newState w4))) = _
        cases U (ChangeState_accounted 0 w2) <;> rfl
      · show w2.model.m_totalEnergyConsumption + 0 = _
        rw [htotal, add_zero]

/-- In `lateWorld` (clock 10 s, time stamp 20 s) both calls fail on the duration; in
`sameTimeWorld` (clock and time stamp 10 s) `ChangeState (TX)` returns and the stored
total is still 0. -/
theorem duration_check_witness :
    GetTotalEnergyConsumption Script.done.run lateWorld =
        Except.error Failure.assertDuration ∧
      ChangeState Script.done.run State.TX lateWorld = Except.error Failure.assertDuration ∧
      ∃ w1, ChangeState Script.done.run State.TX sameTimeWorld = Except.ok w1 ∧
        w1.model.m_totalEnergyConsumption = 0 := by
  have hlate : ∃ w2, ChangeState_timer State.TX (incPending lateWorld) = Except.ok w2 := by
    repeat (first
      | simp [ChangeState_timer, lateWorld, exampleWorld, exampleSource, incPending,
          GetMaximumTimeInState, GetStateA, rescheduleSwitchToOff,
          BleRadioEnergyModel.BleRadioEnergyModel, Attributes.default]
      | norm_num)
  have hsame : ∃ w2, ChangeState_timer State.TX (incPending sameTimeWorld) = Except.ok w2 := by
    repeat (first
      | simp [ChangeState_timer, sameTimeWorld, exampleWorld, exampleSource, incPending,
          GetMaximumTimeInState, GetStateA, rescheduleSwitchToOff,
          BleRadioEnergyModel.BleRadioEnergyModel, Attributes.default]
      | norm_num)
  obtain ⟨w2, h2⟩ := hlate
  obtain ⟨w2s, h2s⟩ := hsame
  have hl := (duration_check Script.done.run State.TX lateWorld (by decide)).1
    (by norm_num [lateWorld, exampleWorld])
  have hs := ((duration_check Script.done.run State.TX sameTimeWorld (by decide)).2
    (by norm_num [sameTimeWorld, exampleWorld]) exampleSource (1 / 1000000) rfl
    (by simp [sameTimeWorld, exampleWorld, GetStateA, BleRadioEnergyModel.BleRadioEnergyModel,
      Attributes.default])).2 (by norm_num [sameTimeWorld, exampleWorld, exampleSource,
      BleRadioEnergyModel.BleRadioEnergyModel]) w2s h2s
  refine ⟨hl.1, hl.2.2 w2 h2, _, hs.1, ?_⟩
  show (ChangeState_commit State.TX (ChangeState_accounted 0 w2s)).model.m_totalEnergyConsumption
    = 0
  have h0 : (ChangeState_accounted 0 w2s).model.m_totalEnergyConsumption = 0 := hs.2
  unfold ChangeState_commit
  split
  · exact h0
  · exact h0

/-- C28 (bound on the stored total).  On the full path of `ChangeState`, whenever the
accounting step returns, the stored total it leaves is at most the initial energy of the
attached source; a call that returns has passed that step, and when its refresh makes no
call on the model the stored total it returns with obeys the same bound; a call whose
accounting would take the stored total above the initial energy returns the fatal error
of that assertion, from any refresh, and so stores nothing. -/
theorem ChangeState_total_bound (U : World → Except Failure World) (newState : State)
    (w : World)
    (hfull : ¬ ((w.model.m_nPendingChangeState + 1) % 256 > 1 ∧ newState = State.OFF)) :
    (∀ w2 w3, ChangeState_timer newState (incPending w) = Except.ok w2 →
      ChangeState_account w2 = Except.ok w3 →
      ∃ source, w.model.m_source = some source ∧ w3.model.m_source = some source ∧
        w3.model.m_totalEnergyConsumption ≤ source.initialEnergy) ∧
    (∀ w1, ChangeState U newState w = Except.ok w1 →
      ∃ source w2 w3 w4, w.model.m_source = some source ∧
        ChangeState_timer newState (incPending w) = Except.ok w2 ∧
        ChangeState_account w2 = Except.ok w3 ∧
        w3.model.m_totalEnergyConsumption ≤ source.initialEnergy ∧
        U w3 = Except.ok w4 ∧ w1 = decPending (ChangeState_commit newState w4)) ∧
    (∀ (refresh : Script) w1, refresh.noCallback = true →
      ChangeState refresh.run newState w = Except.ok w1 →
      ∃ source, w.model.m_source = some source ∧
        w1.model.m_totalEnergyConsumption ≤ source.initialEnergy) ∧
    (∀ source current w2, ChangeState_timer newState (incPending w) = Except.ok w2 →
      w.model.m_source = some source →
      GetStateA w.model.m_currentState w.model = Except.ok current →
      w.model.m_lastUpdateTime ≤ w.sim.now →
      source.initialEnergy < w.model.m_totalEnergyConsumption +
        (w.sim.now - w.model.m_lastUpdateTime) * current * source.supplyVoltage →
      ChangeState U newState w = Except.error Failure.assertTotalEnergy) := by
  have hstep : ∀ w2 w3, ChangeState_timer newState (incPending w) = Except.ok w2 →
      ChangeState_account w2 = Except.ok w3 →
      ∃ source, w.model.m_source = some source ∧ w3.model.m_source = some source ∧
        w3.model.m_totalEnergyConsumption ≤ source.initialEnergy := by
    intro w2 w3 h2 h3
    obtain ⟨-, -, -, hsrc2, -, -⟩ := ChangeState_timer_fields h2
    obtain ⟨source, current, hsrc, -, -, htot, rfl⟩ := ChangeState_account_elim h3
    exact ⟨source, hsrc2 ▸ hsrc, hsrc, htot⟩
  have hret : ∀ (V : World → Except Failure World) w1, ChangeState V newState w = Except.ok w1 →
      ∃ source w2 w3 w4, w.model.m_source = some source ∧
        ChangeState_timer newState (incPending w) = Except.ok w2 ∧
        ChangeState_account w2 = Except.ok w3 ∧
        w3.model.m_totalEnergyConsumption ≤ source.initialEnergy ∧
        V w3 = Except.ok w4 ∧ w1 = decPending (ChangeState_commit newState w4) := by
    intro V w1 h
    rcases ChangeState_elim h with ⟨hgt, hs, -⟩ | ⟨-, w2, w3, w4, h2, h3, h4, rfl⟩
    · exact absurd ⟨hgt, hs⟩ hfull
    · obtain ⟨source, hsrc, -, hle⟩ := hstep w2 w3 h2 h3
      exact ⟨source, w2, w3, w4, hsrc, h2, h3, hle, h4, rfl⟩
  refine ⟨hstep, hret U, ?_, ?_⟩
  · intro refresh w1 hno h
    obtain ⟨source, w2, w3, w4, hsrc, -, -, hle, h4, rfl⟩ := hret refresh.run w1 h
    obtain ⟨o, ho, -, -⟩ := Script.run_noCallback refresh w3 hno
    rw [ho] at h4
    injection h4 with h4
    subst h4
    refine ⟨source, hsrc, ?_⟩
    show (ChangeState_commit newState (withSource o w3)).model.m_totalEnergyConsumption ≤ _
    rw [total_commit]
    exact hle
  · intro source current w2 h2 hsrc hcur hle hover
    obtain ⟨hnow, hlast, htotal, hsrc2, -, hcur2⟩ := ChangeState_timer_fields h2
    rw [ChangeState_after_timer hfull h2,
      ChangeState_account_over (by rw [hnow, hlast]; exact hle) (hsrc2.trans hsrc)
        (hcur2.trans hcur) (by rw [hnow, hlast, htotal]; exact hover)]

/-- In `spentWorld` the stored total (1 J) is the whole initial energy and 10 s in `TX`
are to be charged: `ChangeState (RX)` fails on the assertion on the total. -/
theorem ChangeState_total_bound_witness :
    ChangeState Script.done.run State.RX spentWorld =
      Except.error Failure.assertTotalEnergy := by
  have htimer : ∃ w2, ChangeState_timer State.RX (incPending spentWorld) = Except.ok w2 := by
    repeat (first
      | simp [ChangeState_timer, spentWorld, exampleWorld, exampleSource, incPending,
          GetMaximumTimeInState, GetStateA, rescheduleSwitchToOff,
          BleRadioEnergyModel.BleRadioEnergyModel, Attributes.default]
      | norm_num)
  obtain ⟨w2, h2⟩ := htimer
  exact (ChangeState_total_bound Script.done.run State.RX spentWorld (by decide)).2.2.2
    exampleSource (15 / 1000) w2 h2 rfl
    (by simp [spentWorld, exampleWorld, GetStateA, BleRadioEnergyModel.BleRadioEnergyModel,
      Attributes.default])
    (by norm_num [spentWorld, exampleWorld, BleRadioEnergyModel.BleRadioEnergyModel])
    (by norm_num [spentWorld, exampleWorld, exampleSource,
      BleRadioEnergyModel.BleRadioEnergyModel])

/-! ## The listener -/

/-- C24 (unset change-state callback).  When the change-state callback of the listener is
unset, every entry point and the handler `SwitchToIdle` return a fatal error, the same
whatever the refresh of the source would do: the error of the change-state callback, but
for `NotifyTxStart`, whose first check is the update-tx callback and which returns the
error of that callback when it is unset too.  No world is returned, so no request is made
and no timer is armed or cancelled. -/
theorem Notify_callback_unset (U : World → Except Failure World) (w : World)
    (h : w.model.m_listener.m_changeStateCallback = false) :
    (∀ d, NotifyRxStart U d w = Except.error Failure.fatalChangeStateCallbackNotSet) ∧
    NotifyRxEndOk U w = Except.error Failure.fatalChangeStateCallbackNotSet ∧
    NotifyRxEndError U w = Except.error Failure.fatalChangeStateCallbackNotSet ∧
    (∀ d p, NotifyTxStart U d p w =
      if w.model.m_listener.m_updateTxCurrentCallback = true then
        Except.error Failure.fatalChangeStateCallbackNotSet
      else Except.error Failure.fatalUpdateTxCurrentCallbackNotSet) ∧
    (∀ d, NotifyMaybeCcaBusyStart d w =
      Except.error Failure.fatalChangeStateCallbackNotSet) ∧
    (∀ d, NotifySwitchingStart d w = Except.error Failure.fatalChangeStateCallbackNotSet) ∧
    NotifySleep w = Except.error Failure.fatalChangeStateCallbackNotSet ∧
    NotifyWakeup U w = Except.error Failure.fatalChangeStateCallbackNotSet ∧
    NotifyOff U w = Except.error Failure.fatalChangeStateCallbackNotSet ∧
    NotifyOn U w = Except.error Failure.fatalChangeStateCallbackNotSet ∧
    SwitchToIdle U w = Except.error Failure.fatalChangeStateCallbackNotSet ∧
    ∀ n, ∃ e, Notify U n w = Except.error e := by
  have hrx : ∀ d, NotifyRxStart U d w =
      Except.error Failure.fatalChangeStateCallbackNotSet := by
    intro d
    simp [NotifyRxStart, h]
  have htx : ∀ d p, NotifyTxStart U d p w =
      if w.model.m_listener.m_updateTxCurrentCallback = true then
        Except.error Failure.fatalChangeStateCallbackNotSet
      else Except.error Failure.fatalUpdateTxCurrentCallbackNotSet := by
    intro d p
    have hflag : (SetTxCurrentFromModel p w).model.m_listener.m_changeStateCallback = false :=
      (frame0_setTx p w).changeState.trans h
    unfold NotifyTxStart
    by_cases hu : w.model.m_listener.m_updateTxCurrentCallback = true
    · simp [hu, hflag]
    · simp [hu]
  have hcca : ∀ d, NotifyMaybeCcaBusyStart d w =
      Except.error Failure.fatalChangeStateCallbackNotSet := by
    intro d
    simp [NotifyMaybeCcaBusyStart, h]
  have hsw : ∀ d, NotifySwitchingStart d w =
      Except.error Failure.fatalChangeStateCallbackNotSet := by
    intro d
    simp [NotifySwitchingStart, h]
  have hok : NotifyRxEndOk U w = Except.error Failure.fatalChangeStateCallbackNotSet := by
    simp [NotifyRxEndOk, h]
  have herr : NotifyRxEndError U w = Except.error Failure.fatalChangeStateCallbackNotSet := by
    simp [NotifyRxEndError, h]
  have hsleep : NotifySleep w = Except.error Failure.fatalChangeStateCallbackNotSet := by
    simp [NotifySleep, h]
  have hwake : NotifyWakeup U w = Except.error Failure.fatalChangeStateCallbackNotSet := by
    simp [NotifyWakeup, h]
  have hoff : NotifyOff U w = Except.error Failure.fatalChangeStateCallbackNotSet := by
    simp [NotifyOff, h]
  have hon : NotifyOn U w = Except.error Failure.fatalChangeStateCallbackNotSet := by
    simp [NotifyOn, h]
  have hidle : SwitchToIdle U w = Except.error Failure.fatalChangeStateCallbackNotSet := by
    simp [SwitchToIdle, h]
  refine ⟨hrx, hok, herr, htx, hcca, hsw, hsleep, hwake, hoff, hon, hidle, ?_⟩
  intro n
  cases n with
  | RxStart d => exact ⟨_, hrx d⟩
  | RxEndOk => exact ⟨_, hok⟩
  | RxEndError => exact ⟨_, herr⟩
  | TxStart d p =>
    by_cases hu : w.model.m_listener.m_updateTxCurrentCallback = true
    · exact ⟨_, (htx d p).trans (if_pos hu)⟩
    · exact ⟨_, (htx d p).trans (if_neg hu)⟩
  | MaybeCcaBusyStart d => exact ⟨_, hcca d⟩
  | SwitchingStart d => exact ⟨_, hsw d⟩
  | Sleep => exact ⟨_, hsleep⟩
  | Wakeup => exact ⟨_, hwake⟩
  | Off => exact ⟨_, hoff⟩
  | On => exact ⟨_, hon⟩

/-- In `unsetWorld`, where only the change-state callback is unset, `NotifyTxStart`,
`NotifySleep` and `SwitchToIdle` fail on that callback. -/
theorem Notify_callback_unset_witness :
    NotifyTxStart Script.done.run 2 0 unsetWorld =
        Except.error Failure.fatalChangeStateCallbackNotSet ∧
      NotifySleep unsetWorld = Except.error Failure.fatalChangeStateCallbackNotSet ∧
      SwitchToIdle Script.done.run unsetWorld =
        Except.error Failure.fatalChangeStateCallbackNotSet := by
  have h := Notify_callback_unset Script.done.run unsetWorld rfl
  exact ⟨(h.2.2.2.1 2 0).trans (if_pos rfl), h.2.2.2.2.2.2.1, h.2.2.2.2.2.2.2.2.2.2.1⟩

/-! ### The ids of the two timers -/

theorem idsApart_congr {w w1 : World} (hinv : IdsApart w)
    (hu : w.sim.m_uid ≤ w1.sim.m_uid)
    (hoff : w1.model.m_switchToOffEvent = w.model.m_switchToOffEvent)
    (hidle : w1.model.m_listener.m_switchToIdleEvent = w.model.m_listener.m_switchToIdleEvent) :
    IdsApart w1 where
  offBound := fun u h => lt_of_lt_of_le (hinv.offBound u (hoff ▸ h)) hu
  idleBound := fun u h => lt_of_lt_of_le (hinv.idleBound u (hidle ▸ h)) hu
  apart := fun u h => by rw [hidle]; exact hinv.apart u (hoff ▸ h)

theorem idsApart_rescheduleSwitchToOff (d : ℚ) {w : World} (hinv : IdsApart w) :
    IdsApart (rescheduleSwitchToOff d w) := by
  have hu : (rescheduleSwitchToOff d w).sim.m_uid = w.sim.m_uid + 1 := by
    simp only [rescheduleSwitchToOff, Simulator.Schedule, cancel_uid]
  have hid : (rescheduleSwitchToOff d w).model.m_switchToOffEvent = some w.sim.m_uid := by
    simp only [rescheduleSwitchToOff, Simulator.Schedule, cancel_uid]
  have hidle : (rescheduleSwitchToOff d w).model.m_listener.m_switchToIdleEvent =
      w.model.m_listener.m_switchToIdleEvent := rfl
  refine ⟨?_, ?_, ?_⟩
  · intro u h
    rw [hid] at h
    rw [hu, ← Option.some.inj h]
    exact Nat.lt_succ_self _
  · intro u h
    rw [hu]
    exact Nat.lt_succ_of_lt (hinv.idleBound u (hidle ▸ h))
  · intro u h hc
    rw [hid] at h
    have := hinv.idleBound u (hidle ▸ hc)
    rw [← Option.some.inj h] at this
    exact lt_irrefl _ this

theorem idsApart_rescheduleSwitchToIdle (d : ℚ) {w : World} (hinv : IdsApart w) :
    IdsApart (rescheduleSwitchToIdle d w) := by
  have hu : (rescheduleSwitchToIdle d w).sim.m_uid = w.sim.m_uid + 1 := by
    simp only [rescheduleSwitchToIdle, Simulator.Schedule, cancel_uid]
  have hid : (rescheduleSwitchToIdle d w).model.m_listener.m_switchToIdleEvent =
      some w.sim.m_uid := by
    simp only [rescheduleSwitchToIdle, Simulator.Schedule, cancel_uid]
  have hoff : (rescheduleSwitchToIdle d w).model.m_switchToOffEvent =
      w.model.m_switchToOffEvent := rfl
  refine ⟨?_, ?_, ?_⟩
  · intro u h
    rw [hu]
    exact Nat.lt_succ_of_lt (hinv.offBound u (hoff ▸ h))
  · intro u h
    rw [hid] at h
    rw [hu, ← Option.some.inj h]
    exact Nat.lt_succ_self _
  · intro u h hc
    rw [hid] at hc
    have := hinv.offBound u (hoff ▸ h)
    rw [← Option.some.inj hc] at this
    exact lt_irrefl _ this

/-- The relation "if the ids of the two timers were apart before, they are after". -/
theorem idsApart_kept : Kept (fun w w1 => IdsApart w → IdsApart w1) where
  refl := fun _ h => h
  trans := fun _ _ _ h1 h2 h => h2 (h1 h)
  readings := fun source w hinv => by
    unfold setReadings
    cases hs : w.model.m_source with
    | none => exact hinv
    | some old => exact idsApart_congr hinv (le_refl _) rfl rfl
  changeState := by
    intro U s w w1 hU h hinv
    rcases ChangeState_elim h with ⟨-, -, rfl⟩ | ⟨-, w2, w3, w4, h2, h3, h4, rfl⟩
    · exact idsApart_congr hinv (le_refl _) rfl rfl
    · have i1 : IdsApart (incPending w) := idsApart_congr hinv (le_refl _) rfl rfl
      have i2 : IdsApart w2 := by
        rcases ChangeState_timer_elim h2 with ⟨-, rfl⟩ | ⟨-, d, -, rfl⟩
        · exact i1
        · exact idsApart_rescheduleSwitchToOff d i1
      obtain ⟨source, current, -, -, -, -, rfl⟩ := ChangeState_account_elim h3
      have i3 : IdsApart (ChangeState_accounted
          ((w2.sim.now - w2.model.m_lastUpdateTime) * current * source.supplyVoltage) w2) :=
        idsApart_congr i2 (le_refl _) rfl rfl
      have i4 := hU _ _ h4 i3
      have i5 : IdsApart (ChangeState_commit s w4) := by
        unfold ChangeState_commit
        split
        · exact idsApart_congr i4 (le_refl _) rfl rfl
        · exact i4
      exact idsApart_congr i5 (le_refl _) rfl rfl
  energyChanged := by
    intro w w1 h hinv
    unfold HandleEnergyChanged at h
    split at h
    · cases hd : GetMaximumTimeInState w.model.m_currentState w.model with
      | error e => simp [hd] at h
      | ok d =>
        simp only [hd, Except.ok.injEq] at h
        rw [← h]
        exact idsApart_rescheduleSwitchToOff d hinv
    · simp only [Except.ok.injEq] at h
      rw [← h]
      exact hinv
  setTx := fun p w hinv => by
    unfold SetTxCurrentFromModel
    cases hs : w.model.m_txCurrentModel with
    | none => exact hinv
    | some f => exact idsApart_congr hinv (le_refl _) rfl rfl
  cancelIdle := fun w hinv =>
    idsApart_congr hinv (le_of_eq (cancel_uid _ _).symm) rfl rfl
  rescheduleIdle := fun d _ hinv => idsApart_rescheduleSwitchToIdle d hinv

/-- Steps of the simulation keep the ids of the two timers apart. -/
theorem runOps_idsApart {ops : List Op} {w w1 : World} (h : runOps ops w = Except.ok w1)
    (hinv : IdsApart w) : IdsApart w1 := by
  refine kept_ops idsApart_kept ?_ ?_ ?_ ops w w1 h hinv
  · intro source w w1 hs hinv
    obtain ⟨d, -, rfl⟩ := SetEnergySource_elim hs
    exact idsApart_rescheduleSwitchToOff d (idsApart_congr hinv (le_refl _) rfl rfl)
  · intro t w hinv
    exact idsApart_congr hinv (le_refl _) rfl rfl
  · intro w e _ hinv
    exact idsApart_congr hinv (le_refl _) rfl rfl

theorem idsApart_initial (a : Attributes) : IdsApart (World.initial a) where
  offBound := fun u h => by cases h
  idleBound := fun u h => by cases h
  apart := fun u h => by cases h

theorem idsApart_exampleWorld : IdsApart exampleWorld where
  offBound := fun u h => by cases h
  idleBound := fun u h => by cases h
  apart := fun u h => by cases h

theorem idsApart_armedWorld : IdsApart armedWorld where
  offBound := fun u h => by cases h
  idleBound := fun u h => by
    have : some 0 = some u := h
    rw [← Option.some.inj this]
    exact Nat.zero_lt_one
  apart := fun u h => by cases h

/-- Cancelling an id leaves the pending events of a kind that the id does not name. -/
theorem cancel_filter_other (sim : Simulator) (id : EventId) (k : EventKind)
    (hk : ∀ e ∈ sim.m_events, e.kind = k → id ≠ some e.uid) :
    (sim.Cancel id).m_events.filter (fun e => e.kind == k) =
      sim.m_events.filter (fun e => e.kind == k) := by
  cases id with
  | none => rfl
  | some u =>
    show (sim.m_events.filter (fun e => e.uid != u)).filter (fun e => e.kind == k) = _
    rw [List.filter_filter]
    apply List.filter_congr
    intro e he
    by_cases hek : e.kind = k
    · have hne : e.uid ≠ u := fun hc => hk e he hek (by rw [hc])
      simp [hek, hne]
    · simp [hek]

/-- With well-formed timers and ids apart, no pending revert-to-idle event is named by
`m_switchToOffEvent` and no pending forced-off event by `m_switchToIdleEvent`. -/
theorem timers_apart {w : World} (hinv : TimerInv w) (hids : IdsApart w) :
    (∀ e ∈ w.sim.m_events, e.kind = EventKind.SwitchToIdle →
      w.model.m_switchToOffEvent ≠ some e.uid) ∧
    (∀ e ∈ w.sim.m_events, e.kind = EventKind.SwitchToOff →
      w.model.m_listener.m_switchToIdleEvent ≠ some e.uid) := by
  constructor
  · intro e he hk hc
    exact hids.apart e.uid hc (hinv.idle e he hk)
  · intro e he hk hc
    exact hids.apart e.uid (hinv.off e he hk) hc

theorem pendingSwitchToOff_rescheduleSwitchToIdle (d : ℚ) {w : World} (hinv : TimerInv w)
    (hids : IdsApart w) :
    pendingSwitchToOff (rescheduleSwitchToIdle d w) = pendingSwitchToOff w := by
  have hev : (rescheduleSwitchToIdle d w).sim.m_events =
      (w.sim.Cancel w.model.m_listener.m_switchToIdleEvent).m_events ++
        [({ uid := w.sim.m_uid, ts := w.sim.now + d, kind := EventKind.SwitchToIdle } : Event)] := by
    simp only [rescheduleSwitchToIdle, Simulator.Schedule, cancel_uid, cancel_now]
  unfold pendingSwitchToOff
  rw [hev, List.filter_append,
    cancel_filter_other w.sim _ EventKind.SwitchToOff (timers_apart hinv hids).2]
  simp

theorem pendingSwitchToOff_cancelSwitchToIdle {w : World} (hinv : TimerInv w)
    (hids : IdsApart w) :
    pendingSwitchToOff (cancelSwitchToIdle w) = pendingSwitchToOff w :=
  cancel_filter_other w.sim _ EventKind.SwitchToOff (timers_apart hinv hids).2

theorem pendingSwitchToIdle_rescheduleSwitchToOff (d : ℚ) {w : World} (hinv : TimerInv w)
    (hids : IdsApart w) :
    pendingSwitchToIdle (rescheduleSwitchToOff d w) = pendingSwitchToIdle w := by
  have hev : (rescheduleSwitchToOff d w).sim.m_events =
      (w.sim.Cancel w.model.m_switchToOffEvent).m_events ++
        [({ uid := w.sim.m_uid, ts := w.sim.now + d, kind := EventKind.SwitchToOff } : Event)] := by
    simp only [rescheduleSwitchToOff, Simulator.Schedule, cancel_uid, cancel_now]
  unfold pendingSwitchToIdle
  rw [hev, List.filter_append,
    cancel_filter_other w.sim _ EventKind.SwitchToIdle (timers_apart hinv hids).1]
  simp

/-- C22 (notifications that only touch the timer).  With the change-state callback set,
`NotifyMaybeCcaBusyStart (d)` and `NotifySwitchingStart (d)` return the world in which the
revert-to-idle event is re-armed and nothing else is done, and `NotifySleep` the world in
which it is cancelled and nothing else is done: the model (state, stored total, time stamp,
counter, forced-off id) is the same but for the id `m_switchToIdleEvent` of the listener.
With well-formed timers exactly one revert-to-idle event is then pending, due at
`now + d`, respectively none; with the ids of the two timers apart, the pending forced-off
events are the same as before. -/
theorem Notify_timer_only (d : ℚ) (w : World)
    (hcb : w.model.m_listener.m_changeStateCallback = true) (hinv : TimerInv w) :
    NotifyMaybeCcaBusyStart d w = Except.ok (rescheduleSwitchToIdle d w) ∧
    NotifySwitchingStart d w = Except.ok (rescheduleSwitchToIdle d w) ∧
    NotifySleep w = Except.ok (cancelSwitchToIdle w) ∧
    (rescheduleSwitchToIdle d w).model = { w.model with m_listener :=
      { w.model.m_listener with m_switchToIdleEvent := some w.sim.m_uid } } ∧
    (rescheduleSwitchToIdle d w).model.m_currentState = w.model.m_currentState ∧
    (rescheduleSwitchToIdle d w).model.m_totalEnergyConsumption =
      w.model.m_totalEnergyConsumption ∧
    (rescheduleSwitchToIdle d w).model.m_lastUpdateTime = w.model.m_lastUpdateTime ∧
    (cancelSwitchToIdle w).model = w.model ∧
    pendingSwitchToIdle (rescheduleSwitchToIdle d w) =
      [({ uid := w.sim.m_uid, ts := w.sim.now + d, kind := EventKind.SwitchToIdle } : Event)] ∧
    pendingSwitchToIdle (cancelSwitchToIdle w) = [] ∧
    (IdsApart w →
      pendingSwitchToOff (rescheduleSwitchToIdle d w) = pendingSwitchToOff w ∧
      pendingSwitchToOff (cancelSwitchToIdle w) = pendingSwitchToOff w) := by
  refine ⟨by simp [NotifyMaybeCcaBusyStart, hcb], by simp [NotifySwitchingStart, hcb],
    by simp [NotifySleep, hcb], ?_, rfl, rfl, rfl, rfl, pendingSwitchToIdle_reschedule d hinv,
    pendingSwitchToIdle_cancel hinv, ?_⟩
  · simp only [rescheduleSwitchToIdle, Simulator.Schedule, cancel_uid]
  · intro hids
    exact ⟨pendingSwitchToOff_rescheduleSwitchToIdle d hinv hids,
      pendingSwitchToOff_cancelSwitchToIdle hinv hids⟩

/-- In `armedWorld` (clock 10 s, a revert-to-idle event pending for 12 s)
`NotifySwitchingStart (5)` leaves one revert-to-idle event pending, for 15 s, and
`NotifySleep` leaves none. -/
theorem Notify_timer_only_witness :
    (∃ w1, NotifySwitchingStart 5 armedWorld = Except.ok w1 ∧
      pendingSwitchToIdle w1 =
        [({ uid := 1, ts := 15, kind := EventKind.SwitchToIdle } : Event)] ∧
      w1.model.m_currentState = State.IDLE) ∧
    ∃ w1, NotifySleep armedWorld = Except.ok w1 ∧ pendingSwitchToIdle w1 = [] := by
  have h := Notify_timer_only 5 armedWorld rfl timerInv_armedWorld
  refine ⟨⟨_, h.2.1, ?_, rfl⟩, _, h.2.2.1, h.2.2.2.2.2.2.2.2.2.1⟩
  rw [h.2.2.2.2.2.2.2.2.1]
  norm_num [armedWorld]

/-- `ChangeState` leaves the listener and the pending revert-to-idle events as they are
when the refresh of the source does. -/
theorem ChangeState_idle_timer {U : World → Except Failure World} {s : State} {w w1 : World}
    (hU : ∀ a b, U a = Except.ok b → b.model.m_listener = a.model.m_listener ∧
      pendingSwitchToIdle b = pendingSwitchToIdle a)
    (h : ChangeState U s w = Except.ok w1) (hinv : TimerInv w) (hids : IdsApart w) :
    w1.model.m_listener = w.model.m_listener ∧
      pendingSwitchToIdle w1 = pendingSwitchToIdle w := by
  rcases ChangeState_elim h with ⟨-, -, rfl⟩ | ⟨-, w2, w3, w4, h2, h3, h4, rfl⟩
  · exact ⟨rfl, rfl⟩
  · have i1 : TimerInv (incPending w) := timerInv_congr hinv (List.Sublist.refl _) rfl rfl rfl
    have j1 : IdsApart (incPending w) := idsApart_congr hids (le_refl _) rfl rfl
    have e2 : w2.model.m_listener = w.model.m_listener ∧
        pendingSwitchToIdle w2 = pendingSwitchToIdle w := by
      rcases ChangeState_timer_elim h2 with ⟨-, rfl⟩ | ⟨-, d, -, rfl⟩
      · exact ⟨rfl, rfl⟩
      · exact ⟨rfl, pendingSwitchToIdle_rescheduleSwitchToOff d i1 j1⟩
    obtain ⟨source, current, -, -, -, -, rfl⟩ := ChangeState_account_elim h3
    obtain ⟨e4l, e4p⟩ := hU _ _ h4
    have e5l : (ChangeState_commit s w4).model.m_listener = w4.model.m_listener := by
      rcases model_commit s w4 with hm | hm <;> rw [hm]
    have e5p : pendingSwitchToIdle (ChangeState_commit s w4) = pendingSwitchToIdle w4 := by
      unfold pendingSwitchToIdle
      rw [sim_commit]
    refine ⟨?_, ?_⟩
    · show (ChangeState_commit s w4).model.m_listener = _
      rw [e5l, e4l]
      exact e2.1
    · show pendingSwitchToIdle (ChangeState_commit s w4) = _
      rw [e5p, e4p]
      exact e2.2

/-- C21 (notifications that ask for `IDLE`).  `NotifyRxEndOk`, `NotifyRxEndError`,
`NotifyWakeup` and `NotifyOn` are one and the same function of the refresh and the world:
with the change-state callback set each is the single call `ChangeState (IDLE)` and
nothing more.  With well-formed timers and ids apart, when the refresh of the source leaves
the listener and the pending revert-to-idle events as they are (as every refresh without
callbacks does), so does the notification: the id `m_switchToIdleEvent` and the pending
revert-to-idle events are the same after as before. -/
theorem NotifyRxEnd_same (U : World → Except Failure World) (w : World) :
    NotifyRxEndError U w = NotifyRxEndOk U w ∧
    NotifyWakeup U w = NotifyRxEndOk U w ∧
    NotifyOn U w = NotifyRxEndOk U w ∧
    (w.model.m_listener.m_changeStateCallback = true →
      NotifyRxEndOk U w = ChangeState U State.IDLE w) ∧
    (∀ w1, TimerInv w → IdsApart w →
      (∀ a b, U a = Except.ok b → b.model.m_listener = a.model.m_listener ∧
        pendingSwitchToIdle b = pendingSwitchToIdle a) →
      NotifyRxEndOk U w = Except.ok w1 →
      w1.model.m_listener = w.model.m_listener ∧
        pendingSwitchToIdle w1 = pendingSwitchToIdle w) ∧
    (∀ refresh : Script, refresh.noCallback = true → ∀ a b, refresh.run a = Except.ok b →
      b.model.m_listener = a.model.m_listener ∧
        pendingSwitchToIdle b = pendingSwitchToIdle a) := by
  refine ⟨rfl, rfl, rfl, ?_, ?_, ?_⟩
  · intro hcb
    simp [NotifyRxEndOk, hcb]
  · intro w1 hinv hids hU h
    unfold NotifyRxEndOk at h
    split at h
    · cases h
    · exact ChangeState_idle_timer hU h hinv hids
  · intro refresh hno a b h
    obtain ⟨o, ho, -, -⟩ := Script.run_noCallback refresh a hno
    rw [ho] at h
    injection h with h
    subst h
    exact ⟨rfl, rfl⟩

/-! ### Re-arming the revert-to-idle timer -/

theorem NotifyTxStart_elim {U : World → Except Failure World} {d p : ℚ} {w w1 : World}
    (h : NotifyTxStart U d p w = Except.ok w1) :
    w.model.m_listener.m_updateTxCurrentCallback = true ∧
      w.model.m_listener.m_changeStateCallback = true ∧
      ∃ w2, ChangeState U State.TX (SetTxCurrentFromModel p w) = Except.ok w2 ∧
        w1 = rescheduleSwitchToIdle d w2 := by
  unfold NotifyTxStart at h
  by_cases hu : w.model.m_listener.m_updateTxCurrentCallback = true
  · simp only [hu, not_true_eq_false, if_false] at h
    by_cases hc : (SetTxCurrentFromModel p w).model.m_listener.m_changeStateCallback = true
    · simp only [hc, not_true_eq_false, if_false] at h
      cases hcs : ChangeState U State.TX (SetTxCurrentFromModel p w) with
      | error e => simp [hcs] at h
      | ok w2 =>
        simp only [hcs, Except.ok.injEq] at h
        exact ⟨hu, (frame0_setTx p w).changeState ▸ hc, w2, rfl, h.symm⟩
    · simp [hc] at h
  · simp [hu] at h

/-- Uids are handed out in increasing order: across every call the next free uid does not
go down, and a pending event was pending before or carries a uid that was free before. -/
theorem fresh_kept : Kept (fun w w1 => w.sim.m_uid ≤ w1.sim.m_uid ∧
    ∀ e ∈ w1.sim.m_events, e ∈ w.sim.m_events ∨ w.sim.m_uid ≤ e.uid) := by
  have hoff : ∀ d (w : World), w.sim.m_uid ≤ (rescheduleSwitchToOff d w).sim.m_uid ∧
      ∀ e ∈ (rescheduleSwitchToOff d w).sim.m_events,
        e ∈ w.sim.m_events ∨ w.sim.m_uid ≤ e.uid := by
    intro d w
    have hev : (rescheduleSwitchToOff d w).sim.m_events =
        (w.sim.Cancel w.model.m_switchToOffEvent).m_events ++
          [({ uid := w.sim.m_uid, ts := w.sim.now + d, kind := EventKind.SwitchToOff } : Event)] := by
      simp only [rescheduleSwitchToOff, Simulator.Schedule, cancel_uid, cancel_now]
    have hu : (rescheduleSwitchToOff d w).sim.m_uid = w.sim.m_uid + 1 := by
      simp only [rescheduleSwitchToOff, Simulator.Schedule, cancel_uid]
    refine ⟨by rw [hu]; exact Nat.le_succ _, ?_⟩
    intro e he
    rw [hev, List.mem_append] at he
    rcases he with he | he
    · exact Or.inl ((cancel_sublist _ _).subset he)
    · rw [List.mem_singleton] at he
      right
      rw [he]
  have hidle : ∀ d (w : World), w.sim.m_uid ≤ (rescheduleSwitchToIdle d w).sim.m_uid ∧
      ∀ e ∈ (rescheduleSwitchToIdle d w).sim.m_events,
        e ∈ w.sim.m_events ∨ w.sim.m_uid ≤ e.uid := by
    intro d w
    have hev : (rescheduleSwitchToIdle d w).sim.m_events =
        (w.sim.Cancel w.model.m_listener.m_switchToIdleEvent).m_events ++
          [({ uid := w.sim.m_uid, ts := w.sim.now + d, kind := EventKind.SwitchToIdle } : Event)] := by
      simp only [rescheduleSwitchToIdle, Simulator.Schedule, cancel_uid, cancel_now]
    have hu : (rescheduleSwitchToIdle d w).sim.m_uid = w.sim.m_uid + 1 := by
      simp only [rescheduleSwitchToIdle, Simulator.Schedule, cancel_uid]
    refine ⟨by rw [hu]; exact Nat.le_succ _, ?_⟩
    intro e he
    rw [hev, List.mem_append] at he
    rcases he with he | he
    · exact Or.inl ((cancel_sublist _ _).subset he)
    · rw [List.mem_singleton] at he
      right
      rw [he]
  have hrefl : ∀ w : World, w.sim.m_uid ≤ w.sim.m_uid ∧
      ∀ e ∈ w.sim.m_events, e ∈ w.sim.m_events ∨ w.sim.m_uid ≤ e.uid :=
    fun w => ⟨le_refl _, fun e he => Or.inl he⟩
  have htrans : ∀ a b c : World,
      (a.sim.m_uid ≤ b.sim.m_uid ∧
        ∀ e ∈ b.sim.m_events, e ∈ a.sim.m_events ∨ a.sim.m_uid ≤ e.uid) →
      (b.sim.m_uid ≤ c.sim.m_uid ∧
        ∀ e ∈ c.sim.m_events, e ∈ b.sim.m_events ∨ b.sim.m_uid ≤ e.uid) →
      (a.sim.m_uid ≤ c.sim.m_uid ∧
        ∀ e ∈ c.sim.m_events, e ∈ a.sim.m_events ∨ a.sim.m_uid ≤ e.uid) := by
    intro a b c h1 h2
    refine ⟨le_trans h1.1 h2.1, ?_⟩
    intro e he
    rcases h2.2 e he with hb | hb
    · exact h1.2 e hb
    · exact Or.inr (le_trans h1.1 hb)
  refine ⟨hrefl, htrans, ?_, ?_, ?_, ?_, ?_, hidle⟩
  · intro source w
    unfold setReadings
    cases hs : w.model.m_source with
    | none => exact hrefl w
    | some old => exact hrefl w
  · intro U s w w1 hU h
    rcases ChangeState_elim h with ⟨-, -, rfl⟩ | ⟨-, w2, w3, w4, h2, h3, h4, rfl⟩
    · exact hrefl w
    · have e2 : w.sim.m_uid ≤ w2.sim.m_uid ∧
          ∀ e ∈ w2.sim.m_events, e ∈ w.sim.m_events ∨ w.sim.m_uid ≤ e.uid := by
        rcases ChangeState_timer_elim h2 with ⟨-, rfl⟩ | ⟨-, d, -, rfl⟩
        · exact hrefl w
        · exact hoff d (incPending w)
      obtain ⟨source, current, -, -, -, -, rfl⟩ := ChangeState_account_elim h3
      have e4 := htrans w (ChangeState_accounted
        ((w2.sim.now - w2.model.m_lastUpdateTime) * current * source.supplyVoltage) w2) w4 e2
        (hU _ _ h4)
      show w.sim.m_uid ≤ (ChangeState_commit s w4).sim.m_uid ∧
        ∀ e ∈ (ChangeState_commit s w4).sim.m_events, _
      rw [sim_commit]
      exact e4
  · intro w w1 h
    unfold HandleEnergyChanged at h
    split at h
    · cases hd : GetMaximumTimeInState w.model.m_currentState w.model with
      | error e => simp [hd] at h
      | ok d =>
        simp only [hd, Except.ok.injEq] at h
        rw [← h]
        exact hoff d w
    · simp only [Except.ok.injEq] at h
      rw [← h]
      exact hrefl w
  · intro p w
    unfold SetTxCurrentFromModel
    cases hs : w.model.m_txCurrentModel with
    | none => exact hrefl w
    | some f => exact hrefl w
  · intro w
    exact ⟨le_of_eq (cancel_uid _ _).symm, fun e he => Or.inl ((cancel_sublist _ _).subset he)⟩

/-- Among events with distinct uids, the search by uid finds the event itself. -/
theorem find_uid_of_mem (l : List Event) (hnodup : (l.map Event.uid).Nodup) (ev : Event)
    (hev : ev ∈ l) : l.find? (fun e => e.uid == ev.uid) = some ev := by
  induction l with
  | nil => cases hev
  | cons a t ih =>
    simp only [List.map_cons, List.nodup_cons] at hnodup
    by_cases ha : a = ev
    · subst ha
      simp
    · have hmem : ev ∈ t := by
        rcases List.mem_cons.mp hev with h | h
        · exact absurd h.symm ha
        · exact h
      have hne : a.uid ≠ ev.uid := by
        intro hc
        exact hnodup.1 (hc ▸ List.mem_map_of_mem Event.uid hmem)
      rw [List.find?_cons_of_neg]
      · exact ih hnodup.2 hmem
      · simpa using hne

/-- Firing an event that is not pending does nothing. -/
theorem fire_absent (inner : Script) (uid : Nat) (w : World)
    (h : ∀ e ∈ w.sim.m_events, e.uid ≠ uid) : fire inner uid w = Except.ok w := by
  have hf : w.sim.m_events.find? (fun e => e.uid == uid) = none := by
    rw [List.find?_eq_none]
    intro e he
    simpa using h e he
  unfold fire
  rw [hf]

/-- Firing a pending revert-to-idle event: the clock moves to its time stamp, the event
leaves the pending events and `ChangeState (IDLE)` is called. -/
theorem fire_idle (inner : Script) (ev : Event) (w : World)
    (hnodup : (w.sim.m_events.map Event.uid).Nodup) (hev : ev ∈ w.sim.m_events)
    (hk : ev.kind = EventKind.SwitchToIdle)
    (hcb : w.model.m_listener.m_changeStateCallback = true) :
    fire inner ev.uid w = ChangeState inner.run State.IDLE
      { w with sim := { w.sim with now := ev.ts, m_events := w.sim.m_events.erase ev } } := by
  unfold fire
  rw [find_uid_of_mem _ hnodup ev hev]
  simp only [hk]
  unfold SwitchToIdle
  simp [hcb]

/-- What a successful `NotifyTxStart` leaves, for well-formed timers. -/
theorem NotifyTxStart_pending {r : Script} {d p : ℚ} {w w1 : World}
    (h : NotifyTxStart r.run d p w = Except.ok w1) (hinv : TimerInv w) :
    ∃ w2, ChangeState r.run State.TX (SetTxCurrentFromModel p w) = Except.ok w2 ∧
      w1 = rescheduleSwitchToIdle d w2 ∧ TimerInv w2 ∧ TimerInv w1 ∧
      w2.sim.now = w.sim.now ∧ w.sim.m_uid ≤ w2.sim.m_uid ∧
      (∀ e ∈ w1.sim.m_events, e ∈ w.sim.m_events ∨ w.sim.m_uid ≤ e.uid) ∧
      pendingSwitchToIdle w1 =
        [({ uid := w2.sim.m_uid, ts := w.sim.now + d, kind := EventKind.SwitchToIdle } : Event)] ∧
      w1.sim.m_uid = w2.sim.m_uid + 1 ∧
      w1.model.m_listener.m_changeStateCallback = true := by
  obtain ⟨-, hc, w2, hcs, rfl⟩ := NotifyTxStart_elim h
  have hinv2 : TimerInv w2 := timerInv_ChangeState hcs (timerInv_kept.setTx p w hinv)
  have hnow : w2.sim.now = w.sim.now := by
    rw [now_ChangeState hcs]
    exact now_kept.setTx p w
  have hf2 := fresh_kept.trans _ _ _ (fresh_kept.setTx p w)
    (fresh_kept.changeState _ _ _ _ (kept_script fresh_kept r) hcs)
  have hf1 := fresh_kept.trans _ _ _ hf2 (fresh_kept.rescheduleIdle d w2)
  have hflag : w2.model.m_listener.m_changeStateCallback = true := by
    rw [(frame_ChangeState (fun a b hab => Script.run_frame hab) hcs).changeState,
      (frame0_setTx p w).changeState]
    exact hc
  refine ⟨w2, hcs, rfl, hinv2, timerInv_rescheduleSwitchToIdle d hinv2, hnow, hf2.1, hf1.2, ?_,
    ?_, hflag⟩
  · rw [← hnow]
    exact pendingSwitchToIdle_reschedule d hinv2
  · simp only [rescheduleSwitchToIdle, Simulator.Schedule, cancel_uid]

/-- Pending events with the same uid are the same event. -/
theorem eq_of_uid_eq {l : List Event} (hnodup : (l.map Event.uid).Nodup) {a b : Event}
    (ha : a ∈ l) (hb : b ∈ l) (h : a.uid = b.uid) : a = b := by
  have h1 := find_uid_of_mem l hnodup a ha
  have h2 := find_uid_of_mem l hnodup b hb
  rw [h] at h1
  exact Option.some.inj (h1.symm.trans h2)

theorem mem_pendingSwitchToIdle {w : World} {e : Event} :
    e ∈ pendingSwitchToIdle w ↔ e ∈ w.sim.m_events ∧ e.kind = EventKind.SwitchToIdle := by
  unfold pendingSwitchToIdle
  rw [List.mem_filter]
  simp

/-- C23 (re-arming), as amended.  Take well-formed timers, a `NotifyTxStart (d1, .)` at time
`t1 = now` that returns `wa` and a `NotifyTxStart (d2, .)` at time `t2` on `wa` that
returns `wb`.  After the first call one revert-to-idle event is pending, due at `t1 + d1`;
after the second one revert-to-idle event is pending, another one, due at `t2 + d2`; the
first event is no longer pending, so its firing does nothing, and the firing of the second
is one call `ChangeState (IDLE)` at time `t2 + d2`.  No revert-to-idle event is due at
`t1 + d1` provided `t1 + d1` differs from `t2 + d2`. -/
theorem NotifyTxStart_rearm (r1 r2 : Script) (d1 p1 d2 p2 t2 : ℚ) (w wa wb : World)
    (hinv : TimerInv w)
    (ha : NotifyTxStart r1.run d1 p1 w = Except.ok wa)
    (hb : NotifyTxStart r2.run d2 p2 (atTime t2 wa) = Except.ok wb) :
    ∃ uid1 uid2, uid1 < uid2 ∧
      pendingSwitchToIdle wa =
        [({ uid := uid1, ts := w.sim.now + d1, kind := EventKind.SwitchToIdle } : Event)] ∧
      pendingSwitchToIdle wb =
        [({ uid := uid2, ts := t2 + d2, kind := EventKind.SwitchToIdle } : Event)] ∧
      (∀ e ∈ wb.sim.m_events, e.uid ≠ uid1) ∧
      (∀ inner : Script, fire inner uid1 wb = Except.ok wb) ∧
      (∀ inner : Script, fire inner uid2 wb = ChangeState inner.run State.IDLE
        { wb with sim := { wb.sim with now := t2 + d2, m_events := (wb.sim.m_events.erase
          ({ uid := uid2, ts := t2 + d2, kind := EventKind.SwitchToIdle } : Event)) } }) ∧
      (w.sim.now + d1 ≠ t2 + d2 → ∀ e ∈ pendingSwitchToIdle wb, e.ts ≠ w.sim.now + d1) := by
  obtain ⟨w2, -, -, -, hinva, -, -, -, hpa, huida, -⟩ := NotifyTxStart_pending ha hinv
  have hinvt : TimerInv (atTime t2 wa) :=
    timerInv_congr hinva (List.Sublist.refl _) rfl rfl rfl
  obtain ⟨w3, -, -, -, hinvb, -, hle, hfresh, hpb, -, hflag⟩ := NotifyTxStart_pending hb hinvt
  have hlt : w2.sim.m_uid < w3.sim.m_uid := by
    have h1 : (atTime t2 wa).sim.m_uid = w2.sim.m_uid + 1 := huida
    rw [h1] at hle
    exact hle
  have hmem1 : (Event.mk w2.sim.m_uid (w.sim.now + d1) EventKind.SwitchToIdle) ∈
      wa.sim.m_events := by
    have : (Event.mk w2.sim.m_uid (w.sim.now + d1) EventKind.SwitchToIdle) ∈
        pendingSwitchToIdle wa := by
      rw [hpa]
      exact List.mem_singleton_self _
    exact (mem_pendingSwitchToIdle.mp this).1
  have hmem2 : (Event.mk w3.sim.m_uid (t2 + d2) EventKind.SwitchToIdle) ∈
      wb.sim.m_events := by
    have : (Event.mk w3.sim.m_uid ((atTime t2 wa).sim.now + d2) EventKind.SwitchToIdle) ∈
        pendingSwitchToIdle wb := by
      rw [hpb]
      exact List.mem_singleton_self _
    exact (mem_pendingSwitchToIdle.mp this).1
  have habsent : ∀ e ∈ wb.sim.m_events, e.uid ≠ w2.sim.m_uid := by
    intro e he hc
    rcases hfresh e he with hold | hnew
    · have heq := eq_of_uid_eq hinva.nodup hold hmem1 hc
      have hin : e ∈ pendingSwitchToIdle wb :=
        mem_pendingSwitchToIdle.mpr ⟨he, by rw [heq]⟩
      rw [hpb, List.mem_singleton] at hin
      have huid : e.uid = w3.sim.m_uid := by rw [hin]
      rw [hc] at huid
      exact absurd huid (ne_of_lt hlt)
    · have h1 : (atTime t2 wa).sim.m_uid = w2.sim.m_uid + 1 := huida
      rw [h1, hc] at hnew
      exact absurd hnew (Nat.not_succ_le_self _)
  refine ⟨w2.sim.m_uid, w3.sim.m_uid, hlt, hpa, hpb, habsent,
    fun inner => fire_absent inner _ wb habsent, ?_, ?_⟩
  · intro inner
    exact fire_idle inner (Event.mk w3.sim.m_uid (t2 + d2) EventKind.SwitchToIdle) wb
      hinvb.nodup hmem2 rfl hflag
  · intro hne e he
    rw [hpb, List.mem_singleton] at he
    rw [he]
    exact fun hc => hne hc.symm

/-- On `exampleWorld` (now 10 s): `NotifyTxStart (4 s)` at 10 s and `NotifyTxStart (2 s)`
at 11 s leave one revert-to-idle event pending, due at 13 s, and none due at 14 s. -/
theorem NotifyTxStart_rearm_witness :
    ∃ wa wb uid, NotifyTxStart Script.done.run 4 0 exampleWorld = Except.ok wa ∧
      NotifyTxStart Script.done.run 2 0 (atTime 11 wa) = Except.ok wb ∧
      pendingSwitchToIdle wb =
        [({ uid := uid, ts := 13, kind := EventKind.SwitchToIdle } : Event)] ∧
      ∀ e ∈ pendingSwitchToIdle wb, e.ts ≠ 14 := by
  have hex : ∃ wa, NotifyTxStart Script.done.run 4 0 exampleWorld = Except.ok wa ∧
      ∃ wb, NotifyTxStart Script.done.run 2 0 (atTime 11 wa) = Except.ok wb := by
    repeat (first
      | simp [NotifyTxStart, SetTxCurrentFromModel, ChangeState, Script.run, exampleWorld,
          exampleSource, incPending, decPending, ChangeState_timer, ChangeState_account,
          ChangeState_accounted, ChangeState_commit, GetMaximumTimeInState, GetStateA,
          rescheduleSwitchToOff, rescheduleSwitchToIdle, SetBleRadioState, atTime,
          BleRadioEnergyModel.BleRadioEnergyModel, Attributes.default, Simulator.Cancel,
          Simulator.Schedule]
      | norm_num)
  obtain ⟨wa, ha, wb, hb⟩ := hex
  obtain ⟨uid1, uid2, -, -, hpb, -, -, -, hnone⟩ :=
    NotifyTxStart_rearm Script.done Script.done 4 0 2 0 11 exampleWorld wa wb
      timerInv_exampleWorld ha hb
  have h13 : (11 : ℚ) + 2 = 13 := by norm_num
  have h14 : exampleWorld.sim.now + 4 = 14 := by norm_num [exampleWorld]
  rw [h13] at hpb
  rw [h13, h14] at hnone
  exact ⟨wa, wb, uid2, ha, hb, hpb, hnone (by norm_num)⟩

/-- The claim as worded fails when `t2 + d2 = t1 + d1`.  On `exampleWorld`:
`NotifyTxStart (4 s)` at `t1 = 10 s` and `NotifyTxStart (3 s)` at `t2 = 11 s`, with
`t1 <= t2 < t1 + d1`, leave a revert-to-idle event pending that is due at
`14 s = t1 + d1`, and its firing requests `IDLE` at that time. -/
theorem NotifyTxStart_rearm_counterexample :
    (10 : ℚ) ≤ 11 ∧ (11 : ℚ) < 10 + 4 ∧ exampleWorld.sim.now = 10 ∧
    ∃ wa, NotifyTxStart Script.done.run 4 0 exampleWorld = Except.ok wa ∧
      ∃ wb, NotifyTxStart Script.done.run 3 0 (atTime 11 wa) = Except.ok wb ∧
        pendingSwitchToIdle wb =
          [({ uid := 3, ts := 10 + 4, kind := EventKind.SwitchToIdle } : Event)] ∧
        ∃ wc, fire Script.done 3 wb = Except.ok wc ∧ wc.sim.now = 10 + 4 ∧
          wc.model.m_currentState = State.IDLE ∧ wb.model.m_currentState = State.TX := by
  refine ⟨by norm_num, by norm_num, rfl, ?_⟩
  repeat (first
    | simp [NotifyTxStart, SetTxCurrentFromModel, ChangeState, Script.run, exampleWorld,
        exampleSource, incPending, decPending, ChangeState_timer, ChangeState_account,
        ChangeState_accounted, ChangeState_commit, GetMaximumTimeInState, GetStateA,
        rescheduleSwitchToOff, rescheduleSwitchToIdle, SetBleRadioState, atTime, fire,
        SwitchToIdle, pendingSwitchToIdle,
        BleRadioEnergyModel.BleRadioEnergyModel, Attributes.default, Simulator.Cancel,
        Simulator.Schedule]
    | norm_num)

/-! ### A transmission and the return to `IDLE` -/

/-- A top-level `ChangeState` whose refresh makes no callback. -/
theorem ChangeState_top_noCallback {refresh : Script} {s : State} {w w1 : World}
    (hdepth : w.model.m_nPendingChangeState = 0) (hno : refresh.noCallback = true)
    (h : ChangeState refresh.run s w = Except.ok w1) :
    ∃ source current, w.model.m_source = some source ∧
      GetStateA w.model.m_currentState w.model = Except.ok current ∧
      w1.model.m_currentState = committedState w.model.m_currentState s ∧
      w1.model.m_totalEnergyConsumption = w.model.m_totalEnergyConsumption +
        (w.sim.now - w.model.m_lastUpdateTime) * current * source.supplyVoltage ∧
      w1.model.m_lastUpdateTime = w.sim.now ∧
      w1.model.m_nPendingChangeState = 0 ∧
      w1.model.m_txCurrentA = w.model.m_txCurrentA ∧
      w1.model.m_source.isSome = true := by
  have hfull : ¬ ((w.model.m_nPendingChangeState + 1) % 256 > 1 ∧ s = State.OFF) := by
    rintro ⟨hgt, -⟩
    rw [hdepth] at hgt
    omega
  obtain ⟨source, current, w2, w4, h2, hsrc, hcur, -, -, h4, rfl⟩ := ChangeState_full_elim hfull h
  obtain ⟨hm, hnow⟩ := ChangeState_timer_shape h2
  obtain ⟨o, ho, hsome, -⟩ := Script.run_noCallback refresh
    (ChangeState_accounted ((w.sim.now - w.model.m_lastUpdateTime) *
      current * source.supplyVoltage) w2) hno
  rw [ho, Except.ok.injEq] at h4
  have hst4 : w4.model.m_currentState = w.model.m_currentState := by
    rw [← h4]
    show w2.model.m_currentState = _
    rw [hm]
    rfl
  have hp4 : w4.model.m_nPendingChangeState = 1 := by
    rw [← h4]
    show w2.model.m_nPendingChangeState = _
    rw [hm]
    show (w.model.m_nPendingChangeState + 1) % 256 = 1
    rw [hdepth]
  have hsrc2 : w2.model.m_source = some source := by
    rw [hm]
    exact hsrc
  refine ⟨source, current, hsrc, hcur, ?_, ?_, ?_, ?_, ?_, ?_⟩
  · show (ChangeState_commit s w4).model.m_currentState = _
    unfold ChangeState_commit committedState
    by_cases hoff : w.model.m_currentState = State.OFF
    · simp [hst4, hoff]
    · simp [hst4, hoff, hp4, SetBleRadioState]
  · rw [show (decPending (ChangeState_commit s w4)).model.m_totalEnergyConsumption =
      (ChangeState_commit s w4).model.m_totalEnergyConsumption from rfl, total_commit, ← h4]
    show w2.model.m_totalEnergyConsumption + _ = _
    rw [hm]
    rfl
  · rw [show (decPending (ChangeState_commit s w4)).model.m_lastUpdateTime =
      (ChangeState_commit s w4).model.m_lastUpdateTime from rfl, last_commit, ← h4]
    exact hnow
  · rw [pending_decPending, pending_commit, hp4]
  · rcases model_commit s w4 with hc | hc <;>
      rw [show (decPending (ChangeState_commit s w4)).model.m_txCurrentA =
        (ChangeState_commit s w4).model.m_txCurrentA from rfl, hc, ← h4] <;>
      show w2.model.m_txCurrentA = _ <;> rw [hm] <;> rfl
  · have hs4 : w4.model.m_source.isSome = true := by
      rw [← h4]
      show o.isSome = true
      rw [hsome]
      show w2.model.m_source.isSome = true
      rw [hsrc2]
      rfl
    rcases model_commit s w4 with hc | hc <;>
      rw [show (decPending (ChangeState_commit s w4)).model.m_source =
        (ChangeState_commit s w4).model.m_source from rfl, hc] <;> exact hs4

/-! ### Monotonicity of the stored total and of the time stamp -/

/-- Once the time stamp is the present time, no call at the same instant changes the stored
total or the time stamp: a nested `ChangeState` charges an interval of length zero. -/
theorem settled_kept : Kept (fun w w1 => w.model.m_lastUpdateTime = w.sim.now →
    w1.model.m_totalEnergyConsumption = w.model.m_totalEnergyConsumption ∧
      w1.model.m_lastUpdateTime = w.model.m_lastUpdateTime ∧ w1.sim.now = w.sim.now) where
  refl := fun _ _ => ⟨rfl, rfl, rfl⟩
  trans := fun a b c h1 h2 ha => by
    obtain ⟨t1, l1, n1⟩ := h1 ha
    obtain ⟨t2, l2, n2⟩ := h2 (by rw [l1, n1]; exact ha)
    exact ⟨t2.trans t1, l2.trans l1, n2.trans n1⟩
  readings := fun source w _ => by
    unfold setReadings
    cases hs : w.model.m_source with
    | none => exact ⟨rfl, rfl, rfl⟩
    | some old => exact ⟨rfl, rfl, rfl⟩
  changeState := by
    intro U s w w1 hU h hw
    rcases ChangeState_elim h with ⟨-, -, rfl⟩ | ⟨-, w2, w3, w4, h2, h3, h4, rfl⟩
    · exact ⟨rfl, rfl, rfl⟩
    · obtain ⟨hnow, hlast, htotal, -, -, -⟩ := ChangeState_timer_fields h2
      obtain ⟨source, current, -, -, -, -, rfl⟩ := ChangeState_account_elim h3
      obtain ⟨t4, l4, n4⟩ := hU _ _ h4 rfl
      refine ⟨?_, ?_, ?_⟩
      · show (ChangeState_commit s w4).model.m_totalEnergyConsumption = _
        rw [total_commit, t4]
        show w2.model.m_totalEnergyConsumption + _ = _
        rw [htotal, hnow, hlast, hw]
        ring
      · show (ChangeState_commit s w4).model.m_lastUpdateTime = _
        rw [last_commit, l4]
        show w2.sim.now = _
        rw [hnow, hw]
      · show (ChangeState_commit s w4).sim.now = _
        rw [sim_commit, n4]
        exact hnow
  energyChanged := by
    intro w w1 h _
    unfold HandleEnergyChanged at h
    split at h
    · cases hd : GetMaximumTimeInState w.model.m_currentState w.model with
      | error e => simp [hd] at h
      | ok d =>
        simp only [hd, Except.ok.injEq] at h
        rw [← h]
        refine ⟨rfl, rfl, ?_⟩
        simp only [rescheduleSwitchToOff, Simulator.Schedule, cancel_now]
    · simp only [Except.ok.injEq] at h
      rw [← h]
      exact ⟨rfl, rfl, rfl⟩
  setTx := fun p w _ => by
    unfold SetTxCurrentFromModel
    cases hs : w.model.m_txCurrentModel with
    | none => exact ⟨rfl, rfl, rfl⟩
    | some f => exact ⟨rfl, rfl, rfl⟩
  cancelIdle := fun w _ => ⟨rfl, rfl, cancel_now _ _⟩
  rescheduleIdle := fun d w _ => by
    refine ⟨rfl, rfl, ?_⟩
    simp only [rescheduleSwitchToIdle, Simulator.Schedule, cancel_now]

/-- What one `ChangeState` that returns does to the stored total and the time stamp,
whatever the calls made during the refresh of the source: nothing on the fast exit, and on
the full path the interval since the time stamp is charged once, at the current of the
state held on entry. -/
theorem ChangeState_script_step {refresh : Script} {s : State} {w w1 : World}
    (h : ChangeState refresh.run s w = Except.ok w1) :
    (w1.model.m_totalEnergyConsumption = w.model.m_totalEnergyConsumption ∧
      w1.model.m_lastUpdateTime = w.model.m_lastUpdateTime) ∨
    (∃ source current, w.model.m_source = some source ∧
      GetStateA w.model.m_currentState w.model = Except.ok current ∧
      w.model.m_lastUpdateTime ≤ w.sim.now ∧
      w1.model.m_totalEnergyConsumption = w.model.m_totalEnergyConsumption +
        (w.sim.now - w.model.m_lastUpdateTime) * current * source.supplyVoltage ∧
      w1.model.m_lastUpdateTime = w.sim.now) := by
  rcases ChangeState_elim h with ⟨-, -, rfl⟩ | ⟨-, w2, w3, w4, h2, h3, h4, rfl⟩
  · exact Or.inl ⟨rfl, rfl⟩
  · right
    obtain ⟨hnow, hlast, htotal, hsrc2, -, hcur2⟩ := ChangeState_timer_fields h2
    obtain ⟨source, current, hsrc, hcur, hle, -, rfl⟩ := ChangeState_account_elim h3
    obtain ⟨t4, l4, -⟩ := kept_script settled_kept refresh _ _ h4 rfl
    refine ⟨source, current, hsrc2 ▸ hsrc, hcur2 ▸ hcur, by rw [← hnow, ← hlast]; exact hle,
      ?_, ?_⟩
    · show (ChangeState_commit s w4).model.m_totalEnergyConsumption = _
      rw [total_commit, t4]
      show w2.model.m_totalEnergyConsumption + _ = _
      rw [htotal, hnow, hlast]
    · show (ChangeState_commit s w4).model.m_lastUpdateTime = _
      rw [last_commit, l4]
      exact hnow

theorem GetStateA_nonneg {m : BleRadioEnergyModel} (hnn : NonNeg m) {s : State} {current : ℚ}
    (h : GetStateA s m = Except.ok current) : 0 ≤ current := by
  cases s <;> simp only [GetStateA, Except.ok.injEq, reduceCtorEq] at h
  · rw [← h]; exact hnn.idle
  · rw [← h]; exact hnn.rx
  · rw [← h]; exact hnn.rx
  · rw [← h]; exact hnn.tx
  · rw [← h]; exact hnn.tx
  · rw [← h]

/-- One call of `ChangeState` that returns, with non-negative currents and voltage. -/
theorem ChangeState_monotone {refresh : Script} {s : State} {w w1 : World}
    (hnn : NonNeg w.model) (h : ChangeState refresh.run s w = Except.ok w1) :
    w.model.m_totalEnergyConsumption ≤ w1.model.m_totalEnergyConsumption ∧
      w.model.m_lastUpdateTime ≤ w1.model.m_lastUpdateTime ∧
      (w.model.m_currentState = State.OFF →
        w1.model.m_totalEnergyConsumption = w.model.m_totalEnergyConsumption) := by
  rcases ChangeState_script_step h with ⟨ht, hl⟩ | ⟨source, current, hsrc, hcur, hle, ht, hl⟩
  · exact ⟨le_of_eq ht.symm, le_of_eq hl.symm, fun _ => ht⟩
  · have hc : 0 ≤ current := GetStateA_nonneg hnn hcur
    have hv : 0 ≤ source.supplyVoltage := hnn.voltage source hsrc
    have hd : 0 ≤ w.sim.now - w.model.m_lastUpdateTime := by linarith
    refine ⟨?_, by rw [hl]; exact hle, ?_⟩
    · rw [ht]
      have := mul_nonneg (mul_nonneg hd hc) hv
      linarith
    · intro hoff
      rw [hoff] at hcur
      have h0 : current = 0 := (Except.ok.inj hcur).symm
      rw [ht, h0]
      ring

/-- The currents and the source after a `ChangeState` that returns are those left by the
refresh of the source. -/
theorem ChangeState_nonNeg {U : World → Except Failure World} {s : State} {w w1 : World}
    (hU : ∀ a b, U a = Except.ok b → NonNeg a.model → NonNeg b.model)
    (hnn : NonNeg w.model) (h : ChangeState U s w = Except.ok w1) : NonNeg w1.model := by
  rcases ChangeState_elim h with ⟨-, -, rfl⟩ | ⟨-, w2, w3, w4, h2, h3, h4, rfl⟩
  · exact ⟨hnn.idle, hnn.rx, hnn.tx, hnn.voltage⟩
  · obtain ⟨hm, -⟩ := ChangeState_timer_shape h2
    obtain ⟨source, current, -, -, -, -, rfl⟩ := ChangeState_account_elim h3
    have n2 : NonNeg w2.model := by
      rw [hm]
      exact ⟨hnn.idle, hnn.rx, hnn.tx, hnn.voltage⟩
    have n3 : NonNeg (ChangeState_accounted
        ((w2.sim.now - w2.model.m_lastUpdateTime) * current * source.supplyVoltage) w2).model :=
      ⟨n2.idle, n2.rx, n2.tx, n2.voltage⟩
    have n4 := hU _ _ h4 n3
    have n5 : NonNeg (ChangeState_commit s w4).model := by
      rcases model_commit s w4 with hc | hc <;> rw [hc]
      · exact n4
      · exact ⟨n4.idle, n4.rx, n4.tx, n4.voltage⟩
    exact ⟨n5.idle, n5.rx, n5.tx, n5.voltage⟩

/-- C29 (monotonicity).  Take non-negative idle, rx and tx currents and a non-negative
supply voltage, and a series of top-level requests whose refreshes keep them non-negative.
If no call fails, the stored total and the time stamp after the series are at least what
they were before it, and when the state was `OFF` before the series the stored total is
the same after it.  The same holds of every single call of `ChangeState` that returns, at
any depth of nesting and with any calls made during its refresh. -/
theorem total_and_time_monotone (rs : List Request) (w w1 : World) (hnn : NonNeg w.model)
    (hkeep : ∀ r ∈ rs, ∀ a b, r.refresh.run a = Except.ok b → NonNeg a.model → NonNeg b.model)
    (h : runRequests rs w = Except.ok w1) :
    w.model.m_totalEnergyConsumption ≤ w1.model.m_totalEnergyConsumption ∧
      w.model.m_lastUpdateTime ≤ w1.model.m_lastUpdateTime ∧
      (w.model.m_currentState = State.OFF →
        w1.model.m_totalEnergyConsumption = w.model.m_totalEnergyConsumption) ∧
      ∀ (refresh : Script) (s : State) (a b : World), NonNeg a.model →
        ChangeState refresh.run s a = Except.ok b →
        a.model.m_totalEnergyConsumption ≤ b.model.m_totalEnergyConsumption ∧
          a.model.m_lastUpdateTime ≤ b.model.m_lastUpdateTime ∧
          (a.model.m_currentState = State.OFF →
            b.model.m_totalEnergyConsumption = a.model.m_totalEnergyConsumption) := by
  have hseq : ∀ (rs : List Request) (w w1 : World), NonNeg w.model →
      (∀ r ∈ rs, ∀ a b, r.refresh.run a = Except.ok b → NonNeg a.model → NonNeg b.model) →
      runRequests rs w = Except.ok w1 →
      w.model.m_totalEnergyConsumption ≤ w1.model.m_totalEnergyConsumption ∧
        w.model.m_lastUpdateTime ≤ w1.model.m_lastUpdateTime ∧
        (w.model.m_currentState = State.OFF →
          w1.model.m_totalEnergyConsumption = w.model.m_totalEnergyConsumption) := by
    intro rs
    induction rs with
    | nil =>
      intro w w1 _ _ h
      simp only [runRequests, Except.ok.injEq] at h
      rw [← h]
      exact ⟨le_refl _, le_refl _, fun _ => rfl⟩
    | cons r rs ih =>
      intro w w1 hnn hkeep h
      simp only [runRequests] at h
      cases hr : r.run w with
      | error e => simp [hr] at h
      | ok w2 =>
        simp only [hr] at h
        have hcs : ChangeState r.refresh.run r.newState (atTime r.t w) = Except.ok w2 := hr
        have hnt : NonNeg (atTime r.t w).model := hnn
        obtain ⟨a1, a2, a3⟩ := ChangeState_monotone hnt hcs
        have hnn2 : NonNeg w2.model :=
          ChangeState_nonNeg (hkeep r (List.mem_cons_self r rs)) hnt hcs
        obtain ⟨b1, b2, b3⟩ := ih w2 w1 hnn2
          (fun x hx => hkeep x (List.mem_cons_of_mem r hx)) h
        refine ⟨le_trans a1 b1, le_trans a2 b2, ?_⟩
        intro hoff
        have hoff2 : w2.model.m_currentState = State.OFF :=
          ChangeState_staysOff (fun a b hab => Script.run_staysOff hab) hcs hoff
        rw [b3 hoff2]
        exact a3 hoff
  obtain ⟨c1, c2, c3⟩ := hseq rs w w1 hnn hkeep h
  exact ⟨c1, c2, c3, fun refresh s a b ha hab => ChangeState_monotone ha hab⟩

/-- On `exampleWorld` (currents and voltage positive) the requests `TX` at 10 s and `IDLE`
at 12 s return, and the stored total and the time stamp have not gone down. -/
theorem total_and_time_monotone_witness :
    ∃ w1, runRequests exampleRequests exampleWorld = Except.ok w1 ∧
      exampleWorld.model.m_totalEnergyConsumption ≤ w1.model.m_totalEnergyConsumption ∧
      exampleWorld.model.m_lastUpdateTime ≤ w1.model.m_lastUpdateTime := by
  have hex : ∃ w1, runRequests exampleRequests exampleWorld = Except.ok w1 := by
    repeat (first
      | simp [runRequests, exampleRequests, Request.run, atTime, ChangeState,
          Script.run, exampleWorld, exampleSource, incPending, decPending, ChangeState_timer,
          ChangeState_account, ChangeState_accounted, ChangeState_commit, GetMaximumTimeInState,
          GetStateA, rescheduleSwitchToOff, SetBleRadioState,
          BleRadioEnergyModel.BleRadioEnergyModel, Attributes.default, Simulator.Cancel,
          Simulator.Schedule]
      | norm_num)
  obtain ⟨w1, h⟩ := hex
  have hnn : NonNeg exampleWorld.model := by
    refine ⟨?_, ?_, ?_, ?_⟩
    · norm_num [exampleWorld, BleRadioEnergyModel.BleRadioEnergyModel, Attributes.default]
    · norm_num [exampleWorld, BleRadioEnergyModel.BleRadioEnergyModel, Attributes.default]
    · norm_num [exampleWorld, BleRadioEnergyModel.BleRadioEnergyModel, Attributes.default]
    · intro source hs
      have : some exampleSource = some source := hs
      rw [← Option.some.inj this]
      norm_num [exampleSource]
  have hkeep : ∀ r ∈ exampleRequests, ∀ a b, r.refresh.run a = Except.ok b →
      NonNeg a.model → NonNeg b.model := by
    intro r hr a b hab ha
    simp only [exampleRequests, List.mem_cons, List.mem_singleton, List.not_mem_nil,
      or_false] at hr
    rcases hr with rfl | rfl
    · have : a = b := Except.ok.inj hab
      rw [← this]
      exact ha
    · have : a = b := Except.ok.inj hab
      rw [← this]
      exact ha
  obtain ⟨c1, c2, -, -⟩ :=
    total_and_time_monotone exampleRequests exampleWorld w1 hnn hkeep h
  exact ⟨w1, h, c1, c2⟩

/-! ### The linear tx-current model -/

/-- C25 (linear tx current).  Over the reals, with `std::pow` read as the real power: for
every tx power and every configuration with `m_voltage * m_eta` other than 0,
`CalcTxCurrent (txPowerDbm)` is `10 ^ ((txPowerDbm - 30) / 10) / (m_voltage * m_eta) +
m_idleCurrent`; with the default parameters (3.0 V, efficiency 0.10, idle current 1e-6 A)
`CalcTxCurrent (0)` is `0.001 / 0.30 + 1e-6`. -/
theorem CalcTxCurrent_value (m : LinearBleTxCurrentModel ℝ) (txPowerDbm : ℝ)
    (h : m.m_voltage * m.m_eta ≠ 0) :
    m.CalcTxCurrent (fun b x => b ^ x) txPowerDbm =
        Except.ok ((10 : ℝ) ^ ((txPowerDbm - 30) / 10) / (m.m_voltage * m.m_eta) +
          m.m_idleCurrent) ∧
      (LinearBleTxCurrentModel.default ℝ).CalcTxCurrent (fun b x => b ^ x) 0 =
        Except.ok ((1 / 1000 : ℝ) / (30 / 100) + 1 / 1000000) := by
  constructor
  · unfold LinearBleTxCurrentModel.CalcTxCurrent DbmToW
    rw [if_neg h]
    have he : (1 : ℝ) / 10 * (txPowerDbm - 30) = (txPowerDbm - 30) / 10 := by ring
    simp only [he]
  · unfold LinearBleTxCurrentModel.CalcTxCurrent DbmToW LinearBleTxCurrentModel.default
    have hne : ¬ ((3 : ℝ) * (1 / 10) = 0) := by norm_num
    have hp : (10 : ℝ) ^ ((1 : ℝ) / 10 * ((0 : ℝ) - 30)) = 1 / 1000 := by norm_num
    simp only [if_neg hne, hp]
    norm_num

/-- With the default parameters and `txPowerDbm = 10` the formula gives
`0.01 / 0.30 + 1e-6`. -/
theorem CalcTxCurrent_value_witness :
    (LinearBleTxCurrentModel.default ℝ).CalcTxCurrent (fun b x => b ^ x) 10 =
      Except.ok ((1 / 100 : ℝ) / (30 / 100) + 1 / 1000000) := by
  have h := (CalcTxCurrent_value (LinearBleTxCurrentModel.default ℝ) 10
    (by norm_num [LinearBleTxCurrentModel.default])).1
  have hp : (10 : ℝ) ^ (((10 : ℝ) - 30) / 10) = 1 / 100 := by norm_num
  rw [h, hp]
  norm_num [LinearBleTxCurrentModel.default]

/-- The exact formula of the linear tx current: over the reals, with `std::pow` read as the
real power and nothing rounded, for every configuration with `m_voltage * m_eta > 0`, `CalcTxCurrent` returns a
number for every tx power, the number is above `m_idleCurrent`, and a greater tx power
gives a greater number; `DbmToW (30) = 1` and `DbmToW (p + 10) = 10 * DbmToW (p)`. -/
theorem CalcTxCurrent_increasing (m : LinearBleTxCurrentModel ℝ)
    (h : 0 < m.m_voltage * m.m_eta) :
    (∀ p q : ℝ, p < q → ∃ a b, m.CalcTxCurrent (fun b x => b ^ x) p = Except.ok a ∧
      m.CalcTxCurrent (fun b x => b ^ x) q = Except.ok b ∧ a < b) ∧
    (∀ p : ℝ, ∃ a, m.CalcTxCurrent (fun b x => b ^ x) p = Except.ok a ∧ m.m_idleCurrent < a) ∧
    DbmToW (fun (b x : ℝ) => b ^ x) 30 = 1 ∧
    ∀ p : ℝ, DbmToW (fun (b x : ℝ) => b ^ x) (p + 10) = 10 * DbmToW (fun (b x : ℝ) => b ^ x) p := by
  have hne : ¬ (m.m_voltage * m.m_eta = 0) := ne_of_gt h
  have hval : ∀ p : ℝ, m.CalcTxCurrent (fun b x => b ^ x) p =
      Except.ok ((10 : ℝ) ^ (1 / 10 * (p - 30)) / (m.m_voltage * m.m_eta) + m.m_idleCurrent) := by
    intro p
    unfold LinearBleTxCurrentModel.CalcTxCurrent DbmToW
    rw [if_neg hne]
  refine ⟨?_, ?_, ?_, ?_⟩
  · intro p q hpq
    refine ⟨_, _, hval p, hval q, ?_⟩
    have hexp : (1 : ℝ) / 10 * (p - 30) < 1 / 10 * (q - 30) := by linarith
    have hpow : (10 : ℝ) ^ (1 / 10 * (p - 30)) < (10 : ℝ) ^ (1 / 10 * (q - 30)) :=
      (Real.rpow_lt_rpow_left_iff (by norm_num)).mpr hexp
    have := div_lt_div_of_pos_right hpow h
    linarith
  · intro p
    refine ⟨_, hval p, ?_⟩
    have hpos : (0 : ℝ) < (10 : ℝ) ^ (1 / 10 * (p - 30)) := Real.rpow_pos_of_pos (by norm_num) _
    have := div_pos hpos h
    linarith
  · unfold DbmToW
    norm_num
  · intro p
    unfold DbmToW
    have he : (1 : ℝ) / 10 * (p + 10 - 30) = 1 + 1 / 10 * (p - 30) := by ring
    simp only [he]
    rw [Real.rpow_add (by norm_num), Real.rpow_one]

/-- Over the reals, with the default parameters (`3.0 * 0.10 > 0`): the current at 0 dBm is
below the current at 10 dBm, and both are above the idle current. -/
theorem CalcTxCurrent_increasing_witness :
    ∃ a b, (LinearBleTxCurrentModel.default ℝ).CalcTxCurrent (fun b x => b ^ x) 0 =
        Except.ok a ∧
      (LinearBleTxCurrentModel.default ℝ).CalcTxCurrent (fun b x => b ^ x) 10 = Except.ok b ∧
      a < b ∧ (LinearBleTxCurrentModel.default ℝ).m_idleCurrent < a :=
  have h := CalcTxCurrent_increasing (LinearBleTxCurrentModel.default ℝ)
    (by norm_num [LinearBleTxCurrentModel.default])
  have h1 := h.1 0 10 (by norm_num)
  have h2 := h.2.1 0
  Exists.elim h1 (fun a ha => Exists.elim ha (fun b hab =>
    Exists.elim h2 (fun a2 ha2 =>
      ⟨a, b, hab.1, hab.2.1, hab.2.2, by
        have e : Except.ok a = (Except.ok a2 : Except Failure ℝ) := hab.1.symm.trans ha2.1
        rw [Except.ok.inj e]
        exact ha2.2⟩)))

/-! ### Which current an interval is charged at -/

/-- A `ChangeState` on its full path that returns: the interval since the time stamp is
charged once, at the current of the state held on entry, whatever the calls made during
the refresh of the source. -/
theorem ChangeState_script_full {refresh : Script} {s : State} {w w1 : World}
    (hfull : ¬ ((w.model.m_nPendingChangeState + 1) % 256 > 1 ∧ s = State.OFF))
    (h : ChangeState refresh.run s w = Except.ok w1) :
    ∃ source current, w.model.m_source = some source ∧
      GetStateA w.model.m_currentState w.model = Except.ok current ∧
      w.model.m_lastUpdateTime ≤ w.sim.now ∧
      w1.model.m_totalEnergyConsumption = w.model.m_totalEnergyConsumption +
        (w.sim.now - w.model.m_lastUpdateTime) * current * source.supplyVoltage ∧
      w1.model.m_lastUpdateTime = w.sim.now := by
  rcases ChangeState_script_step h with ⟨-, -⟩ | hstep
  · rcases ChangeState_elim h with ⟨hgt, hs, -⟩ | ⟨-, w2, w3, w4, h2, h3, h4, rfl⟩
    · exact absurd ⟨hgt, hs⟩ hfull
    · obtain ⟨hnow, hlast, htotal, hsrc2, -, hcur2⟩ := ChangeState_timer_fields h2
      obtain ⟨source, current, hsrc, hcur, hle, -, rfl⟩ := ChangeState_account_elim h3
      obtain ⟨t4, l4, -⟩ := kept_script settled_kept refresh _ _ h4 rfl
      refine ⟨source, current, hsrc2 ▸ hsrc, hcur2 ▸ hcur, by rw [← hnow, ← hlast]; exact hle,
        ?_, ?_⟩
      · show (ChangeState_commit s w4).model.m_totalEnergyConsumption = _
        rw [total_commit, t4]
        show w2.model.m_totalEnergyConsumption + _ = _
        rw [htotal, hnow, hlast]
      · show (ChangeState_commit s w4).model.m_lastUpdateTime = _
        rw [last_commit, l4]
        exact hnow
  · exact hstep

theorem setTx_fields (p : ℚ) (w : World) :
    (SetTxCurrentFromModel p w).sim = w.sim ∧
      (SetTxCurrentFromModel p w).model.m_source = w.model.m_source ∧
      (SetTxCurrentFromModel p w).model.m_totalEnergyConsumption =
        w.model.m_totalEnergyConsumption ∧
      (SetTxCurrentFromModel p w).model.m_lastUpdateTime = w.model.m_lastUpdateTime ∧
      (SetTxCurrentFromModel p w).model.m_nPendingChangeState =
        w.model.m_nPendingChangeState ∧
      (SetTxCurrentFromModel p w).model.m_currentState = w.model.m_currentState := by
  unfold SetTxCurrentFromModel
  cases w.model.m_txCurrentModel <;> exact ⟨rfl, rfl, rfl, rfl, rfl, rfl⟩

/-- C38 (current in force at accounting time).  Take a model in state `TX` or `TX_BUSY`
since `m_lastUpdateTime = t0`, with any tx current `I1`, and an attached tx-current model
that gives `I2` for the power `p`.  After `SetTxCurrentFromModel (p)` at time `t1 = now`,
a `ChangeState` on its full path that returns has added `(t1 - t0) * I2 * supplyVoltage` to
the stored total: the whole interval is charged at `I2`.  The same holds of the call made
by `NotifyTxStart (d, p)`, which updates the tx current just before it requests `TX`. -/
theorem ChangeState_charges_current_tx (refresh : Script) (p : ℚ) (f : ℚ → ℚ) (s : State)
    (w : World)
    (hstate : w.model.m_currentState = State.TX ∨ w.model.m_currentState = State.TX_BUSY)
    (hf : w.model.m_txCurrentModel = some f)
    (hfull : ¬ ((w.model.m_nPendingChangeState + 1) % 256 > 1 ∧ s = State.OFF)) :
    (SetTxCurrentFromModel p w).model.m_txCurrentA = f p ∧
    (∀ w1, ChangeState refresh.run s (SetTxCurrentFromModel p w) = Except.ok w1 →
      ∃ source, w.model.m_source = some source ∧
        w1.model.m_totalEnergyConsumption = w.model.m_totalEnergyConsumption +
          (w.sim.now - w.model.m_lastUpdateTime) * f p * source.supplyVoltage) ∧
    (∀ d w1, NotifyTxStart refresh.run d p w = Except.ok w1 →
      ∃ source, w.model.m_source = some source ∧
        w1.model.m_totalEnergyConsumption = w.model.m_totalEnergyConsumption +
          (w.sim.now - w.model.m_lastUpdateTime) * f p * source.supplyVoltage) := by
  have htx : (SetTxCurrentFromModel p w).model.m_txCurrentA = f p := by
    simp [SetTxCurrentFromModel, hf]
  obtain ⟨hsim, hsrc0, htot0, hlast0, hcnt0, hst0⟩ := setTx_fields p w
  have hcharge : ∀ (s2 : State) (w1 : World),
      ¬ ((w.model.m_nPendingChangeState + 1) % 256 > 1 ∧ s2 = State.OFF) →
      ChangeState refresh.run s2 (SetTxCurrentFromModel p w) = Except.ok w1 →
      ∃ source, w.model.m_source = some source ∧
        w1.model.m_totalEnergyConsumption = w.model.m_totalEnergyConsumption +
          (w.sim.now - w.model.m_lastUpdateTime) * f p * source.supplyVoltage := by
    intro s2 w1 hfull2 h
    obtain ⟨source, current, hsrc, hcur, -, htot, -⟩ :=
      ChangeState_script_full (by rw [hcnt0]; exact hfull2) h
    rw [hst0] at hcur
    have hc : current = f p := by
      rcases hstate with hs | hs <;> rw [hs] at hcur <;>
        exact ((Except.ok.inj hcur).symm.trans htx)
    refine ⟨source, hsrc0 ▸ hsrc, ?_⟩
    rw [htot, htot0, hlast0, hsim, hc]
  refine ⟨htx, fun w1 h => hcharge s w1 hfull h, ?_⟩
  intro d w1 h
  obtain ⟨-, -, w2, hcs, rfl⟩ := NotifyTxStart_elim h
  exact hcharge State.TX w2 (fun hc => by cases hc.2) hcs

/-- On `txHeldWorld` (in `TX` since 0 with tx current 0.015 A, now 10 s, 3 V): after
`SetTxCurrentFromModel (10)`, which sets the tx current to 0.010001 A, `ChangeState (IDLE)`
returns with `10 * 0.010001 * 3` J on the stored total. -/
theorem ChangeState_charges_current_tx_witness :
    txHeldWorld.model.m_txCurrentA = 15 / 1000 ∧
    ∃ w1, ChangeState Script.done.run State.IDLE (SetTxCurrentFromModel 10 txHeldWorld) =
        Except.ok w1 ∧
      w1.model.m_totalEnergyConsumption = 10 * (10001 / 1000000) * 3 := by
  refine ⟨rfl, ?_⟩
  have hex : ∃ w1, ChangeState Script.done.run State.IDLE
      (SetTxCurrentFromModel 10 txHeldWorld) = Except.ok w1 := by
    repeat (first
      | simp [SetTxCurrentFromModel, ChangeState, Script.run, txHeldWorld, txModelWorld,
          exampleCalcTxCurrent, exampleWorld,
          exampleSource, incPending, decPending, ChangeState_timer, ChangeState_account,
          ChangeState_accounted, ChangeState_commit, GetMaximumTimeInState, GetStateA,
          rescheduleSwitchToOff, SetBleRadioState,
          BleRadioEnergyModel.BleRadioEnergyModel, Attributes.default, Simulator.Cancel,
          Simulator.Schedule]
      | norm_num)
  obtain ⟨w1, h⟩ := hex
  obtain ⟨source, hsrc, htot⟩ :=
    (ChangeState_charges_current_tx Script.done 10 exampleCalcTxCurrent State.IDLE txHeldWorld
      (Or.inl rfl) rfl (by decide)).2.1 w1 h
  have hs : source = exampleSource := by
    have : some exampleSource = some source := hsrc
    exact (Option.some.inj this).symm
  refine ⟨w1, h, ?_⟩
  rw [htot, hs]
  norm_num [txHeldWorld, txModelWorld, exampleWorld, exampleSource, exampleCalcTxCurrent,
    BleRadioEnergyModel.BleRadioEnergyModel]

/-- C37 (double count).  Take a model with no call pending and the depletion callback set,
and a refresh of the source that invokes the depletion callback, which calls
`ChangeState (OFF)`.  When `GetTotalEnergyConsumption` returns, the value returned is the
stored total held before the call plus twice `(now - m_lastUpdateTime) * current *
supplyVoltage`, `current` being the current of the state held before the call: the
re-entrant call has put the interval on the stored total before the sum is formed.  Such
models exist, with a state other than `OFF`, a positive current and
`now > m_lastUpdateTime` (see the witness). -/
theorem GetTotalEnergyConsumption_double_count (inner : Script) (w : World) (r : ℚ × World)
    (hdepth : w.model.m_nPendingChangeState = 0)
    (hcb : w.model.m_energyDepletionCallback = true)
    (h : GetTotalEnergyConsumption
      (Script.HandleEnergyDepletion (Script.ChangeState State.OFF inner Script.done)
        Script.done).run w = Except.ok r) :
    ∃ source current, w.model.m_source = some source ∧
      GetStateA w.model.m_currentState w.model = Except.ok current ∧
      r.2.model.m_totalEnergyConsumption = w.model.m_totalEnergyConsumption +
        (w.sim.now - w.model.m_lastUpdateTime) * current * source.supplyVoltage ∧
      r.1 = w.model.m_totalEnergyConsumption +
        2 * ((w.sim.now - w.model.m_lastUpdateTime) * current * source.supplyVoltage) := by
  obtain ⟨source, current, w1, hsrc, hcur, -, hrun, rfl⟩ := GetTotalEnergyConsumption_elim h
  have hcs : ChangeState inner.run State.OFF w = Except.ok w1 := by
    simp only [Script.run, HandleEnergyDepletion, hcb, if_true] at hrun
    cases hc : ChangeState inner.run State.OFF w with
    | error e => simp [hc] at hrun
    | ok w2 =>
      simp only [hc, Except.ok.injEq] at hrun
      rw [hrun]
  have hfull : ¬ ((w.model.m_nPendingChangeState + 1) % 256 > 1 ∧ State.OFF = State.OFF) := by
    rintro ⟨hgt, -⟩
    rw [hdepth] at hgt
    omega
  obtain ⟨source1, current1, hsrc1, hcur1, -, htot, -⟩ := ChangeState_script_full hfull hcs
  have hs : source1 = source := by
    rw [hsrc] at hsrc1
    exact (Option.some.inj hsrc1).symm
  have hc : current1 = current := by
    rw [hcur] at hcur1
    exact (Except.ok.inj hcur1).symm
  rw [hs, hc] at htot
  refine ⟨source, current, hsrc, hcur, htot, ?_⟩
  show w1.model.m_totalEnergyConsumption + _ = _
  rw [htot]
  ring

/-- On `exampleWorld` (state `IDLE` with current 1e-6 A, time stamp 0, now 10 s, 3 V,
stored total 0, pending interval energy 3e-5 J): `GetTotalEnergyConsumption` with the
refresh `depletionScript` returns 6e-5 J. -/
theorem GetTotalEnergyConsumption_double_count_witness :
    exampleWorld.model.m_currentState = State.IDLE ∧
    exampleWorld.model.m_lastUpdateTime < exampleWorld.sim.now ∧
    exampleWorld.model.m_totalEnergyConsumption = 0 ∧
    ∃ r, GetTotalEnergyConsumption depletionScript.run exampleWorld = Except.ok r ∧
      r.1 = 2 * (10 * (1 / 1000000) * 3) := by
  refine ⟨rfl, by norm_num [exampleWorld, BleRadioEnergyModel.BleRadioEnergyModel], rfl, ?_⟩
  have hex : ∃ r, GetTotalEnergyConsumption depletionScript.run exampleWorld = Except.ok r := by
    repeat (first
      | simp [GetTotalEnergyConsumption, depletionScript, Script.run, HandleEnergyDepletion,
          ChangeState, incPending, decPending, ChangeState_timer, ChangeState_account,
          ChangeState_accounted, ChangeState_commit, SetBleRadioState, GetStateA, exampleWorld,
          exampleSource, BleRadioEnergyModel.BleRadioEnergyModel, Attributes.default]
      | norm_num)
  obtain ⟨r, h⟩ := hex
  obtain ⟨source, current, hsrc, hcur, -, hval⟩ :=
    GetTotalEnergyConsumption_double_count Script.done exampleWorld r rfl rfl h
  have hs : source = exampleSource := by
    have : some exampleSource = some source := hsrc
    exact (Option.some.inj this).symm
  have hc : current = 1 / 1000000 := by
    have : Except.ok (1 / 1000000 : ℚ) = Except.ok current := hcur
    exact (Except.ok.inj this).symm
  refine ⟨r, h, ?_⟩
  rw [hval, hs, hc]
  norm_num [exampleWorld, exampleSource, BleRadioEnergyModel.BleRadioEnergyModel]

/-! ### Construction -/

theorem callbacksSet_of_frame0 {w w1 : World} (h : Frame0 w w1) (hw : CallbacksSet w) :
    CallbacksSet w1 :=
  ⟨h.changeState.trans hw.1, h.updateTx.trans hw.2⟩

/-- The relation "if both callbacks of the listener were set before, they are after". -/
theorem callbacksSet_kept : Kept (fun w w1 => CallbacksSet w → CallbacksSet w1) where
  refl := fun _ h => h
  trans := fun _ _ _ h1 h2 h => h2 (h1 h)
  readings := fun source w => callbacksSet_of_frame0 (frame0_setReadings source w)
  changeState := by
    intro U s w w1 hU h hw
    rcases ChangeState_elim h with ⟨-, -, rfl⟩ | ⟨-, w2, w3, w4, h2, h3, h4, rfl⟩
    · exact hw
    · have c2 := callbacksSet_of_frame0 (frame0_timer h2)
        (callbacksSet_of_frame0 (frame0_incPending w) hw)
      have c4 := hU _ _ h4 (callbacksSet_of_frame0 (frame0_account h3) c2)
      exact callbacksSet_of_frame0 (frame0_decPending _)
        (callbacksSet_of_frame0 (frame0_commit s w4) c4)
  energyChanged := fun w w1 h => callbacksSet_of_frame0 (frame_HandleEnergyChanged h).toFrame0
  setTx := fun p w => callbacksSet_of_frame0 (frame0_setTx p w)
  cancelIdle := fun w => callbacksSet_of_frame0 (frame0_cancelSwitchToIdle w)
  rescheduleIdle := fun d w => callbacksSet_of_frame0 (frame0_rescheduleSwitchToIdle d w)

theorem GetStateA_error {s : State} {m : BleRadioEnergyModel} {e : Failure}
    (h : GetStateA s m = Except.error e) : e.missingCallback = false := by
  cases s <;> simp only [GetStateA, reduceCtorEq, Except.error.injEq] at h
  rw [← h]
  rfl

theorem GetMaximumTimeInState_error {s : State} {m : BleRadioEnergyModel} {e : Failure}
    (h : GetMaximumTimeInState s m = Except.error e) : e.missingCallback = false := by
  unfold GetMaximumTimeInState at h
  by_cases hs : s = State.OFF
  · simp only [hs, if_true, Except.error.injEq] at h
    rw [← h]
    rfl
  · simp only [hs, if_false] at h
    cases hsrc : m.m_source with
    | none =>
      simp only [hsrc, Except.error.injEq] at h
      rw [← h]
      rfl
    | some source =>
      simp only [hsrc] at h
      cases hc : GetStateA s m with
      | error e2 =>
        simp only [hc, Except.error.injEq] at h
        rw [← h]
        exact GetStateA_error hc
      | ok current =>
        simp only [hc] at h
        by_cases hz : current * source.supplyVoltage = 0
        · simp only [hz, if_true, Except.error.injEq] at h
          rw [← h]
          rfl
        · simp [hz] at h

theorem ChangeState_timer_error {s : State} {w : World} {e : Failure}
    (h : ChangeState_timer s w = Except.error e) : e.missingCallback = false := by
  unfold ChangeState_timer at h
  by_cases hs : s = State.OFF
  · simp [hs] at h
  · simp only [ne_eq, hs, not_false_eq_true, if_true] at h
    cases hd : GetMaximumTimeInState s w.model with
    | error e2 =>
      simp only [hd, Except.error.injEq] at h
      rw [← h]
      exact GetMaximumTimeInState_error hd
    | ok d => simp [hd] at h

theorem ChangeState_account_error {w : World} {e : Failure}
    (h : ChangeState_account w = Except.error e) : e.missingCallback = false := by
  unfold ChangeState_account at h
  by_cases hd : 0 ≤ w.sim.now - w.model.m_lastUpdateTime
  · simp only [hd, not_true_eq_false, if_false] at h
    cases hsrc : w.model.m_source with
    | none =>
      simp only [hsrc, Except.error.injEq] at h
      rw [← h]
      rfl
    | some source =>
      simp only [hsrc] at h
      cases hc : GetStateA w.model.m_currentState w.model with
      | error e2 =>
        simp only [hc, Except.error.injEq] at h
        rw [← h]
        exact GetStateA_error hc
      | ok current =>
        simp only [hc] at h
        split at h
        · simp only [Except.error.injEq] at h
          rw [← h]
          rfl
        · cases h
  · simp only [hd, not_false_eq_true, if_true, Except.error.injEq] at h
    rw [← h]
    rfl

/-- A failing `ChangeState` on a world with both callbacks set does not fail for a missing
callback, when the refresh of the source does not. -/
theorem ChangeState_error {U : World → Except Failure World} {s : State} {w : World}
    {e : Failure}
    (hU : ∀ a e, CallbacksSet a → U a = Except.error e → e.missingCallback = false)
    (hw : CallbacksSet w) (h : ChangeState U s w = Except.error e) :
    e.missingCallback = false := by
  unfold ChangeState at h
  by_cases hf : (incPending w).model.m_nPendingChangeState > 1 ∧ s = State.OFF
  · simp [hf] at h
  · simp only [hf, if_false] at h
    cases h2 : ChangeState_timer s (incPending w) with
    | error e2 =>
      simp only [h2, Except.error.injEq] at h
      rw [← h]
      exact ChangeState_timer_error h2
    | ok w2 =>
      simp only [h2] at h
      cases h3 : ChangeState_account w2 with
      | error e3 =>
        simp only [h3, Except.error.injEq] at h
        rw [← h]
        exact ChangeState_account_error h3
      | ok w3 =>
        simp only [h3] at h
        cases h4 : U w3 with
        | error e4 =>
          simp only [h4, Except.error.injEq] at h
          rw [← h]
          exact hU w3 e4 (callbacksSet_of_frame0 (frame0_account h3)
            (callbacksSet_of_frame0 (frame0_timer h2)
              (callbacksSet_of_frame0 (frame0_incPending w) hw))) h4
        | ok w4 => simp [h4] at h

theorem map_error {k : World → World} {x : Except Failure World} {e : Failure}
    (h : (match x with
      | Except.error e => Except.error e
      | Except.ok w1 => Except.ok (k w1)) = (Except.error e : Except Failure World)) :
    x = Except.error e := by
  cases x with
  | error e2 => exact h
  | ok w1 => cases h

/-- A failing notification on a world with both callbacks set does not fail for a missing
callback, when the refresh of the source does not. -/
theorem Notify_error {U : World → Except Failure World} {n : Notification} {w : World}
    {e : Failure}
    (hU : ∀ a e, CallbacksSet a → U a = Except.error e → e.missingCallback = false)
    (hw : CallbacksSet w) (h : Notify U n w = Except.error e) :
    e.missingCallback = false := by
  have hc : w.model.m_listener.m_changeStateCallback = true := hw.1
  have hu : w.model.m_listener.m_updateTxCurrentCallback = true := hw.2
  cases n with
  | RxStart duration =>
    simp only [Notify, NotifyRxStart, hc, not_true_eq_false, if_false] at h
    exact ChangeState_error hU hw (map_error h)
  | RxEndOk =>
    simp only [Notify, NotifyRxEndOk, hc, not_true_eq_false, if_false] at h
    exact ChangeState_error hU hw h
  | RxEndError =>
    simp only [Notify, NotifyRxEndError, hc, not_true_eq_false, if_false] at h
    exact ChangeState_error hU hw h
  | TxStart duration txPowerDbm =>
    have hw2 : CallbacksSet (SetTxCurrentFromModel txPowerDbm w) :=
      callbacksSet_of_frame0 (frame0_setTx txPowerDbm w) hw
    have hc2 := hw2.1
    simp only [Notify, NotifyTxStart, hu, hc2, not_true_eq_false, if_false] at h
    exact ChangeState_error hU hw2 (map_error h)
  | MaybeCcaBusyStart duration =>
    simp [Notify, NotifyMaybeCcaBusyStart, hc] at h
  | SwitchingStart duration =>
    simp [Notify, NotifySwitchingStart, hc] at h
  | Sleep =>
    simp [Notify, NotifySleep, hc] at h
  | Wakeup =>
    simp only [Notify, NotifyWakeup, hc, not_true_eq_false, if_false] at h
    exact ChangeState_error hU hw h
  | Off =>
    simp only [Notify, NotifyOff, hc, not_true_eq_false, if_false] at h
    exact ChangeState_error hU hw (map_error h)
  | On =>
    simp only [Notify, NotifyOn, hc, not_true_eq_false, if_false] at h
    exact ChangeState_error hU hw h

theorem GetTotalEnergyConsumption_error {U : World → Except Failure World} {w : World}
    {e : Failure}
    (hU : ∀ a e, CallbacksSet a → U a = Except.error e → e.missingCallback = false)
    (hw : CallbacksSet w) (h : GetTotalEnergyConsumption U w = Except.error e) :
    e.missingCallback = false := by
  unfold GetTotalEnergyConsumption at h
  by_cases hd : 0 ≤ w.sim.now - w.model.m_lastUpdateTime
  · simp only [hd, not_true_eq_false, if_false] at h
    cases hsrc : w.model.m_source with
    | none =>
      simp only [hsrc, Except.error.injEq] at h
      rw [← h]
      rfl
    | some source =>
      simp only [hsrc] at h
      cases hc : GetStateA w.model.m_currentState w.model with
      | error e2 =>
        simp only [hc, Except.error.injEq] at h
        rw [← h]
        exact GetStateA_error hc
      | ok current =>
        simp only [hc] at h
        cases h4 : U w with
        | error e4 =>
          simp only [h4, Except.error.injEq] at h
          rw [← h]
          exact hU w e4 hw h4
        | ok w4 => simp [h4] at h
  · simp only [hd, not_false_eq_true, if_true, Except.error.injEq] at h
    rw [← h]
    rfl

theorem HandleEnergyChanged_error {w : World} {e : Failure}
    (h : HandleEnergyChanged w = Except.error e) : e.missingCallback = false := by
  unfold HandleEnergyChanged at h
  split at h
  · cases hd : GetMaximumTimeInState w.model.m_currentState w.model with
    | error e2 =>
      simp only [hd, Except.error.injEq] at h
      rw [← h]
      exact GetMaximumTimeInState_error hd
    | ok d => simp [hd] at h
  · cases h

/-- No scripted run on a world with both callbacks set fails for a missing callback. -/
theorem script_run_error :
    ∀ (s : Script) (w : World) (e : Failure), CallbacksSet w → s.run w = Except.error e →
      e.missingCallback = false := by
  intro s
  induction s with
  | done =>
    intro w e _ h
    cases h
  | readings source rest ih =>
    intro w e hw h
    simp only [Script.run] at h
    exact ih _ e (callbacksSet_kept.readings source w hw) h
  | ChangeState newState inner rest ihInner ihRest =>
    intro w e hw h
    simp only [Script.run] at h
    cases hc : ChangeState inner.run newState w with
    | error e2 =>
      simp only [hc, Except.error.injEq] at h
      rw [← h]
      exact ChangeState_error ihInner hw hc
    | ok w2 =>
      simp only [hc] at h
      exact ihRest w2 e (callbacksSet_kept.changeState _ _ _ _
        (kept_script callbacksSet_kept inner) hc hw) h
  | HandleEnergyChanged rest ih =>
    intro w e hw h
    simp only [Script.run] at h
    cases hc : HandleEnergyChanged w with
    | error e2 =>
      simp only [hc, Except.error.injEq] at h
      rw [← h]
      exact HandleEnergyChanged_error hc
    | ok w2 =>
      simp only [hc] at h
      exact ih w2 e (callbacksSet_kept.energyChanged _ _ hc hw) h
  | HandleEnergyDepletion callback rest ihCallback ihRest =>
    intro w e hw h
    simp only [Script.run] at h
    cases hc : HandleEnergyDepletion callback.run w with
    | error e2 =>
      simp only [hc, Except.error.injEq] at h
      rw [← h]
      unfold HandleEnergyDepletion at hc
      split at hc
      · exact ihCallback w e2 hw hc
      · cases hc
    | ok w2 =>
      simp only [hc] at h
      refine ihRest w2 e ?_ h
      unfold HandleEnergyDepletion at hc
      split at hc
      · exact kept_script callbacksSet_kept callback w w2 hc hw
      · simp only [Except.ok.injEq] at hc
        rw [← hc]
        exact hw
  | HandleEnergyRecharged callback rest ihCallback ihRest =>
    intro w e hw h
    simp only [Script.run] at h
    cases hc : HandleEnergyRecharged callback.run w with
    | error e2 =>
      simp only [hc, Except.error.injEq] at h
      rw [← h]
      unfold HandleEnergyRecharged at hc
      split at hc
      · exact ihCallback w e2 hw hc
      · cases hc
    | ok w2 =>
      simp only [hc] at h
      refine ihRest w2 e ?_ h
      unfold HandleEnergyRecharged at hc
      split at hc
      · exact kept_script callbacksSet_kept callback w w2 hc hw
      · simp only [Except.ok.injEq] at hc
        rw [← hc]
        exact hw
  | SetTxCurrentFromModel txPowerDbm rest ih =>
    intro w e hw h
    simp only [Script.run] at h
    exact ih _ e (callbacksSet_kept.setTx txPowerDbm w hw) h
  | GetTotalEnergyConsumption inner rest ihInner ihRest =>
    intro w e hw h
    simp only [Script.run] at h
    cases hc : GetTotalEnergyConsumption inner.run w with
    | error e2 =>
      simp only [hc, Except.error.injEq] at h
      rw [← h]
      exact GetTotalEnergyConsumption_error ihInner hw hc
    | ok r =>
      simp only [hc] at h
      exact ihRest r.2 e (kept_getTotal callbacksSet_kept
        (kept_script callbacksSet_kept inner) hc hw) h
  | Notify n inner rest ihInner ihRest =>
    intro w e hw h
    simp only [Script.run] at h
    cases hc : Notify inner.run n w with
    | error e2 =>
      simp only [hc, Except.error.injEq] at h
      rw [← h]
      exact Notify_error ihInner hw hc
    | ok w2 =>
      simp only [hc] at h
      exact ihRest w2 e (kept_notify callbacksSet_kept
        (kept_script callbacksSet_kept inner) hc hw) h

/-- Steps of the simulation keep both callbacks of the listener set. -/
theorem runOps_callbacksSet {ops : List Op} {w w1 : World} (h : runOps ops w = Except.ok w1)
    (hw : CallbacksSet w) : CallbacksSet w1 := by
  refine kept_ops callbacksSet_kept ?_ ?_ ?_ ops w w1 h hw
  · intro source w w1 hs hw
    obtain ⟨d, -, rfl⟩ := SetEnergySource_elim hs
    exact hw
  · intro t w hw
    exact hw
  · intro w e _ hw
    exact hw

/-- No step of the simulation on a world with both callbacks set fails for a missing
callback. -/
theorem op_run_error {op : Op} {w : World} {e : Failure} (hw : CallbacksSet w)
    (h : op.run w = Except.error e) : e.missingCallback = false := by
  cases op with
  | SetEnergySource source =>
    simp only [Op.run, SetEnergySource] at h
    cases hd : GetMaximumTimeInState w.model.m_currentState
        { w.model with m_source := some source } with
    | error e2 =>
      simp only [hd, Except.error.injEq] at h
      rw [← h]
      exact GetMaximumTimeInState_error hd
    | ok d => simp [hd] at h
  | calls s => exact script_run_error s w e hw h
  | advance t => cases h
  | fire inner uid =>
    simp only [Op.run, fire] at h
    cases hf : w.sim.m_events.find? (fun e => e.uid == uid) with
    | none => simp [hf] at h
    | some ev =>
      simp only [hf] at h
      cases hk : ev.kind with
      | SwitchToOff =>
        simp only [hk] at h
        have key : ∀ (wf : World) (st : State), ChangeState inner.run st wf = Except.error e →
            CallbacksSet wf → e.missingCallback = false :=
          fun wf st hh hwf => ChangeState_error (script_run_error inner) hwf hh
        exact key _ _ h hw
      | SwitchToIdle =>
        simp only [hk, SwitchToIdle] at h
        have hc : w.model.m_listener.m_changeStateCallback = true := hw.1
        simp only [hc, not_true_eq_false, if_false] at h
        have key : ∀ (wf : World) (st : State), ChangeState inner.run st wf = Except.error e →
            CallbacksSet wf → e.missingCallback = false :=
          fun wf st hh hwf => ChangeState_error (script_run_error inner) hwf hh
        exact key _ _ h hw

theorem runOps_error :
    ∀ (ops : List Op) (w : World) (e : Failure), CallbacksSet w →
      runOps ops w = Except.error e → e.missingCallback = false := by
  intro ops
  induction ops with
  | nil =>
    intro w e _ h
    cases h
  | cons op ops ih =>
    intro w e hw h
    simp only [runOps] at h
    cases hop : op.run w with
    | error e2 =>
      simp only [hop, Except.error.injEq] at h
      rw [← h]
      exact op_run_error hw hop
    | ok w2 =>
      simp only [hop] at h
      have h1 : runOps [op] w = Except.ok w2 := by simp [runOps, hop]
      exact ih w2 e (runOps_callbacksSet h1 hw) h

/-- C31 (construction).  A newly constructed model has state `IDLE`, time stamp 0, counter
0 and the depletion callback unset, and the listener it owns, the one `GetPhyListener`
returns, has the change-state and the update-tx-current callback set.  Both stay set
through every series of steps made from construction, so no such series, and no
notification delivered to the listener after one, fails with the fatal error of a callback
that is not set. -/
theorem constructed_model (a : Attributes) :
    (BleRadioEnergyModel.BleRadioEnergyModel a).m_currentState = State.IDLE ∧
    (BleRadioEnergyModel.BleRadioEnergyModel a).m_lastUpdateTime = 0 ∧
    (BleRadioEnergyModel.BleRadioEnergyModel a).m_nPendingChangeState = 0 ∧
    (BleRadioEnergyModel.BleRadioEnergyModel a).m_energyDepletionCallback = false ∧
    (GetPhyListener (BleRadioEnergyModel.BleRadioEnergyModel a)).m_changeStateCallback = true ∧
    (GetPhyListener (BleRadioEnergyModel.BleRadioEnergyModel a)).m_updateTxCurrentCallback
      = true ∧
    (∀ (n : Notification) (inner : Script) (e : Failure),
      Notify inner.run n (World.initial a) = Except.error e → e.missingCallback = false) ∧
    (∀ (ops : List Op) (w : World), runOps ops (World.initial a) = Except.ok w →
      (GetPhyListener w.model).m_changeStateCallback = true ∧
      (GetPhyListener w.model).m_updateTxCurrentCallback = true ∧
      ∀ (n : Notification) (inner : Script) (e : Failure),
        Notify inner.run n w = Except.error e → e.missingCallback = false) ∧
    (∀ (ops : List Op) (e : Failure), runOps ops (World.initial a) = Except.error e →
      e.missingCallback = false) := by
  have h0 : CallbacksSet (World.initial a) := ⟨rfl, rfl⟩
  refine ⟨rfl, rfl, rfl, rfl, rfl, rfl, ?_, ?_, ?_⟩
  · intro n inner e h
    exact Notify_error (script_run_error inner) h0 h
  · intro ops w h
    have hw := runOps_callbacksSet h h0
    exact ⟨hw.1, hw.2, fun n inner e hn => Notify_error (script_run_error inner) hw hn⟩
  · intro ops e h
    exact runOps_error ops (World.initial a) e h0 h

/-! ### Teardown -/

/-- C32 (teardown), as amended.  `DoDispose` releases the reference to the energy source
(it is null afterwards) and unsets the depletion callback, and nothing else: neither it nor
the destructor cancels a timer, so the scheduler after `DoDispose` and the destructor holds
exactly the events pending before, the forced-off and the revert-to-idle events among
them. -/
theorem teardown_effect (w : World) :
    (DoDispose w).model.m_source = none ∧
    (DoDispose w).model.m_energyDepletionCallback = false ∧
    BleRadioEnergyModel.destructor (DoDispose w) = w.sim ∧
    pendingSwitchToOff (DoDispose w) = pendingSwitchToOff w ∧
    pendingSwitchToIdle (DoDispose w) = pendingSwitchToIdle w ∧
    (∀ e, e ∈ (BleRadioEnergyModel.destructor (DoDispose w)).m_events ↔ e ∈ w.sim.m_events) :=
  ⟨rfl, rfl, rfl, rfl, rfl, fun _ => Iff.rfl⟩

/-- The claim as worded fails: in the world left by `NotifyTxStart (2 s, 0 dBm)` on
`exampleWorld` a forced-off event and a revert-to-idle event are pending, and both are
still pending in the scheduler after `DoDispose` and the destructor. -/
theorem teardown_effect_counterexample :
    ∃ w e1 e2, NotifyTxStart Script.done.run 2 0 exampleWorld = Except.ok w ∧
      e1 ∈ (BleRadioEnergyModel.destructor (DoDispose w)).m_events ∧
      e1.kind = EventKind.SwitchToOff ∧
      e2 ∈ (BleRadioEnergyModel.destructor (DoDispose w)).m_events ∧
      e2.kind = EventKind.SwitchToIdle := by
  have hex : ∃ w, NotifyTxStart Script.done.run 2 0 exampleWorld = Except.ok w ∧
      w.sim.m_events = [({ uid := 0, ts := 290 / 9, kind := EventKind.SwitchToOff } : Event),
        ({ uid := 1, ts := 12, kind := EventKind.SwitchToIdle } : Event)] := by
    repeat (first
      | simp [NotifyTxStart, SetTxCurrentFromModel, ChangeState, Script.run, exampleWorld,
          exampleSource, incPending, decPending, ChangeState_timer, ChangeState_account,
          ChangeState_accounted, ChangeState_commit, GetMaximumTimeInState, GetStateA,
          rescheduleSwitchToOff, rescheduleSwitchToIdle, SetBleRadioState,
          BleRadioEnergyModel.BleRadioEnergyModel, Attributes.default, Simulator.Cancel,
          Simulator.Schedule]
      | norm_num)
  obtain ⟨w, h, hev⟩ := hex
  refine ⟨w, Event.mk 0 (290 / 9) EventKind.SwitchToOff, Event.mk 1 12 EventKind.SwitchToIdle,
    h, ?_, rfl, ?_, rfl⟩
  · show _ ∈ w.sim.m_events
    rw [hev]
    exact List.mem_cons_self _ _
  · show _ ∈ w.sim.m_events
    rw [hev]
    exact List.mem_cons_of_mem _ (List.mem_singleton_self _)

/-! ### A request nested in the refresh of the source -/

/-- C33, the code at the failing input: on `exampleWorld` (state `IDLE`) a top-level
`ChangeState (TX)` whose refresh has the depletion callback call `ChangeState (RX)` returns
with state `TX`, the state requested by the outer call, and not `RX`, the state requested
by the nested one. -/
theorem ChangeState_reentrant_other :
    ∃ w1, ChangeState (reentrantScript State.RX).run State.TX exampleWorld = Except.ok w1 ∧
      w1.model.m_currentState = State.TX ∧ w1.model.m_currentState ≠ State.RX := by
  have hex : ∃ w1, ChangeState (reentrantScript State.RX).run State.TX exampleWorld =
      Except.ok w1 ∧ w1.model.m_currentState = State.TX := by
    repeat (first
      | simp [reentrantScript, HandleEnergyDepletion, ChangeState, Script.run, exampleWorld,
          exampleSource, incPending, decPending, ChangeState_timer, ChangeState_account,
          ChangeState_accounted, ChangeState_commit, GetMaximumTimeInState, GetStateA,
          rescheduleSwitchToOff, SetBleRadioState,
          BleRadioEnergyModel.BleRadioEnergyModel, Attributes.default, Simulator.Cancel,
          Simulator.Schedule]
      | norm_num)
  obtain ⟨w1, h, hst⟩ := hex
  exact ⟨w1, h, hst, by rw [hst]; decide⟩

/-- A nested `ChangeState (Y)`, `Y` other than `OFF`, that returns: the forced-off event is
re-armed for `Y`, the interval is accounted, the source is refreshed, and the state is not
committed. -/
theorem ChangeState_nested_explicit {refresh : Script} {Y : State} {w w1 : World}
    (hY : Y ≠ State.OFF) (h1 : 1 ≤ w.model.m_nPendingChangeState)
    (h2 : w.model.m_nPendingChangeState ≤ 254)
    (h : ChangeState refresh.run Y w = Except.ok w1) :
    ∃ source current currentY w4, w.model.m_source = some source ∧
      GetStateA w.model.m_currentState w.model = Except.ok current ∧
      GetStateA Y w.model = Except.ok currentY ∧ currentY * source.supplyVoltage ≠ 0 ∧
      refresh.run (ChangeState_accounted
        ((w.sim.now - w.model.m_lastUpdateTime) * current * source.supplyVoltage)
        (rescheduleSwitchToOff (source.remainingEnergy / (currentY * source.supplyVoltage))
          (incPending w))) = Except.ok w4 ∧
      w1 = decPending w4 := by
  rcases ChangeState_elim h with ⟨-, hs, -⟩ | ⟨-, w2, w3, w4, ht, ha, h4, rfl⟩
  · exact absurd hs hY
  · rcases ChangeState_timer_elim ht with ⟨hs, -⟩ | ⟨-, d, hd, rfl⟩
    · exact absurd hs hY
    · obtain ⟨-, sourceY, currentY, hsrcY, hcurY, hnz, rfl⟩ := GetMaximumTimeInState_elim hd
      obtain ⟨source, current, hsrc, hcur, -, -, rfl⟩ := ChangeState_account_elim ha
      have hsrc0 : w.model.m_source = some source := hsrc
      have hs : sourceY = source := by
        have e1 : w.model.m_source = some sourceY := hsrcY
        rw [hsrc0] at e1
        exact (Option.some.inj e1).symm
      subst hs
      have hcur0 : GetStateA w.model.m_currentState w.model = Except.ok current := by
        have e1 : GetStateA w.model.m_currentState (incPending w).model = Except.ok current := by
          cases hst : w.model.m_currentState <;>
            simp only [hst, GetStateA, rescheduleSwitchToOff, incPending] at hcur ⊢ <;>
            exact hcur
        rw [GetStateA_incPending] at e1
        exact e1
      have hcurY0 : GetStateA Y w.model = Except.ok currentY := by
        rw [GetStateA_incPending] at hcurY
        exact hcurY
      have hcnt : w4.model.m_nPendingChangeState = w.model.m_nPendingChangeState + 1 := by
        have h3 := kept_script pending_kept refresh _ _ h4
        have e3 : (ChangeState_accounted
            (((rescheduleSwitchToOff (sourceY.remainingEnergy /
              (currentY * sourceY.supplyVoltage)) (incPending w)).sim.now -
              (rescheduleSwitchToOff (sourceY.remainingEnergy /
                (currentY * sourceY.supplyVoltage)) (incPending w)).model.m_lastUpdateTime) *
              current * sourceY.supplyVoltage)
            (rescheduleSwitchToOff (sourceY.remainingEnergy /
              (currentY * sourceY.supplyVoltage)) (incPending w))).model.m_nPendingChangeState
            = (w.model.m_nPendingChangeState + 1) % 256 := rfl
        rw [h3 (by rw [e3]; exact Nat.mod_lt _ (by decide)), e3]
        omega
      have hskip : ChangeState_commit Y w4 = w4 := by
        unfold ChangeState_commit
        have : ¬ (w4.model.m_nPendingChangeState ≤ 1) := by rw [hcnt]; omega
        simp [this]
      have hnow : (rescheduleSwitchToOff (sourceY.remainingEnergy /
          (currentY * sourceY.supplyVoltage)) (incPending w)).sim.now = w.sim.now := by
        simp only [rescheduleSwitchToOff, Simulator.Schedule, cancel_now]
        rfl
      refine ⟨sourceY, current, currentY, w4, hsrc0, hcur0, hcurY0, hnz, ?_, by rw [hskip]⟩
      rw [← hnow]
      exact h4

/-- The world a nested `ChangeState (Y)` hands to the refresh of the source, and what it
returns. -/
theorem ChangeState_nested_shape {Y : State} (hY : Y ≠ State.OFF) (r : Script) (v v1 : World)
    (hv1 : 1 ≤ v.model.m_nPendingChangeState) (hv2 : v.model.m_nPendingChangeState ≤ 254)
    (hvinv : TimerInv v) (hv : ChangeState r.run Y v = Except.ok v1) :
    ∃ source currentY w3 w4, v.model.m_source = some source ∧
      GetStateA Y v.model = Except.ok currentY ∧
      w3.model.m_currentState = v.model.m_currentState ∧
      w3.model.m_nPendingChangeState = v.model.m_nPendingChangeState + 1 ∧
      pendingSwitchToOff w3 = [forcedOffEvent v source currentY] ∧
      r.run w3 = Except.ok w4 ∧ v1 = decPending w4 := by
  obtain ⟨source, current, currentY, w4, hsrc, -, hcurY, -, h4, rfl⟩ :=
    ChangeState_nested_explicit hY hv1 hv2 hv
  refine ⟨source, currentY, ChangeState_accounted
    ((v.sim.now - v.model.m_lastUpdateTime) * current * source.supplyVoltage)
    (rescheduleSwitchToOff (source.remainingEnergy / (currentY * source.supplyVoltage))
      (incPending v)), w4, hsrc, hcurY, rfl, ?_, ?_, h4, rfl⟩
  · show (v.model.m_nPendingChangeState + 1) % 256 = _
    omega
  · exact pendingSwitchToOff_reschedule
      (source.remainingEnergy / (currentY * source.supplyVoltage))
      (timerInv_congr hvinv (List.Sublist.refl _) rfl rfl rfl)

/-- A top-level `ChangeState (X)` whose refresh has the depletion callback call
`ChangeState (Y)`, neither state being `OFF`. -/
theorem ChangeState_outer_nested {X Y : State} {wo wo1 : World} (hX : X ≠ State.OFF)
    (hY : Y ≠ State.OFF) (hdepth : wo.model.m_nPendingChangeState = 0)
    (hon : wo.model.m_currentState ≠ State.OFF)
    (hcb : wo.model.m_energyDepletionCallback = true) (hwinv : TimerInv wo)
    (ho : ChangeState (reentrantScript Y).run X wo = Except.ok wo1) :
    wo1.model.m_currentState = X ∧
      ∃ source currentY, wo.model.m_source = some source ∧
        GetStateA Y wo.model = Except.ok currentY ∧
        pendingSwitchToOff wo1 =
          [({ uid := wo.sim.m_uid + 1,
              ts := wo.sim.now + source.remainingEnergy / (currentY * source.supplyVoltage),
              kind := EventKind.SwitchToOff } : Event)] := by
  rcases ChangeState_elim ho with ⟨-, hs, -⟩ | ⟨-, w2, w3, w4, ht, ha, h4, rfl⟩
  · exact absurd hs hX
  · rcases ChangeState_timer_elim ht with ⟨hs, -⟩ | ⟨-, dX, -, rfl⟩
    · exact absurd hs hX
    · obtain ⟨source0, current0, -, -, -, -, rfl⟩ := ChangeState_account_elim ha
      have hinv2 : TimerInv (rescheduleSwitchToOff dX (incPending wo)) :=
        timerInv_rescheduleSwitchToOff dX
          (timerInv_congr hwinv (List.Sublist.refl _) rfl rfl rfl)
      obtain ⟨W, hW⟩ : ∃ W : World, W = ChangeState_accounted
          (((rescheduleSwitchToOff dX (incPending wo)).sim.now -
            (rescheduleSwitchToOff dX (incPending wo)).model.m_lastUpdateTime) *
            current0 * source0.supplyVoltage)
          (rescheduleSwitchToOff dX (incPending wo)) := ⟨_, rfl⟩
      rw [← hW] at h4
      have hWcb : W.model.m_energyDepletionCallback = true := by rw [hW]; exact hcb
      have hWcnt : W.model.m_nPendingChangeState = 1 := by
        rw [hW]
        show (wo.model.m_nPendingChangeState + 1) % 256 = 1
        rw [hdepth]
      have hWinv : TimerInv W := by
        rw [hW]
        exact timerInv_congr hinv2 (List.Sublist.refl _) rfl rfl rfl
      have hWst : W.model.m_currentState = wo.model.m_currentState := by rw [hW]; rfl
      have hWsrc : W.model.m_source = wo.model.m_source := by rw [hW]; rfl
      have hWcur : GetStateA Y W.model = GetStateA Y wo.model := by
        rw [hW]
        cases Y <;> rfl
      have hWuid : W.sim.m_uid = wo.sim.m_uid + 1 := by
        rw [hW]
        simp only [ChangeState_accounted, rescheduleSwitchToOff, Simulator.Schedule,
          cancel_uid]
        rfl
      have hWnow : W.sim.now = wo.sim.now := by
        rw [hW]
        simp only [ChangeState_accounted, rescheduleSwitchToOff, Simulator.Schedule,
          cancel_now]
        rfl
      simp only [reentrantScript, Script.run, HandleEnergyDepletion, hWcb, if_true] at h4
      cases hn : ChangeState Script.done.run Y W with
      | error e =>
        have hn2 : ChangeState (fun w => Except.ok w) Y W = Except.error e := hn
        simp [hn2] at h4
      | ok v1 =>
        have hn2 : ChangeState (fun w => Except.ok w) Y W = Except.ok v1 := hn
        simp only [hn2, Except.ok.injEq] at h4
        subst h4
        obtain ⟨source, currentY, w5, w6, hsrc, hcurY, hst5, hcnt5, hp5, h6, rfl⟩ :=
          ChangeState_nested_shape hY Script.done W v1 (by rw [hWcnt]) (by rw [hWcnt]; decide) hWinv hn
        have e6 : w6 = w5 := (Except.ok.inj h6).symm
        subst e6
        have hst : (decPending w6).model.m_currentState ≠ State.OFF := by
          show w6.model.m_currentState ≠ State.OFF
          rw [hst5, hWst]
          exact hon
        have hcnt : (decPending w6).model.m_nPendingChangeState ≤ 1 := by
          rw [pending_decPending, hcnt5, hWcnt]
        have hcommit : ChangeState_commit X (decPending w6) =
            SetBleRadioState X (decPending w6) := by
          unfold ChangeState_commit
          simp [hst, hcnt]
        rw [hcommit]
        have hsim : (decPending (SetBleRadioState X (decPending w6))).sim = w6.sim := by
          simp only [decPending, SetBleRadioState]
        have hp : pendingSwitchToOff (decPending (SetBleRadioState X (decPending w6))) =
            pendingSwitchToOff w6 := by
          unfold pendingSwitchToOff
          rw [hsim]
        refine ⟨rfl, ?_⟩
        refine ⟨source, currentY, ?_, ?_, ?_⟩
        · exact hWsrc.symm.trans hsrc
        · exact hWcur.symm.trans hcurY
        rw [hp, hp5]
        simp only [forcedOffEvent, hWuid, hWnow]

/-- C36 (nested request for a state other than `OFF`), as amended.  Let `ChangeState (Y)`,
`Y` other than `OFF`, be entered with counter from 1 to 254 and return, with well-formed
timers on entry.  It hands to the refresh of the source a world `w3` with the state held on
entry and with exactly one forced-off event pending, a new one due at
`now + remainingEnergy / (current (Y) * supplyVoltage)`, and it returns the world `w4` left
by the refresh with only the counter restored: it does not write `m_currentState`.  So when
a top-level `ChangeState (X)`, `X` other than `OFF`, on a model that is not `OFF`, has its
refresh invoke the depletion callback and that callback calls `ChangeState (Y)`, the outer
call returns with state `X` and with the one pending forced-off event due at the time
computed for `Y`. -/
theorem ChangeState_nested_timer (refresh : Script) (Y : State) (w w1 : World)
    (hY : Y ≠ State.OFF) (h1 : 1 ≤ w.model.m_nPendingChangeState)
    (h2 : w.model.m_nPendingChangeState ≤ 254) (hinv : TimerInv w)
    (h : ChangeState refresh.run Y w = Except.ok w1) :
    (∃ source currentY w3 w4, w.model.m_source = some source ∧
      GetStateA Y w.model = Except.ok currentY ∧
      w3.model.m_currentState = w.model.m_currentState ∧
      pendingSwitchToOff w3 = [forcedOffEvent w source currentY] ∧
      refresh.run w3 = Except.ok w4 ∧
      w1.model.m_currentState = w4.model.m_currentState ∧ w1.sim = w4.sim ∧
      (refresh.noCallback = true → w1.model.m_currentState = w.model.m_currentState ∧
        pendingSwitchToOff w1 = [forcedOffEvent w source currentY])) ∧
    ∀ (X : State) (wo wo1 : World), X ≠ State.OFF → wo.model.m_nPendingChangeState = 0 →
      wo.model.m_currentState ≠ State.OFF → wo.model.m_energyDepletionCallback = true →
      TimerInv wo → ChangeState (reentrantScript Y).run X wo = Except.ok wo1 →
      wo1.model.m_currentState = X ∧
      ∃ source currentY, wo.model.m_source = some source ∧
        GetStateA Y wo.model = Except.ok currentY ∧
        pendingSwitchToOff wo1 =
          [({ uid := wo.sim.m_uid + 1,
              ts := wo.sim.now + source.remainingEnergy / (currentY * source.supplyVoltage),
              kind := EventKind.SwitchToOff } : Event)] := by
  constructor
  · obtain ⟨source, currentY, w3, w4, hsrc, hcurY, hst3, -, hp3, h4, rfl⟩ :=
      ChangeState_nested_shape hY refresh w w1 h1 h2 hinv h
    refine ⟨source, currentY, w3, w4, hsrc, hcurY, hst3, hp3, h4, rfl, rfl, ?_⟩
    intro hno
    obtain ⟨o, ho, -, -⟩ := Script.run_noCallback refresh w3 hno
    rw [ho] at h4
    have e4 : w4 = withSource o w3 := (Except.ok.inj h4).symm
    rw [e4]
    exact ⟨hst3, hp3⟩
  · intro X wo wo1 hX hdepth hon hcb hwinv ho
    exact ChangeState_outer_nested hX hY hdepth hon hcb hwinv ho

/-- On `nestedWorld` (one call pending, state `IDLE`, now 10 s, 1 J left, rx current
0.015 A, 3 V) a `ChangeState (RX)` returns with the state still `IDLE` and with one
forced-off event pending, due at `10 + 1 / (0.015 * 3)` s. -/
theorem ChangeState_nested_timer_witness :
    ∃ w1, ChangeState Script.done.run State.RX nestedWorld = Except.ok w1 ∧
      w1.model.m_currentState = State.IDLE ∧
      pendingSwitchToOff w1 =
        [({ uid := 0, ts := 290 / 9, kind := EventKind.SwitchToOff } : Event)] := by
  have hex : ∃ w1, ChangeState Script.done.run State.RX nestedWorld = Except.ok w1 := by
    repeat (first
      | simp [ChangeState, Script.run, nestedWorld, exampleWorld,
          exampleSource, incPending, decPending, ChangeState_timer, ChangeState_account,
          ChangeState_accounted, ChangeState_commit, GetMaximumTimeInState, GetStateA,
          rescheduleSwitchToOff, SetBleRadioState,
          BleRadioEnergyModel.BleRadioEnergyModel, Attributes.default, Simulator.Cancel,
          Simulator.Schedule]
      | norm_num)
  obtain ⟨w1, h⟩ := hex
  have hinv : TimerInv nestedWorld :=
    ⟨List.nodup_nil, fun e he => by simp [nestedWorld, exampleWorld] at he,
      fun e he => by simp [nestedWorld, exampleWorld] at he,
      fun e he => by simp [nestedWorld, exampleWorld] at he⟩
  obtain ⟨source, currentY, w3, w4, hsrc, hcurY, -, -, -, -, -, hno⟩ :=
    (ChangeState_nested_timer Script.done State.RX nestedWorld w1 (by decide) (by decide)
      (by decide) hinv h).1
  have hs : source = exampleSource := by
    have : some exampleSource = some source := hsrc
    exact (Option.some.inj this).symm
  have hc : currentY = 15 / 1000 := by
    have : Except.ok (15 / 1000 : ℚ) = Except.ok currentY := hcurY
    exact (Except.ok.inj this).symm
  obtain ⟨hst, hp⟩ := hno rfl
  refine ⟨w1, h, hst, ?_⟩
  rw [hp, hs, hc]
  norm_num [forcedOffEvent, nestedWorld, exampleWorld, exampleSource]

/-- The claim as worded fails for a counter of 255 on entry: on `deepWorld` (255 calls
pending, state `IDLE`) a `ChangeState (RX)` returns with state `RX`: the `uint8_t` counter
wraps to 0 and the nested call writes `m_currentState`. -/
theorem ChangeState_nested_timer_counterexample :
    1 ≤ deepWorld.model.m_nPendingChangeState ∧
      deepWorld.model.m_currentState = State.IDLE ∧
      ∃ w1, ChangeState Script.done.run State.RX deepWorld = Except.ok w1 ∧
        w1.model.m_currentState = State.RX := by
  refine ⟨by decide, rfl, ?_⟩
  repeat (first
    | simp [ChangeState, Script.run, deepWorld, exampleWorld,
        exampleSource, incPending, decPending, ChangeState_timer, ChangeState_account,
        ChangeState_accounted, ChangeState_commit, GetMaximumTimeInState, GetStateA,
        rescheduleSwitchToOff, SetBleRadioState, BleRadioEnergyModel.BleRadioEnergyModel,
        Attributes.default, Simulator.Cancel, Simulator.Schedule]
    | norm_num)

/-! ### The forced-off event at the predicted time -/

theorem mem_pendingSwitchToOff {w : World} {e : Event} :
    e ∈ pendingSwitchToOff w ↔ e ∈ w.sim.m_events ∧ e.kind = EventKind.SwitchToOff := by
  unfold pendingSwitchToOff
  rw [List.mem_filter]
  simp

/-- Firing a pending forced-off event: the clock moves to its time stamp, the event leaves
the pending events and `ChangeState (OFF)` is called. -/
theorem fire_off (inner : Script) (ev : Event) (w : World)
    (hnodup : (w.sim.m_events.map Event.uid).Nodup) (hev : ev ∈ w.sim.m_events)
    (hk : ev.kind = EventKind.SwitchToOff) :
    fire inner ev.uid w = ChangeState inner.run State.OFF
      { w with sim := { w.sim with now := ev.ts, m_events := w.sim.m_events.erase ev } } := by
  unfold fire
  rw [find_uid_of_mem _ hnodup ev hev]
  simp only [hk]

/-- A top-level `ChangeState (s)`, `s` other than `OFF`, on a model that is not `OFF`, with a
refresh that makes no callback: the world it returns. -/
theorem ChangeState_top_explicit {refresh : Script} {s : State} {w wa : World}
    (hs : s ≠ State.OFF) (hon : w.model.m_currentState ≠ State.OFF)
    (hdepth : w.model.m_nPendingChangeState = 0) (hno : refresh.noCallback = true)
    (ha : ChangeState refresh.run s w = Except.ok wa) :
    ∃ source current currentS o, w.model.m_source = some source ∧
      GetStateA w.model.m_currentState w.model = Except.ok current ∧
      GetStateA s w.model = Except.ok currentS ∧ currentS * source.supplyVoltage ≠ 0 ∧
      w.model.m_lastUpdateTime ≤ w.sim.now ∧
      w.model.m_totalEnergyConsumption +
        (w.sim.now - w.model.m_lastUpdateTime) * current * source.supplyVoltage ≤
          source.initialEnergy ∧
      o.isSome = true ∧
      wa = decPending (SetBleRadioState s (withSource o (ChangeState_accounted
        ((w.sim.now - w.model.m_lastUpdateTime) * current * source.supplyVoltage)
        (rescheduleSwitchToOff (source.remainingEnergy / (currentS * source.supplyVoltage))
          (incPending w))))) := by
  rcases ChangeState_elim ha with ⟨-, hs2, -⟩ | ⟨-, w2, w3, w4, ht, hacc, h4, rfl⟩
  · exact absurd hs2 hs
  · rcases ChangeState_timer_elim ht with ⟨hs2, -⟩ | ⟨-, d, hd, rfl⟩
    · exact absurd hs2 hs
    · obtain ⟨-, sourceS, currentS, hsrcS, hcurS, hnz, rfl⟩ := GetMaximumTimeInState_elim hd
      obtain ⟨source, current, hsrc, hcur, hle, hbound, rfl⟩ := ChangeState_account_elim hacc
      have hsrc0 : w.model.m_source = some source := hsrc
      have hS : sourceS = source := by
        have e1 : w.model.m_source = some sourceS := hsrcS
        rw [hsrc0] at e1
        exact (Option.some.inj e1).symm
      subst hS
      have hcur0 : GetStateA w.model.m_currentState w.model = Except.ok current := by
        have e1 : GetStateA w.model.m_currentState (incPending w).model = Except.ok current := by
          cases hst : w.model.m_currentState <;>
            simp only [hst, GetStateA, rescheduleSwitchToOff, incPending] at hcur ⊢ <;>
            exact hcur
        rw [GetStateA_incPending] at e1
        exact e1
      have hcurS0 : GetStateA s w.model = Except.ok currentS := by
        rw [GetStateA_incPending] at hcurS
        exact hcurS
      have hnow : (rescheduleSwitchToOff (sourceS.remainingEnergy /
          (currentS * sourceS.supplyVoltage)) (incPending w)).sim.now = w.sim.now := by
        simp only [rescheduleSwitchToOff, Simulator.Schedule, cancel_now]
        rfl
      have hlast : (rescheduleSwitchToOff (sourceS.remainingEnergy /
          (currentS * sourceS.supplyVoltage)) (incPending w)).model.m_lastUpdateTime =
          w.model.m_lastUpdateTime := rfl
      have htotal : (rescheduleSwitchToOff (sourceS.remainingEnergy /
          (currentS * sourceS.supplyVoltage)) (incPending w)).model.m_totalEnergyConsumption =
          w.model.m_totalEnergyConsumption := rfl
      rw [hnow, hlast] at hle hbound h4
      rw [htotal] at hbound
      obtain ⟨o, ho, hsome, -⟩ := Script.run_noCallback refresh _ hno
      rw [ho] at h4
      have e4 : w4 = _ := (Except.ok.inj h4).symm
      have hsome2 : o.isSome = true := by
        rw [hsome]
        show w.model.m_source.isSome = true
        rw [hsrc0]
        rfl
      refine ⟨sourceS, current, currentS, o, hsrc0, hcur0, hcurS0, hnz, hle, hbound, hsome2, ?_⟩
      rw [e4]
      congr 1
      unfold ChangeState_commit
      have hc1 : (withSource o (ChangeState_accounted
          ((w.sim.now - w.model.m_lastUpdateTime) * current * sourceS.supplyVoltage)
          (rescheduleSwitchToOff (sourceS.remainingEnergy / (currentS * sourceS.supplyVoltage))
            (incPending w)))).model.m_nPendingChangeState ≤ 1 := by
        show (w.model.m_nPendingChangeState + 1) % 256 ≤ 1
        rw [hdepth]
      have hc2 : (withSource o (ChangeState_accounted
          ((w.sim.now - w.model.m_lastUpdateTime) * current * sourceS.supplyVoltage)
          (rescheduleSwitchToOff (sourceS.remainingEnergy / (currentS * sourceS.supplyVoltage))
            (incPending w)))).model.m_currentState ≠ State.OFF := hon
      simp only [hc1, hc2, ne_eq, not_false_eq_true, and_self, if_true]

/-- A top-level `ChangeState (OFF)` on a model that is not `OFF`, with a refresh that makes
no callback, returns as soon as its two assertions hold: it charges the interval and
commits `OFF`. -/
theorem ChangeState_off_returns {r : Script} {v : World} {sa : EnergySource} {c : ℚ}
    (hdepth : v.model.m_nPendingChangeState = 0) (hon : v.model.m_currentState ≠ State.OFF)
    (hsrc : v.model.m_source = some sa)
    (hcur : GetStateA v.model.m_currentState v.model = Except.ok c)
    (hle : v.model.m_lastUpdateTime ≤ v.sim.now)
    (hbound : v.model.m_totalEnergyConsumption +
      (v.sim.now - v.model.m_lastUpdateTime) * c * sa.supplyVoltage ≤ sa.initialEnergy)
    (hno : r.noCallback = true) :
    ∃ wb, ChangeState r.run State.OFF v = Except.ok wb ∧
      wb.model.m_currentState = State.OFF ∧
      wb.model.m_totalEnergyConsumption = v.model.m_totalEnergyConsumption +
        (v.sim.now - v.model.m_lastUpdateTime) * c * sa.supplyVoltage ∧
      wb.sim.now = v.sim.now ∧ wb.model.m_lastUpdateTime = v.sim.now := by
  have hfull : ¬ ((v.model.m_nPendingChangeState + 1) % 256 > 1 ∧ State.OFF = State.OFF) := by
    rintro ⟨hgt, -⟩
    rw [hdepth] at hgt
    omega
  have h2 : ChangeState_timer State.OFF (incPending v) = Except.ok (incPending v) := by
    simp [ChangeState_timer]
  have hcur1 : GetStateA (incPending v).model.m_currentState (incPending v).model =
      Except.ok c := by
    show GetStateA v.model.m_currentState (incPending v).model = Except.ok c
    rw [GetStateA_incPending]
    exact hcur
  have hacc := ChangeState_account_ok (w := incPending v) hle hsrc hcur1 hbound
  obtain ⟨o, ho, -, -⟩ := Script.run_noCallback r (ChangeState_accounted
    (((incPending v).sim.now - (incPending v).model.m_lastUpdateTime) * c * sa.supplyVoltage)
    (incPending v)) hno
  have hcs : ChangeState r.run State.OFF v = Except.ok (decPending (ChangeState_commit State.OFF
      (withSource o (ChangeState_accounted
        (((incPending v).sim.now - (incPending v).model.m_lastUpdateTime) * c *
          sa.supplyVoltage) (incPending v))))) := by
    rw [ChangeState_after_timer hfull h2, hacc]
    simp only [ho]
  refine ⟨_, hcs, ?_, ?_, ?_, ?_⟩
  · show (ChangeState_commit State.OFF _).model.m_currentState = State.OFF
    unfold ChangeState_commit
    split
    · rfl
    · rename_i hc
      have hc1 : (withSource o (ChangeState_accounted
          (((incPending v).sim.now - (incPending v).model.m_lastUpdateTime) * c *
            sa.supplyVoltage) (incPending v))).model.m_nPendingChangeState ≤ 1 := by
        show (v.model.m_nPendingChangeState + 1) % 256 ≤ 1
        rw [hdepth]
      exact absurd ⟨hc1, hon⟩ hc
  · show (ChangeState_commit State.OFF _).model.m_totalEnergyConsumption = _
    rw [total_commit]
    rfl
  · show (ChangeState_commit State.OFF _).sim.now = _
    rw [sim_commit]
    rfl
  · show (ChangeState_commit State.OFF _).model.m_lastUpdateTime = _
    rw [last_commit]
    rfl

/-- The world returned by a top-level `ChangeState (s)` without callbacks, field by field. -/
theorem ChangeState_top_fields {refresh : Script} {s : State} {w wa : World}
    (hs : s ≠ State.OFF) (hon : w.model.m_currentState ≠ State.OFF)
    (hdepth : w.model.m_nPendingChangeState = 0) (hinv : TimerInv w)
    (hno : refresh.noCallback = true)
    (ha : ChangeState refresh.run s w = Except.ok wa) :
    ∃ source current currentS sa, w.model.m_source = some source ∧
      GetStateA w.model.m_currentState w.model = Except.ok current ∧
      GetStateA s w.model = Except.ok currentS ∧ currentS * source.supplyVoltage ≠ 0 ∧
      w.model.m_lastUpdateTime ≤ w.sim.now ∧
      w.model.m_totalEnergyConsumption +
        (w.sim.now - w.model.m_lastUpdateTime) * current * source.supplyVoltage ≤
          source.initialEnergy ∧
      wa.model.m_source = some sa ∧ wa.model.m_currentState = s ∧
      wa.model.m_nPendingChangeState = 0 ∧
      wa.model.m_totalEnergyConsumption = w.model.m_totalEnergyConsumption +
        (w.sim.now - w.model.m_lastUpdateTime) * current * source.supplyVoltage ∧
      wa.model.m_lastUpdateTime = w.sim.now ∧
      GetStateA s wa.model = Except.ok currentS ∧
      pendingSwitchToOff wa = [forcedOffEvent w source currentS] := by
  obtain ⟨source, current, currentS, o, hsrc, hcur, hcurS, hnz, hle, hbound, hsome, hwa⟩ :=
    ChangeState_top_explicit hs hon hdepth hno ha
  obtain ⟨sa, hsa⟩ := Option.isSome_iff_exists.mp hsome
  refine ⟨source, current, currentS, sa, hsrc, hcur, hcurS, hnz, hle, hbound, ?_, ?_, ?_, ?_,
    ?_, ?_, ?_⟩
  · rw [hwa]
    exact hsa
  · rw [hwa]
    rfl
  · rw [hwa]
    show ((w.model.m_nPendingChangeState + 1) % 256 + 255) % 256 = 0
    rw [hdepth]
  · rw [hwa]
    rfl
  · rw [hwa]
    show (rescheduleSwitchToOff (source.remainingEnergy / (currentS * source.supplyVoltage))
      (incPending w)).sim.now = w.sim.now
    simp only [rescheduleSwitchToOff, Simulator.Schedule, cancel_now]
    rfl
  · rw [hwa]
    cases s <;> simp only [GetStateA] at hcurS ⊢ <;> exact hcurS
  · have hp : pendingSwitchToOff wa = pendingSwitchToOff (rescheduleSwitchToOff
        (source.remainingEnergy / (currentS * source.supplyVoltage)) (incPending w)) := by
      rw [hwa]
      unfold pendingSwitchToOff
      simp only [decPending, SetBleRadioState, withSource, ChangeState_accounted]
    have hinv1 : TimerInv (incPending w) :=
      timerInv_congr hinv (List.Sublist.refl _) rfl rfl rfl
    rw [hp, pendingSwitchToOff_reschedule
      (source.remainingEnergy / (currentS * source.supplyVoltage)) hinv1]
    rfl

/-- The forced-off event in exact arithmetic (no rounding).  Take a model that is not `OFF`,
with no call pending and well-formed timers, and a top-level `ChangeState (s)`, `s` other
than `OFF`, at time `t = now` that returns, with refreshes that make no callback and a
source that keeps its supply voltage and initial energy.  If the remaining energy read by the call is the
initial energy minus the stored total after the call (the interval it accounts included)
and `current (s) * supplyVoltage > 0`, then the call leaves state `s` and one forced-off
event, due at `t + remainingEnergy / (current (s) * supplyVoltage)`, and the firing of that
event as the next step returns: at that time the stored total is exactly the initial
energy and the state is `OFF`. -/
theorem forced_off_exact (r1 r2 : Script) (s : State) (w wa : World) (source : EnergySource)
    (current currentS : ℚ)
    (hs : s ≠ State.OFF) (hon : w.model.m_currentState ≠ State.OFF)
    (hdepth : w.model.m_nPendingChangeState = 0) (hinv : TimerInv w)
    (hsrc : w.model.m_source = some source)
    (hcur : GetStateA w.model.m_currentState w.model = Except.ok current)
    (hcurS : GetStateA s w.model = Except.ok currentS)
    (hpos : 0 < currentS * source.supplyVoltage)
    (hrem : source.remainingEnergy = source.initialEnergy -
      (w.model.m_totalEnergyConsumption +
        (w.sim.now - w.model.m_lastUpdateTime) * current * source.supplyVoltage))
    (h1 : r1.noCallback = true) (h2 : r2.noCallback = true)
    (ha : ChangeState r1.run s w = Except.ok wa)
    (hkeep : ∀ sa, wa.model.m_source = some sa →
      sa.supplyVoltage = source.supplyVoltage ∧ sa.initialEnergy = source.initialEnergy) :
    wa.model.m_currentState = s ∧
      pendingSwitchToOff wa = [forcedOffEvent w source currentS] ∧
      ∃ wb, fire r2 w.sim.m_uid wa = Except.ok wb ∧
        wb.sim.now =
          w.sim.now + source.remainingEnergy / (currentS * source.supplyVoltage) ∧
        wb.model.m_totalEnergyConsumption = source.initialEnergy ∧
        wb.model.m_currentState = State.OFF := by
  obtain ⟨source1, current1, currentS1, sa, hsrc1, hcur1, hcurS1, -, hle, hbound, hsa, hst,
    hcnt, htot, hlast, hcurA, hp⟩ := ChangeState_top_fields hs hon hdepth hinv h1 ha
  have e1 : source1 = source := by
    rw [hsrc] at hsrc1
    exact (Option.some.inj hsrc1).symm
  have e2 : current1 = current := by
    rw [hcur] at hcur1
    exact (Except.ok.inj hcur1).symm
  have e3 : currentS1 = currentS := by
    rw [hcurS] at hcurS1
    exact (Except.ok.inj hcurS1).symm
  subst e1 e2 e3
  obtain ⟨hV, hE⟩ := hkeep sa hsa
  have hR : 0 ≤ source1.remainingEnergy := by
    rw [hrem]
    linarith
  have hd : 0 ≤ source1.remainingEnergy / (currentS1 * source1.supplyVoltage) :=
    div_nonneg hR (le_of_lt hpos)
  have hmul : source1.remainingEnergy / (currentS1 * source1.supplyVoltage) * currentS1 *
      source1.supplyVoltage = source1.remainingEnergy := by
    rw [mul_assoc]
    exact div_mul_cancel₀ _ (ne_of_gt hpos)
  have hinva : TimerInv wa := timerInv_ChangeState ha hinv
  have hmem : forcedOffEvent w source1 currentS1 ∈ wa.sim.m_events := by
    have : forcedOffEvent w source1 currentS1 ∈ pendingSwitchToOff wa := by
      rw [hp]
      exact List.mem_singleton_self _
    exact (mem_pendingSwitchToOff.mp this).1
  have hf := fire_off r2 (forcedOffEvent w source1 currentS1) wa hinva.nodup hmem rfl
  have hf2 : fire r2 w.sim.m_uid wa = _ := hf
  have key : ∀ wf : World, wf.model = wa.model →
      wf.sim.now = w.sim.now +
        source1.remainingEnergy / (currentS1 * source1.supplyVoltage) →
      ∃ wb, ChangeState r2.run State.OFF wf = Except.ok wb ∧
        wb.sim.now =
          w.sim.now + source1.remainingEnergy / (currentS1 * source1.supplyVoltage) ∧
        wb.model.m_totalEnergyConsumption = source1.initialEnergy ∧
        wb.model.m_currentState = State.OFF := by
    intro wf hmodel hnowf
    have hdf : wf.model.m_nPendingChangeState = 0 := by rw [hmodel]; exact hcnt
    have honf : wf.model.m_currentState ≠ State.OFF := by rw [hmodel, hst]; exact hs
    have hsrcf : wf.model.m_source = some sa := by rw [hmodel]; exact hsa
    have hcurf : GetStateA wf.model.m_currentState wf.model = Except.ok currentS1 := by
      rw [hmodel, hst]
      exact hcurA
    have hlef : wf.model.m_lastUpdateTime ≤ wf.sim.now := by
      rw [hmodel, hlast, hnowf]
      linarith
    have hsum : wf.model.m_totalEnergyConsumption +
        (wf.sim.now - wf.model.m_lastUpdateTime) * currentS1 * sa.supplyVoltage =
          source1.initialEnergy := by
      rw [hmodel, htot, hlast, hnowf, hV]
      have : (w.sim.now + source1.remainingEnergy / (currentS1 * source1.supplyVoltage) -
          w.sim.now) * currentS1 * source1.supplyVoltage = source1.remainingEnergy := by
        rw [add_sub_cancel_left]
        exact hmul
      rw [this, hrem]
      ring
    have hboundf : wf.model.m_totalEnergyConsumption +
        (wf.sim.now - wf.model.m_lastUpdateTime) * currentS1 * sa.supplyVoltage ≤
          sa.initialEnergy := by
      rw [hsum, hE]
    obtain ⟨wb, hwb, hstb, htotb, hnowb, -⟩ :=
      ChangeState_off_returns hdf honf hsrcf hcurf hlef hboundf h2
    exact ⟨wb, hwb, hnowb.trans hnowf, htotb.trans hsum, hstb⟩
  refine ⟨hst, hp, ?_⟩
  rw [hf2]
  exact key _ rfl rfl

/-- In exact arithmetic, on `exactWorld` (IDLE since 0, now 10 s, 0.99997 J left of 1 J, tx
current 0.015 A, 3 V): `ChangeState (TX)` returns, and the firing of the forced-off event it scheduled
returns with the stored total at exactly 1 J and the state `OFF`. -/
theorem forced_off_exact_witness :
    ∃ wa wb, ChangeState Script.done.run State.TX exactWorld = Except.ok wa ∧
      fire Script.done 0 wa = Except.ok wb ∧
      wb.model.m_totalEnergyConsumption = 1 ∧ wb.model.m_currentState = State.OFF := by
  have hex : ∃ wa, ChangeState Script.done.run State.TX exactWorld = Except.ok wa ∧
      wa.model.m_source = some exactSource := by
    repeat (first
      | simp [ChangeState, Script.run, exactWorld, exactSource, exampleWorld,
          exampleSource, incPending, decPending, ChangeState_timer, ChangeState_account,
          ChangeState_accounted, ChangeState_commit, GetMaximumTimeInState, GetStateA,
          rescheduleSwitchToOff, SetBleRadioState,
          BleRadioEnergyModel.BleRadioEnergyModel, Attributes.default, Simulator.Cancel,
          Simulator.Schedule]
      | norm_num)
  obtain ⟨wa, ha, hsa⟩ := hex
  have hinv : TimerInv exactWorld :=
    ⟨List.nodup_nil, fun e he => by simp [exactWorld, exampleWorld] at he,
      fun e he => by simp [exactWorld, exampleWorld] at he,
      fun e he => by simp [exactWorld, exampleWorld] at he⟩
  obtain ⟨-, -, wb, hb, -, htot, hst⟩ :=
    forced_off_exact Script.done Script.done State.TX exactWorld wa exactSource
      (1 / 1000000) (15 / 1000) (by decide) (by decide) rfl hinv rfl
      (by simp [exactWorld, exampleWorld, GetStateA, BleRadioEnergyModel.BleRadioEnergyModel,
        Attributes.default])
      (by simp [exactWorld, exampleWorld, GetStateA, BleRadioEnergyModel.BleRadioEnergyModel,
        Attributes.default])
      (by norm_num [exactSource])
      (by norm_num [exactWorld, exampleWorld, exactSource,
        BleRadioEnergyModel.BleRadioEnergyModel])
      rfl rfl ha
      (fun sa h => by
        rw [hsa] at h
        rw [← Option.some.inj h]
        exact ⟨rfl, rfl⟩)
  exact ⟨wa, wb, ha, hb, htot, hst⟩

/-- The condition that the model is not `OFF` is needed, also in exact arithmetic.  On
`offWorld` (state `OFF`, stored
total 0, 1 J left of 1 J, so the remaining energy is the initial energy minus the energy
consumed, and `current (TX) * supplyVoltage = 0.045 > 0`): `ChangeState (TX)` schedules a
forced-off event, and its firing leaves the stored total at 0, not at the initial energy
of 1 J. -/
theorem forced_off_exact_counterexample :
    offWorld.model.m_nPendingChangeState = 0 ∧
    offWorld.model.m_totalEnergyConsumption = 0 ∧
    offWorld.model.m_source = some exampleSource ∧
    exampleSource.remainingEnergy = exampleSource.initialEnergy - 0 ∧
    GetStateA State.TX offWorld.model = Except.ok (15 / 1000) ∧
    (0 : ℚ) < 15 / 1000 * exampleSource.supplyVoltage ∧
    ∃ wa, ChangeState Script.done.run State.TX offWorld = Except.ok wa ∧
      wa.model.m_totalEnergyConsumption = 0 ∧
      pendingSwitchToOff wa =
        [({ uid := 0, ts := 290 / 9, kind := EventKind.SwitchToOff } : Event)] ∧
      ∃ wb, fire Script.done 0 wa = Except.ok wb ∧
        wb.model.m_totalEnergyConsumption = 0 ∧
        wb.model.m_totalEnergyConsumption ≠ exampleSource.initialEnergy := by
  refine ⟨rfl, rfl, rfl, by norm_num [exampleSource], ?_, by norm_num [exampleSource], ?_⟩
  · simp [offWorld, exampleWorld, GetStateA, BleRadioEnergyModel.BleRadioEnergyModel,
      Attributes.default]
  · repeat (first
      | simp [ChangeState, Script.run, offWorld, exampleWorld, exampleSource, incPending,
          decPending, ChangeState_timer, ChangeState_account, ChangeState_accounted,
          ChangeState_commit, GetMaximumTimeInState, GetStateA, rescheduleSwitchToOff,
          SetBleRadioState, fire, pendingSwitchToOff,
          BleRadioEnergyModel.BleRadioEnergyModel, Attributes.default, Simulator.Cancel,
          Simulator.Schedule]
      | norm_num)

/-- The forced-off event after a refresh that calls `HandleEnergyChanged`, in exact
arithmetic.  A new model with the default attributes is attached at time 0 to a full source
of 1 J at 3 V and asked for `RX`, with a refresh of the source that calls
`HandleEnergyChanged`.  That call runs before the new state is stored: it replaces the
forced-off event of the request (due after `1 / (0.015 * 3)` s) by one computed from the
current of `IDLE`, due after `1 / (0.000001 * 3)` s.  When this event fires, the energy of
the interval in `RX` is far above the initial energy and the assertion on the stored total
fails. -/
theorem forced_off_energyChanged :
    ∃ w1 w2, SetEnergySource exampleSource (World.initial Attributes.default) = Except.ok w1 ∧
      ChangeState (Script.HandleEnergyChanged Script.done).run State.RX w1 = Except.ok w2 ∧
      w2.model.m_currentState = State.RX ∧
      pendingSwitchToOff w2 =
        [({ uid := 2, ts := 1000000 / 3, kind := EventKind.SwitchToOff } : Event)] ∧
      fire Script.done 2 w2 = Except.error Failure.assertTotalEnergy := by
  repeat (first
    | simp [SetEnergySource, World.initial, ChangeState, Script.run, exampleSource, incPending,
        decPending, ChangeState_timer, ChangeState_account, ChangeState_accounted,
        ChangeState_commit, GetMaximumTimeInState, GetStateA, rescheduleSwitchToOff,
        SetBleRadioState, fire, BleRadioEnergyModel.BleRadioEnergyModel, Attributes.default,
        Simulator.Cancel, Simulator.Schedule, HandleEnergyChanged, pendingSwitchToOff]
    | norm_num)

/-! ### The currents of the states that are never entered -/

theorem GetStateA_setUnused (a b c : ℚ) (st : State) (w : World) :
    GetStateA st (setUnused a b c w).model = GetStateA st w.model := by
  cases st <;> rfl

theorem GetMaximumTimeInState_setUnused (a b c : ℚ) (st : State) (w : World) :
    GetMaximumTimeInState st (setUnused a b c w).model = GetMaximumTimeInState st w.model := by
  unfold GetMaximumTimeInState
  rw [GetStateA_setUnused]
  rfl

theorem timer_setUnused (a b c : ℚ) (st : State) (w : World) :
    ChangeState_timer st (setUnused a b c w) =
      (ChangeState_timer st w).map (setUnused a b c) := by
  unfold ChangeState_timer
  rw [GetMaximumTimeInState_setUnused]
  by_cases hs : st = State.OFF
  · simp only [hs, ne_eq, not_true_eq_false, if_false]
    rfl
  · simp only [ne_eq, hs, not_false_eq_true, if_true]
    cases GetMaximumTimeInState st w.model <;> rfl

theorem account_setUnused (a b c : ℚ) (w : World) :
    ChangeState_account (setUnused a b c w) =
      (ChangeState_account w).map (setUnused a b c) := by
  unfold ChangeState_account
  have hst : (setUnused a b c w).model.m_currentState = w.model.m_currentState := rfl
  have h1 : (setUnused a b c w).sim = w.sim := rfl
  have h2 : (setUnused a b c w).model.m_lastUpdateTime = w.model.m_lastUpdateTime := rfl
  have h3 : (setUnused a b c w).model.m_source = w.model.m_source := rfl
  have h4 : (setUnused a b c w).model.m_totalEnergyConsumption =
      w.model.m_totalEnergyConsumption := rfl
  rw [hst, GetStateA_setUnused]
  simp only [h1, h2, h3, h4]
  by_cases hd : 0 ≤ w.sim.now - w.model.m_lastUpdateTime
  · simp only [hd, not_true_eq_false, if_false]
    cases hsrc : w.model.m_source with
    | none => rfl
    | some source =>
      cases hc : GetStateA w.model.m_currentState w.model with
      | error e => rfl
      | ok current =>
        by_cases hb : w.model.m_totalEnergyConsumption +
            (w.sim.now - w.model.m_lastUpdateTime) * current * source.supplyVoltage ≤
              source.initialEnergy
        · simp only [hb, not_true_eq_false, if_false]
          rfl
        · simp only [hb, not_false_eq_true, if_true]
          rfl
  · simp only [hd, not_false_eq_true, if_true]
    rfl

theorem commit_setUnused (a b c : ℚ) (st : State) (w : World) :
    ChangeState_commit st (setUnused a b c w) = setUnused a b c (ChangeState_commit st w) := by
  unfold ChangeState_commit
  have h1 : (setUnused a b c w).model.m_nPendingChangeState = w.model.m_nPendingChangeState :=
    rfl
  have h2 : (setUnused a b c w).model.m_currentState = w.model.m_currentState := rfl
  rw [h1, h2]
  split <;> rfl

theorem ChangeState_setUnused (a b c : ℚ) {U : World → Except Failure World}
    (hU : ∀ x, U (setUnused a b c x) = (U x).map (setUnused a b c)) (st : State) (w : World) :
    ChangeState U st (setUnused a b c w) = (ChangeState U st w).map (setUnused a b c) := by
  unfold ChangeState
  have hinc : incPending (setUnused a b c w) = setUnused a b c (incPending w) := rfl
  have hp : (setUnused a b c (incPending w)).model.m_nPendingChangeState =
      (incPending w).model.m_nPendingChangeState := rfl
  simp only [hinc, hp]
  by_cases hf : (incPending w).model.m_nPendingChangeState > 1 ∧ st = State.OFF
  · simp only [hf, and_self, if_true]
    rfl
  · simp only [hf, if_false, timer_setUnused]
    cases h2 : ChangeState_timer st (incPending w) with
    | error e => rfl
    | ok w2 =>
      simp only [Except.map, account_setUnused]
      cases h3 : ChangeState_account w2 with
      | error e => rfl
      | ok w3 =>
        simp only [Except.map, hU]
        cases h4 : U w3 with
        | error e => rfl
        | ok w4 =>
          simp only [Except.map, commit_setUnused]
          rfl

theorem HandleEnergyChanged_setUnused (a b c : ℚ) (w : World) :
    HandleEnergyChanged (setUnused a b c w) =
      (HandleEnergyChanged w).map (setUnused a b c) := by
  unfold HandleEnergyChanged
  have hst : (setUnused a b c w).model.m_currentState = w.model.m_currentState := rfl
  rw [hst, GetMaximumTimeInState_setUnused]
  by_cases hs : w.model.m_currentState = State.OFF
  · simp only [hs, ne_eq, not_true_eq_false, if_false]
    rfl
  · simp only [ne_eq, hs, not_false_eq_true, if_true]
    cases GetMaximumTimeInState w.model.m_currentState w.model <;> rfl

theorem SetEnergySource_eq (source : EnergySource) (w : World) :
    SetEnergySource source w =
      match GetMaximumTimeInState w.model.m_currentState (withSource (some source) w).model with
      | Except.error e => Except.error e
      | Except.ok d => Except.ok (rescheduleSwitchToOff d (withSource (some source) w)) := rfl

theorem SetEnergySource_setUnused (a b c : ℚ) (source : EnergySource) (w : World) :
    SetEnergySource source (setUnused a b c w) =
      (SetEnergySource source w).map (setUnused a b c) := by
  rw [SetEnergySource_eq, SetEnergySource_eq]
  have hw : withSource (some source) (setUnused a b c w) =
      setUnused a b c (withSource (some source) w) := rfl
  have hst : (setUnused a b c w).model.m_currentState = w.model.m_currentState := rfl
  rw [hw, hst, GetMaximumTimeInState_setUnused]
  cases GetMaximumTimeInState w.model.m_currentState (withSource (some source) w).model <;> rfl

theorem GetTotalEnergyConsumption_setUnused (a b c : ℚ) {U : World → Except Failure World}
    (hU : ∀ x, U (setUnused a b c x) = (U x).map (setUnused a b c)) (w : World) :
    GetTotalEnergyConsumption U (setUnused a b c w) =
      (GetTotalEnergyConsumption U w).map (fun r => (r.1, setUnused a b c r.2)) := by
  unfold GetTotalEnergyConsumption
  have hst : (setUnused a b c w).model.m_currentState = w.model.m_currentState := rfl
  have h1 : (setUnused a b c w).sim = w.sim := rfl
  have h2 : (setUnused a b c w).model.m_lastUpdateTime = w.model.m_lastUpdateTime := rfl
  have h3 : (setUnused a b c w).model.m_source = w.model.m_source := rfl
  rw [hst, GetStateA_setUnused]
  simp only [h1, h2, h3, hU]
  by_cases hd : 0 ≤ w.sim.now - w.model.m_lastUpdateTime
  · simp only [hd, not_true_eq_false, if_false]
    cases hsrc : w.model.m_source with
    | none => rfl
    | some source =>
      cases hc : GetStateA w.model.m_currentState w.model with
      | error e => rfl
      | ok current =>
        cases h4 : U w with
        | error e => rfl
        | ok w4 => rfl
  · simp only [hd, not_false_eq_true, if_true]
    rfl

theorem setTx_setUnused (a b c p : ℚ) (w : World) :
    SetTxCurrentFromModel p (setUnused a b c w) =
      setUnused a b c (SetTxCurrentFromModel p w) := by
  unfold SetTxCurrentFromModel
  have h : (setUnused a b c w).model.m_txCurrentModel = w.model.m_txCurrentModel := rfl
  rw [h]
  cases w.model.m_txCurrentModel <;> rfl

theorem setReadings_setUnused (a b c : ℚ) (source : EnergySource) (w : World) :
    setReadings source (setUnused a b c w) = setUnused a b c (setReadings source w) := by
  unfold setReadings
  have h : (setUnused a b c w).model.m_source = w.model.m_source := rfl
  rw [h]
  cases w.model.m_source <;> rfl

theorem Notify_setUnused (a b c : ℚ) {U : World → Except Failure World}
    (hU : ∀ x, U (setUnused a b c x) = (U x).map (setUnused a b c)) (n : Notification)
    (w : World) :
    Notify U n (setUnused a b c w) = (Notify U n w).map (setUnused a b c) := by
  have hc : (setUnused a b c w).model.m_listener.m_changeStateCallback =
      w.model.m_listener.m_changeStateCallback := rfl
  have hu : (setUnused a b c w).model.m_listener.m_updateTxCurrentCallback =
      w.model.m_listener.m_updateTxCurrentCallback := rfl
  cases n with
  | RxStart duration =>
    simp only [Notify, NotifyRxStart, hc, ChangeState_setUnused a b c hU]
    split
    · rfl
    · cases ChangeState U State.RX w <;> rfl
  | RxEndOk =>
    simp only [Notify, NotifyRxEndOk, hc, ChangeState_setUnused a b c hU]
    split <;> rfl
  | RxEndError =>
    simp only [Notify, NotifyRxEndError, hc, ChangeState_setUnused a b c hU]
    split <;> rfl
  | TxStart duration txPowerDbm =>
    have hc2 : (SetTxCurrentFromModel txPowerDbm
        (setUnused a b c w)).model.m_listener.m_changeStateCallback =
        (SetTxCurrentFromModel txPowerDbm w).model.m_listener.m_changeStateCallback := by
      rw [setTx_setUnused]
      rfl
    simp only [Notify, NotifyTxStart, hu, hc2]
    rw [setTx_setUnused, ChangeState_setUnused a b c hU]
    split
    · rfl
    · split
      · rfl
      · cases ChangeState U State.TX (SetTxCurrentFromModel txPowerDbm w) <;> rfl
  | MaybeCcaBusyStart duration =>
    simp only [Notify, NotifyMaybeCcaBusyStart, hc]
    split <;> rfl
  | SwitchingStart duration =>
    simp only [Notify, NotifySwitchingStart, hc]
    split <;> rfl
  | Sleep =>
    simp only [Notify, NotifySleep, hc]
    split <;> rfl
  | Wakeup =>
    simp only [Notify, NotifyWakeup, hc, ChangeState_setUnused a b c hU]
    split <;> rfl
  | Off =>
    simp only [Notify, NotifyOff, hc, ChangeState_setUnused a b c hU]
    split
    · rfl
    · cases ChangeState U State.OFF w <;> rfl
  | On =>
    simp only [Notify, NotifyOn, hc, ChangeState_setUnused a b c hU]
    split <;> rfl

/-- Every scripted run commutes with a change of the three unused currents. -/
theorem script_run_setUnused (a b c : ℚ) :
    ∀ (s : Script) (w : World),
      s.run (setUnused a b c w) = (s.run w).map (setUnused a b c) := by
  intro s
  induction s with
  | done =>
    intro w
    rfl
  | readings source rest ih =>
    intro w
    simp only [Script.run, setReadings_setUnused, ih]
  | ChangeState newState inner rest ihInner ihRest =>
    intro w
    simp only [Script.run, ChangeState_setUnused a b c ihInner]
    cases BleEnergy.ChangeState inner.run newState w with
    | error e => rfl
    | ok w1 => exact ihRest w1
  | HandleEnergyChanged rest ih =>
    intro w
    simp only [Script.run, HandleEnergyChanged_setUnused]
    cases BleEnergy.HandleEnergyChanged w with
    | error e => rfl
    | ok w1 => exact ih w1
  | HandleEnergyDepletion callback rest ihCallback ihRest =>
    intro w
    have hd : BleEnergy.HandleEnergyDepletion callback.run (setUnused a b c w) =
        (BleEnergy.HandleEnergyDepletion callback.run w).map (setUnused a b c) := by
      unfold BleEnergy.HandleEnergyDepletion
      have hf : (setUnused a b c w).model.m_energyDepletionCallback =
          w.model.m_energyDepletionCallback := rfl
      rw [hf]
      split
      · exact ihCallback w
      · rfl
    simp only [Script.run, hd]
    cases BleEnergy.HandleEnergyDepletion callback.run w with
    | error e => rfl
    | ok w1 => exact ihRest w1
  | HandleEnergyRecharged callback rest ihCallback ihRest =>
    intro w
    have hd : BleEnergy.HandleEnergyRecharged callback.run (setUnused a b c w) =
        (BleEnergy.HandleEnergyRecharged callback.run w).map (setUnused a b c) := by
      unfold BleEnergy.HandleEnergyRecharged
      have hf : (setUnused a b c w).model.m_energyRechargedCallback =
          w.model.m_energyRechargedCallback := rfl
      rw [hf]
      split
      · exact ihCallback w
      · rfl
    simp only [Script.run, hd]
    cases BleEnergy.HandleEnergyRecharged callback.run w with
    | error e => rfl
    | ok w1 => exact ihRest w1
  | SetTxCurrentFromModel txPowerDbm rest ih =>
    intro w
    simp only [Script.run, setTx_setUnused, ih]
  | GetTotalEnergyConsumption inner rest ihInner ihRest =>
    intro w
    simp only [Script.run, GetTotalEnergyConsumption_setUnused a b c ihInner]
    cases BleEnergy.GetTotalEnergyConsumption inner.run w with
    | error e => rfl
    | ok r => exact ihRest r.2
  | Notify n inner rest ihInner ihRest =>
    intro w
    simp only [Script.run, Notify_setUnused a b c ihInner]
    cases BleEnergy.Notify inner.run n w with
    | error e => rfl
    | ok w1 => exact ihRest w1

theorem fire_setUnused (a b c : ℚ) (inner : Script) (uid : Nat) (w : World) :
    fire inner uid (setUnused a b c w) = (fire inner uid w).map (setUnused a b c) := by
  unfold fire
  have h1 : (setUnused a b c w).sim = w.sim := rfl
  simp only [h1]
  cases hf : w.sim.m_events.find? (fun e => e.uid == uid) with
  | none => rfl
  | some e =>
    simp only
    cases hk : e.kind with
    | SwitchToOff =>
      simp only
      exact ChangeState_setUnused a b c (script_run_setUnused a b c inner) State.OFF
        { w with sim := { w.sim with now := e.ts, m_events := w.sim.m_events.erase e } }
    | SwitchToIdle =>
      simp only
      have key : ∀ x : World, SwitchToIdle inner.run (setUnused a b c x) =
          (SwitchToIdle inner.run x).map (setUnused a b c) := by
        intro x
        unfold SwitchToIdle
        have hc : (setUnused a b c x).model.m_listener.m_changeStateCallback =
            x.model.m_listener.m_changeStateCallback := rfl
        rw [hc, ChangeState_setUnused a b c (script_run_setUnused a b c inner)]
        split <;> rfl
      exact key
        { w with sim := { w.sim with now := e.ts, m_events := w.sim.m_events.erase e } }

theorem runOps_setUnused (a b c : ℚ) :
    ∀ (ops : List Op) (w : World),
      runOps ops (setUnused a b c w) = (runOps ops w).map (setUnused a b c) := by
  intro ops
  induction ops with
  | nil =>
    intro w
    rfl
  | cons op ops ih =>
    intro w
    have hop : op.run (setUnused a b c w) = (op.run w).map (setUnused a b c) := by
      cases op with
      | SetEnergySource source => exact SetEnergySource_setUnused a b c source w
      | calls s => exact script_run_setUnused a b c s w
      | advance t => rfl
      | fire inner uid => exact fire_setUnused a b c inner uid w
    simp only [runOps, hop]
    cases op.run w with
    | error e => rfl
    | ok w1 => exact ih w1

/-- C35 (unused currents).  Take any world and replace the configured CCA-busy, switching
and sleep currents by any three values.  Every series of steps (attaching a source, calls
of `ChangeState`, of the handlers, of `SetTxCurrentFromModel`, of
`GetTotalEnergyConsumption`, notifications to the listener, moves of the clock, firings
of events) fails with the same error on both worlds or returns on both, and then the two
results are the same scheduler (pending events and their due times) and the same model but
for those three values; `GetTotalEnergyConsumption`, `GetMaximumTimeInState` and
`DoGetCurrentA` return the same value on both.  Two models constructed from attributes that
differ only in these three values are related in this way. -/
theorem unused_currents (a b c : ℚ) (w : World) :
    (∀ ops : List Op, runOps ops (setUnused a b c w) =
      (runOps ops w).map (setUnused a b c)) ∧
    (∀ s : Script, s.run (setUnused a b c w) = (s.run w).map (setUnused a b c)) ∧
    (∀ (refresh : Script) (st : State), ChangeState refresh.run st (setUnused a b c w) =
      (ChangeState refresh.run st w).map (setUnused a b c)) ∧
    (∀ refresh : Script, GetTotalEnergyConsumption refresh.run (setUnused a b c w) =
      (GetTotalEnergyConsumption refresh.run w).map (fun r => (r.1, setUnused a b c r.2))) ∧
    (∀ st : State, GetMaximumTimeInState st (setUnused a b c w).model =
      GetMaximumTimeInState st w.model) ∧
    DoGetCurrentA (setUnused a b c w).model = DoGetCurrentA w.model ∧
    (∀ x : World, (setUnused a b c x).sim = x.sim ∧
      (setUnused a b c x).model.m_currentState = x.model.m_currentState ∧
      (setUnused a b c x).model.m_totalEnergyConsumption = x.model.m_totalEnergyConsumption ∧
      (setUnused a b c x).model.m_lastUpdateTime = x.model.m_lastUpdateTime ∧
      (setUnused a b c x).model.m_txCurrentA = x.model.m_txCurrentA) ∧
    (∀ at1 : Attributes, World.initial { at1 with
        CcaBusyCurrentA := a, SwitchingCurrentA := b, SleepCurrentA := c } =
      setUnused a b c (World.initial at1)) := by
  refine ⟨fun ops => runOps_setUnused a b c ops w, fun s => script_run_setUnused a b c s w,
    fun refresh st => ChangeState_setUnused a b c (script_run_setUnused a b c refresh) st w,
    fun refresh =>
      GetTotalEnergyConsumption_setUnused a b c (script_run_setUnused a b c refresh) w,
    fun st => GetMaximumTimeInState_setUnused a b c st w, ?_,
    fun x => ⟨rfl, rfl, rfl, rfl, rfl⟩, fun at1 => rfl⟩
  unfold DoGetCurrentA
  exact GetStateA_setUnused a b c w.model.m_currentState w

/-! ### A transmission and the return to `IDLE`, with calls made during the refresh -/

/-- A request for a state other than `OFF` does not switch the model off, when the refresh
of the source does not. -/
theorem ChangeState_keepsOn {U : World → Except Failure World} {s : State} {w w1 : World}
    (hs : s ≠ State.OFF)
    (hU : ∀ a b, U a = Except.ok b → a.model.m_currentState ≠ State.OFF →
      b.model.m_currentState ≠ State.OFF)
    (h : ChangeState U s w = Except.ok w1) (hon : w.model.m_currentState ≠ State.OFF) :
    w1.model.m_currentState ≠ State.OFF := by
  rcases ChangeState_elim h with ⟨-, hoff, -⟩ | ⟨-, w2, w3, w4, h2, h3, h4, rfl⟩
  · exact absurd hoff hs
  · have h3on : w3.model.m_currentState ≠ State.OFF := by
      rw [state_account h3, state_timer h2]
      exact hon
    have h4on := hU _ _ h4 h3on
    show (ChangeState_commit s w4).model.m_currentState ≠ State.OFF
    unfold ChangeState_commit
    split
    · exact hs
    · exact h4on

theorem Notify_keepsOn {U : World → Except Failure World} {n : Notification} {w w1 : World}
    (hn : n ≠ Notification.Off)
    (hU : ∀ a b, U a = Except.ok b → a.model.m_currentState ≠ State.OFF →
      b.model.m_currentState ≠ State.OFF)
    (h : Notify U n w = Except.ok w1) (hon : w.model.m_currentState ≠ State.OFF) :
    w1.model.m_currentState ≠ State.OFF := by
  cases n with
  | RxStart duration =>
    simp only [Notify, NotifyRxStart] at h
    split at h
    · simp at h
    · cases hc : ChangeState U State.RX w with
      | error e => simp [hc] at h
      | ok w2 =>
        simp only [hc, Except.ok.injEq] at h
        rw [← h]
        show w2.model.m_currentState ≠ State.OFF
        exact ChangeState_keepsOn (by decide) hU hc hon
  | RxEndOk =>
    simp only [Notify, NotifyRxEndOk] at h
    split at h
    · simp at h
    · exact ChangeState_keepsOn (by decide) hU h hon
  | RxEndError =>
    simp only [Notify, NotifyRxEndError] at h
    split at h
    · simp at h
    · exact ChangeState_keepsOn (by decide) hU h hon
  | TxStart duration txPowerDbm =>
    simp only [Notify, NotifyTxStart] at h
    split at h
    · simp at h
    · split at h
      · simp at h
      · cases hc : ChangeState U State.TX (SetTxCurrentFromModel txPowerDbm w) with
        | error e => simp [hc] at h
        | ok w2 =>
          simp only [hc, Except.ok.injEq] at h
          rw [← h]
          show w2.model.m_currentState ≠ State.OFF
          exact ChangeState_keepsOn (by decide) hU hc (by rw [state_setTx]; exact hon)
  | MaybeCcaBusyStart duration =>
    simp only [Notify, NotifyMaybeCcaBusyStart] at h
    split at h
    · simp at h
    · simp only [Except.ok.injEq] at h
      rw [← h]
      exact hon
  | SwitchingStart duration =>
    simp only [Notify, NotifySwitchingStart] at h
    split at h
    · simp at h
    · simp only [Except.ok.injEq] at h
      rw [← h]
      exact hon
  | Sleep =>
    simp only [Notify, NotifySleep] at h
    split at h
    · simp at h
    · simp only [Except.ok.injEq] at h
      rw [← h]
      exact hon
  | Wakeup =>
    simp only [Notify, NotifyWakeup] at h
    split at h
    · simp at h
    · exact ChangeState_keepsOn (by decide) hU h hon
  | Off => exact absurd rfl hn
  | On =>
    simp only [Notify, NotifyOn] at h
    split at h
    · simp at h
    · exact ChangeState_keepsOn (by decide) hU h hon

/-- A script without any request for `OFF` does not switch the model off. -/
theorem script_run_neverOff :
    ∀ (s : Script) (w w1 : World), s.neverOff = true → s.run w = Except.ok w1 →
      w.model.m_currentState ≠ State.OFF → w1.model.m_currentState ≠ State.OFF := by
  intro s
  induction s with
  | done =>
    intro w w1 _ h hon
    simp only [Script.run, Except.ok.injEq] at h
    rw [← h]
    exact hon
  | readings source rest ih =>
    intro w w1 hs h hon
    simp only [Script.run] at h
    exact ih _ _ hs h (by rw [state_setReadings]; exact hon)
  | ChangeState newState inner rest ihInner ihRest =>
    intro w w1 hs h hon
    simp only [Script.run] at h
    simp only [Script.neverOff, Bool.and_eq_true, decide_eq_true_eq] at hs
    obtain ⟨⟨hne, hi⟩, hr⟩ := hs
    cases hc : ChangeState inner.run newState w with
    | error e => simp [hc] at h
    | ok w2 =>
      simp only [hc] at h
      exact ihRest _ _ hr h (ChangeState_keepsOn hne (fun a b hab => ihInner a b hi hab) hc hon)
  | HandleEnergyChanged rest ih =>
    intro w w1 hs h hon
    simp only [Script.run] at h
    have hs : rest.neverOff = true := hs
    cases hc : HandleEnergyChanged w with
    | error e => simp [hc] at h
    | ok w2 =>
      simp only [hc] at h
      refine ih _ _ hs h ?_
      unfold HandleEnergyChanged at hc
      simp only [ne_eq, hon, not_false_eq_true, if_true] at hc
      cases hd : GetMaximumTimeInState w.model.m_currentState w.model with
      | error e => simp [hd] at hc
      | ok d =>
        simp only [hd, Except.ok.injEq] at hc
        rw [← hc]
        exact hon
  | HandleEnergyDepletion callback rest ihCallback ihRest =>
    intro w w1 hs h hon
    simp only [Script.run] at h
    simp only [Script.neverOff, Bool.and_eq_true] at hs
    cases hc : HandleEnergyDepletion callback.run w with
    | error e => simp [hc] at h
    | ok w2 =>
      simp only [hc] at h
      refine ihRest _ _ hs.2 h ?_
      unfold HandleEnergyDepletion at hc
      split at hc
      · exact ihCallback _ _ hs.1 hc hon
      · simp only [Except.ok.injEq] at hc
        rw [← hc]
        exact hon
  | HandleEnergyRecharged callback rest ihCallback ihRest =>
    intro w w1 hs h hon
    simp only [Script.run] at h
    simp only [Script.neverOff, Bool.and_eq_true] at hs
    cases hc : HandleEnergyRecharged callback.run w with
    | error e => simp [hc] at h
    | ok w2 =>
      simp only [hc] at h
      refine ihRest _ _ hs.2 h ?_
      unfold HandleEnergyRecharged at hc
      split at hc
      · exact ihCallback _ _ hs.1 hc hon
      · simp only [Except.ok.injEq] at hc
        rw [← hc]
        exact hon
  | SetTxCurrentFromModel txPowerDbm rest ih =>
    intro w w1 hs h hon
    simp only [Script.run] at h
    exact ih _ _ hs h (by rw [state_setTx]; exact hon)
  | GetTotalEnergyConsumption inner rest ihInner ihRest =>
    intro w w1 hs h hon
    simp only [Script.run] at h
    simp only [Script.neverOff, Bool.and_eq_true] at hs
    cases hc : GetTotalEnergyConsumption inner.run w with
    | error e => simp [hc] at h
    | ok r =>
      simp only [hc] at h
      obtain ⟨source, current, w2, -, -, -, hu, hr⟩ := GetTotalEnergyConsumption_elim hc
      refine ihRest _ _ hs.2 h ?_
      rw [hr]
      exact ihInner _ _ hs.1 hu hon
  | Notify n inner rest ihInner ihRest =>
    intro w w1 hs h hon
    simp only [Script.run] at h
    simp only [Script.neverOff, Bool.and_eq_true, decide_eq_true_eq] at hs
    obtain ⟨⟨hne, hi⟩, hr⟩ := hs
    cases hc : Notify inner.run n w with
    | error e => simp [hc] at h
    | ok w2 =>
      simp only [hc] at h
      exact ihRest _ _ hr h (Notify_keepsOn hne (fun a b hab => ihInner a b hi hab) hc hon)

/-- A top-level `ChangeState` for a state other than `OFF`, made while the model is not
`OFF`, whose refresh of the source makes no request for `OFF`: the requested state is
stored, the interval since the time stamp is charged once at the current of the state held
on entry, and the counter is 0 again. -/
theorem ChangeState_top_neverOff {refresh : Script} {s : State} {w w1 : World}
    (hdepth : w.model.m_nPendingChangeState = 0) (hno : refresh.neverOff = true)
    (hs : s ≠ State.OFF) (hon : w.model.m_currentState ≠ State.OFF)
    (h : ChangeState refresh.run s w = Except.ok w1) :
    ∃ source current, w.model.m_source = some source ∧
      GetStateA w.model.m_currentState w.model = Except.ok current ∧
      w1.model.m_currentState = s ∧
      w1.model.m_totalEnergyConsumption = w.model.m_totalEnergyConsumption +
        (w.sim.now - w.model.m_lastUpdateTime) * current * source.supplyVoltage ∧
      w1.model.m_lastUpdateTime = w.sim.now ∧
      w1.model.m_nPendingChangeState = 0 ∧
      w1.model.m_source.isSome = true := by
  have hfull : ¬ ((w.model.m_nPendingChangeState + 1) % 256 > 1 ∧ s = State.OFF) := by
    rintro ⟨-, hoff⟩
    exact hs hoff
  obtain ⟨source, current, hsrc, hcur, -, htot, hlast⟩ := ChangeState_script_full hfull h
  have hcnt : w1.model.m_nPendingChangeState = 0 := by
    rw [pending_kept.changeState _ _ _ _ (kept_script pending_kept refresh) h (by omega), hdepth]
  refine ⟨source, current, hsrc, hcur, ?_, htot, hlast, hcnt, ?_⟩
  · rcases ChangeState_elim h with ⟨-, hoff, -⟩ | ⟨-, w2, w3, w4, h2, h3, h4, rfl⟩
    · exact absurd hoff hs
    · have h3on : w3.model.m_currentState ≠ State.OFF := by
        rw [state_account h3, state_timer h2]
        exact hon
      have h4on := script_run_neverOff refresh _ _ hno h4 h3on
      have e3 : w3.model.m_nPendingChangeState = 1 := by
        rw [pending_account h3, pending_timer h2, pending_incPending, hdepth]
      have e4 : w4.model.m_nPendingChangeState = 1 := by
        rw [kept_script pending_kept refresh _ _ h4 (by omega), e3]
      show (ChangeState_commit s w4).model.m_currentState = s
      unfold ChangeState_commit
      simp [e4, h4on, SetBleRadioState]
  · rw [(frame_ChangeState (fun a b hab => Script.run_frame hab) h).attached, hsrc]
    rfl

/-- C26 (tx transaction), amended.  Take a model in `IDLE` with no call of `ChangeState`
in progress and well-formed timers, and refreshes of the source in which nothing asks for
`OFF` (no `ChangeState (OFF)` and no notification `Off`, neither in a callback nor in a
nested refresh); they may make any other call.  A `NotifyTxStart (d, p)` at time `t = now` that
returns leaves the state `TX` and one revert-to-idle event pending, the one named by
`m_switchToIdleEvent`, due at `t + d`; when that event fires next and its handler returns,
the clock is `t + d`, the state is `IDLE` again, and the stored total is the stored total
just after the `NotifyTxStart` plus `d` times the tx current times the supply voltage of
the source. -/
theorem tx_transaction (r1 r2 : Script) (d p : ℚ) (w wa : World)
    (hstate : w.model.m_currentState = State.IDLE)
    (hdepth : w.model.m_nPendingChangeState = 0) (hinv : TimerInv w)
    (h1 : r1.neverOff = true) (h2 : r2.neverOff = true)
    (ha : NotifyTxStart r1.run d p w = Except.ok wa) :
    wa.model.m_currentState = State.TX ∧
      ∃ uid source, wa.model.m_listener.m_switchToIdleEvent = some uid ∧
        pendingSwitchToIdle wa =
          [({ uid := uid, ts := w.sim.now + d, kind := EventKind.SwitchToIdle } : Event)] ∧
        wa.model.m_source = some source ∧
        ∀ wb, fire r2 uid wa = Except.ok wb →
          wb.sim.now = w.sim.now + d ∧ wb.model.m_currentState = State.IDLE ∧
          wb.model.m_totalEnergyConsumption = wa.model.m_totalEnergyConsumption +
            d * wa.model.m_txCurrentA * source.supplyVoltage := by
  obtain ⟨w2, hcs, rfl, -, hinva, -, -, -, hpa, -, hflag⟩ := NotifyTxStart_pending ha hinv
  have hst0 : (SetTxCurrentFromModel p w).model.m_currentState = State.IDLE := by
    rw [state_setTx]
    exact hstate
  have hd0 : (SetTxCurrentFromModel p w).model.m_nPendingChangeState = 0 := by
    unfold SetTxCurrentFromModel
    cases w.model.m_txCurrentModel <;> exact hdepth
  have hn0 : (SetTxCurrentFromModel p w).sim.now = w.sim.now := now_kept.setTx p w
  obtain ⟨source0, current0, -, -, hst2, -, hlast2, hcnt2, hsome2⟩ :=
    ChangeState_top_neverOff hd0 h1 (by decide) (by rw [hst0]; decide) hcs
  rw [hn0] at hlast2
  have hTX : w2.model.m_currentState = State.TX := hst2
  obtain ⟨source, hsource⟩ := Option.isSome_iff_exists.mp hsome2
  have hid : (rescheduleSwitchToIdle d w2).model.m_listener.m_switchToIdleEvent =
      some w2.sim.m_uid := by
    simp only [rescheduleSwitchToIdle, Simulator.Schedule, cancel_uid]
  refine ⟨hTX, w2.sim.m_uid, source, hid, hpa, hsource, ?_⟩
  intro wb hfire
  have hmem : (Event.mk w2.sim.m_uid (w.sim.now + d) EventKind.SwitchToIdle) ∈
      (rescheduleSwitchToIdle d w2).sim.m_events := by
    have : (Event.mk w2.sim.m_uid (w.sim.now + d) EventKind.SwitchToIdle) ∈
        pendingSwitchToIdle (rescheduleSwitchToIdle d w2) := by
      rw [hpa]
      exact List.mem_singleton_self _
    exact (mem_pendingSwitchToIdle.mp this).1
  have hf := fire_idle r2 (Event.mk w2.sim.m_uid (w.sim.now + d) EventKind.SwitchToIdle)
    (rescheduleSwitchToIdle d w2) hinva.nodup hmem rfl hflag
  have hf2 : fire r2 w2.sim.m_uid (rescheduleSwitchToIdle d w2) = _ := hf
  rw [hf2] at hfire
  have key : ∀ wf : World, ChangeState r2.run State.IDLE wf = Except.ok wb →
      wf.model = (rescheduleSwitchToIdle d w2).model → wf.sim.now = w.sim.now + d →
      wb.sim.now = w.sim.now + d ∧ wb.model.m_currentState = State.IDLE ∧
        wb.model.m_totalEnergyConsumption = w2.model.m_totalEnergyConsumption +
          d * w2.model.m_txCurrentA * source.supplyVoltage := by
    intro wf hfire hmodel hnowf
    have hcntf : wf.model.m_nPendingChangeState = 0 := by rw [hmodel]; exact hcnt2
    have honf : wf.model.m_currentState ≠ State.OFF := by
      rw [hmodel]
      show w2.model.m_currentState ≠ State.OFF
      rw [hTX]
      decide
    obtain ⟨source1, current1, hsrc1, hcur1, hst1, htot1, -, -, -⟩ :=
      ChangeState_top_neverOff hcntf h2 (by decide) honf hfire
    rw [hmodel] at hsrc1 hcur1 htot1
    have hsrc2 : w2.model.m_source = some source1 := hsrc1
    have htot2 : wb.model.m_totalEnergyConsumption = w2.model.m_totalEnergyConsumption +
        (wf.sim.now - w2.model.m_lastUpdateTime) * current1 * source1.supplyVoltage := htot1
    have hs : source1 = source := by
      rw [hsource] at hsrc2
      exact (Option.some.inj hsrc2).symm
    have hc : current1 = w2.model.m_txCurrentA := by
      have e1 : GetStateA w2.model.m_currentState (rescheduleSwitchToIdle d w2).model =
          Except.ok current1 := hcur1
      rw [hTX] at e1
      exact (Except.ok.inj e1).symm
    refine ⟨(now_ChangeState hfire).trans hnowf, hst1, ?_⟩
    rw [htot2, hs, hc, hnowf, hlast2]
    ring
  exact key _ hfire rfl rfl

/-- On `exampleWorld` (IDLE, now 10 s, tx current 0.015 A, 3 V), with a refresh of the
source that calls `HandleEnergyChanged`, reads the total and has its depletion callback ask
for `RX`: `NotifyTxStart (2 s)` returns in state `TX`, and the firing of its revert-to-idle
event returns at 12 s in state `IDLE` with `2 * 0.015 * 3` J more on the stored total. -/
theorem tx_transaction_witness :
    ∃ wa wb uid, NotifyTxStart busyScript.run 2 0 exampleWorld = Except.ok wa ∧
      wa.model.m_currentState = State.TX ∧
      fire busyScript uid wa = Except.ok wb ∧ wb.sim.now = 12 ∧
      wb.model.m_currentState = State.IDLE ∧
      wb.model.m_totalEnergyConsumption =
        wa.model.m_totalEnergyConsumption + 2 * (15 / 1000) * 3 := by
  have hex : ∃ wa, NotifyTxStart busyScript.run 2 0 exampleWorld = Except.ok wa ∧
      wa.model.m_txCurrentA = 15 / 1000 ∧ wa.model.m_source = some exampleSource ∧
      wa.model.m_listener.m_switchToIdleEvent = some 3 ∧
      ∃ wb, fire busyScript 3 wa = Except.ok wb := by
    repeat (first
      | simp [NotifyTxStart, SetTxCurrentFromModel, ChangeState, Script.run, exampleWorld,
          exampleSource, incPending, decPending, ChangeState_timer, ChangeState_account,
          ChangeState_accounted, ChangeState_commit, GetMaximumTimeInState, GetStateA,
          rescheduleSwitchToOff, rescheduleSwitchToIdle, SetBleRadioState, fire,
          SwitchToIdle, BleRadioEnergyModel.BleRadioEnergyModel, Attributes.default,
          Simulator.Cancel, Simulator.Schedule, busyScript, HandleEnergyChanged,
          HandleEnergyDepletion, GetTotalEnergyConsumption]
      | norm_num)
  obtain ⟨wa, ha, htx, hsrc, hid1, wb, hb⟩ := hex
  obtain ⟨hTX, uid, source, hid, -, hsource, hall⟩ :=
    tx_transaction busyScript busyScript 2 0 exampleWorld wa rfl rfl timerInv_exampleWorld
      rfl rfl ha
  have hs : source = exampleSource := by
    rw [hsrc] at hsource
    exact (Option.some.inj hsource).symm
  have huid : uid = 3 := by
    rw [hid1] at hid
    exact (Option.some.inj hid).symm
  subst huid
  obtain ⟨hnow, hst, htot⟩ := hall wb hb
  refine ⟨wa, wb, 3, ha, hTX, hb, ?_, hst, ?_⟩
  · rw [hnow]
    norm_num [exampleWorld]
  · rw [htot, htx, hs]
    rfl

/-- The claim as first stated fails for a refresh of the source whose depletion callback
calls `ChangeState (OFF)`: on `exampleWorld` (IDLE, no call pending, now 10 s)
`NotifyTxStart (2 s)` returns with the state `OFF`, not `TX`, and the firing of the
revert-to-idle event at 12 s leaves the state `OFF` and adds nothing to the stored total.
It fails as well for a `NotifyTxStart` made while a call of `ChangeState` is in progress
(the counter of pending calls is 1, as after `m_nPendingChangeState++` in the outer call),
even with a refresh that calls nothing back: the nested call does not store `TX` and the
state is still `IDLE` when it returns. -/
theorem tx_transaction_counterexample :
    exampleWorld.model.m_currentState = State.IDLE ∧
      exampleWorld.model.m_nPendingChangeState = 0 ∧
      (∃ wa wb, NotifyTxStart depletionScript.run 2 0 exampleWorld = Except.ok wa ∧
        wa.model.m_currentState = State.OFF ∧
        pendingSwitchToIdle wa =
          [({ uid := 1, ts := 12, kind := EventKind.SwitchToIdle } : Event)] ∧
        fire Script.done 1 wa = Except.ok wb ∧ wb.sim.now = 12 ∧
        wb.model.m_currentState = State.OFF ∧
        wb.model.m_totalEnergyConsumption = wa.model.m_totalEnergyConsumption) ∧
      (incPending exampleWorld).model.m_currentState = State.IDLE ∧
      (incPending exampleWorld).model.m_nPendingChangeState = 1 ∧
      ∃ wa, NotifyTxStart Script.done.run 2 0 (incPending exampleWorld) = Except.ok wa ∧
        wa.model.m_currentState = State.IDLE := by
  refine ⟨rfl, rfl, ?_, rfl, rfl, ?_⟩ <;>
  repeat (first
    | simp [NotifyTxStart, SetTxCurrentFromModel, ChangeState, Script.run, exampleWorld,
        exampleSource, incPending, decPending, ChangeState_timer, ChangeState_account,
        ChangeState_accounted, ChangeState_commit, GetMaximumTimeInState, GetStateA,
        rescheduleSwitchToOff, rescheduleSwitchToIdle, SetBleRadioState, fire,
        SwitchToIdle, BleRadioEnergyModel.BleRadioEnergyModel, Attributes.default,
        Simulator.Cancel, Simulator.Schedule, depletionScript, HandleEnergyDepletion,
        pendingSwitchToIdle]
    | norm_num)

/-! ### Rounding to the nearest `double` -/

theorem roundTiesEven_mono {x y : ℚ} (h : x ≤ y) : roundTiesEven x ≤ roundTiesEven y := by
  have hf : ⌊x⌋ ≤ ⌊y⌋ := Int.floor_mono h
  unfold roundTiesEven
  rcases hf.lt_or_eq with hlt | heq
  · split_ifs <;> omega
  · have hc : (⌊x⌋ : ℚ) = ⌊y⌋ := by rw [heq]
    split_ifs <;> first | omega | (exfalso; linarith)

theorem roundTiesEven_intCast (n : ℤ) : roundTiesEven (n : ℚ) = n := by
  unfold roundTiesEven
  simp

theorem roundTiesEven_of_abs_lt {x : ℚ} {m : ℤ} (h : |x - m| < 1 / 2) : roundTiesEven x = m := by
  rw [abs_lt] at h
  have h0 := Int.floor_le x
  have h1 := Int.lt_floor_add_one x
  have hm : ⌊x⌋ = m ∨ ⌊x⌋ = m - 1 := by
    have a1 : m - 1 ≤ ⌊x⌋ := by
      rw [Int.le_floor]
      push_cast
      linarith
    have a2 : ⌊x⌋ < m + 1 := by
      rw [Int.floor_lt]
      push_cast
      linarith
    omega
  unfold roundTiesEven
  rcases hm with hm | hm
  · have hc : (⌊x⌋ : ℚ) = m := by rw [hm]
    split_ifs <;> first | omega | (exfalso; linarith)
  · have hc : (⌊x⌋ : ℚ) = m - 1 := by rw [hm]; push_cast; ring
    split_ifs <;> first | omega | (exfalso; linarith)

theorem roundTiesEven_tie {x : ℚ} {f : ℤ} (h : x = f + 1 / 2) :
    roundTiesEven x = if f % 2 = 0 then f else f + 1 := by
  have hfl : ⌊x⌋ = f := by
    rw [Int.floor_eq_iff]
    constructor <;> linarith
  unfold roundTiesEven
  rw [hfl, h]
  norm_num

theorem abs_roundTiesEven_sub_le (x : ℚ) : |(roundTiesEven x : ℚ) - x| ≤ 1 / 2 := by
  have h0 := Int.floor_le x
  have h1 := Int.lt_floor_add_one x
  unfold roundTiesEven
  rw [abs_le]
  split_ifs <;> push_cast <;> constructor <;> linarith

theorem roundTiesEven_neg (x : ℚ) : roundTiesEven (-x) = -roundTiesEven x := by
  by_cases hlt : |x - (roundTiesEven x : ℚ)| < 1 / 2
  · apply roundTiesEven_of_abs_lt
    rw [show -x - ((-roundTiesEven x : ℤ) : ℚ) = -(x - roundTiesEven x) by push_cast; ring, abs_neg]
    exact hlt
  · -- a tie: `x` is half-way between two integers
    have hle := abs_roundTiesEven_sub_le x
    rw [abs_sub_comm] at hle
    have heq : |x - (roundTiesEven x : ℚ)| = 1 / 2 := le_antisymm hle (not_lt.mp hlt)
    have h0 := Int.floor_le x
    have h1 := Int.lt_floor_add_one x
    have htie : x = ⌊x⌋ + 1 / 2 := by
      unfold roundTiesEven at heq
      split_ifs at heq with c1 c2 c3
      · rw [abs_of_nonneg (by linarith)] at heq
        linarith
      · push_cast at heq
        rw [abs_of_nonpos (by linarith)] at heq
        linarith
      · linarith
      · linarith
    have htie2 : -x = ((-⌊x⌋ - 1 : ℤ) : ℚ) + 1 / 2 := by
      push_cast
      linarith
    rw [roundTiesEven_tie htie2, roundTiesEven_tie htie]
    split_ifs <;> omega

theorem ulpExponent_neg (q : ℚ) : Double.ulpExponent (-q) = Double.ulpExponent q := by
  unfold Double.ulpExponent
  rw [abs_neg]

theorem nearest_neg (q : ℚ) : Double.nearest (-q) = -Double.nearest q := by
  unfold Double.nearest
  rw [ulpExponent_neg, neg_div, roundTiesEven_neg]
  push_cast
  ring

theorem nearest_zero : Double.nearest 0 = 0 := by
  unfold Double.nearest
  rw [zero_div, show (0 : ℚ) = ((0 : ℤ) : ℚ) by norm_num, roundTiesEven_intCast]
  norm_num

theorem nearest_nonneg {q : ℚ} (h : 0 ≤ q) : 0 ≤ Double.nearest q := by
  unfold Double.nearest
  apply mul_nonneg _ (by positivity)
  have h0 : ((0 : ℤ) : ℚ) ≤ q / 2 ^ Double.ulpExponent q := by
    push_cast
    positivity
  have := roundTiesEven_mono h0
  rw [roundTiesEven_intCast] at this
  exact_mod_cast this

/-- The binary exponent of a positive number that lies in a known binade. -/
theorem log_two_eq {q : ℚ} {e : ℤ} (hlo : 2 ^ e ≤ q) (hhi : q < 2 ^ (e + 1)) :
    Int.log 2 q = e := by
  have hq : 0 < q := lt_of_lt_of_le (by positivity) hlo
  have h1 : e ≤ Int.log 2 q := by
    rw [← Int.zpow_le_iff_le_log (by norm_num) hq]
    exact_mod_cast hlo
  have h2 : Int.log 2 q < e + 1 := by
    rw [← Int.lt_zpow_iff_log_lt (by norm_num) hq]
    exact_mod_cast hhi
  omega

/-- Evaluation of `Double.nearest` at a positive number of the normal range, from its
binade and the rounded significand. -/
theorem nearest_eq_of {q : ℚ} {e m : ℤ} (hlo : 2 ^ e ≤ q) (hhi : q < 2 ^ (e + 1))
    (he : -1022 ≤ e) (hm : roundTiesEven (q / 2 ^ (e - 52)) = m) :
    Double.nearest q = m * 2 ^ (e - 52) := by
  have hq : 0 < q := lt_of_lt_of_le (by positivity) hlo
  unfold Double.nearest Double.ulpExponent
  rw [abs_of_pos hq, log_two_eq hlo hhi, max_eq_left he, hm]

theorem log_two_bounds {q : ℚ} (hq : 0 < q) :
    (2 : ℚ) ^ Int.log 2 q ≤ q ∧ q < (2 : ℚ) ^ (Int.log 2 q + 1) := by
  have h1 := Int.zpow_log_le_self (b := 2) (by norm_num) hq
  have h2 := Int.lt_zpow_succ_log_self (b := 2) (by norm_num) q
  exact ⟨by exact_mod_cast h1, by exact_mod_cast h2⟩

theorem nearest_mono_pos {a b : ℚ} (ha : 0 < a) (h : a ≤ b) :
    Double.nearest a ≤ Double.nearest b := by
  have hb : 0 < b := lt_of_lt_of_le ha h
  have hL : Int.log 2 a ≤ Int.log 2 b := Int.log_mono_right ha h
  obtain ⟨ha1, ha2⟩ := log_two_bounds ha
  obtain ⟨hb1, -⟩ := log_two_bounds hb
  unfold Double.nearest Double.ulpExponent
  rw [abs_of_pos ha, abs_of_pos hb]
  obtain ⟨ea, hea⟩ : ∃ ea : ℤ, ea = max (Int.log 2 a) (-1022) := ⟨_, rfl⟩
  obtain ⟨eb, heb⟩ : ∃ eb : ℤ, eb = max (Int.log 2 b) (-1022) := ⟨_, rfl⟩
  rw [← hea, ← heb]
  have hab : ea ≤ eb := by
    rw [hea, heb]
    exact max_le_max hL (le_refl _)
  have hua : (0 : ℚ) < 2 ^ (ea - 52) := by positivity
  have hub : (0 : ℚ) < 2 ^ (eb - 52) := by positivity
  rcases hab.lt_or_eq with hlt | heq
  · have hLa : Int.log 2 a ≤ ea := by rw [hea]; exact le_max_left _ _
    have hLb : eb = Int.log 2 b := by
      rcases max_cases (Int.log 2 b) (-1022) with ⟨h1, -⟩ | ⟨h1, -⟩
      · rw [heb, h1]
      · have : (-1022 : ℤ) ≤ ea := by rw [hea]; exact le_max_right _ _
        rw [heb, h1] at hlt
        omega
    -- the rounded `a` is at most `2 ^ (ea + 1)`
    have s1 : ((roundTiesEven (a / 2 ^ (ea - 52)) : ℤ) : ℚ) * 2 ^ (ea - 52) ≤ 2 ^ (ea + 1) := by
      have hle : a / 2 ^ (ea - 52) ≤ (((2 : ℤ) ^ 53 : ℤ) : ℚ) := by
        rw [show (((2 : ℤ) ^ 53 : ℤ) : ℚ) = (2 : ℚ) ^ 53 by norm_num, div_le_iff₀ hua]
        have e1 : (2 : ℚ) ^ 53 * 2 ^ (ea - 52) = 2 ^ (ea + 1) := by
          rw [← zpow_natCast, ← zpow_add₀ (by norm_num : (2 : ℚ) ≠ 0)]
          congr 1
          push_cast
          ring
        rw [e1]
        have e2 : (2 : ℚ) ^ (Int.log 2 a + 1) ≤ 2 ^ (ea + 1) :=
          zpow_le_zpow_right₀ (by norm_num) (by omega)
        linarith
      have hr := roundTiesEven_mono hle
      rw [roundTiesEven_intCast] at hr
      have hr2 : ((roundTiesEven (a / 2 ^ (ea - 52)) : ℤ) : ℚ) ≤ 2 ^ 53 := by exact_mod_cast hr
      have e1 : (2 : ℚ) ^ 53 * 2 ^ (ea - 52) = 2 ^ (ea + 1) := by
        rw [← zpow_natCast, ← zpow_add₀ (by norm_num : (2 : ℚ) ≠ 0)]
        congr 1
        push_cast
        ring
      calc ((roundTiesEven (a / 2 ^ (ea - 52)) : ℤ) : ℚ) * 2 ^ (ea - 52)
          ≤ 2 ^ 53 * 2 ^ (ea - 52) := mul_le_mul_of_nonneg_right hr2 hua.le
        _ = 2 ^ (ea + 1) := e1
    -- the rounded `b` is at least `2 ^ eb`
    have s2 : (2 : ℚ) ^ eb ≤ ((roundTiesEven (b / 2 ^ (eb - 52)) : ℤ) : ℚ) * 2 ^ (eb - 52) := by
      have e1 : (2 : ℚ) ^ 52 * 2 ^ (eb - 52) = 2 ^ eb := by
        rw [← zpow_natCast, ← zpow_add₀ (by norm_num : (2 : ℚ) ≠ 0)]
        congr 1
        push_cast
        ring
      have hle : (((2 : ℤ) ^ 52 : ℤ) : ℚ) ≤ b / 2 ^ (eb - 52) := by
        rw [show (((2 : ℤ) ^ 52 : ℤ) : ℚ) = (2 : ℚ) ^ 52 by norm_num, le_div_iff₀ hub]
        rw [e1, hLb]
        exact hb1
      have hr := roundTiesEven_mono hle
      rw [roundTiesEven_intCast] at hr
      have hr2 : (2 : ℚ) ^ 52 ≤ ((roundTiesEven (b / 2 ^ (eb - 52)) : ℤ) : ℚ) := by
        exact_mod_cast hr
      calc (2 : ℚ) ^ eb = 2 ^ 52 * 2 ^ (eb - 52) := e1.symm
        _ ≤ _ := mul_le_mul_of_nonneg_right hr2 hub.le
    have s3 : (2 : ℚ) ^ (ea + 1) ≤ 2 ^ eb := zpow_le_zpow_right₀ (by norm_num) (by omega)
    linarith
  · rw [← heq]
    apply mul_le_mul_of_nonneg_right _ hua.le
    have := roundTiesEven_mono (div_le_div_of_nonneg_right h hua.le)
    exact_mod_cast this

/-- Rounding to the nearest `double` is monotone. -/
theorem nearest_mono {a b : ℚ} (h : a ≤ b) : Double.nearest a ≤ Double.nearest b := by
  rcases lt_trichotomy a 0 with ha | ha | ha
  · rcases lt_or_le b 0 with hb | hb
    · have := nearest_mono_pos (neg_pos.mpr hb) (neg_le_neg h)
      rw [nearest_neg, nearest_neg] at this
      linarith
    · have h1 := nearest_nonneg (le_of_lt (neg_pos.mpr ha))
      rw [nearest_neg] at h1
      have h2 := nearest_nonneg hb
      linarith
  · rw [ha, nearest_zero]
    exact nearest_nonneg (ha ▸ h)
  · exact nearest_mono_pos ha h

/-- In the normal range the relative error of the rounding is at most `2 ^ (-53)`. -/
theorem abs_nearest_sub_le {q : ℚ} (hq : 2 ^ (-1022 : ℤ) ≤ |q|) :
    |Double.nearest q - q| ≤ 2 ^ (-53 : ℤ) * |q| := by
  have hpos : 0 < |q| := lt_of_lt_of_le (by positivity) hq
  obtain ⟨h1, -⟩ := log_two_bounds hpos
  have hL : (-1022 : ℤ) ≤ Int.log 2 |q| := by
    rw [← Int.zpow_le_iff_le_log (by norm_num) hpos]
    exact_mod_cast hq
  unfold Double.nearest Double.ulpExponent
  rw [max_eq_left hL]
  obtain ⟨L, hLdef⟩ : ∃ L : ℤ, L = Int.log 2 |q| := ⟨_, rfl⟩
  rw [← hLdef] at h1 ⊢
  have hu : (0 : ℚ) < 2 ^ (L - 52) := by positivity
  have herr := abs_roundTiesEven_sub_le (q / 2 ^ (L - 52))
  have e0 : ((roundTiesEven (q / 2 ^ (L - 52)) : ℤ) : ℚ) * 2 ^ (L - 52) - q =
      (((roundTiesEven (q / 2 ^ (L - 52)) : ℤ) : ℚ) - q / 2 ^ (L - 52)) * 2 ^ (L - 52) := by
    field_simp
  rw [e0, abs_mul, abs_of_pos hu]
  have e1 : (2 : ℚ) ^ (-53 : ℤ) * 2 ^ L = 1 / 2 * 2 ^ (L - 52) := by
    rw [← zpow_add₀ (by norm_num : (2 : ℚ) ≠ 0), show (-53 : ℤ) + L = -1 + (L - 52) by ring,
      zpow_add₀ (by norm_num : (2 : ℚ) ≠ 0)]
    norm_num
  calc |((roundTiesEven (q / 2 ^ (L - 52)) : ℤ) : ℚ) - q / 2 ^ (L - 52)| * 2 ^ (L - 52)
      ≤ 1 / 2 * 2 ^ (L - 52) := mul_le_mul_of_nonneg_right herr hu.le
    _ = 2 ^ (-53 : ℤ) * 2 ^ L := e1.symm
    _ ≤ 2 ^ (-53 : ℤ) * |q| := mul_le_mul_of_nonneg_left h1 (by positivity)

theorem abs_nearest_lt {q : ℚ} {e : ℤ} (hlo : 2 ^ e ≤ q) (hhi : q < 2 ^ (e + 1))
    (he : -1022 ≤ e) (hE : e ≤ 1022) : |Double.nearest q| < 2 ^ 1024 := by
  have hq : 0 < q := lt_of_lt_of_le (by positivity) hlo
  rw [abs_of_nonneg (nearest_nonneg hq.le)]
  have hu : (0 : ℚ) < 2 ^ (e - 52) := by positivity
  have e1 : (2 : ℚ) ^ 53 * 2 ^ (e - 52) = 2 ^ (e + 1) := by
    rw [← zpow_natCast, ← zpow_add₀ (by norm_num : (2 : ℚ) ≠ 0)]
    congr 1
    push_cast
    ring
  have hle : q / 2 ^ (e - 52) ≤ (((2 : ℤ) ^ 53 : ℤ) : ℚ) := by
    rw [show (((2 : ℤ) ^ 53 : ℤ) : ℚ) = (2 : ℚ) ^ 53 by norm_num, div_le_iff₀ hu, e1]
    exact hhi.le
  have hr := roundTiesEven_mono hle
  rw [roundTiesEven_intCast] at hr
  have hr2 : ((roundTiesEven (q / 2 ^ (e - 52)) : ℤ) : ℚ) ≤ 2 ^ 53 := by exact_mod_cast hr
  rw [nearest_eq_of hlo hhi he rfl]
  have e2 : (2 : ℚ) ^ (e + 1) ≤ 2 ^ (1023 : ℤ) := zpow_le_zpow_right₀ (by norm_num) (by omega)
  calc ((roundTiesEven (q / 2 ^ (e - 52)) : ℤ) : ℚ) * 2 ^ (e - 52)
      ≤ 2 ^ 53 * 2 ^ (e - 52) := mul_le_mul_of_nonneg_right hr2 hu.le
    _ = 2 ^ (e + 1) := e1
    _ ≤ 2 ^ (1023 : ℤ) := e2
    _ < 2 ^ 1024 := by norm_num

/-- Evaluation of `Double.round` at a positive number of the normal range that is not
half-way between two doubles. -/
theorem double_round_eq_of {q : ℚ} {e m : ℤ} (hlo : 2 ^ e ≤ q) (hhi : q < 2 ^ (e + 1))
    (he : -1022 ≤ e) (hE : e ≤ 1022) (h1 : (m : ℚ) - 1 / 2 < q / 2 ^ (e - 52))
    (h2 : q / 2 ^ (e - 52) < m + 1 / 2) :
    Double.round q = some ((m : ℚ) * 2 ^ (e - 52)) := by
  have hm : roundTiesEven (q / 2 ^ (e - 52)) = m :=
    roundTiesEven_of_abs_lt (by rw [abs_lt]; constructor <;> linarith)
  unfold Double.round
  rw [if_pos (abs_nearest_lt hlo hhi he hE), nearest_eq_of hlo hhi he hm]

/-- Evaluation of `Double.round` at a positive number of the normal range that is
half-way between two doubles. -/
theorem double_round_eq_of_tie {q : ℚ} {e f : ℤ} (hlo : 2 ^ e ≤ q) (hhi : q < 2 ^ (e + 1))
    (he : -1022 ≤ e) (hE : e ≤ 1022) (h : q / 2 ^ (e - 52) = f + 1 / 2) :
    Double.round q = some (((if f % 2 = 0 then f else f + 1 : ℤ) : ℚ) * 2 ^ (e - 52)) := by
  unfold Double.round
  rw [if_pos (abs_nearest_lt hlo hhi he hE)]
  rw [nearest_eq_of hlo hhi he (roundTiesEven_tie h)]

theorem double_round_zero : Double.round 0 = some 0 := by
  unfold Double.round
  rw [nearest_zero]
  norm_num

theorem nearest_of_round {q r : ℚ} (h : Double.round q = some r) : Double.nearest q = r := by
  unfold Double.round at h
  split at h
  · exact Option.some.inj h
  · exact absurd h (by simp)

theorem nearest_c15 : Double.nearest (15 / 1000) = 1080863910568919 / 72057594037927936 := by
  apply nearest_of_round
  rw [double_round_eq_of (e := -7) (m := 8646911284551352) (by norm_num) (by norm_num) (by norm_num)
    (by norm_num) (by norm_num) (by norm_num)]
  norm_num

theorem nearest_c63 : Double.nearest (63 / 10) = 7093169413108531 / 1125899906842624 := by
  apply nearest_of_round
  rw [double_round_eq_of (e := 2) (m := 7093169413108531) (by norm_num) (by norm_num) (by norm_num)
    (by norm_num) (by norm_num) (by norm_num)]
  norm_num

/-! ### The forced-off event in double arithmetic -/

theorem nearest_idle :
    Double.nearest (1 / 1000000) = 4722366482869645 / 4722366482869645213696 := by
  apply nearest_of_round
  rw [double_round_eq_of (e := -20) (m := 4722366482869645) (by norm_num) (by norm_num) (by norm_num)
    (by norm_num) (by norm_num) (by norm_num)]
  norm_num

theorem double_mul_idle_3 : Double.mul (4722366482869645 / 4722366482869645213696) 3 =
    some (1770887431076117 / 590295810358705651712) := by
  unfold Double.mul
  rw [double_round_eq_of_tie (e := -19) (f := 7083549724304467) (by norm_num) (by norm_num)
    (by norm_num) (by norm_num) (by norm_num)]
  norm_num

theorem double_div_c63_idle : Double.div (7093169413108531 / 1125899906842624)
    (1770887431076117 / 590295810358705651712) = some 2100000 := by
  unfold Double.div
  rw [if_neg (by norm_num),
    double_round_eq_of (e := 21) (m := 4509715660800000) (by norm_num) (by norm_num)
    (by norm_num) (by norm_num) (by norm_num) (by norm_num)]
  norm_num

theorem double_mul_c15_3 : Double.mul (1080863910568919 / 72057594037927936) 3 =
    some (3242591731706757 / 72057594037927936) := by
  unfold Double.mul
  rw [double_round_eq_of (e := -5) (m := 6485183463413514) (by norm_num) (by norm_num)
    (by norm_num) (by norm_num) (by norm_num) (by norm_num)]
  norm_num

theorem double_div_c63_c15 : Double.div (7093169413108531 / 1125899906842624)
    (3242591731706757 / 72057594037927936) = some 140 := by
  unfold Double.div
  rw [if_neg (by norm_num),
    double_round_eq_of (e := 7) (m := 4925812092436480) (by norm_num) (by norm_num)
    (by norm_num) (by norm_num) (by norm_num) (by norm_num)]
  norm_num

theorem double_round_140 : Double.round 140 = some 140 := by
  rw [double_round_eq_of (e := 7) (m := 4925812092436480) (by norm_num) (by norm_num)
    (by norm_num) (by norm_num) (by norm_num) (by norm_num)]
  norm_num

theorem double_mul_140_c15 : Double.mul 140 (1080863910568919 / 72057594037927936) =
    some (4728779608739021 / 2251799813685248) := by
  unfold Double.mul
  rw [double_round_eq_of (e := 1) (m := 4728779608739021) (by norm_num) (by norm_num)
    (by norm_num) (by norm_num) (by norm_num) (by norm_num)]
  norm_num

/-- The product `2.1 * 3.0` lies half-way between two doubles and goes to the even one,
above 6.3. -/
theorem double_mul_21_3 : Double.mul (4728779608739021 / 2251799813685248) 3 =
    some (1773292353277133 / 281474976710656) := by
  unfold Double.mul
  rw [double_round_eq_of_tie (e := 2) (f := 7093169413108531) (by norm_num) (by norm_num)
    (by norm_num) (by norm_num) (by norm_num)]
  norm_num

theorem double_add_0_63 : Double.add 0 (1773292353277133 / 281474976710656) =
    some (1773292353277133 / 281474976710656) := by
  unfold Double.add
  rw [zero_add, double_round_eq_of (e := 2) (m := 7093169413108532) (by norm_num) (by norm_num)
    (by norm_num) (by norm_num) (by norm_num) (by norm_num)]
  norm_num

/-- The energy of 140 s at 0.015 A and 3.0 V, as the code computes it. -/
theorem double_energy_140 : Double.energyToDecrease 140 (1080863910568919 / 72057594037927936) 3 =
    some (1773292353277133 / 281474976710656) := by
  unfold Double.energyToDecrease Double.GetSeconds
  rw [double_round_140, Option.some_bind, double_mul_140_c15, Option.some_bind, double_mul_21_3]

theorem double_energy_0 (current supplyVoltage : ℚ) :
    Double.energyToDecrease 0 current supplyVoltage = some 0 := by
  unfold Double.energyToDecrease Double.GetSeconds Double.mul
  rw [double_round_zero, Option.some_bind, zero_mul, double_round_zero, Option.some_bind, zero_mul, double_round_zero]

theorem double_add_0_0 : Double.add 0 0 = some 0 := by
  unfold Double.add
  rw [add_zero, double_round_zero]

/-- The value of `Double.GetMaximumTimeInState` for a state other than `OFF`, from the two
rounded operations. -/
theorem double_maxTime_eq {s : State} {m : BleRadioEnergyModel} {S : EnergySource}
    {c v t : ℚ} (hs : s ≠ State.OFF) (hsrc : m.m_source = some S)
    (hcur : GetStateA s m = Except.ok c)
    (hmul : Double.mul c S.supplyVoltage = some v)
    (hdiv : Double.div S.remainingEnergy v = some t) :
    Double.GetMaximumTimeInState s m = Except.ok t := by
  unfold Double.GetMaximumTimeInState
  simp only [hs, if_false, hsrc, hcur, hmul, Option.some_bind, hdiv]

theorem double_timer_eq {s : State} {w : World} {d : ℚ} (hs : s ≠ State.OFF)
    (h : Double.GetMaximumTimeInState s w.model = Except.ok d) :
    Double.ChangeState_timer s w = Except.ok (rescheduleSwitchToOff d w) := by
  unfold Double.ChangeState_timer
  simp only [ne_eq, hs, not_false_eq_true, if_true, h]

theorem double_timer_off (w : World) : Double.ChangeState_timer State.OFF w = Except.ok w := by
  unfold Double.ChangeState_timer
  simp

/-- The accounting step when the new total is within the initial energy. -/
theorem double_account_ok {w : World} {S : EnergySource} {c e T : ℚ}
    (hd : w.model.m_lastUpdateTime ≤ w.sim.now) (hsrc : w.model.m_source = some S)
    (hcur : GetStateA w.model.m_currentState w.model = Except.ok c)
    (he : Double.energyToDecrease (w.sim.now - w.model.m_lastUpdateTime) c
      S.supplyVoltage = some e)
    (ht : Double.add w.model.m_totalEnergyConsumption e = some T)
    (hle : T ≤ S.initialEnergy) :
    Double.ChangeState_account w = Except.ok { w with model := { w.model with
      m_totalEnergyConsumption := T, m_lastUpdateTime := w.sim.now } } := by
  unfold Double.ChangeState_account
  have hd2 : 0 ≤ w.sim.now - w.model.m_lastUpdateTime := by linarith
  simp only [hd2, not_true_eq_false, if_false, hsrc, hcur, he, Option.some_bind, ht, hle]

/-- The accounting step when the new total exceeds the initial energy: the assertion
fails. -/
theorem double_account_over {w : World} {S : EnergySource} {c e T : ℚ}
    (hd : w.model.m_lastUpdateTime ≤ w.sim.now) (hsrc : w.model.m_source = some S)
    (hcur : GetStateA w.model.m_currentState w.model = Except.ok c)
    (he : Double.energyToDecrease (w.sim.now - w.model.m_lastUpdateTime) c
      S.supplyVoltage = some e)
    (ht : Double.add w.model.m_totalEnergyConsumption e = some T)
    (hlt : S.initialEnergy < T) :
    Double.ChangeState_account w = Except.error Failure.assertTotalEnergy := by
  unfold Double.ChangeState_account
  have hd2 : 0 ≤ w.sim.now - w.model.m_lastUpdateTime := by linarith
  have hnle : ¬ T ≤ S.initialEnergy := not_le.mpr hlt
  simp only [hd2, not_true_eq_false, if_false, hsrc, hcur, he, Option.some_bind, ht, hnle,
    not_false_eq_true, if_true]

theorem double_ChangeState_ok {U : World → Except Failure World} {s : State}
    {w x y z : World}
    (hfull : ¬ ((incPending w).model.m_nPendingChangeState > 1 ∧ s = State.OFF))
    (h2 : Double.ChangeState_timer s (incPending w) = Except.ok x)
    (h3 : Double.ChangeState_account x = Except.ok y) (h4 : U y = Except.ok z) :
    Double.ChangeState U s w = Except.ok (decPending (ChangeState_commit s z)) := by
  unfold Double.ChangeState
  simp only [hfull, if_false, h2, h3, h4]

theorem double_ChangeState_account_error {U : World → Except Failure World} {s : State}
    {w x : World} {e : Failure}
    (hfull : ¬ ((incPending w).model.m_nPendingChangeState > 1 ∧ s = State.OFF))
    (h2 : Double.ChangeState_timer s (incPending w) = Except.ok x)
    (h3 : Double.ChangeState_account x = Except.error e) :
    Double.ChangeState U s w = Except.error e := by
  unfold Double.ChangeState
  simp only [hfull, if_false, h2, h3]

theorem double_SetEnergySource_eq {source : EnergySource} {w : World} {d : ℚ}
    (h : Double.GetMaximumTimeInState w.model.m_currentState
      { w.model with m_source := some source } = Except.ok d) :
    Double.SetEnergySource source w = Except.ok (rescheduleSwitchToOff d
      { w with model := { w.model with m_source := some source } }) := by
  unfold Double.SetEnergySource
  simp only [h]

theorem double_fire_off {inner : Script} {uid : Nat} {w : World} {v : Event}
    (hfind : w.sim.m_events.find? (fun e => e.uid == uid) = some v)
    (hk : v.kind = EventKind.SwitchToOff) :
    Double.fire inner uid w = Double.ChangeState inner.run State.OFF
      { w with sim := { w.sim with now := v.ts, m_events := w.sim.m_events.erase v } } := by
  unfold Double.fire
  simp only [hfind, hk]

/-- C34 (forced-off exactness): on the code the claim fails, by the rounding of `double`.
A new model with the default attributes (rx current 0.015 A) is attached at time 0 to a
full source of 6.3 J at 3.0 V and asked for `RX` at once, with a refresh of the source
that calls nothing back; the remaining energy is the initial energy minus the energy
consumed (none) and `current (RX) * supplyVoltage > 0`.  In double arithmetic
`SetEnergySource` and `ChangeState (RX)` return, the latter in state `RX` with stored total
0 and the one forced-off event due at `6.3 / (0.015 * 3.0) = 140.0` s.  When that event
fires, with nothing in between, the accounting computes `140.0 * 0.015 * 3.0`, which is the
initial energy plus `2 ^ (-50)` (one unit in the last place of 6.3), and the firing fails
on `NS_ASSERT (m_totalEnergyConsumption <= m_source->GetInitialEnergy ())`: the stored total
is not raised to the initial energy and the state does not become `OFF`. -/
theorem forced_off_rounding :
    Double.SetEnergySource roundingSource (World.initial Double.defaultAttributes) =
        Except.ok roundingWorld ∧
      Double.ChangeState Script.done.run State.RX roundingWorld = Except.ok roundingWorldRx ∧
      Double.energyToDecrease 140 (Double.nearest (15 / 1000)) 3 =
        some (roundingSource.initialEnergy + 2 ^ (-50 : ℤ)) ∧
      Double.fire Script.done 1 roundingWorldRx = Except.error Failure.assertTotalEnergy := by
  have hmulIdle : Double.mul (Double.nearest (1 / 1000000)) 3 =
      some (1770887431076117 / 590295810358705651712) := by
    rw [nearest_idle]
    exact double_mul_idle_3
  have hdivIdle : Double.div (Double.nearest (63 / 10))
      (1770887431076117 / 590295810358705651712) = some 2100000 := by
    rw [nearest_c63]
    exact double_div_c63_idle
  have hmulRx : Double.mul (Double.nearest (15 / 1000)) 3 =
      some (3242591731706757 / 72057594037927936) := by
    rw [nearest_c15]
    exact double_mul_c15_3
  have hdivRx : Double.div (Double.nearest (63 / 10))
      (3242591731706757 / 72057594037927936) = some 140 := by
    rw [nearest_c63]
    exact double_div_c63_c15
  have henergy : Double.energyToDecrease 140 (Double.nearest (15 / 1000)) 3 =
      some (1773292353277133 / 281474976710656) := by
    rw [nearest_c15]
    exact double_energy_140
  have hover : Double.nearest (63 / 10) < 1773292353277133 / 281474976710656 := by
    rw [nearest_c63]
    norm_num
  refine ⟨?_, ?_, ?_, ?_⟩
  · have hmax : Double.GetMaximumTimeInState
        (World.initial Double.defaultAttributes).model.m_currentState
        { (World.initial Double.defaultAttributes).model with m_source := some roundingSource } =
        Except.ok 2100000 :=
      double_maxTime_eq (s := State.IDLE) (S := roundingSource)
        (c := Double.nearest (1 / 1000000)) (by decide) rfl rfl hmulIdle hdivIdle
    rw [double_SetEnergySource_eq hmax]
    simp [rescheduleSwitchToOff, Simulator.Cancel, Simulator.Schedule, World.initial,
      roundingWorld, BleRadioEnergyModel.BleRadioEnergyModel]
  · have hmax : Double.GetMaximumTimeInState State.RX (incPending roundingWorld).model =
        Except.ok 140 :=
      double_maxTime_eq (s := State.RX) (S := roundingSource)
        (c := Double.nearest (15 / 1000)) (by decide) rfl rfl hmulRx hdivRx
    have h2 : Double.ChangeState_timer State.RX (incPending roundingWorld) =
        Except.ok (rescheduleSwitchToOff 140 (incPending roundingWorld)) :=
      double_timer_eq (by decide) hmax
    have he : Double.energyToDecrease
        ((rescheduleSwitchToOff 140 (incPending roundingWorld)).sim.now -
          (rescheduleSwitchToOff 140 (incPending roundingWorld)).model.m_lastUpdateTime)
        (Double.nearest (1 / 1000000)) roundingSource.supplyVoltage = some 0 := by
      show Double.energyToDecrease (0 - 0) _ _ = _
      rw [sub_self]
      exact double_energy_0 _ _
    have h3 := double_account_ok (w := rescheduleSwitchToOff 140 (incPending roundingWorld))
      (S := roundingSource) (c := Double.nearest (1 / 1000000)) (e := 0) (T := 0)
      (le_refl _) rfl rfl he double_add_0_0 (nearest_nonneg (by norm_num))
    rw [double_ChangeState_ok (U := Script.done.run) (by decide) h2 h3 (z := _) rfl]
    simp [rescheduleSwitchToOff, Simulator.Cancel, Simulator.Schedule, incPending, decPending,
      ChangeState_commit, SetBleRadioState, roundingWorld, roundingWorldRx,
      BleRadioEnergyModel.BleRadioEnergyModel]
  · rw [henergy]
    simp only [roundingSource, nearest_c63]
    norm_num
  · have hfind : roundingWorldRx.sim.m_events.find? (fun e => e.uid == 1) =
        some (Event.mk 1 140 EventKind.SwitchToOff) := rfl
    rw [double_fire_off hfind rfl]
    obtain ⟨wf, hwf⟩ : ∃ wf : World, wf = { roundingWorldRx with sim := { roundingWorldRx.sim with
        now := (Event.mk 1 140 EventKind.SwitchToOff).ts,
        m_events := roundingWorldRx.sim.m_events.erase (Event.mk 1 140 EventKind.SwitchToOff) } } :=
      ⟨_, rfl⟩
    rw [← hwf]
    have hnow : wf.sim.now = 140 := by rw [hwf]
    have hmodel : wf.model = roundingWorldRx.model := by rw [hwf]
    have he : Double.energyToDecrease ((incPending wf).sim.now - (incPending wf).model.m_lastUpdateTime)
        (Double.nearest (15 / 1000)) roundingSource.supplyVoltage =
        some (1773292353277133 / 281474976710656) := by
      show Double.energyToDecrease (wf.sim.now - wf.model.m_lastUpdateTime) _ 3 = _
      rw [hnow, hmodel]
      show Double.energyToDecrease (140 - 0) _ 3 = _
      rw [sub_zero]
      exact henergy
    have hd : (incPending wf).model.m_lastUpdateTime ≤ (incPending wf).sim.now := by
      show wf.model.m_lastUpdateTime ≤ wf.sim.now
      rw [hnow, hmodel]
      show (0 : ℚ) ≤ 140
      norm_num
    have hsrc : (incPending wf).model.m_source = some roundingSource := by
      show wf.model.m_source = _
      rw [hmodel]
      rfl
    have hcur : GetStateA (incPending wf).model.m_currentState (incPending wf).model =
        Except.ok (Double.nearest (15 / 1000)) := by
      rw [hwf]
      rfl
    have htot : Double.add (incPending wf).model.m_totalEnergyConsumption
        (1773292353277133 / 281474976710656) = some (1773292353277133 / 281474976710656) := by
      show Double.add wf.model.m_totalEnergyConsumption _ = _
      rw [hmodel]
      exact double_add_0_63
    have hfull : ¬ ((incPending wf).model.m_nPendingChangeState > 1 ∧ State.OFF = State.OFF) := by
      rw [pending_incPending, hmodel]
      decide
    exact double_ChangeState_account_error hfull (double_timer_off _)
      (double_account_over hd hsrc hcur he htot hover)


/-! ### The linear tx-current model in double arithmetic -/

theorem double_round_mono {a b x y : ℚ} (h : a ≤ b) (ha : Double.round a = some x)
    (hb : Double.round b = some y) : x ≤ y := by
  rw [← nearest_of_round ha, ← nearest_of_round hb]
  exact nearest_mono h

theorem double_round_nonneg {a x : ℚ} (h : 0 ≤ a) (ha : Double.round a = some x) : 0 ≤ x := by
  rw [← nearest_of_round ha]
  exact nearest_nonneg h

theorem double_DbmToW_elim {pow : ℚ → ℚ → Option ℚ} {p w : ℚ}
    (h : Double.DbmToW pow p = some w) :
    ∃ a b, Double.round (p - 30) = some a ∧
      Double.round (Double.nearest (1 / 10) * a) = some b ∧ pow 10 b = some w := by
  unfold Double.DbmToW at h
  obtain ⟨a, ha, h⟩ := Option.bind_eq_some.mp h
  obtain ⟨b, hb, h⟩ := Option.bind_eq_some.mp h
  exact ⟨a, b, ha, hb, h⟩

theorem double_CalcTxCurrent_elim {pow : ℚ → ℚ → Option ℚ} {m : LinearBleTxCurrentModel ℚ}
    {p r : ℚ} (h : Double.CalcTxCurrent pow m p = some r) :
    ∃ w ve q, Double.DbmToW pow p = some w ∧
      Double.round (m.m_voltage * m.m_eta) = some ve ∧ ve ≠ 0 ∧
      Double.round (w / ve) = some q ∧ Double.round (q + m.m_idleCurrent) = some r := by
  unfold Double.CalcTxCurrent at h
  obtain ⟨w, hw, h⟩ := Option.bind_eq_some.mp h
  obtain ⟨ve, hve, h⟩ := Option.bind_eq_some.mp h
  obtain ⟨q, hq, h⟩ := Option.bind_eq_some.mp h
  unfold Double.div at hq
  by_cases h0 : ve = 0
  · rw [if_pos h0] at hq
    exact absurd hq (by simp)
  · rw [if_neg h0] at hq
    exact ⟨w, ve, q, hw, hve, h0, hq, h⟩

theorem double_DbmToW_mono {pow : ℚ → ℚ → Option ℚ}
    (hmono : ∀ x y a b, x ≤ y → pow 10 x = some a → pow 10 y = some b → a ≤ b)
    {p q wp wq : ℚ} (hpq : p ≤ q) (hp : Double.DbmToW pow p = some wp)
    (hq : Double.DbmToW pow q = some wq) : wp ≤ wq := by
  obtain ⟨a1, b1, ha1, hb1, hw1⟩ := double_DbmToW_elim hp
  obtain ⟨a2, b2, ha2, hb2, hw2⟩ := double_DbmToW_elim hq
  have h1 : a1 ≤ a2 := double_round_mono (by linarith) ha1 ha2
  have hc : 0 ≤ Double.nearest (1 / 10) := nearest_nonneg (by norm_num)
  have h2 : b1 ≤ b2 := double_round_mono (mul_le_mul_of_nonneg_left h1 hc) hb1 hb2
  exact hmono _ _ _ _ h2 hw1 hw2

/-- In double arithmetic the computed tx current does not decrease with the tx power, is
not below the idle current, and `DbmToW (30) = 1`. -/
theorem double_CalcTxCurrent_mono (pow : ℚ → ℚ → Option ℚ) (m : LinearBleTxCurrentModel ℚ)
    (hpos : 0 < m.m_voltage * m.m_eta)
    (hidle : Double.round m.m_idleCurrent = some m.m_idleCurrent)
    (hmono : ∀ x y a b, x ≤ y → pow 10 x = some a → pow 10 y = some b → a ≤ b)
    (hnn : ∀ x a, pow 10 x = some a → 0 ≤ a)
    (hone : pow 10 0 = some 1) :
    (∀ p q a b, p ≤ q → Double.CalcTxCurrent pow m p = some a →
      Double.CalcTxCurrent pow m q = some b → a ≤ b) ∧
    (∀ p a, Double.CalcTxCurrent pow m p = some a → m.m_idleCurrent ≤ a) ∧
    Double.DbmToW pow 30 = some 1 := by
  refine ⟨?_, ?_, ?_⟩
  · intro p q a b hpq ha hb
    obtain ⟨w1, ve1, q1, hw1, hve1, hne1, hq1, hr1⟩ := double_CalcTxCurrent_elim ha
    obtain ⟨w2, ve2, q2, hw2, hve2, -, hq2, hr2⟩ := double_CalcTxCurrent_elim hb
    have hve : ve2 = ve1 := by
      rw [hve1] at hve2
      exact (Option.some.inj hve2).symm
    rw [hve] at hq2
    have hvepos : 0 < ve1 := lt_of_le_of_ne (double_round_nonneg hpos.le hve1) (Ne.symm hne1)
    have hw : w1 ≤ w2 := double_DbmToW_mono hmono hpq hw1 hw2
    have hq : q1 ≤ q2 := double_round_mono (div_le_div_of_nonneg_right hw hvepos.le) hq1 hq2
    exact double_round_mono (by linarith) hr1 hr2
  · intro p a ha
    obtain ⟨w, ve, q, hw, hve, hne, hq, hr⟩ := double_CalcTxCurrent_elim ha
    obtain ⟨a1, b1, -, -, hpw⟩ := double_DbmToW_elim hw
    have hw0 : 0 ≤ w := hnn _ _ hpw
    have hvepos : 0 < ve := lt_of_le_of_ne (double_round_nonneg hpos.le hve) (Ne.symm hne)
    have hq0 : 0 ≤ q := double_round_nonneg (div_nonneg hw0 hvepos.le) hq
    exact double_round_mono (by linarith) hidle hr
  · unfold Double.DbmToW Double.sub Double.mul
    rw [sub_self, double_round_zero, Option.some_bind, mul_zero, double_round_zero, Option.some_bind, hone]

theorem nearest_tenth : Double.nearest (1 / 10) = 3602879701896397 / 36028797018963968 := by
  apply nearest_of_round
  rw [double_round_eq_of (e := -4) (m := 7205759403792794) (by norm_num) (by norm_num) (by norm_num)
    (by norm_num) (by norm_num) (by norm_num)]
  norm_num

/-- The error of the rounding is at most half a unit in the last place. -/
theorem abs_nearest_sub_le_ulp (q : ℚ) :
    |Double.nearest q - q| ≤ 1 / 2 * 2 ^ Double.ulpExponent q := by
  unfold Double.nearest
  have hu : (0 : ℚ) < 2 ^ Double.ulpExponent q := by positivity
  have herr := abs_roundTiesEven_sub_le (q / 2 ^ Double.ulpExponent q)
  have e0 : ((roundTiesEven (q / 2 ^ Double.ulpExponent q) : ℤ) : ℚ) * 2 ^ Double.ulpExponent q - q =
      (((roundTiesEven (q / 2 ^ Double.ulpExponent q) : ℤ) : ℚ) - q / 2 ^ Double.ulpExponent q) *
        2 ^ Double.ulpExponent q := by
    field_simp
  rw [e0, abs_mul, abs_of_pos hu]
  exact mul_le_mul_of_nonneg_right herr hu.le

/-- The error of the rounding of a number of size at most `B`, for `B` in the normal
range. -/
theorem abs_nearest_sub_le_of_le {q B : ℚ} (hB : |q| ≤ B) (h1 : 2 ^ (-1022 : ℤ) ≤ B) :
    |Double.nearest q - q| ≤ 2 ^ (-53 : ℤ) * B := by
  by_cases hq : 2 ^ (-1022 : ℤ) ≤ |q|
  · exact (abs_nearest_sub_le hq).trans (mul_le_mul_of_nonneg_left hB (by positivity))
  · rw [not_le] at hq
    by_cases h0 : q = 0
    · rw [h0, nearest_zero, sub_zero, abs_zero]
      have : (0 : ℚ) ≤ B := le_trans (by positivity) h1
      positivity
    · have hpos : 0 < |q| := abs_pos.mpr h0
      have hL : Int.log 2 |q| < -1022 := by
        rw [← Int.lt_zpow_iff_log_lt (by norm_num) hpos]
        exact_mod_cast hq
      have hE : Double.ulpExponent q = -1074 := by
        unfold Double.ulpExponent
        rw [max_eq_right hL.le]
        norm_num
      have := abs_nearest_sub_le_ulp q
      rw [hE] at this
      have e1 : (1 / 2 : ℚ) * 2 ^ (-1074 : ℤ) = 2 ^ (-53 : ℤ) * 2 ^ (-1022 : ℤ) := by
        rw [← zpow_add₀ (by norm_num : (2 : ℚ) ≠ 0)]
        norm_num
      rw [e1] at this
      exact this.trans (mul_le_mul_of_nonneg_left h1 (by positivity))

/-- The exponent handed to `std::pow` by `DbmToW` lies within `2 ^ (-44)` of the exact
`t / 10`, for `t = dBm - 30` of size at most 1030. -/
theorem double_exponent_error {t a b : ℚ} (ht : |t| ≤ 1030) (ha : Double.round t = some a)
    (hb : Double.round (Double.nearest (1 / 10) * a) = some b) :
    |b - t / 10| ≤ 2 ^ (-44 : ℤ) := by
  have ea := abs_nearest_sub_le_of_le ht (by norm_num)
  rw [nearest_of_round ha] at ea
  rw [nearest_tenth] at hb
  rw [abs_le] at ht ea
  have hca : |3602879701896397 / 36028797018963968 * a| ≤ 104 := by
    rw [abs_le]
    norm_num at ea ⊢
    constructor <;> linarith
  have eb := abs_nearest_sub_le_of_le hca (by norm_num)
  rw [nearest_of_round hb] at eb
  rw [abs_le] at eb ⊢
  norm_num at ea eb ⊢
  constructor <;> linarith

theorem log_ten_le : Real.log 10 ≤ 3 := by
  rw [Real.log_le_iff_le_exp (by norm_num)]
  have h1 := Real.exp_one_gt_d9
  have h3 : Real.exp 3 = Real.exp 1 ^ 3 := by
    rw [← Real.exp_nat_mul]
    norm_num
  rw [h3]
  have : (2.7182818283 : ℝ) ^ 3 ≤ Real.exp 1 ^ 3 := by
    apply pow_le_pow_left₀ (by norm_num) h1.le
  norm_num at this ⊢
  linarith

theorem abs_ten_rpow_sub_one_le {d : ℝ} (hd : |d| ≤ 2 ^ (-43 : ℤ)) :
    |(10 : ℝ) ^ d - 1| ≤ 2 ^ (-40 : ℤ) := by
  have hlog0 : 0 ≤ Real.log 10 := Real.log_nonneg (by norm_num)
  rw [Real.rpow_def_of_pos (by norm_num)]
  have hx : |Real.log 10 * d| ≤ 3 * 2 ^ (-43 : ℤ) := by
    rw [abs_mul, abs_of_nonneg hlog0]
    exact mul_le_mul log_ten_le hd (abs_nonneg _) (by norm_num)
  have h1 : |Real.log 10 * d| ≤ 1 := hx.trans (by norm_num)
  calc |Real.exp (Real.log 10 * d) - 1| ≤ 2 * |Real.log 10 * d| := Real.abs_exp_sub_one_le h1
    _ ≤ 2 * (3 * 2 ^ (-43 : ℤ)) := by linarith
    _ ≤ 2 ^ (-40 : ℤ) := by norm_num

/-- With a `std::pow` accurate to one unit in the last place, a step of 10 dB multiplies
the computed power by 10 up to a relative error of `2 ^ (-39)`. -/
theorem double_DbmToW_decade (pow : ℚ → ℚ → Option ℚ)
    (hacc : ∀ x a, |x| ≤ 200 → pow 10 x = some a →
      |(a : ℝ) - (10 : ℝ) ^ (x : ℝ)| ≤ 2 ^ (-52 : ℤ) * (10 : ℝ) ^ (x : ℝ))
    {p D0 D1 T : ℚ} (hp : |p| ≤ 1000) (h0 : Double.DbmToW pow p = some D0)
    (h1 : Double.DbmToW pow (p + 10) = some D1) (hT : Double.mul 10 D0 = some T) :
    |D1 - T| ≤ 2 ^ (-39 : ℤ) * T := by
  obtain ⟨a0, b0, ha0, hb0, hw0⟩ := double_DbmToW_elim h0
  obtain ⟨a1, b1, ha1, hb1, hw1⟩ := double_DbmToW_elim h1
  rw [abs_le] at hp
  have ht0 : |p - 30| ≤ 1030 := by
    rw [abs_le]
    constructor <;> linarith
  have ht1 : |p + 10 - 30| ≤ 1030 := by
    rw [abs_le]
    constructor <;> linarith
  have e0 := double_exponent_error ht0 ha0 hb0
  have e1 := double_exponent_error ht1 ha1 hb1
  rw [abs_le] at e0 e1
  norm_num at e0 e1
  have hb0' : |b0| ≤ 200 := by
    rw [abs_le]
    constructor <;> linarith
  have hb1' : |b1| ≤ 200 := by
    rw [abs_le]
    constructor <;> linarith
  -- the two exponents differ by 1, up to `2 ^ (-43)`
  have hdq : |b1 - b0 - 1| ≤ 2 ^ (-43 : ℤ) := by
    rw [abs_le]
    norm_num
    constructor <;> linarith
  have hd : |((b1 - b0 - 1 : ℚ) : ℝ)| ≤ 2 ^ (-43 : ℤ) := by
    have := (Rat.cast_le (K := ℝ)).mpr hdq
    rw [Rat.cast_abs] at this
    refine this.trans (le_of_eq ?_)
    norm_num
  have hF := abs_ten_rpow_sub_one_le hd
  obtain ⟨P0, hP0⟩ : ∃ P0 : ℝ, P0 = (10 : ℝ) ^ (b0 : ℝ) := ⟨_, rfl⟩
  obtain ⟨F, hFdef⟩ : ∃ F : ℝ, F = (10 : ℝ) ^ ((b1 - b0 - 1 : ℚ) : ℝ) := ⟨_, rfl⟩
  have hP0pos : 0 < P0 := by
    rw [hP0]
    exact Real.rpow_pos_of_pos (by norm_num) _
  have hP1 : (10 : ℝ) ^ (b1 : ℝ) = 10 * (P0 * F) := by
    rw [hP0, hFdef, ← Real.rpow_add (by norm_num)]
    have e : (b1 : ℝ) = 1 + ((b0 : ℝ) + ((b1 - b0 - 1 : ℚ) : ℝ)) := by
      push_cast
      ring
    rw [e, Real.rpow_add (by norm_num), Real.rpow_one]
  have a0acc := hacc b0 D0 hb0' hw0
  have a1acc := hacc b1 D1 hb1' hw1
  rw [← hP0] at a0acc
  rw [hP1] at a1acc
  rw [← hFdef] at hF
  rw [abs_le] at a0acc a1acc hF
  norm_num at a0acc a1acc hF
  have hPF1 : P0 * F ≤ P0 * (1 + 1 / 1099511627776) :=
    mul_le_mul_of_nonneg_left (by linarith) hP0pos.le
  have hPF2 : P0 * (1 - 1 / 1099511627776) ≤ P0 * F :=
    mul_le_mul_of_nonneg_left (by linarith) hP0pos.le
  -- the power is in the normal range
  have hlow : (10 : ℝ) ^ (-200 : ℝ) ≤ P0 := by
    rw [hP0]
    apply Real.rpow_le_rpow_of_exponent_le (by norm_num)
    have := (abs_le.mp hb0').1
    exact_mod_cast this
  have hlow2 : (10 : ℝ) ^ (-200 : ℝ) = 1 / 10 ^ 200 := by
    rw [Real.rpow_neg (by norm_num), show (200 : ℝ) = ((200 : ℕ) : ℝ) by norm_num,
      Real.rpow_natCast]
    norm_num
  rw [hlow2] at hlow
  have hD0pos : (0 : ℝ) < D0 := by
    have : (0 : ℝ) < 1 / 10 ^ 200 := by positivity
    linarith
  have hD0posq : (0 : ℚ) < D0 := by exact_mod_cast hD0pos
  have hnormal : (2 : ℚ) ^ (-1022 : ℤ) ≤ |10 * D0| := by
    rw [abs_of_pos (by linarith)]
    have h2 : ((2 : ℚ) ^ (-1022 : ℤ) : ℝ) ≤ ((10 * D0 : ℚ) : ℝ) := by
      push_cast
      have e2 : (2 : ℝ) ^ (-1022 : ℤ) ≤ 1 / 10 ^ 200 := by norm_num
      have e3 : (0 : ℝ) < 1 / 10 ^ 200 := by positivity
      have e4 : (1 / 10 ^ 200 : ℝ) ≤ 10 * D0 := by
        have := a0acc.1
        obtain ⟨B, hB⟩ : ∃ B : ℝ, B = 1 / 10 ^ 200 := ⟨_, rfl⟩
        rw [← hB] at hlow e3 ⊢
        linarith
      exact e2.trans e4
    exact_mod_cast h2
  have hTerr := abs_nearest_sub_le hnormal
  rw [show Double.nearest (10 * D0) = T from nearest_of_round hT, abs_of_pos (by linarith : (0 : ℚ) < 10 * D0)]
    at hTerr
  have hTerrR : |(T : ℝ) - 10 * D0| ≤ 2 ^ (-53 : ℤ) * (10 * D0) := by
    have := (Rat.cast_le (K := ℝ)).mpr hTerr
    rw [Rat.cast_abs] at this
    push_cast at this
    exact this
  rw [abs_le] at hTerrR
  norm_num at hTerrR
  have goalR : |(D1 : ℝ) - T| ≤ 2 ^ (-39 : ℤ) * T := by
    rw [abs_le]
    norm_num
    constructor <;> linarith
  have h3 : ((|D1 - T| : ℚ) : ℝ) ≤ ((2 ^ (-39 : ℤ) * T : ℚ) : ℝ) := by
    push_cast
    exact goalR
  exact_mod_cast h3

theorem double_round_neg (q : ℚ) : Double.round (-q) = (Double.round q).map (fun r => -r) := by
  unfold Double.round
  rw [nearest_neg, abs_neg]
  split <;> rfl

theorem powWhole_intCast (b : ℚ) (n : ℤ) : Double.powWhole b (n : ℚ) = Double.round (b ^ n) := by
  unfold Double.powWhole
  simp

theorem double_DbmToW_eq {pow : ℚ → ℚ → Option ℚ} {p a b w : ℚ}
    (ha : Double.round (p - 30) = some a)
    (hb : Double.round (Double.nearest (1 / 10) * a) = some b) (hw : pow 10 b = some w) :
    Double.DbmToW pow p = some w := by
  unfold Double.DbmToW Double.sub Double.mul
  rw [ha, Option.some_bind, hb, Option.some_bind, hw]

theorem double_CalcTxCurrent_eq {pow : ℚ → ℚ → Option ℚ} {m : LinearBleTxCurrentModel ℚ}
    {p w ve q r : ℚ} (hw : Double.DbmToW pow p = some w)
    (hve : Double.round (m.m_voltage * m.m_eta) = some ve) (hne : ve ≠ 0)
    (hq : Double.round (w / ve) = some q) (hr : Double.round (q + m.m_idleCurrent) = some r) :
    Double.CalcTxCurrent pow m p = some r := by
  unfold Double.CalcTxCurrent Double.mul Double.div Double.add
  rw [hw, Option.some_bind, hve, Option.some_bind, if_neg hne, hq, Option.some_bind, hr]

theorem double_round_240 : Double.round (240) = some 240 := by
  rw [double_round_eq_of (e := 7) (m := 8444249301319680) (by norm_num) (by norm_num)
    (by norm_num) (by norm_num) (by norm_num) (by norm_num)]
  norm_num

theorem double_round_230 : Double.round (230) = some 230 := by
  rw [double_round_eq_of (e := 7) (m := 8092405580431360) (by norm_num) (by norm_num)
    (by norm_num) (by norm_num) (by norm_num) (by norm_num)]
  norm_num

theorem double_round_60 : Double.round (60) = some 60 := by
  rw [double_round_eq_of (e := 5) (m := 8444249301319680) (by norm_num) (by norm_num)
    (by norm_num) (by norm_num) (by norm_num) (by norm_num)]
  norm_num

theorem double_round_50 : Double.round (50) = some 50 := by
  rw [double_round_eq_of (e := 5) (m := 7036874417766400) (by norm_num) (by norm_num)
    (by norm_num) (by norm_num) (by norm_num) (by norm_num)]
  norm_num

theorem double_round_tenth_240 : Double.round ((3602879701896397 / 36028797018963968) * 240) = some 24 := by
  rw [show ((3602879701896397 / 36028797018963968) * 240 : ℚ) = (54043195528445955 / 2251799813685248) by norm_num]
  rw [double_round_eq_of (e := 4) (m := 6755399441055744) (by norm_num) (by norm_num)
    (by norm_num) (by norm_num) (by norm_num) (by norm_num)]
  norm_num

theorem double_round_tenth_230 : Double.round ((3602879701896397 / 36028797018963968) * 230) = some 23 := by
  rw [show ((3602879701896397 / 36028797018963968) * 230 : ℚ) = (414331165718085655 / 18014398509481984) by norm_num]
  rw [double_round_eq_of (e := 4) (m := 6473924464345088) (by norm_num) (by norm_num)
    (by norm_num) (by norm_num) (by norm_num) (by norm_num)]
  norm_num

theorem double_round_tenth_60 : Double.round ((3602879701896397 / 36028797018963968) * 60) = some 6 := by
  rw [show ((3602879701896397 / 36028797018963968) * 60 : ℚ) = (54043195528445955 / 9007199254740992) by norm_num]
  rw [double_round_eq_of (e := 2) (m := 6755399441055744) (by norm_num) (by norm_num)
    (by norm_num) (by norm_num) (by norm_num) (by norm_num)]
  norm_num

theorem double_round_tenth_50 : Double.round ((3602879701896397 / 36028797018963968) * 50) = some 5 := by
  rw [show ((3602879701896397 / 36028797018963968) * 50 : ℚ) = (90071992547409925 / 18014398509481984) by norm_num]
  rw [double_round_eq_of (e := 2) (m := 5629499534213120) (by norm_num) (by norm_num)
    (by norm_num) (by norm_num) (by norm_num) (by norm_num)]
  norm_num

theorem double_round_ten_pow_neg_24 : Double.round (10 ^ (-24 : ℤ)) = some (5444517870735015 / 5444517870735015415413993718908291383296) := by
  rw [show (10 ^ (-24 : ℤ) : ℚ) = (1 / 1000000000000000000000000) by norm_num]
  rw [double_round_eq_of (e := -80) (m := 5444517870735015) (by norm_num) (by norm_num)
    (by norm_num) (by norm_num) (by norm_num) (by norm_num)]
  norm_num

theorem double_round_ten_pow_neg_23 : Double.round (10 ^ (-23 : ℤ)) = some (6805647338418769 / 680564733841876926926749214863536422912) := by
  rw [show (10 ^ (-23 : ℤ) : ℚ) = (1 / 100000000000000000000000) by norm_num]
  rw [double_round_eq_of (e := -77) (m := 6805647338418769) (by norm_num) (by norm_num)
    (by norm_num) (by norm_num) (by norm_num) (by norm_num)]
  norm_num

theorem double_round_ten_pow_neg_6 : Double.round (10 ^ (-6 : ℤ)) = some (4722366482869645 / 4722366482869645213696) := by
  rw [show (10 ^ (-6 : ℤ) : ℚ) = (1 / 1000000) by norm_num]
  rw [double_round_eq_of (e := -20) (m := 4722366482869645) (by norm_num) (by norm_num)
    (by norm_num) (by norm_num) (by norm_num) (by norm_num)]
  norm_num

theorem double_round_ten_pow_neg_5 : Double.round (10 ^ (-5 : ℤ)) = some (5902958103587057 / 590295810358705651712) := by
  rw [show (10 ^ (-5 : ℤ) : ℚ) = (1 / 100000) by norm_num]
  rw [double_round_eq_of (e := -17) (m := 5902958103587057) (by norm_num) (by norm_num)
    (by norm_num) (by norm_num) (by norm_num) (by norm_num)]
  norm_num

theorem double_round_three_tenth : Double.round (3 * (3602879701896397 / 36028797018963968)) = some (1351079888211149 / 4503599627370496) := by
  rw [show (3 * (3602879701896397 / 36028797018963968) : ℚ) = (10808639105689191 / 36028797018963968) by norm_num]
  rw [double_round_eq_of_tie (e := -2) (f := 5404319552844595) (by norm_num) (by norm_num)
    (by norm_num) (by norm_num) (by norm_num)]
  norm_num

theorem double_round_watt_24_div : Double.round ((5444517870735015 / 5444517870735015415413993718908291383296) / (1351079888211149 / 4503599627370496)) = some (141784319550391 / 42535295865117307932921825928971026432) := by
  rw [show ((5444517870735015 / 5444517870735015415413993718908291383296) / (1351079888211149 / 4503599627370496) : ℚ) = (5444517870735015 / 1633355361220504866409362038598322356224) by norm_num]
  rw [double_round_eq_of (e := -78) (m := 4537098225612512) (by norm_num) (by norm_num)
    (by norm_num) (by norm_num) (by norm_num) (by norm_num)]
  norm_num

theorem double_round_watt_24_add : Double.round ((141784319550391 / 42535295865117307932921825928971026432) + (4722366482869645 / 4722366482869645213696)) = some (4722366482869645 / 4722366482869645213696) := by
  rw [show ((141784319550391 / 42535295865117307932921825928971026432) + (4722366482869645 / 4722366482869645213696) : ℚ) = (42535295865117306149903693538231 / 42535295865117307932921825928971026432) by norm_num]
  rw [double_round_eq_of (e := -20) (m := 4722366482869645) (by norm_num) (by norm_num)
    (by norm_num) (by norm_num) (by norm_num) (by norm_num)]
  norm_num

theorem double_round_watt_23_div : Double.round ((6805647338418769 / 680564733841876926926749214863536422912) / (1351079888211149 / 4503599627370496)) = some (708921597751955 / 21267647932558653966460912964485513216) := by
  rw [show ((6805647338418769 / 680564733841876926926749214863536422912) / (1351079888211149 / 4503599627370496) : ℚ) = (6805647338418769 / 204169420152563108301170254824790294528) by norm_num]
  rw [double_round_eq_of (e := -75) (m := 5671372782015640) (by norm_num) (by norm_num)
    (by norm_num) (by norm_num) (by norm_num) (by norm_num)]
  norm_num

theorem double_round_watt_23_add : Double.round ((708921597751955 / 21267647932558653966460912964485513216) + (4722366482869645 / 4722366482869645213696)) = some (4722366482869645 / 4722366482869645213696) := by
  rw [show ((708921597751955 / 21267647932558653966460912964485513216) + (4722366482869645 / 4722366482869645213696) : ℚ) = (21267647932558653712981284745875 / 21267647932558653966460912964485513216) by norm_num]
  rw [double_round_eq_of (e := -20) (m := 4722366482869645) (by norm_num) (by norm_num)
    (by norm_num) (by norm_num) (by norm_num) (by norm_num)]
  norm_num

theorem double_round_watt_6_div : Double.round ((4722366482869645 / 4722366482869645213696) / (1351079888211149 / 4503599627370496)) = some (7870610804782741 / 2361183241434822606848) := by
  rw [show ((4722366482869645 / 4722366482869645213696) / (1351079888211149 / 4503599627370496) : ℚ) = (4722366482869645 / 1416709944860893773824) by norm_num]
  rw [double_round_eq_of (e := -19) (m := 7870610804782741) (by norm_num) (by norm_num)
    (by norm_num) (by norm_num) (by norm_num) (by norm_num)]
  norm_num

theorem double_round_watt_6_add : Double.round ((7870610804782741 / 2361183241434822606848) + (4722366482869645 / 4722366482869645213696)) = some (2557948511554391 / 590295810358705651712) := by
  rw [show ((7870610804782741 / 2361183241434822606848) + (4722366482869645 / 4722366482869645213696) : ℚ) = (20463588092435127 / 4722366482869645213696) by norm_num]
  rw [double_round_eq_of (e := -18) (m := 5115897023108782) (by norm_num) (by norm_num)
    (by norm_num) (by norm_num) (by norm_num) (by norm_num)]
  norm_num

theorem double_round_watt_5_div : Double.round ((5902958103587057 / 590295810358705651712) / (1351079888211149 / 4503599627370496)) = some (4919131752989213 / 147573952589676412928) := by
  rw [show ((5902958103587057 / 590295810358705651712) / (1351079888211149 / 4503599627370496) : ℚ) = (5902958103587057 / 177088743107611721728) by norm_num]
  rw [double_round_eq_of (e := -15) (m := 4919131752989213) (by norm_num) (by norm_num)
    (by norm_num) (by norm_num) (by norm_num) (by norm_num)]
  norm_num

theorem double_round_watt_5_add : Double.round ((4919131752989213 / 147573952589676412928) + (4722366482869645 / 4722366482869645213696)) = some (5066705705578889 / 147573952589676412928) := by
  rw [show ((4919131752989213 / 147573952589676412928) + (4722366482869645 / 4722366482869645213696) : ℚ) = (162134582578524461 / 4722366482869645213696) by norm_num]
  rw [double_round_eq_of (e := -15) (m := 5066705705578889) (by norm_num) (by norm_num)
    (by norm_num) (by norm_num) (by norm_num) (by norm_num)]
  norm_num

theorem double_round_ten_times_6 : Double.round (10 * (4722366482869645 / 4722366482869645213696)) = some (368934881474191 / 36893488147419103232) := by
  rw [show (10 * (4722366482869645 / 4722366482869645213696) : ℚ) = (23611832414348225 / 2361183241434822606848) by norm_num]
  rw [double_round_eq_of (e := -17) (m := 5902958103587056) (by norm_num) (by norm_num)
    (by norm_num) (by norm_num) (by norm_num) (by norm_num)]
  norm_num

theorem double_round_one : Double.round (1) = some 1 := by
  rw [double_round_eq_of (e := 0) (m := 4503599627370496) (by norm_num) (by norm_num)
    (by norm_num) (by norm_num) (by norm_num) (by norm_num)]
  norm_num

theorem double_round_idle_value : Double.round ((4722366482869645 / 4722366482869645213696)) = some (4722366482869645 / 4722366482869645213696) := by
  rw [double_round_eq_of (e := -20) (m := 4722366482869645) (by norm_num) (by norm_num)
    (by norm_num) (by norm_num) (by norm_num) (by norm_num)]
  norm_num

theorem double_DbmToW_neg_210 :
    Double.DbmToW Double.powWhole (-210) = some (5444517870735015 / 5444517870735015415413993718908291383296) := by
  have ha : Double.round (-210 - 30) = some (-240) := by
    rw [show (-210 - 30 : ℚ) = -240 by norm_num, double_round_neg, double_round_240]
    rfl
  have hb : Double.round (Double.nearest (1 / 10) * -240) = some (((-24 : ℤ) : ℚ)) := by
    rw [nearest_tenth, mul_neg, double_round_neg, double_round_tenth_240]
    norm_num
  have hw : Double.powWhole 10 (((-24 : ℤ) : ℚ)) = some (5444517870735015 / 5444517870735015415413993718908291383296) := by
    rw [powWhole_intCast]
    exact double_round_ten_pow_neg_24
  exact double_DbmToW_eq ha hb hw

theorem double_CalcTxCurrent_neg_210 :
    Double.CalcTxCurrent Double.powWhole Double.defaultTxCurrentModel (-210) =
      some (4722366482869645 / 4722366482869645213696) := by
  have hve : Double.round (Double.defaultTxCurrentModel.m_voltage *
      Double.defaultTxCurrentModel.m_eta) = some (1351079888211149 / 4503599627370496) := by
    show Double.round (3 * Double.nearest (1 / 10)) = _
    rw [nearest_tenth]
    exact double_round_three_tenth
  have hr : Double.round ((141784319550391 / 42535295865117307932921825928971026432) + Double.defaultTxCurrentModel.m_idleCurrent) =
      some (4722366482869645 / 4722366482869645213696) := by
    show Double.round (_ + Double.nearest (1 / 1000000)) = _
    rw [nearest_idle]
    exact double_round_watt_24_add
  exact double_CalcTxCurrent_eq double_DbmToW_neg_210 hve (by norm_num) double_round_watt_24_div hr

theorem double_DbmToW_neg_200 :
    Double.DbmToW Double.powWhole (-200) = some (6805647338418769 / 680564733841876926926749214863536422912) := by
  have ha : Double.round (-200 - 30) = some (-230) := by
    rw [show (-200 - 30 : ℚ) = -230 by norm_num, double_round_neg, double_round_230]
    rfl
  have hb : Double.round (Double.nearest (1 / 10) * -230) = some (((-23 : ℤ) : ℚ)) := by
    rw [nearest_tenth, mul_neg, double_round_neg, double_round_tenth_230]
    norm_num
  have hw : Double.powWhole 10 (((-23 : ℤ) : ℚ)) = some (6805647338418769 / 680564733841876926926749214863536422912) := by
    rw [powWhole_intCast]
    exact double_round_ten_pow_neg_23
  exact double_DbmToW_eq ha hb hw

theorem double_CalcTxCurrent_neg_200 :
    Double.CalcTxCurrent Double.powWhole Double.defaultTxCurrentModel (-200) =
      some (4722366482869645 / 4722366482869645213696) := by
  have hve : Double.round (Double.defaultTxCurrentModel.m_voltage *
      Double.defaultTxCurrentModel.m_eta) = some (1351079888211149 / 4503599627370496) := by
    show Double.round (3 * Double.nearest (1 / 10)) = _
    rw [nearest_tenth]
    exact double_round_three_tenth
  have hr : Double.round ((708921597751955 / 21267647932558653966460912964485513216) + Double.defaultTxCurrentModel.m_idleCurrent) =
      some (4722366482869645 / 4722366482869645213696) := by
    show Double.round (_ + Double.nearest (1 / 1000000)) = _
    rw [nearest_idle]
    exact double_round_watt_23_add
  exact double_CalcTxCurrent_eq double_DbmToW_neg_200 hve (by norm_num) double_round_watt_23_div hr

theorem double_DbmToW_neg_30 :
    Double.DbmToW Double.powWhole (-30) = some (4722366482869645 / 4722366482869645213696) := by
  have ha : Double.round (-30 - 30) = some (-60) := by
    rw [show (-30 - 30 : ℚ) = -60 by norm_num, double_round_neg, double_round_60]
    rfl
  have hb : Double.round (Double.nearest (1 / 10) * -60) = some (((-6 : ℤ) : ℚ)) := by
    rw [nearest_tenth, mul_neg, double_round_neg, double_round_tenth_60]
    norm_num
  have hw : Double.powWhole 10 (((-6 : ℤ) : ℚ)) = some (4722366482869645 / 4722366482869645213696) := by
    rw [powWhole_intCast]
    exact double_round_ten_pow_neg_6
  exact double_DbmToW_eq ha hb hw

theorem double_CalcTxCurrent_neg_30 :
    Double.CalcTxCurrent Double.powWhole Double.defaultTxCurrentModel (-30) =
      some (2557948511554391 / 590295810358705651712) := by
  have hve : Double.round (Double.defaultTxCurrentModel.m_voltage *
      Double.defaultTxCurrentModel.m_eta) = some (1351079888211149 / 4503599627370496) := by
    show Double.round (3 * Double.nearest (1 / 10)) = _
    rw [nearest_tenth]
    exact double_round_three_tenth
  have hr : Double.round ((7870610804782741 / 2361183241434822606848) + Double.defaultTxCurrentModel.m_idleCurrent) =
      some (2557948511554391 / 590295810358705651712) := by
    show Double.round (_ + Double.nearest (1 / 1000000)) = _
    rw [nearest_idle]
    exact double_round_watt_6_add
  exact double_CalcTxCurrent_eq double_DbmToW_neg_30 hve (by norm_num) double_round_watt_6_div hr

theorem double_DbmToW_neg_20 :
    Double.DbmToW Double.powWhole (-20) = some (5902958103587057 / 590295810358705651712) := by
  have ha : Double.round (-20 - 30) = some (-50) := by
    rw [show (-20 - 30 : ℚ) = -50 by norm_num, double_round_neg, double_round_50]
    rfl
  have hb : Double.round (Double.nearest (1 / 10) * -50) = some (((-5 : ℤ) : ℚ)) := by
    rw [nearest_tenth, mul_neg, double_round_neg, double_round_tenth_50]
    norm_num
  have hw : Double.powWhole 10 (((-5 : ℤ) : ℚ)) = some (5902958103587057 / 590295810358705651712) := by
    rw [powWhole_intCast]
    exact double_round_ten_pow_neg_5
  exact double_DbmToW_eq ha hb hw

theorem double_CalcTxCurrent_neg_20 :
    Double.CalcTxCurrent Double.powWhole Double.defaultTxCurrentModel (-20) =
      some (5066705705578889 / 147573952589676412928) := by
  have hve : Double.round (Double.defaultTxCurrentModel.m_voltage *
      Double.defaultTxCurrentModel.m_eta) = some (1351079888211149 / 4503599627370496) := by
    show Double.round (3 * Double.nearest (1 / 10)) = _
    rw [nearest_tenth]
    exact double_round_three_tenth
  have hr : Double.round ((4919131752989213 / 147573952589676412928) + Double.defaultTxCurrentModel.m_idleCurrent) =
      some (5066705705578889 / 147573952589676412928) := by
    show Double.round (_ + Double.nearest (1 / 1000000)) = _
    rw [nearest_idle]
    exact double_round_watt_5_add
  exact double_CalcTxCurrent_eq double_DbmToW_neg_20 hve (by norm_num) double_round_watt_5_div hr

theorem powWhole_elim {x a : ℚ} (h : Double.powWhole 10 x = some a) :
    ∃ n : ℤ, x = n ∧ a = Double.nearest ((10 : ℚ) ^ n) := by
  unfold Double.powWhole at h
  by_cases hd : x.den = 1
  · rw [if_pos hd] at h
    exact ⟨x.num, (Rat.coe_int_num_of_den_eq_one hd).symm, (nearest_of_round h).symm⟩
  · rw [if_neg hd] at h
    exact absurd h (by simp)

theorem powWhole_mono (x y a b : ℚ) (hxy : x ≤ y) (ha : Double.powWhole 10 x = some a)
    (hb : Double.powWhole 10 y = some b) : a ≤ b := by
  obtain ⟨n, rfl, rfl⟩ := powWhole_elim ha
  obtain ⟨k, rfl, rfl⟩ := powWhole_elim hb
  have hnk : n ≤ k := by exact_mod_cast hxy
  exact nearest_mono (zpow_le_zpow_right₀ (by norm_num) hnk)

theorem powWhole_nonneg (x a : ℚ) (ha : Double.powWhole 10 x = some a) : 0 ≤ a := by
  obtain ⟨n, rfl, rfl⟩ := powWhole_elim ha
  exact nearest_nonneg (by positivity)

theorem powWhole_zero : Double.powWhole 10 0 = some 1 := by
  have h := powWhole_intCast 10 0
  rw [zpow_zero, double_round_one] at h
  exact_mod_cast h

/-- The power that is correctly rounded at whole exponents is within `2 ^ (-52)`. -/
theorem powWhole_accurate (x a : ℚ) (hx : |x| ≤ 200) (ha : Double.powWhole 10 x = some a) :
    |(a : ℝ) - (10 : ℝ) ^ (x : ℝ)| ≤ 2 ^ (-52 : ℤ) * (10 : ℝ) ^ (x : ℝ) := by
  obtain ⟨n, rfl, rfl⟩ := powWhole_elim ha
  have hn : (-200 : ℤ) ≤ n := by
    have := (abs_le.mp hx).1
    exact_mod_cast this
  have hpos : (0 : ℚ) < 10 ^ n := by positivity
  have hlow : (10 : ℚ) ^ (-200 : ℤ) ≤ 10 ^ n := zpow_le_zpow_right₀ (by norm_num) hn
  have hnormal : (2 : ℚ) ^ (-1022 : ℤ) ≤ |(10 : ℚ) ^ n| := by
    rw [abs_of_pos hpos]
    refine le_trans ?_ hlow
    norm_num
  have herr := abs_nearest_sub_le hnormal
  rw [abs_of_pos hpos] at herr
  have herr2 : |Double.nearest ((10 : ℚ) ^ n) - 10 ^ n| ≤ 2 ^ (-52 : ℤ) * 10 ^ n := by
    refine herr.trans (mul_le_mul_of_nonneg_right ?_ hpos.le)
    norm_num
  have e : (10 : ℝ) ^ (((n : ℚ)) : ℝ) = (((10 : ℚ) ^ n : ℚ) : ℝ) := by
    push_cast
    exact Real.rpow_intCast 10 n
  rw [e]
  have h3 : ((|Double.nearest ((10 : ℚ) ^ n) - 10 ^ n| : ℚ) : ℝ) ≤
      ((2 ^ (-52 : ℤ) * 10 ^ n : ℚ) : ℝ) := (Rat.cast_le (K := ℝ)).mpr herr2
  push_cast at h3 ⊢
  exact h3

/-- A result of size at most `B`, for `B` in the normal range below `2 ^ 1023`, rounds to a
finite `double`, off by at most `2 ^ (-53) * B`. -/
theorem double_round_some {q B : ℚ} (hB : |q| ≤ B) (h1 : 2 ^ (-1022 : ℤ) ≤ B)
    (h2 : B ≤ 2 ^ (1023 : ℤ)) :
    ∃ r, Double.round q = some r ∧ |r - q| ≤ 2 ^ (-53 : ℤ) * B := by
  have herr := abs_nearest_sub_le_of_le hB h1
  refine ⟨Double.nearest q, ?_, herr⟩
  unfold Double.round
  rw [if_pos]
  have h3 : |Double.nearest q| ≤ |Double.nearest q - q| + |q| := by
    have := abs_add (Double.nearest q - q) q
    rwa [sub_add_cancel] at this
  have hB0 : 0 < B := lt_of_lt_of_le (by positivity) h1
  have h4 : (2 : ℚ) ^ (-53 : ℤ) * B < B := by
    have : (2 : ℚ) ^ (-53 : ℤ) < 1 := by norm_num
    nlinarith
  have h5 : (2 : ℚ) ^ (1023 : ℤ) + 2 ^ (1023 : ℤ) = 2 ^ 1024 := by norm_num
  linarith

/-- For a tx power of size up to 1000 the two rounded operations of `DbmToW` give a finite
exponent, within `2 ^ (-44)` of the exact one, and `DbmToW` is `std::pow` at that
exponent. -/
theorem double_DbmToW_exponent (pow : ℚ → ℚ → Option ℚ) {p : ℚ} (hp : |p| ≤ 1000) :
    ∃ b, |b - (p - 30) / 10| ≤ 2 ^ (-44 : ℤ) ∧ Double.DbmToW pow p = pow 10 b := by
  have ht : |p - 30| ≤ 1030 := by
    rw [abs_le] at hp ⊢
    constructor <;> linarith
  obtain ⟨a, ha, hea⟩ := double_round_some ht (by norm_num) (by norm_num)
  have hca : |Double.nearest (1 / 10) * a| ≤ 104 := by
    rw [nearest_tenth]
    rw [abs_le] at ht hea ⊢
    norm_num at hea ⊢
    constructor <;> linarith
  obtain ⟨b, hb, -⟩ := double_round_some hca (by norm_num) (by norm_num)
  refine ⟨b, double_exponent_error ht ha hb, ?_⟩
  unfold Double.DbmToW Double.sub Double.mul
  rw [ha, Option.some_bind, hb, Option.some_bind]

/-- The bound `10 ^ 200 ≤ 2 ^ 670`. -/
theorem ten_pow_200_le : (10 : ℝ) ^ 200 ≤ 2 ^ 670 :=
  calc (10 : ℝ) ^ 200 ≤ 10 ^ 201 := pow_le_pow_right₀ (by norm_num) (by norm_num)
    _ = (10 ^ 3) ^ 67 := by rw [← pow_mul]
    _ ≤ (2 ^ 10) ^ 67 := pow_le_pow_left₀ (by norm_num) (by norm_num) 67
    _ = 2 ^ 670 := by rw [← pow_mul]

/-- In the ordinary range `CalcTxCurrent` is finite as soon as `DbmToW` is: for a tx power
of size up to 1000, a product `m_voltage * m_eta` between `2 ^ (-300)` and `2 ^ 300` and an
idle current of size up to `2 ^ 300`. -/
theorem double_CalcTxCurrent_finite (pow : ℚ → ℚ → Option ℚ) (m : LinearBleTxCurrentModel ℚ)
    (hacc : ∀ x a, |x| ≤ 200 → pow 10 x = some a →
      |(a : ℝ) - (10 : ℝ) ^ (x : ℝ)| ≤ 2 ^ (-52 : ℤ) * (10 : ℝ) ^ (x : ℝ))
    {p D : ℚ} (hp : |p| ≤ 1000) (hlo : 2 ^ (-300 : ℤ) ≤ m.m_voltage * m.m_eta)
    (hhi : m.m_voltage * m.m_eta ≤ 2 ^ (300 : ℤ)) (hid : |m.m_idleCurrent| ≤ 2 ^ (300 : ℤ))
    (hD : Double.DbmToW pow p = some D) :
    ∃ a, Double.CalcTxCurrent pow m p = some a := by
  have two : (2 : ℚ) ≠ 0 := by norm_num
  have one2 : (1 : ℚ) ≤ 2 := by norm_num
  obtain ⟨b, hb, hpow⟩ := double_DbmToW_exponent pow hp
  rw [hD] at hpow
  rw [abs_le] at hp hb
  norm_num at hb
  have hb200 : |b| ≤ 200 := by
    rw [abs_le]
    constructor <;> linarith
  have hDacc := hacc b D hb200 hpow.symm
  -- the size of the power
  have hP : (10 : ℝ) ^ (b : ℝ) ≤ 2 ^ 670 := by
    have h1 : (10 : ℝ) ^ (b : ℝ) ≤ (10 : ℝ) ^ (200 : ℝ) := by
      apply Real.rpow_le_rpow_of_exponent_le (by norm_num)
      have := (abs_le.mp hb200).2
      exact_mod_cast this
    have h2 : (10 : ℝ) ^ (200 : ℝ) = 10 ^ 200 := by
      rw [show (200 : ℝ) = ((200 : ℕ) : ℝ) by norm_num, Real.rpow_natCast]
    rw [h2] at h1
    exact h1.trans ten_pow_200_le
  have hPpos : (0 : ℝ) < (10 : ℝ) ^ (b : ℝ) := Real.rpow_pos_of_pos (by norm_num) _
  rw [abs_le] at hDacc
  have h3 : (2 : ℝ) ^ (-52 : ℤ) ≤ 1 := by norm_num
  have h4 : (2 : ℝ) ^ (-52 : ℤ) * (10 : ℝ) ^ (b : ℝ) ≤ (10 : ℝ) ^ (b : ℝ) := by nlinarith
  have hDle : (D : ℝ) ≤ 2 ^ 671 := by
    have h5 : (2 : ℝ) ^ 671 = 2 ^ 670 + 2 ^ 670 := by rw [pow_succ]; ring
    linarith [hDacc.2]
  have hD0 : (0 : ℝ) ≤ D := by linarith [hDacc.1]
  have hDleq : D ≤ 2 ^ (671 : ℤ) := by
    have h5 : (D : ℝ) ≤ (((2 : ℚ) ^ 671 : ℚ) : ℝ) := by
      rw [Rat.cast_pow, Rat.cast_ofNat]
      exact hDle
    have : D ≤ 2 ^ 671 := Rat.cast_le.mp h5
    rw [show (671 : ℤ) = ((671 : ℕ) : ℤ) by norm_num, zpow_natCast]
    exact this
  have hD0q : 0 ≤ D := by exact_mod_cast hD0
  -- the product of voltage and efficiency
  have hvpos : 0 < m.m_voltage * m.m_eta := lt_of_lt_of_le (by positivity) hlo
  have hvabs : |m.m_voltage * m.m_eta| = m.m_voltage * m.m_eta := abs_of_pos hvpos
  obtain ⟨ve, hve, -⟩ := double_round_some (B := 2 ^ (300 : ℤ)) (hvabs.le.trans hhi)
    (zpow_le_zpow_right₀ one2 (by norm_num)) (zpow_le_zpow_right₀ one2 (by norm_num))
  have hvelo : (2 : ℚ) ^ (-301 : ℤ) ≤ ve := by
    have herr := abs_nearest_sub_le (q := m.m_voltage * m.m_eta)
      (by rw [hvabs]; exact le_trans (zpow_le_zpow_right₀ one2 (by norm_num)) hlo)
    rw [nearest_of_round hve, hvabs, abs_le] at herr
    have h6 : (2 : ℚ) ^ (-53 : ℤ) ≤ 1 / 2 := by norm_num
    have h7 : (2 : ℚ) ^ (-300 : ℤ) = 2 * 2 ^ (-301 : ℤ) := by
      rw [show (-300 : ℤ) = 1 + -301 by norm_num, zpow_add₀ two, zpow_one]
    have h8 : (2 : ℚ) ^ (-53 : ℤ) * (m.m_voltage * m.m_eta) ≤ 1 / 2 * (m.m_voltage * m.m_eta) :=
      mul_le_mul_of_nonneg_right h6 hvpos.le
    obtain ⟨X, hX⟩ : ∃ X : ℚ, X = 2 ^ (-301 : ℤ) := ⟨_, rfl⟩
    obtain ⟨Y, hY⟩ : ∃ Y : ℚ, Y = 2 ^ (-53 : ℤ) * (m.m_voltage * m.m_eta) := ⟨_, rfl⟩
    rw [← hX] at h7 ⊢
    rw [h7] at hlo
    rw [← hY] at h8 herr
    linarith [herr.1]
  have hvepos : 0 < ve := lt_of_lt_of_le (by positivity) hvelo
  -- the quotient
  have hq : |D / ve| ≤ 2 ^ (972 : ℤ) := by
    rw [abs_of_nonneg (div_nonneg hD0q hvepos.le), div_le_iff₀ hvepos]
    have h6 : (2 : ℚ) ^ (972 : ℤ) * 2 ^ (-301 : ℤ) = 2 ^ (671 : ℤ) := by
      rw [← zpow_add₀ two]
      norm_num
    have h7 : (2 : ℚ) ^ (972 : ℤ) * 2 ^ (-301 : ℤ) ≤ 2 ^ (972 : ℤ) * ve :=
      mul_le_mul_of_nonneg_left hvelo (by positivity)
    linarith
  obtain ⟨q, hqr, heq⟩ := double_round_some hq
    (zpow_le_zpow_right₀ one2 (by norm_num)) (zpow_le_zpow_right₀ one2 (by norm_num))
  -- the sum
  have hs : |q + m.m_idleCurrent| ≤ 2 ^ (974 : ℤ) := by
    have h6 : (2 : ℚ) ^ (-53 : ℤ) ≤ 1 := by norm_num
    have h7 : (2 : ℚ) ^ (-53 : ℤ) * 2 ^ (972 : ℤ) ≤ 2 ^ (972 : ℤ) := by
      have : (0 : ℚ) < 2 ^ (972 : ℤ) := by positivity
      nlinarith
    have h8 : (2 : ℚ) ^ (300 : ℤ) ≤ 2 ^ (972 : ℤ) := zpow_le_zpow_right₀ one2 (by norm_num)
    have h9 : (2 : ℚ) ^ (974 : ℤ) = 4 * 2 ^ (972 : ℤ) := by
      rw [show (974 : ℤ) = 2 + 972 by norm_num, zpow_add₀ two]
      norm_num
    rw [abs_le] at hq heq hid ⊢
    constructor <;> linarith
  obtain ⟨r, hr, -⟩ := double_round_some hs
    (zpow_le_zpow_right₀ one2 (by norm_num)) (zpow_le_zpow_right₀ one2 (by norm_num))
  refine ⟨r, ?_⟩
  unfold Double.CalcTxCurrent Double.mul Double.div Double.add
  rw [hD, Option.some_bind, hve, Option.some_bind, if_neg hvepos.ne', hqr, Option.some_bind, hr]

/-- C39 (shape of the linear tx current), amended.  In double arithmetic, for a
configuration of doubles with `m_voltage * m_eta > 0` and a `std::pow` that, at base 10, is
not negative, does not decrease when the exponent grows, is 1 at exponent 0 and lies within
a relative `2 ^ (-52)` of the exact power for exponents of size up to 200: wherever the
results are finite, `CalcTxCurrent` does not decrease when the tx power grows and is never
below `m_idleCurrent`; `DbmToW (30) = 1`; for a tx power `p` of size up to 1000,
`DbmToW (p + 10)` and the double product `10 * DbmToW (p)` differ by at most `2 ^ (-39)`
of the latter.  The results are finite in the ordinary range: for a tx power of size up to
1000 `DbmToW` is the result of `std::pow` at an exponent within `2 ^ (-44)` of
`(p - 30) / 10`, and `CalcTxCurrent` is finite when that result is, `m_voltage * m_eta` lies
between `2 ^ (-300)` and `2 ^ 300` and the idle current is of size up to `2 ^ 300`. -/
theorem CalcTxCurrent_nondecreasing (pow : ℚ → ℚ → Option ℚ) (m : LinearBleTxCurrentModel ℚ)
    (hpos : 0 < m.m_voltage * m.m_eta)
    (hidle : Double.round m.m_idleCurrent = some m.m_idleCurrent)
    (hmono : ∀ x y a b, x ≤ y → pow 10 x = some a → pow 10 y = some b → a ≤ b)
    (hnn : ∀ x a, pow 10 x = some a → 0 ≤ a)
    (hone : pow 10 0 = some 1)
    (hacc : ∀ x a, |x| ≤ 200 → pow 10 x = some a →
      |(a : ℝ) - (10 : ℝ) ^ (x : ℝ)| ≤ 2 ^ (-52 : ℤ) * (10 : ℝ) ^ (x : ℝ)) :
    (∀ p q a b, p ≤ q → Double.CalcTxCurrent pow m p = some a →
      Double.CalcTxCurrent pow m q = some b → a ≤ b) ∧
    (∀ p a, Double.CalcTxCurrent pow m p = some a → m.m_idleCurrent ≤ a) ∧
    Double.DbmToW pow 30 = some 1 ∧
    (∀ p D0 D1 T, |p| ≤ 1000 → Double.DbmToW pow p = some D0 →
      Double.DbmToW pow (p + 10) = some D1 → Double.mul 10 D0 = some T →
      |D1 - T| ≤ 2 ^ (-39 : ℤ) * T) ∧
    (∀ p, |p| ≤ 1000 →
      ∃ b, |b - (p - 30) / 10| ≤ 2 ^ (-44 : ℤ) ∧ Double.DbmToW pow p = pow 10 b) ∧
    (∀ p D, |p| ≤ 1000 → 2 ^ (-300 : ℤ) ≤ m.m_voltage * m.m_eta →
      m.m_voltage * m.m_eta ≤ 2 ^ (300 : ℤ) → |m.m_idleCurrent| ≤ 2 ^ (300 : ℤ) →
      Double.DbmToW pow p = some D → ∃ a, Double.CalcTxCurrent pow m p = some a) := by
  obtain ⟨h1, h2, h3⟩ := double_CalcTxCurrent_mono pow m hpos hidle hmono hnn hone
  exact ⟨h1, h2, h3, fun p D0 D1 T hp h0 h1 hT => double_DbmToW_decade pow hacc hp h0 h1 hT,
    fun p hp => double_DbmToW_exponent pow hp,
    fun p D hp hlo hhi hid hD => double_CalcTxCurrent_finite pow m hacc hp hlo hhi hid hD⟩

/-- The default idle current is a `double`. -/
theorem double_round_idle : Double.round Double.defaultTxCurrentModel.m_idleCurrent =
    some Double.defaultTxCurrentModel.m_idleCurrent := by
  show Double.round (Double.nearest (1 / 1000000)) = some (Double.nearest (1 / 1000000))
  rw [nearest_idle]
  exact double_round_idle_value

/-- With the default parameters and a `std::pow` that is correctly rounded at whole
exponents: the currents at -30 dBm and at -20 dBm are finite, the first is not above the
second and not below the idle current, `DbmToW (30) = 1`, and `DbmToW (-20)` is within
`2 ^ (-39)` of `10 * DbmToW (-30)`. -/
theorem CalcTxCurrent_nondecreasing_witness :
    Double.CalcTxCurrent Double.powWhole Double.defaultTxCurrentModel (-30) =
        some (2557948511554391 / 590295810358705651712) ∧
      Double.CalcTxCurrent Double.powWhole Double.defaultTxCurrentModel (-20) =
        some (5066705705578889 / 147573952589676412928) ∧
      (2557948511554391 / 590295810358705651712 : ℚ) ≤ 5066705705578889 / 147573952589676412928 ∧
      Double.defaultTxCurrentModel.m_idleCurrent ≤ 2557948511554391 / 590295810358705651712 ∧
      Double.DbmToW Double.powWhole 30 = some 1 ∧
      Double.DbmToW Double.powWhole (-30) = some (4722366482869645 / 4722366482869645213696) ∧
      Double.DbmToW Double.powWhole (-20) = some (5902958103587057 / 590295810358705651712) ∧
      Double.mul 10 (4722366482869645 / 4722366482869645213696) =
        some (368934881474191 / 36893488147419103232) ∧
      |(5902958103587057 / 590295810358705651712 : ℚ) - 368934881474191 / 36893488147419103232| ≤
        2 ^ (-39 : ℤ) * (368934881474191 / 36893488147419103232) := by
  have hpos : (0 : ℚ) < Double.defaultTxCurrentModel.m_voltage *
      Double.defaultTxCurrentModel.m_eta := by
    show (0 : ℚ) < 3 * Double.nearest (1 / 10)
    rw [nearest_tenth]
    norm_num
  obtain ⟨h1, h2, h3, h4, -, -⟩ := CalcTxCurrent_nondecreasing Double.powWhole
    Double.defaultTxCurrentModel hpos double_round_idle powWhole_mono powWhole_nonneg powWhole_zero
    powWhole_accurate
  have hT : Double.mul 10 (4722366482869645 / 4722366482869645213696) =
      some (368934881474191 / 36893488147419103232) := double_round_ten_times_6
  have h20 : Double.DbmToW Double.powWhole (-30 + 10) =
      some (5902958103587057 / 590295810358705651712) := by
    rw [show (-30 + 10 : ℚ) = -20 by norm_num]
    exact double_DbmToW_neg_20
  exact ⟨double_CalcTxCurrent_neg_30, double_CalcTxCurrent_neg_20,
    h1 _ _ _ _ (by norm_num) double_CalcTxCurrent_neg_30 double_CalcTxCurrent_neg_20,
    h2 _ _ double_CalcTxCurrent_neg_30, h3, double_DbmToW_neg_30, double_DbmToW_neg_20, hT,
    h4 _ _ _ _ (by norm_num) double_DbmToW_neg_30 h20 hT⟩

/-- The claim as first stated fails in double arithmetic.  With the default parameters
(`3.0 * 0.10 > 0`) and a `std::pow` that is correctly rounded at whole exponents:
`CalcTxCurrent (-210)` and `CalcTxCurrent (-200)` are both the idle current itself, so the
current is neither above the idle current nor strictly increasing; and
`10 * DbmToW (-30)` is not `DbmToW (-20)`. -/
theorem CalcTxCurrent_nondecreasing_counterexample :
    (0 : ℚ) < Double.defaultTxCurrentModel.m_voltage * Double.defaultTxCurrentModel.m_eta ∧
      Double.CalcTxCurrent Double.powWhole Double.defaultTxCurrentModel (-210) =
        some Double.defaultTxCurrentModel.m_idleCurrent ∧
      Double.CalcTxCurrent Double.powWhole Double.defaultTxCurrentModel (-200) =
        some Double.defaultTxCurrentModel.m_idleCurrent ∧
      ∃ D0 D1 T, Double.DbmToW Double.powWhole (-30) = some D0 ∧
        Double.DbmToW Double.powWhole (-20) = some D1 ∧ Double.mul 10 D0 = some T ∧ T ≠ D1 := by
  have hidle : Double.defaultTxCurrentModel.m_idleCurrent =
      4722366482869645 / 4722366482869645213696 := nearest_idle
  refine ⟨?_, ?_, ?_, _, _, _, double_DbmToW_neg_30, double_DbmToW_neg_20, double_round_ten_times_6, ?_⟩
  · show (0 : ℚ) < 3 * Double.nearest (1 / 10)
    rw [nearest_tenth]
    norm_num
  · rw [hidle]
    exact double_CalcTxCurrent_neg_210
  · rw [hidle]
    exact double_CalcTxCurrent_neg_200
  · norm_num

end BleEnergy
